import Mathlib

/-!
# Circle renderer: reference rasteriser, scene loader and image checker

A shallow embedding of `refRenderer.cpp`, `sceneLoader.cpp` and the routines
`compare_images` and `CheckBenchmark` of `benchmark.cpp`.

Conventions of the embedding

* A `float` value is a rational number (`ℚ`), and float arithmetic has two embeddings.
  In the binary32 embedding the result of an operation whose exact result is `q` is the
  rounded `fl q`: round to nearest, ties to even, with gradual underflow, and with
  `±2^128` standing for the infinities.  Every operation is rounded on its own: a product
  and the sum that uses it are two roundings, as in code compiled without fused
  multiply-add and without excess precision.  `compare_images` and the definitions with the
  suffix `32` (`shadePixel32`, `render32`, `loadCircleScene32`, ...) are of this kind.
  They describe the machine on finite inputs and images of positive dimensions, where
  no NaN arises.  In the exact embedding (`shadePixel`, `render`, `loadCircleScene`, ...
  without suffix) every operation is the exact one and rounding is not represented; it
  serves the properties of the control flow, of the indices that are read and written
  and of values that binary32 represents exactly.
* `int` values are mathematical integers (`Int`); the 32-bit range is not
  represented.  The conversion of a `float` to `int` is the truncation toward zero.  For
  a value that a C++ `int` cannot hold, the exact embedding keeps the truncation and the
  binary32 embedding takes the value from a parameter `undef`, the behaviour of the
  platform.
* A `float*` buffer is a `List ℚ`; a pointer into it is the buffer together with
  an integer offset.  Reading outside the buffer yields `0` and writing outside
  it does nothing, so that every function is total.
* A `for (int v = lo; v < hi; v++)` loop is a left fold over `intRange lo hi`.
* `render` has a further embedding, `renderChecked`, in which an access outside the image
  buffer is a failure (`none`); it serves to show that the total one never takes the
  out-of-range branch.
* `double` times are exact rationals; only the division that computes the
  speedup, whose divisor can be zero, has a result type with infinities and NaN.
* The random generator and the clock are the sequences of the values that the
  coming calls of `rand()` and `CycleTimer::currentSeconds()` return.
-/

/-! ## Binary32 arithmetic -/

/-- Rounding of a rational to the nearest integer, ties to the even one. -/
def roundHalfEven (q : ℚ) : Int :=
  if q - (⌊q⌋ : ℚ) < 1 / 2 then ⌊q⌋
  else if 1 / 2 < q - (⌊q⌋ : ℚ) then ⌊q⌋ + 1
  else if ⌊q⌋ % 2 = 0 then ⌊q⌋ else ⌊q⌋ + 1

/-- Exponent of the spacing of the binary32 numbers around `q`: `e - 23` where
`2^e <= |q| < 2^(e+1)`, with `e` not below the smallest normal exponent `-126`. -/
def ulpExp (q : ℚ) : Int :=
  max (Int.log 2 |q|) (-126) - 23

/-- Rounding of `q` to the nearest multiple of the binary32 spacing around it, ties to the
even multiple. -/
def roundToUlp (q : ℚ) : ℚ :=
  (roundHalfEven (q / 2 ^ ulpExp q) : ℚ) * 2 ^ ulpExp q

/-- The result of a binary32 operation whose exact result is `q`: `q` rounded to the
nearest binary32 number, ties to even.  Infinity is represented by `2^128` and minus
infinity by `-2^128`, the values that the rounding of the largest magnitudes yields. -/
def fl (q : ℚ) : ℚ :=
  max (-(2 ^ 128)) (min (roundToUlp q) (2 ^ 128))

/-- The finite binary32 numbers and the two infinities: the values that rounding leaves
unchanged. -/
def IsF32 (q : ℚ) : Prop :=
  fl q = q

instance (q : ℚ) : Decidable (IsF32 q) := by
  unfold IsF32; infer_instance

/-! ## Buffers and loops -/

/-- Value of `data[i]`; `0` when `i` is outside the buffer. -/
def loadAt (data : List ℚ) (i : Int) : ℚ :=
  if 0 ≤ i then data.getD i.toNat 0 else 0

/-- Effect of `data[i] = v`; nothing happens when `i` is outside the buffer. -/
def storeAt (data : List ℚ) (i : Int) (v : ℚ) : List ℚ :=
  if 0 ≤ i then data.set i.toNat v else data

/-- The values `lo, lo+1, ..., hi-1` taken by the variable of a counting loop. -/
def intRange (lo hi : Int) : List Int :=
  (List.range (hi - lo).toNat).map (fun (k : Nat) => lo + (k : Int))

/-- Conversion `static_cast<int>(q)` in the exact embedding: truncation toward zero, also
for values outside the range of `int`. -/
def static_cast_int (q : ℚ) : Int :=
  Int.tdiv q.num (q.den : Int)

/-- Modelled from the spec: the macro `CLAMP(x, minimum, maximum)` of `util.h`,
which restricts `x` to the range `[minimum, maximum]`. -/
def CLAMP (x minimum maximum : Int) : Int :=
  max minimum (min x maximum)

/-! ## Image -/

/-- Modelled from the spec: the `Image` of `image.h`, with its width, its height and
a row-major grid of RGBA pixels, four values per pixel. -/
structure Image where
  width : Int
  height : Int
  data : List ℚ

/-- Modelled from the spec: `Image::clear(r, g, b, a)` of `image.h`, which sets
every pixel of the image to the given value. -/
def Image.clear (img : Image) (r g b a : ℚ) : Image :=
  { img with data := (List.replicate (img.width * img.height).toNat [r, g, b, a]).flatten }

/-- An image whose buffer holds exactly `4 * width * height` values, with positive
dimensions. -/
def Image.WF (img : Image) : Prop :=
  0 < img.width ∧ 0 < img.height ∧ (img.data.length : Int) = 4 * img.width * img.height

instance (img : Image) : Decidable img.WF := by
  unfold Image.WF; infer_instance

/-- Channel `k` (0 red, 1 green, 2 blue, 3 alpha) of the pixel in column `x` and
row `y`. -/
def Image.channel (img : Image) (x y k : Int) : ℚ :=
  loadAt img.data (4 * (y * img.width + x) + k)

/-! ## Reference renderer -/

/-- The data members of `RefRenderer` that its methods read: the target image and
the scene as three parallel arrays (`position` and `color` hold three values per
circle, `radius` one). -/
structure RefRenderer where
  image : Image
  numCircles : Int
  position : List ℚ
  color : List ℚ
  radius : List ℚ

/-- Method `RefRenderer::clearImage`: the image is cleared to opaque white. -/
def RefRenderer.clearImage (r : RefRenderer) : RefRenderer :=
  { r with image := r.image.clear 1 1 1 1 }

/-- Method `RefRenderer::shadePixel` in exact arithmetic.  The pointer `pixelData` is the
buffer `data` with the offset `pixelData`; the result is the buffer after the call. -/
def RefRenderer.shadePixel (r : RefRenderer) (circleIndex : Int)
    (pixelCenterX pixelCenterY px py _pz : ℚ) (data : List ℚ) (pixelData : Int) : List ℚ :=
  let diffX := px - pixelCenterX
  let diffY := py - pixelCenterY
  let pixelDist := diffX * diffX + diffY * diffY
  let rad := loadAt r.radius circleIndex
  let maxDist := rad * rad
  if pixelDist > maxDist then data
  else
    let index3 := 3 * circleIndex
    let colR := loadAt r.color index3
    let colG := loadAt r.color (index3 + 1)
    let colB := loadAt r.color (index3 + 2)
    let alpha : ℚ := 1 / 2
    let oneMinusAlpha := 1 - alpha
    let data := storeAt data pixelData (alpha * colR + oneMinusAlpha * loadAt data pixelData)
    let data := storeAt data (pixelData + 1) (alpha * colG + oneMinusAlpha * loadAt data (pixelData + 1))
    let data := storeAt data (pixelData + 2) (alpha * colB + oneMinusAlpha * loadAt data (pixelData + 2))
    storeAt data (pixelData + 3) (loadAt data (pixelData + 3) + alpha)

/-- Inner loop of `RefRenderer::render` in exact arithmetic: the pixels
`screenMinX ≤ pixelX < screenMaxX` of row `pixelY`.  The loop state is the buffer and the
running pointer `imgPtr`. -/
def RefRenderer.renderRow (r : RefRenderer) (circleIndex : Int) (px py pz : ℚ)
    (invWidth invHeight : ℚ) (screenMinX screenMaxX pixelY : Int) (data : List ℚ) : List ℚ :=
  let imgPtr : Int := 4 * (pixelY * r.image.width + screenMinX)
  ((intRange screenMinX screenMaxX).foldl
    (fun (st : List ℚ × Int) (pixelX : Int) =>
      let pixelCenterNormX := invWidth * ((pixelX : ℚ) + 1 / 2)
      let pixelCenterNormY := invHeight * ((pixelY : ℚ) + 1 / 2)
      (r.shadePixel circleIndex pixelCenterNormX pixelCenterNormY px py pz st.1 st.2, st.2 + 4))
    (data, imgPtr)).1

/-- Lower pixel bound of a bounding box: `CLAMP(static_cast<int>(lo * size), 0, size)`. -/
def screenMin (lo : ℚ) (size : Int) : Int :=
  CLAMP (static_cast_int (lo * (size : ℚ))) 0 size

/-- Upper pixel bound of a bounding box: `CLAMP(static_cast<int>(hi * size) + 1, 0, size)`. -/
def screenMax (hi : ℚ) (size : Int) : Int :=
  CLAMP (static_cast_int (hi * (size : ℚ)) + 1) 0 size

/-- Body of the circle loop of `RefRenderer::render` in exact arithmetic: circle
`circleIndex` is composited onto the buffer `data` of the renderer's image. -/
def RefRenderer.renderCircle (r : RefRenderer) (circleIndex : Int) (data : List ℚ) : List ℚ :=
  let index3 := 3 * circleIndex
  let px := loadAt r.position index3
  let py := loadAt r.position (index3 + 1)
  let pz := loadAt r.position (index3 + 2)
  let rad := loadAt r.radius circleIndex
  let minX := px - rad
  let maxX := px + rad
  let minY := py - rad
  let maxY := py + rad
  let screenMinX := screenMin minX r.image.width
  let screenMaxX := screenMax maxX r.image.width
  let screenMinY := screenMin minY r.image.height
  let screenMaxY := screenMax maxY r.image.height
  let invWidth : ℚ := 1 / (r.image.width : ℚ)
  let invHeight : ℚ := 1 / (r.image.height : ℚ)
  (intRange screenMinY screenMaxY).foldl
    (fun data (pixelY : Int) =>
      r.renderRow circleIndex px py pz invWidth invHeight screenMinX screenMaxX pixelY data)
    data

/-- Method `RefRenderer::render` in exact arithmetic: all circles, in index order. -/
def RefRenderer.render (r : RefRenderer) : RefRenderer :=
  let data := (intRange 0 r.numCircles).foldl
    (fun data (circleIndex : Int) => r.renderCircle circleIndex data) r.image.data
  { r with image := { r.image with data := data } }

/-! ## Scenes as circle lists -/

/-- One circle of a scene: centre, depth, radius and colour. -/
structure SceneCircle where
  x : ℚ
  y : ℚ
  depth : ℚ
  radius : ℚ
  colR : ℚ
  colG : ℚ
  colB : ℚ

/-- The circle stored at index `i` of the renderer's arrays. -/
def RefRenderer.circleAt (r : RefRenderer) (i : Int) : SceneCircle :=
  { x := loadAt r.position (3 * i)
    y := loadAt r.position (3 * i + 1)
    depth := loadAt r.position (3 * i + 2)
    radius := loadAt r.radius i
    colR := loadAt r.color (3 * i)
    colG := loadAt r.color (3 * i + 1)
    colB := loadAt r.color (3 * i + 2) }

/-- The circle list held by a renderer, in index order. -/
def RefRenderer.circles (r : RefRenderer) : List SceneCircle :=
  (intRange 0 r.numCircles).map r.circleAt

/-- A renderer whose arrays hold the given circle list, with the given target image. -/
def RefRenderer.ofCircles (cs : List SceneCircle) (img : Image) : RefRenderer :=
  { image := img
    numCircles := (cs.length : Int)
    position := cs.flatMap (fun c => [c.x, c.y, c.depth])
    color := cs.flatMap (fun c => [c.colR, c.colG, c.colB])
    radius := cs.map (fun c => c.radius) }

/-- The image obtained by compositing the circle list `cs` onto `img` with
`RefRenderer::render`. -/
def renderCircles (cs : List SceneCircle) (img : Image) : Image :=
  (RefRenderer.ofCircles cs img).render.image

/-- Whether the centre of pixel `(x, y)` of a `W x H` image lies in the closed disc of
circle `c`: squared distance to the circle centre at most the squared radius. -/
def SceneCircle.covers (c : SceneCircle) (W H x y : Int) : Prop :=
  (c.x - ((x : ℚ) + 1 / 2) / (W : ℚ)) ^ 2 + (c.y - ((y : ℚ) + 1 / 2) / (H : ℚ)) ^ 2 ≤ c.radius ^ 2

instance (c : SceneCircle) (W H x y : Int) : Decidable (c.covers W H x y) := by
  unfold SceneCircle.covers; infer_instance

/-- Whether pixel `(x, y)` lies in the pixel bounding box that `render` computes for
circle `c` on a `W x H` image. -/
def SceneCircle.inBox (c : SceneCircle) (W H x y : Int) : Prop :=
  screenMin (c.x - c.radius) W ≤ x ∧ x < screenMax (c.x + c.radius) W ∧
  screenMin (c.y - c.radius) H ≤ y ∧ y < screenMax (c.y + c.radius) H

instance (c : SceneCircle) (W H x y : Int) : Decidable (c.inBox W H x y) := by
  unfold SceneCircle.inBox; infer_instance

/-! ## Scene loader -/

/-- State of the C library's random generator, as the sequence of values that the
coming calls of `rand()` return. -/
abbrev RandState := Nat → Nat

/-- The parts of the C library the loader relies on: the constant `RAND_MAX` and,
for each seed, the generator state that `srand(seed)` installs. -/
structure CLib where
  RAND_MAX : Nat
  srand : Nat → RandState

/-- One call of `rand()`: the value returned and the generator state afterwards. -/
def rand (g : RandState) : Nat × RandState :=
  (g 0, fun n => g (n + 1))

/-- The `randomFloat` of `sceneLoader.cpp` in exact arithmetic:
`static_cast<float>(rand()) / RAND_MAX`. -/
def randomFloat (lib : CLib) (g : RandState) : ℚ × RandState :=
  let v := rand g
  ((v.1 : ℚ) / (lib.RAND_MAX : ℚ), v.2)

/-- The output parameters of `loadCircleScene`. -/
structure SceneArrays where
  numCircles : Int
  position : List ℚ
  color : List ℚ
  radius : List ℚ

/-- Storage returned by `new float[n]`; its contents are unspecified and modelled as
zeros. -/
def newFloats (n : Int) : List ℚ :=
  List.replicate n.toNat 0

/-- Loop state of `generateRandomCircles`: the three arrays and the generator. -/
structure LoadState where
  position : List ℚ
  color : List ℚ
  radius : List ℚ
  rng : RandState

/-- Loop state of `makeCircleGrid`: the three arrays, the running index and the
generator. -/
structure GridState where
  position : List ℚ
  color : List ℚ
  radius : List ℚ
  index : Int
  rng : RandState

/-- The `makeCircleGrid` of `sceneLoader.cpp` in exact arithmetic; `circleColor` holds
three values. -/
def makeCircleGrid (lib : CLib) (startIndex circleCount : Int) (circleRadius : ℚ)
    (circleColor : List ℚ) (startOffsetX startOffsetY : ℚ)
    (position color radius : List ℚ) (g : RandState) : GridState :=
  (intRange 0 circleCount).foldl
    (fun st (j : Int) =>
      (intRange 0 circleCount).foldl
        (fun st (i : Int) =>
          let index3 := 3 * st.index
          let x := startOffsetX + 2 * circleRadius * (i : ℚ)
          let y := startOffsetY + 2 * circleRadius * (j : ℚ)
          let z := randomFloat lib st.rng
          let position := storeAt st.position index3 x
          let position := storeAt position (index3 + 1) y
          let position := storeAt position (index3 + 2) z.1
          let color := storeAt st.color index3 (loadAt circleColor 0)
          let color := storeAt color (index3 + 1) (loadAt circleColor 1)
          let color := storeAt color (index3 + 2) (loadAt circleColor 2)
          let radius := storeAt st.radius st.index circleRadius
          { position := position, color := color, radius := radius,
            index := st.index + 1, rng := z.2 })
        st)
    { position := position, color := color, radius := radius, index := startIndex, rng := g }

/-- First loop of `generateRandomCircles`: one draw per circle, stored in `depths`. -/
def drawDepths (lib : CLib) (numCircles : Int) (g : RandState) : List ℚ × RandState :=
  (intRange 0 numCircles).foldl
    (fun st (i : Int) =>
      let d := randomFloat lib st.2
      (storeAt st.1 i d.1, d.2))
    (newFloats numCircles, g)

/-- The `generateRandomCircles` of `sceneLoader.cpp` in exact arithmetic.  `std::sort` with
`std::greater<float>` is a sort into non-increasing order. -/
def generateRandomCircles (lib : CLib) (numCircles : Int)
    (position color radius : List ℚ) (_g : RandState) : LoadState :=
  let g := lib.srand 0
  let drawn := drawDepths lib numCircles g
  let depths := drawn.1.insertionSort (fun a b => a ≥ b)
  (intRange 0 numCircles).foldl
    (fun st (i : Int) =>
      let depth := loadAt depths i
      let r0 := randomFloat lib st.rng
      let radius := storeAt st.radius i (2 / 100 + 6 / 100 * r0.1)
      let index3 := 3 * i
      let r1 := randomFloat lib r0.2
      let position := storeAt st.position index3 r1.1
      let r2 := randomFloat lib r1.2
      let position := storeAt position (index3 + 1) r2.1
      let position := storeAt position (index3 + 2) depth
      let r3 := randomFloat lib r2.2
      let r4 := randomFloat lib r3.2
      let r5 := randomFloat lib r4.2
      let color :=
        if numCircles ≤ 10000 then
          storeAt (storeAt (storeAt st.color index3 (1 / 10 + 9 / 10 * r3.1))
            (index3 + 1) (2 / 10 + 5 / 10 * r4.1)) (index3 + 2) (5 / 10 + 5 / 10 * r5.1)
        else
          storeAt (storeAt (storeAt st.color index3 (3 / 10 + 9 / 10 * r3.1))
            (index3 + 1) (1 / 10 + 9 / 10 * r4.1)) (index3 + 2) (1 / 10 + 4 / 10 * r5.1)
      { position := position, color := color, radius := radius, rng := r5.2 })
    { position := position, color := color, radius := radius, rng := drawn.2 }

/-- The enumeration `SceneName` of `circleRenderer.h`, by its integer values. -/
abbrev SceneName := Int

/-- Enumerator `CIRCLE_RGB`. -/
def CIRCLE_RGB : SceneName := 0
/-- Enumerator `CIRCLE_RGBY`. -/
def CIRCLE_RGBY : SceneName := 1
/-- Enumerator `CIRCLE_TEST_10K`. -/
def CIRCLE_TEST_10K : SceneName := 2
/-- Enumerator `CIRCLE_TEST_100K`. -/
def CIRCLE_TEST_100K : SceneName := 3
/-- Enumerator `PATTERN`. -/
def PATTERN : SceneName := 4

/-- Writes `vals` to consecutive elements of `data` starting at index `start`: a run of
assignments `data[start] = v0; data[start+1] = v1; ...`. -/
def storeRun (data : List ℚ) (start : Int) (vals : List ℚ) : List ℚ :=
  (vals.foldl (fun (st : List ℚ × Int) v => (storeAt st.1 st.2 v, st.2 + 1)) (data, start)).1

/-- The `loadCircleScene` of `sceneLoader.cpp` in exact arithmetic.  `out` holds the values
of the four reference parameters before the call and `g` the generator state; the result
holds them after the call. -/
def loadCircleScene (lib : CLib) (sceneName : SceneName) (out : SceneArrays) (g : RandState) :
    SceneArrays × RandState :=
  if sceneName = CIRCLE_RGB then
    let numCircles : Int := 3
    let position := newFloats (3 * numCircles)
    let color := newFloats (3 * numCircles)
    let radius := newFloats numCircles
    let radius := (intRange 0 numCircles).foldl (fun radius (i : Int) => storeAt radius i (3 / 10)) radius
    let position := storeRun position 0 [4 / 10, 5 / 10, 75 / 100]
    let color := storeRun color 0 [1, 0, 0]
    let position := storeRun position 3 [5 / 10, 5 / 10, 5 / 10]
    let color := storeRun color 3 [0, 1, 0]
    let position := storeRun position 6 [6 / 10, 5 / 10, 25 / 100]
    let color := storeRun color 6 [0, 0, 1]
    ({ numCircles := numCircles, position := position, color := color, radius := radius }, g)
  else if sceneName = CIRCLE_RGBY then
    let numCircles : Int := 4
    let position := newFloats (3 * numCircles)
    let color := newFloats (3 * numCircles)
    let radius := newFloats numCircles
    let TINY_RADIUS : ℚ := 1 / 10
    let SMALL_RADIUS : ℚ := 19 / 100
    let BIG_RADIUS : ℚ := 25 / 100
    let radius := storeRun radius 0 [SMALL_RADIUS, SMALL_RADIUS, BIG_RADIUS, TINY_RADIUS]
    let position := storeRun position 0 [25 / 100, 25 / 100, 75 / 100]
    let color := storeRun color 0 [1, 0, 0]
    let position := storeRun position 3 [3 / 10, 3 / 10, 5 / 10]
    let color := storeRun color 3 [0, 1, 0]
    let position := storeRun position 6 [5 / 10, 5 / 10, 25 / 100]
    let color := storeRun color 6 [0, 0, 1]
    let position := storeRun position 9 [2 / 10, 2 / 10, 9 / 10]
    let color := storeRun color 9 [1, 1, 0]
    ({ numCircles := numCircles, position := position, color := color, radius := radius }, g)
  else if sceneName = CIRCLE_TEST_10K then
    let numCircles : Int := 10 * 1000
    let position := newFloats (3 * numCircles)
    let color := newFloats (3 * numCircles)
    let radius := newFloats numCircles
    let st := generateRandomCircles lib numCircles position color radius g
    ({ numCircles := numCircles, position := st.position, color := st.color,
       radius := st.radius }, st.rng)
  else if sceneName = CIRCLE_TEST_100K then
    let numCircles : Int := 100 * 1000
    let position := newFloats (3 * numCircles)
    let color := newFloats (3 * numCircles)
    let radius := newFloats numCircles
    let st := generateRandomCircles lib numCircles position color radius g
    ({ numCircles := numCircles, position := st.position, color := st.color,
       radius := st.radius }, st.rng)
  else if sceneName = PATTERN then
    let circleCount1 : Int := 16
    let circleCount2 : Int := 31
    let numCircles : Int := circleCount1 * circleCount1
    let numCircles : Int := numCircles + circleCount2 * circleCount2
    let position := newFloats (3 * numCircles)
    let color := newFloats (3 * numCircles)
    let radius := newFloats numCircles
    let startIndex : Int := 0
    let circleRadius : ℚ := 1 / 2 * (1 / (circleCount1 : ℚ))
    let startOffsetX : ℚ := circleRadius
    let startOffsetY : ℚ := circleRadius
    let circleColor : List ℚ := [1, 0, 0]
    let st := makeCircleGrid lib startIndex circleCount1 circleRadius circleColor
      startOffsetX startOffsetY position color radius g
    let startIndex := startIndex + circleCount1 * circleCount1
    let startOffsetX : ℚ := 0
    let startOffsetY : ℚ := 0
    let circleColor : List ℚ := [1, 1, 0]
    let st := makeCircleGrid lib startIndex circleCount2 circleRadius circleColor
      startOffsetX startOffsetY st.position st.color st.radius st.rng
    ({ numCircles := numCircles, position := st.position, color := st.color,
       radius := st.radius }, st.rng)
  else
    (out, g)

/-- Method `RefRenderer::loadScene`: the scene arrays of the renderer are the reference
parameters handed to `loadCircleScene`.  The member `sceneName`, which nothing reads,
is not modelled. -/
def RefRenderer.loadScene (lib : CLib) (scene : SceneName) (r : RefRenderer) (g : RandState) :
    RefRenderer × RandState :=
  let res := loadCircleScene lib scene
    { numCircles := r.numCircles, position := r.position, color := r.color, radius := r.radius } g
  ({ image := r.image, numCircles := res.1.numCircles, position := res.1.position,
     color := res.1.color, radius := res.1.radius }, res.2)

/-- Method `RefRenderer::allocOutputImage`: a fresh `width x height` image replaces the old
one; the contents of its buffer are unspecified and modelled as zeros. -/
def RefRenderer.allocOutputImage (r : RefRenderer) (width height : Int) : RefRenderer :=
  { r with image := { width := width, height := height, data := newFloats (4 * width * height) } }

/-! ## Image comparison -/

/-- The test of `compare_images` for element `i` of the two buffers:
`fabs(ref[i] - cuda[i]) > 0.1f && i % 4 != 3`.  The difference of the two `float` values
is the binary32 one, `fl (ref[i] - cuda[i])`; the constant `0.1f` is the binary32 number
`fl (1 / 10) = 13421773 / 134217728`, which is larger than one tenth; taking the
absolute value and comparing are exact. -/
def mismatchAt (ref_image cuda_image : Image) (i : Int) : Bool :=
  decide (|fl (loadAt ref_image.data i - loadAt cuda_image.data i)| > fl (1 / 10)) &&
    decide (i % 4 ≠ 3)

/-- The `compare_images` of `benchmark.cpp`.  `Except.error 1` is the call
`exit (1)`; `Except.ok n` is the normal return after printing `Found n errors` and the
message that the check passed. -/
def compare_images (ref_image cuda_image : Image) : Except Int Int :=
  if ref_image.width ≠ cuda_image.width ∨ ref_image.height ≠ cuda_image.height then
    Except.error 1
  else
    (intRange 0 (4 * ref_image.width * ref_image.height)).foldlM
      (fun (mismatch_count : Int) (i : Int) =>
        let mismatch_count :=
          if mismatchAt ref_image cuda_image i then mismatch_count + 1 else mismatch_count
        if mismatch_count > 100 then Except.error 1 else Except.ok mismatch_count)
      0

/-! ## Notions used to state the properties -/

/-- The value that a blend writes to channel `k` of a pixel whose old value is `old`:
the colour channels move half way to the circle's colour, alpha grows by one half. -/
def blendChannel (c : SceneCircle) (k : Int) (old : ℚ) : ℚ :=
  if k = 0 then 1 / 2 * c.colR + 1 / 2 * old
  else if k = 1 then 1 / 2 * c.colG + 1 / 2 * old
  else if k = 2 then 1 / 2 * c.colB + 1 / 2 * old
  else old + 1 / 2

/-- The distance test of `shadePixel` for the pixel `(x, y)`, with the pixel centre
computed as in `render`. -/
def hitTest (px py rad invWidth invHeight : ℚ) (x y : Int) : Prop :=
  (px - invWidth * ((x : ℚ) + 1 / 2)) * (px - invWidth * ((x : ℚ) + 1 / 2)) +
    (py - invHeight * ((y : ℚ) + 1 / 2)) * (py - invHeight * ((y : ℚ) + 1 / 2)) ≤ rad * rad

instance (px py rad invWidth invHeight : ℚ) (x y : Int) :
    Decidable (hitTest px py rad invWidth invHeight x y) := by
  unfold hitTest; infer_instance

/-- Compositing the single circle `c` onto the buffer of a `W x H` image. -/
def compositeOne (c : SceneCircle) (W H : Int) (data : List ℚ) : List ℚ :=
  (RefRenderer.ofCircles [c] { width := W, height := H, data := [] }).renderCircle 0 data

/-- The red, green and blue channels of pixel `(x, y)`. -/
def Image.rgb (img : Image) (x y : Int) : ℚ × ℚ × ℚ :=
  (img.channel x y 0, img.channel x y 1, img.channel x y 2)

/-- The blend of the spec for colours: `blend(c, d) = 0.5 * c + 0.5 * d` on each of
red, green and blue. -/
def blendRGB (c d : ℚ × ℚ × ℚ) : ℚ × ℚ × ℚ :=
  (1 / 2 * c.1 + 1 / 2 * d.1, 1 / 2 * c.2.1 + 1 / 2 * d.2.1, 1 / 2 * c.2.2 + 1 / 2 * d.2.2)

/-- The count of the spec for the checker: over every pixel `p` and each of its first
three channels `k` (red, green, blue), the number of values with `|ref - cuda| > 0.1`. -/
def colourMismatches (ref_image cuda_image : Image) : Nat :=
  ((List.range (ref_image.width * ref_image.height).toNat).map (fun (p : Nat) =>
    (List.range 3).countP (fun (k : Nat) =>
      decide (|loadAt ref_image.data (4 * (p : Int) + (k : Int)) -
        loadAt cuda_image.data (4 * (p : Int) + (k : Int))| > 1 / 10)))).sum

/-- The number of colour values (red, green, blue) of pixel `p` with
`|ref - cuda| > 0.1`. -/
def pixelMismatches (ref_image cuda_image : Image) (p : Nat) : Nat :=
  (List.range 3).countP (fun (k : Nat) =>
    decide (|loadAt ref_image.data (4 * (p : Int) + (k : Int)) -
      loadAt cuda_image.data (4 * (p : Int) + (k : Int))| > 1 / 10))

/-- The number of pixels with at least one colour value with `|ref - cuda| > 0.1`. -/
def mismatchedPixels (ref_image cuda_image : Image) : Nat :=
  (List.range (ref_image.width * ref_image.height).toNat).countP (fun (p : Nat) =>
    decide (0 < pixelMismatches ref_image cuda_image p))

/-- The number of pixels at which two images differ in some channel, alpha included. -/
def differingPixels (ref_image cuda_image : Image) : Nat :=
  (List.range (ref_image.width * ref_image.height).toNat).countP (fun (p : Nat) =>
    decide (∃ k ∈ List.range 4,
      loadAt ref_image.data (4 * (p : Int) + (k : Int)) ≠
        loadAt cuda_image.data (4 * (p : Int) + (k : Int))))

/-- The comparison `fabs(a - b) > 0.1f` of two `float` values as the machine evaluates
it: the rounded difference against the rounded constant. -/
def exceeds32 (a b : ℚ) : Bool :=
  decide (|fl (a - b)| > fl (1 / 10))

/-- The count in binary32: over every pixel `p` and each of its first three channels `k`
(red, green, blue), the number of values whose rounded difference `fl (ref - cuda)` has
a magnitude above the constant `0.1f`. -/
def colourMismatches32 (ref_image cuda_image : Image) : Nat :=
  ((List.range (ref_image.width * ref_image.height).toNat).map (fun (p : Nat) =>
    (List.range 3).countP (fun (k : Nat) =>
      exceeds32 (loadAt ref_image.data (4 * (p : Int) + (k : Int)))
        (loadAt cuda_image.data (4 * (p : Int) + (k : Int)))))).sum

/-- The number of colour values (red, green, blue) of pixel `p` whose rounded difference
has a magnitude above `0.1f`. -/
def pixelMismatches32 (ref_image cuda_image : Image) (p : Nat) : Nat :=
  (List.range 3).countP (fun (k : Nat) =>
    exceeds32 (loadAt ref_image.data (4 * (p : Int) + (k : Int)))
      (loadAt cuda_image.data (4 * (p : Int) + (k : Int))))

/-- The number of pixels with at least one colour value whose rounded difference has a
magnitude above `0.1f`. -/
def mismatchedPixels32 (ref_image cuda_image : Image) : Nat :=
  (List.range (ref_image.width * ref_image.height).toNat).countP (fun (p : Nat) =>
    decide (0 < pixelMismatches32 ref_image cuda_image p))

/-! ## Concrete inputs -/

/-- The renderer of scenario A: a `1024 x 1024` output image is allocated as in `main`,
the scene `CIRCLE_RGB` is loaded and the image is cleared. -/
def scenarioA (lib : CLib) (g : RandState) (r0 : RefRenderer) : RefRenderer :=
  ((r0.allocOutputImage 1024 1024).loadScene lib CIRCLE_RGB g).1.clearImage

/-- A `W x H` image whose pixels all have the value `(r, g, b, a)`. -/
def solidImage (W H : Int) (r g b a : ℚ) : Image :=
  Image.clear { width := W, height := H, data := [] } r g b a

/-- A white image of one pixel. -/
def whiteUnit : Image := solidImage 1 1 1 1 1 1

/-- A red circle whose boundary passes through the centre `(1/2, 1/2)` of the pixel of a
`1 x 1` image: centre `(1/2, 1/5)`, radius `3/10`. -/
def boundaryCircle : SceneCircle :=
  { x := 1 / 2, y := 1 / 5, depth := 0, radius := 3 / 10, colR := 1, colG := 0, colB := 0 }

/-! ## The paired benchmark of `benchmark.cpp` -/

/-- The clock read by `CycleTimer::currentSeconds` (`cycleTimer.h` is not among the
sources), as the sequence of values that the coming calls return. -/
abbrev Clock := Nat → ℚ

/-- One call of `CycleTimer::currentSeconds()`: the value returned and the clock
afterwards. -/
def currentSeconds (clk : Clock) : ℚ × Clock :=
  (clk 0, fun n => clk (n + 1))

/-- The methods of the abstract class `CircleRenderer` of `circleRenderer.h` that
`CheckBenchmark` calls, for a renderer whose state has type `σ`. -/
structure CircleRenderer (σ : Type) where
  getImage : σ → Image
  clearImage : σ → σ
  render : σ → σ

/-- The class `RefRenderer` as a `CircleRenderer`. -/
def refCircleRenderer : CircleRenderer RefRenderer :=
  { getImage := fun r => r.image
    clearImage := RefRenderer.clearImage
    render := RefRenderer.render }

/-- Result of a division of two finite `double` values: a finite quotient, or, for a zero
divisor, an infinity or NaN. -/
inductive DoubleQuot where
  | finite (q : ℚ)
  | posInf
  | negInf
  | nan


/-- The `double` division `a / b` of finite values: for `b = 0` the result is `+inf`,
`-inf` or NaN according to the sign of `a` (the zeros that arise here are positive). -/
def doubleDiv (a b : ℚ) : DoubleQuot :=
  if b ≠ 0 then DoubleQuot.finite (a / b)
  else if 0 < a then DoubleQuot.posInf
  else if a < 0 then DoubleQuot.negInf
  else DoubleQuot.nan

/-- The variables that a frame loop of `CheckBenchmark` updates: the renderer, the clock,
`startTime`, `totalClearTime`, `totalRenderTime`, the file-save total of the engine and
the files written so far by `writePPMImage`. -/
structure FrameLoop (σ : Type) where
  renderer : σ
  clock : Clock
  startTime : ℚ
  totalClearTime : ℚ
  totalRenderTime : ℚ
  totalFileSaveTime : ℚ
  files : List (String × Image)

/-- Body of the two frame loops of `CheckBenchmark`, which differ only in the renderer,
the file name and the file-save total they use. -/
def checkFrame {σ : Type} (R : CircleRenderer σ) (filename : String) (st : FrameLoop σ)
    (frame : Int) : FrameLoop σ :=
  let t0 := if frame = 0 then currentSeconds st.clock else (st.startTime, st.clock)
  let startClearTime := currentSeconds t0.2
  let cleared := R.clearImage st.renderer
  let endClearTime := currentSeconds startClearTime.2
  let startRenderTime := currentSeconds endClearTime.2
  let rendered := R.render cleared
  let endRenderTime := currentSeconds startRenderTime.2
  let saved :=
    if frame = 0 then
      let startFileSaveTime := currentSeconds endRenderTime.2
      let endFileSaveTime := currentSeconds startFileSaveTime.2
      (st.totalFileSaveTime + (endFileSaveTime.1 - startFileSaveTime.1),
        st.files ++ [(filename, R.getImage rendered)], endFileSaveTime.2)
    else (st.totalFileSaveTime, st.files, endRenderTime.2)
  { renderer := rendered
    clock := saved.2.2
    startTime := t0.1
    totalClearTime := st.totalClearTime + (endClearTime.1 - startClearTime.1)
    totalRenderTime := st.totalRenderTime + (endRenderTime.1 - startRenderTime.1)
    totalFileSaveTime := saved.1
    files := saved.2.1 }

/-- What `CheckBenchmark` leaves and prints when it returns: the two renderers, the clock,
the files written, the count that `compare_images` printed, the eight values printed in
milliseconds, the overall time and the speedup. -/
structure CheckReport (σ τ : Type) where
  ref_renderer : σ
  cuda_renderer : τ
  clock : Clock
  files : List (String × Image)
  mismatch_count : Int
  cpuClear : ℚ
  cpuRender : ℚ
  cpuTotal : ℚ
  cpuFile : ℚ
  cudaClear : ℚ
  cudaRender : ℚ
  cudaTotal : ℚ
  cudaFile : ℚ
  totalTime : ℚ
  speedup : DoubleQuot

/-- The `CheckBenchmark` of `benchmark.cpp`.  `Except.error 1` is the `exit (1)` of
`compare_images`. -/
def CheckBenchmark {σ τ : Type} (Rref : CircleRenderer σ) (Rcuda : CircleRenderer τ)
    (ref_renderer : σ) (cuda_renderer : τ) (frameFilename : String) (clk : Clock) :
    Except Int (CheckReport σ τ) :=
  let cpu := (intRange 0 10).foldl (checkFrame Rref (frameFilename ++ "_cpu.ppm"))
    { renderer := ref_renderer, clock := clk, startTime := 0, totalClearTime := 0,
      totalRenderTime := 0, totalFileSaveTime := 0, files := [] }
  let totalCPUClearTime := cpu.totalClearTime / 10
  let totalCPURenderTime := cpu.totalRenderTime / 10
  let cuda := (intRange 0 10).foldl (checkFrame Rcuda (frameFilename ++ "_cuda.ppm"))
    { renderer := cuda_renderer, clock := cpu.clock, startTime := cpu.startTime,
      totalClearTime := 0, totalRenderTime := 0, totalFileSaveTime := 0, files := cpu.files }
  let totalCudaClearTime := cuda.totalClearTime / 10
  let totalCudaRenderTime := cuda.totalRenderTime / 10
  match compare_images (Rref.getImage cpu.renderer) (Rcuda.getImage cuda.renderer) with
  | Except.error e => Except.error e
  | Except.ok mismatch_count =>
    let endTime := currentSeconds cuda.clock
    let totalTime := endTime.1 - cuda.startTime
    let speedup := doubleDiv totalCPURenderTime totalCudaRenderTime
    Except.ok
      { ref_renderer := cpu.renderer
        cuda_renderer := cuda.renderer
        clock := endTime.2
        files := cuda.files
        mismatch_count := mismatch_count
        cpuClear := 1000 * totalCPUClearTime
        cpuRender := 1000 * totalCPURenderTime
        cpuTotal := 1000 * (totalCPUClearTime + totalCPURenderTime)
        cpuFile := 1000 * cpu.totalFileSaveTime
        cudaClear := 1000 * totalCudaClearTime
        cudaRender := 1000 * totalCudaRenderTime
        cudaTotal := 1000 * (totalCudaClearTime + totalCudaRenderTime)
        cudaFile := 1000 * cuda.totalFileSaveTime
        totalTime := totalTime
        speedup := speedup }

/-! ## Notions used to state the properties of the benchmark -/

/-- The clock after `k` further calls of `currentSeconds`. -/
def afterTicks (clk : Clock) (k : Nat) : Clock :=
  fun n => clk (n + k)

/-- Number of clock reads of a frame loop before the read of `startClearTime` of frame
`f`: frame 0 also reads `startTime` and the two file-save stamps. -/
def frameStart (f : Nat) : Nat :=
  if f = 0 then 1 else 4 * f + 3

/-- Duration of the clear phase of frame `f` of a frame loop started with clock `clk`:
`endClearTime - startClearTime`. -/
def clearDuration (clk : Clock) (f : Nat) : ℚ :=
  clk (frameStart f + 1) - clk (frameStart f)

/-- Duration of the render phase of frame `f` of a frame loop started with clock `clk`:
`endRenderTime - startRenderTime`. -/
def renderDuration (clk : Clock) (f : Nat) : ℚ :=
  clk (frameStart f + 3) - clk (frameStart f + 2)

/-- Arithmetic mean over the 10 frames of a per-frame duration: the sum of the 10 values
divided by 10. -/
def meanOfTen (d : Nat → ℚ) : ℚ :=
  ((List.range 10).map d).sum / 10

/-- One frame of an engine: `clearImage` followed by `render`. -/
def clearRender {σ : Type} (R : CircleRenderer σ) (s : σ) : σ :=
  R.render (R.clearImage s)

/-- A renderer that keeps its image unchanged, as a stand-in for an engine. -/
def idleRenderer : CircleRenderer Image :=
  { getImage := fun im => im, clearImage := fun im => im, render := fun im => im }

/-- A clock that advances by one second per read for the first 43 reads, the reads of the
first frame loop, and then stands still. -/
def stalledClock : Clock := fun n => if n < 43 then (n : ℚ) else 43

/-- The default frame file name of `main`. -/
def frameName : String := "image"

/-- A clock that advances by one second per read. -/
def tickingClock : Clock := fun n => (n : ℚ)

/-! ## Notions used to state the properties of the scene loader -/

/-- The circle that three parallel arrays hold at index `i`. -/
def circleOfArrays (position color radius : List ℚ) (i : Int) : SceneCircle :=
  { x := loadAt position (3 * i)
    y := loadAt position (3 * i + 1)
    depth := loadAt position (3 * i + 2)
    radius := loadAt radius i
    colR := loadAt color (3 * i)
    colG := loadAt color (3 * i + 1)
    colB := loadAt color (3 * i + 2) }

/-- The circle at index `i` of the scene that `loadCircleScene` returned. -/
def SceneArrays.circleAt (s : SceneArrays) (i : Int) : SceneCircle :=
  circleOfArrays s.position s.color s.radius i

/-- Generator state after `k` further calls of `rand()`. -/
def afterDraws (g : RandState) (k : Nat) : RandState :=
  fun n => g (n + k)

/-- The value that the call number `k` (counting from 0) of `randomFloat` returns when
the generator is in state `g`. -/
def draw (lib : CLib) (g : RandState) (k : Nat) : ℚ :=
  (g k : ℚ) / (lib.RAND_MAX : ℚ)

/-- The circle that `generateRandomCircles` stores at index `i`, in terms of the sorted
depths and of the draws that follow the depth draws (`g` is the generator state after
them): six draws per circle, for the radius, x, y and the three colour channels. -/
def randomCircle (lib : CLib) (numCircles : Int) (depths : List ℚ) (g : RandState)
    (i : Nat) : SceneCircle :=
  { x := draw lib g (6 * i + 1)
    y := draw lib g (6 * i + 2)
    depth := loadAt depths (i : Int)
    radius := 2 / 100 + 6 / 100 * draw lib g (6 * i)
    colR := if numCircles ≤ 10000 then 1 / 10 + 9 / 10 * draw lib g (6 * i + 3)
      else 3 / 10 + 9 / 10 * draw lib g (6 * i + 3)
    colG := if numCircles ≤ 10000 then 2 / 10 + 5 / 10 * draw lib g (6 * i + 4)
      else 1 / 10 + 9 / 10 * draw lib g (6 * i + 4)
    colB := if numCircles ≤ 10000 then 5 / 10 + 5 / 10 * draw lib g (6 * i + 5)
      else 1 / 10 + 4 / 10 * draw lib g (6 * i + 5) }

/-- The circle that `makeCircleGrid` stores for row `j` and column `i`, with depth `z`. -/
def gridCircle (circleRadius : ℚ) (circleColor : List ℚ) (startOffsetX startOffsetY : ℚ)
    (i j : Int) (z : ℚ) : SceneCircle :=
  { x := startOffsetX + 2 * circleRadius * (i : ℚ)
    y := startOffsetY + 2 * circleRadius * (j : ℚ)
    depth := z
    radius := circleRadius
    colR := loadAt circleColor 0
    colG := loadAt circleColor 1
    colB := loadAt circleColor 2 }

/-- Body of the main loop of `generateRandomCircles`, for circle `i`. -/
def genStep (lib : CLib) (numCircles : Int) (depths : List ℚ) (st : LoadState) (i : Int) :
    LoadState :=
  let depth := loadAt depths i
  let r0 := randomFloat lib st.rng
  let radius := storeAt st.radius i (2 / 100 + 6 / 100 * r0.1)
  let index3 := 3 * i
  let r1 := randomFloat lib r0.2
  let position := storeAt st.position index3 r1.1
  let r2 := randomFloat lib r1.2
  let position := storeAt position (index3 + 1) r2.1
  let position := storeAt position (index3 + 2) depth
  let r3 := randomFloat lib r2.2
  let r4 := randomFloat lib r3.2
  let r5 := randomFloat lib r4.2
  let color :=
    if numCircles ≤ 10000 then
      storeAt (storeAt (storeAt st.color index3 (1 / 10 + 9 / 10 * r3.1))
        (index3 + 1) (2 / 10 + 5 / 10 * r4.1)) (index3 + 2) (5 / 10 + 5 / 10 * r5.1)
    else
      storeAt (storeAt (storeAt st.color index3 (3 / 10 + 9 / 10 * r3.1))
        (index3 + 1) (1 / 10 + 9 / 10 * r4.1)) (index3 + 2) (1 / 10 + 4 / 10 * r5.1)
  { position := position, color := color, radius := radius, rng := r5.2 }

/-- Body of the inner loop of `makeCircleGrid`, for column `i` of row `j`. -/
def gridStep (lib : CLib) (circleRadius : ℚ) (circleColor : List ℚ)
    (startOffsetX startOffsetY : ℚ) (j : Int) (st : GridState) (i : Int) : GridState :=
  let index3 := 3 * st.index
  let x := startOffsetX + 2 * circleRadius * (i : ℚ)
  let y := startOffsetY + 2 * circleRadius * (j : ℚ)
  let z := randomFloat lib st.rng
  let position := storeAt st.position index3 x
  let position := storeAt position (index3 + 1) y
  let position := storeAt position (index3 + 2) z.1
  let color := storeAt st.color index3 (loadAt circleColor 0)
  let color := storeAt color (index3 + 1) (loadAt circleColor 1)
  let color := storeAt color (index3 + 2) (loadAt circleColor 2)
  let radius := storeAt st.radius st.index circleRadius
  { position := position, color := color, radius := radius,
    index := st.index + 1, rng := z.2 }

/-- The depths of `generateRandomCircles` after `std::sort`: the first `n` draws after
`srand(0)` in non-increasing order. -/
def sortedDepths (lib : CLib) (n : Nat) : List ℚ :=
  ((List.range n).map (draw lib (lib.srand 0))).insertionSort (fun a b => a ≥ b)


/-- The first grid of the scene `PATTERN`. -/
def patternGrid1 (lib : CLib) (g : RandState) : GridState :=
  makeCircleGrid lib 0 ((16 : Nat) : Int) (1 / 32) [1, 0, 0] (1 / 32) (1 / 32)
    (newFloats (3651 : Nat)) (newFloats (3651 : Nat)) (newFloats (1217 : Nat)) g

/-- The second grid of the scene `PATTERN`, stored after the first. -/
def patternGrid2 (lib : CLib) (g : RandState) : GridState :=
  makeCircleGrid lib 256 ((31 : Nat) : Int) (1 / 32) [1, 1, 0] 0 0
    (patternGrid1 lib g).position (patternGrid1 lib g).color (patternGrid1 lib g).radius
    (patternGrid1 lib g).rng

/-- A C library whose `rand()` always returns 0 after `srand`, with `RAND_MAX = 1`: every
draw of `randomFloat` after a reseed is 0. -/
def libZero : CLib := { RAND_MAX := 1, srand := fun _ _ => 0 }

/-- A C library whose `rand()` always returns `RAND_MAX = 1` after `srand`: every draw of
`randomFloat` after a reseed is 1. -/
def libOne : CLib := { RAND_MAX := 1, srand := fun _ _ => 1 }

/-- The generator state in which every coming `rand()` returns `v`. -/
def constState (v : Nat) : RandState := fun _ => v

/-- The values of the four reference parameters in `main` before a scene is loaded: the
members that the constructor of the renderer set, no circles and null arrays. -/
def noScene : SceneArrays := { numCircles := 0, position := [], color := [], radius := [] }

/-- The depth column of the position array of a scene of `n` circles, in index order. -/
def depthsOf (position : List ℚ) (n : Nat) : List ℚ :=
  (List.range n).map (fun (i : Nat) => loadAt position (3 * (i : Int) + 2))

/-- A generator state whose coming values alternate 0, 1, 0, 1, ... -/
def altState : RandState := fun k => k % 2

/-- A C library with `RAND_MAX = 2` whose generator after `srand` returns 0, 1, 2, 0, 1,
2, ... -/
def libCycle : CLib := { RAND_MAX := 2, srand := fun _ k => k % 3 }

/-- The renderer that the constructor `RefRenderer::RefRenderer` builds: no circles, null
arrays; the null image is modelled as an empty `0 x 0` image. -/
def freshRenderer : RefRenderer :=
  { image := { width := 0, height := 0, data := [] }, numCircles := 0, position := [],
    color := [], radius := [] }

/-- Number of circles of the list `cs` whose disc contains the centre of pixel `(x, y)`
of a `W x H` image. -/
def coveringCount (cs : List SceneCircle) (W H x y : Int) : Nat :=
  cs.countP (fun c => decide (c.covers W H x y))

/-! ## Rendering with checked accesses to the image buffer -/

/-- Value of `data[i]` for an index inside the buffer; `none` for an access outside
it. -/
def loadChecked (data : List ℚ) (i : Int) : Option ℚ :=
  if 0 ≤ i ∧ i < (data.length : Int) then some (loadAt data i) else none

/-- Effect of `data[i] = v` for an index inside the buffer; `none` for an access outside
it. -/
def storeChecked (data : List ℚ) (i : Int) (v : ℚ) : Option (List ℚ) :=
  if 0 ≤ i ∧ i < (data.length : Int) then some (storeAt data i v) else none

/-- Method `RefRenderer::shadePixel` with every access to the image buffer checked: the
result is `none` when a read or write of `pixelData[0..3]` falls outside the buffer. -/
def RefRenderer.shadePixelChecked (r : RefRenderer) (circleIndex : Int)
    (pixelCenterX pixelCenterY px py _pz : ℚ) (data : List ℚ) (pixelData : Int) :
    Option (List ℚ) :=
  let diffX := px - pixelCenterX
  let diffY := py - pixelCenterY
  let pixelDist := diffX * diffX + diffY * diffY
  let rad := loadAt r.radius circleIndex
  let maxDist := rad * rad
  if pixelDist > maxDist then some data
  else
    let index3 := 3 * circleIndex
    let colR := loadAt r.color index3
    let colG := loadAt r.color (index3 + 1)
    let colB := loadAt r.color (index3 + 2)
    let alpha : ℚ := 1 / 2
    let oneMinusAlpha := 1 - alpha
    (loadChecked data pixelData).bind fun old0 =>
    (storeChecked data pixelData (alpha * colR + oneMinusAlpha * old0)).bind fun data =>
    (loadChecked data (pixelData + 1)).bind fun old1 =>
    (storeChecked data (pixelData + 1) (alpha * colG + oneMinusAlpha * old1)).bind fun data =>
    (loadChecked data (pixelData + 2)).bind fun old2 =>
    (storeChecked data (pixelData + 2) (alpha * colB + oneMinusAlpha * old2)).bind fun data =>
    (loadChecked data (pixelData + 3)).bind fun old3 =>
    storeChecked data (pixelData + 3) (old3 + alpha)

/-- One step of the inner loop of `render` with checked accesses: pixel `pixelX` of row
`pixelY`, then `imgPtr += 4`. -/
def RefRenderer.pixelStepChecked (r : RefRenderer) (circleIndex : Int) (px py pz : ℚ)
    (invWidth invHeight : ℚ) (pixelY : Int) (st : List ℚ × Int) (pixelX : Int) :
    Option (List ℚ × Int) :=
  let pixelCenterNormX := invWidth * ((pixelX : ℚ) + 1 / 2)
  let pixelCenterNormY := invHeight * ((pixelY : ℚ) + 1 / 2)
  (r.shadePixelChecked circleIndex pixelCenterNormX pixelCenterNormY px py pz st.1 st.2).map
    (fun d => (d, st.2 + 4))

/-- Inner loop of `RefRenderer::render` with checked accesses. -/
def RefRenderer.renderRowChecked (r : RefRenderer) (circleIndex : Int) (px py pz : ℚ)
    (invWidth invHeight : ℚ) (screenMinX screenMaxX pixelY : Int) (data : List ℚ) :
    Option (List ℚ) :=
  let imgPtr : Int := 4 * (pixelY * r.image.width + screenMinX)
  ((intRange screenMinX screenMaxX).foldlM
    (r.pixelStepChecked circleIndex px py pz invWidth invHeight pixelY) (data, imgPtr)).map
    Prod.fst

/-- Body of the circle loop of `RefRenderer::render` with checked accesses. -/
def RefRenderer.renderCircleChecked (r : RefRenderer) (circleIndex : Int) (data : List ℚ) :
    Option (List ℚ) :=
  let index3 := 3 * circleIndex
  let px := loadAt r.position index3
  let py := loadAt r.position (index3 + 1)
  let pz := loadAt r.position (index3 + 2)
  let rad := loadAt r.radius circleIndex
  let minX := px - rad
  let maxX := px + rad
  let minY := py - rad
  let maxY := py + rad
  let screenMinX := screenMin minX r.image.width
  let screenMaxX := screenMax maxX r.image.width
  let screenMinY := screenMin minY r.image.height
  let screenMaxY := screenMax maxY r.image.height
  let invWidth : ℚ := 1 / (r.image.width : ℚ)
  let invHeight : ℚ := 1 / (r.image.height : ℚ)
  (intRange screenMinY screenMaxY).foldlM
    (fun data (pixelY : Int) =>
      r.renderRowChecked circleIndex px py pz invWidth invHeight screenMinX screenMaxX pixelY
        data)
    data

/-- Method `RefRenderer::render` with checked accesses to the image buffer: `none` when
some access of some `shadePixel` call falls outside the buffer. -/
def RefRenderer.renderChecked (r : RefRenderer) : Option RefRenderer :=
  ((intRange 0 r.numCircles).foldlM
    (fun data (circleIndex : Int) => r.renderCircleChecked circleIndex data) r.image.data).map
    (fun data => { r with image := { r.image with data := data } })

/-! ## Notions used to state the properties of rendering -/

/-- Everything of a circle but its depth: centre, radius and colour. -/
def SceneCircle.shape (c : SceneCircle) : ℚ × ℚ × ℚ × ℚ × ℚ × ℚ :=
  (c.x, c.y, c.radius, c.colR, c.colG, c.colB)

/-- Colour channel `k` (0 red, 1 green, otherwise blue) of a circle. -/
def SceneCircle.colour (c : SceneCircle) (k : Int) : ℚ :=
  if k = 0 then c.colR else if k = 1 then c.colG else c.colB

/-- Modelled from the spec: the clamp of a colour value to `[0,1]` that the image export
(`ppm.cpp`, not among the sources) applies before scaling to `[0,255]`. -/
def exportClamp (v : ℚ) : ℚ :=
  max 0 (min v 1)

/-- A green circle that contains the centre of the pixel of a `1 x 1` image: centre
`(1/2, 1/2)`, radius `1/4`, depth 1. -/
def greenCircle : SceneCircle :=
  { x := 1 / 2, y := 1 / 2, depth := 1, radius := 1 / 4, colR := 0, colG := 1, colB := 0 }

/-! ## Reference renderer in binary32

The renderer once more, with every `float` operation rounded: the result of an
operation whose exact result is `q` is `fl q`.  The definitions carry the suffix `32`.
They describe the machine on finite `float` inputs and images of positive dimensions,
where no NaN arises and an infinity enters only sums, products, comparisons and the
conversion to `int`. -/

/-- Conversion of an `int` to `float`, as in `static_cast<float>(pixelX)` and in the
operand `image->width` of a `float` operation. -/
def static_cast_float (n : Int) : ℚ :=
  fl (n : ℚ)

/-- Conversion `static_cast<int>(v)` of a `float`: truncation toward zero when the
truncated value fits a 32-bit `int`.  For every other value the behaviour is undefined in
C++; `undef v` is the value that the platform delivers then. -/
def static_cast_int32 (undef : ℚ → Int) (v : ℚ) : Int :=
  if -2147483648 ≤ Int.tdiv v.num (v.den : Int) ∧ Int.tdiv v.num (v.den : Int) ≤ 2147483647 then
    Int.tdiv v.num (v.den : Int)
  else undef v

/-- The conversion of x86-64, which delivers `INT_MIN` for every value outside the range
of `int`. -/
def x86Conversion : ℚ → Int :=
  fun _ => -2147483648

/-- Method `RefRenderer::shadePixel` in binary32.  The pointer `pixelData` is the buffer
`data` with the offset `pixelData`; the result is the buffer after the call. -/
def RefRenderer.shadePixel32 (r : RefRenderer) (circleIndex : Int)
    (pixelCenterX pixelCenterY px py _pz : ℚ) (data : List ℚ) (pixelData : Int) : List ℚ :=
  let diffX := fl (px - pixelCenterX)
  let diffY := fl (py - pixelCenterY)
  let pixelDist := fl (fl (diffX * diffX) + fl (diffY * diffY))
  let rad := loadAt r.radius circleIndex
  let maxDist := fl (rad * rad)
  if pixelDist > maxDist then data
  else
    let index3 := 3 * circleIndex
    let colR := loadAt r.color index3
    let colG := loadAt r.color (index3 + 1)
    let colB := loadAt r.color (index3 + 2)
    let alpha : ℚ := 1 / 2
    let oneMinusAlpha := fl (1 - alpha)
    let data := storeAt data pixelData
      (fl (fl (alpha * colR) + fl (oneMinusAlpha * loadAt data pixelData)))
    let data := storeAt data (pixelData + 1)
      (fl (fl (alpha * colG) + fl (oneMinusAlpha * loadAt data (pixelData + 1))))
    let data := storeAt data (pixelData + 2)
      (fl (fl (alpha * colB) + fl (oneMinusAlpha * loadAt data (pixelData + 2))))
    storeAt data (pixelData + 3) (fl (loadAt data (pixelData + 3) + alpha))

/-- Inner loop of `RefRenderer::render` in binary32: the pixels
`screenMinX ≤ pixelX < screenMaxX` of row `pixelY`.  The loop state is the buffer and
the running pointer `imgPtr`. -/
def RefRenderer.renderRow32 (r : RefRenderer) (circleIndex : Int) (px py pz : ℚ)
    (invWidth invHeight : ℚ) (screenMinX screenMaxX pixelY : Int) (data : List ℚ) : List ℚ :=
  let imgPtr : Int := 4 * (pixelY * r.image.width + screenMinX)
  ((intRange screenMinX screenMaxX).foldl
    (fun (st : List ℚ × Int) (pixelX : Int) =>
      let pixelCenterNormX := fl (invWidth * fl (static_cast_float pixelX + 1 / 2))
      let pixelCenterNormY := fl (invHeight * fl (static_cast_float pixelY + 1 / 2))
      (r.shadePixel32 circleIndex pixelCenterNormX pixelCenterNormY px py pz st.1 st.2,
        st.2 + 4))
    (data, imgPtr)).1

/-- Lower pixel bound of a bounding box in binary32:
`CLAMP(static_cast<int>(lo * size), 0, size)`. -/
def screenMin32 (undef : ℚ → Int) (lo : ℚ) (size : Int) : Int :=
  CLAMP (static_cast_int32 undef (fl (lo * static_cast_float size))) 0 size

/-- Upper pixel bound of a bounding box in binary32:
`CLAMP(static_cast<int>(hi * size) + 1, 0, size)`. -/
def screenMax32 (undef : ℚ → Int) (hi : ℚ) (size : Int) : Int :=
  CLAMP (static_cast_int32 undef (fl (hi * static_cast_float size)) + 1) 0 size

/-- Body of the circle loop of `RefRenderer::render` in binary32: circle `circleIndex` is
composited onto the buffer `data` of the renderer's image. -/
def RefRenderer.renderCircle32 (undef : ℚ → Int) (r : RefRenderer) (circleIndex : Int)
    (data : List ℚ) : List ℚ :=
  let index3 := 3 * circleIndex
  let px := loadAt r.position index3
  let py := loadAt r.position (index3 + 1)
  let pz := loadAt r.position (index3 + 2)
  let rad := loadAt r.radius circleIndex
  let minX := fl (px - rad)
  let maxX := fl (px + rad)
  let minY := fl (py - rad)
  let maxY := fl (py + rad)
  let screenMinX := screenMin32 undef minX r.image.width
  let screenMaxX := screenMax32 undef maxX r.image.width
  let screenMinY := screenMin32 undef minY r.image.height
  let screenMaxY := screenMax32 undef maxY r.image.height
  let invWidth : ℚ := fl (1 / static_cast_float r.image.width)
  let invHeight : ℚ := fl (1 / static_cast_float r.image.height)
  (intRange screenMinY screenMaxY).foldl
    (fun data (pixelY : Int) =>
      r.renderRow32 circleIndex px py pz invWidth invHeight screenMinX screenMaxX pixelY data)
    data

/-- Method `RefRenderer::render` in binary32: all circles, in index order. -/
def RefRenderer.render32 (undef : ℚ → Int) (r : RefRenderer) : RefRenderer :=
  let data := (intRange 0 r.numCircles).foldl
    (fun data (circleIndex : Int) => r.renderCircle32 undef circleIndex data) r.image.data
  { r with image := { r.image with data := data } }

/-! ## Notions used to state the properties of the binary32 renderer -/

/-- The image obtained by compositing the circle list `cs` onto `img` with
`RefRenderer::render` in binary32. -/
def renderCircles32 (undef : ℚ → Int) (cs : List SceneCircle) (img : Image) : Image :=
  ((RefRenderer.ofCircles cs img).render32 undef).image

/-- Compositing the single circle `c` onto the buffer of a `W x H` image in binary32. -/
def compositeOne32 (undef : ℚ → Int) (c : SceneCircle) (W H : Int) (data : List ℚ) : List ℚ :=
  (RefRenderer.ofCircles [c] { width := W, height := H, data := [] }).renderCircle32 undef 0 data

/-- The value that a blend in binary32 writes to channel `k` of a pixel whose old value is
`old`: `fl (fl (0.5 * colour) + fl (0.5 * old))` for red, green and blue,
`fl (old + 0.5)` for alpha. -/
def blendChannel32 (c : SceneCircle) (k : Int) (old : ℚ) : ℚ :=
  if k = 0 then fl (fl (1 / 2 * c.colR) + fl (fl (1 - 1 / 2) * old))
  else if k = 1 then fl (fl (1 / 2 * c.colG) + fl (fl (1 - 1 / 2) * old))
  else if k = 2 then fl (fl (1 / 2 * c.colB) + fl (fl (1 - 1 / 2) * old))
  else fl (old + 1 / 2)

/-- The coordinate of the centre of pixel `i` that `render` hands to `shadePixel`, for
the reciprocal `inv` of the image size: `inv * (static_cast<float>(i) + 0.5f)`. -/
def pixelCenterNorm (inv : ℚ) (i : Int) : ℚ :=
  fl (inv * fl (static_cast_float i + 1 / 2))

/-- The value `pixelDist` of `shadePixel` for a circle centre `(px, py)` and a pixel
centre `(cx, cy)`. -/
def pixelDist32 (px py cx cy : ℚ) : ℚ :=
  fl (fl (fl (px - cx) * fl (px - cx)) + fl (fl (py - cy) * fl (py - cy)))

/-- The distance test of `shadePixel` in binary32 for the pixel `(x, y)`, with the pixel
centre computed as in `render`: the test passes when `pixelDist > maxDist` is false. -/
def hitTest32 (px py rad invWidth invHeight : ℚ) (x y : Int) : Prop :=
  pixelDist32 px py (pixelCenterNorm invWidth x) (pixelCenterNorm invHeight y) ≤ fl (rad * rad)

instance (px py rad invWidth invHeight : ℚ) (x y : Int) :
    Decidable (hitTest32 px py rad invWidth invHeight x y) := by
  unfold hitTest32; infer_instance

/-- Whether pixel `(x, y)` of a `W x H` image passes the distance test that `shadePixel`
evaluates for circle `c`. -/
def SceneCircle.passes32 (c : SceneCircle) (W H x y : Int) : Prop :=
  hitTest32 c.x c.y c.radius (fl (1 / static_cast_float W)) (fl (1 / static_cast_float H)) x y

instance (c : SceneCircle) (W H x y : Int) : Decidable (c.passes32 W H x y) := by
  unfold SceneCircle.passes32; infer_instance

/-- Whether pixel `(x, y)` lies in the pixel bounding box that `render` computes in
binary32 for circle `c` on a `W x H` image. -/
def SceneCircle.inBox32 (undef : ℚ → Int) (c : SceneCircle) (W H x y : Int) : Prop :=
  screenMin32 undef (fl (c.x - c.radius)) W ≤ x ∧ x < screenMax32 undef (fl (c.x + c.radius)) W ∧
  screenMin32 undef (fl (c.y - c.radius)) H ≤ y ∧ y < screenMax32 undef (fl (c.y + c.radius)) H

instance (undef : ℚ → Int) (c : SceneCircle) (W H x y : Int) :
    Decidable (c.inBox32 undef W H x y) := by
  unfold SceneCircle.inBox32; infer_instance

/-- Whether `render` blends circle `c` into pixel `(x, y)` of a `W x H` image: the pixel
lies in the bounding box of the circle and passes the distance test. -/
def SceneCircle.blends32 (undef : ℚ → Int) (c : SceneCircle) (W H x y : Int) : Prop :=
  c.inBox32 undef W H x y ∧ c.passes32 W H x y

instance (undef : ℚ → Int) (c : SceneCircle) (W H x y : Int) :
    Decidable (c.blends32 undef W H x y) := by
  unfold SceneCircle.blends32; infer_instance

/-- The circles of a list that `render` blends into pixel `(x, y)`, in list order. -/
def blendingCircles (undef : ℚ → Int) (cs : List SceneCircle) (W H x y : Int) :
    List SceneCircle :=
  cs.filter (fun c => decide (c.blends32 undef W H x y))

/-! ## Scene loader in binary32

The loader once more, with every `float` operation rounded.  A decimal constant of the
source such as `.4f` is the rounded `fl (4 / 10)`; the constants `0.f` and `1.f` are
exact. -/

/-- The `randomFloat` of `sceneLoader.cpp` in binary32:
`static_cast<float>(rand()) / RAND_MAX`, where the divisor is converted to `float`. -/
def randomFloat32 (lib : CLib) (g : RandState) : ℚ × RandState :=
  let v := rand g
  (fl (static_cast_float (v.1 : Int) / static_cast_float (lib.RAND_MAX : Int)), v.2)

/-- The `makeCircleGrid` of `sceneLoader.cpp` in binary32; `circleColor` holds three
values. -/
def makeCircleGrid32 (lib : CLib) (startIndex circleCount : Int) (circleRadius : ℚ)
    (circleColor : List ℚ) (startOffsetX startOffsetY : ℚ)
    (position color radius : List ℚ) (g : RandState) : GridState :=
  (intRange 0 circleCount).foldl
    (fun st (j : Int) =>
      (intRange 0 circleCount).foldl
        (fun st (i : Int) =>
          let index3 := 3 * st.index
          let x := fl (startOffsetX + fl (fl (2 * circleRadius) * static_cast_float i))
          let y := fl (startOffsetY + fl (fl (2 * circleRadius) * static_cast_float j))
          let z := randomFloat32 lib st.rng
          let position := storeAt st.position index3 x
          let position := storeAt position (index3 + 1) y
          let position := storeAt position (index3 + 2) z.1
          let color := storeAt st.color index3 (loadAt circleColor 0)
          let color := storeAt color (index3 + 1) (loadAt circleColor 1)
          let color := storeAt color (index3 + 2) (loadAt circleColor 2)
          let radius := storeAt st.radius st.index circleRadius
          { position := position, color := color, radius := radius,
            index := st.index + 1, rng := z.2 })
        st)
    { position := position, color := color, radius := radius, index := startIndex, rng := g }

/-- First loop of `generateRandomCircles` in binary32: one draw per circle, stored in
`depths`. -/
def drawDepths32 (lib : CLib) (numCircles : Int) (g : RandState) : List ℚ × RandState :=
  (intRange 0 numCircles).foldl
    (fun st (i : Int) =>
      let d := randomFloat32 lib st.2
      (storeAt st.1 i d.1, d.2))
    (newFloats numCircles, g)

/-- The `generateRandomCircles` of `sceneLoader.cpp` in binary32.  `std::sort` with
`std::greater<float>` is a sort into non-increasing order. -/
def generateRandomCircles32 (lib : CLib) (numCircles : Int)
    (position color radius : List ℚ) (_g : RandState) : LoadState :=
  let g := lib.srand 0
  let drawn := drawDepths32 lib numCircles g
  let depths := drawn.1.insertionSort (fun a b => a ≥ b)
  (intRange 0 numCircles).foldl
    (fun st (i : Int) =>
      let depth := loadAt depths i
      let r0 := randomFloat32 lib st.rng
      let radius := storeAt st.radius i (fl (fl (2 / 100) + fl (fl (6 / 100) * r0.1)))
      let index3 := 3 * i
      let r1 := randomFloat32 lib r0.2
      let position := storeAt st.position index3 r1.1
      let r2 := randomFloat32 lib r1.2
      let position := storeAt position (index3 + 1) r2.1
      let position := storeAt position (index3 + 2) depth
      let r3 := randomFloat32 lib r2.2
      let r4 := randomFloat32 lib r3.2
      let r5 := randomFloat32 lib r4.2
      let color :=
        if numCircles ≤ 10000 then
          storeAt (storeAt (storeAt st.color index3
            (fl (fl (1 / 10) + fl (fl (9 / 10) * r3.1))))
            (index3 + 1) (fl (fl (2 / 10) + fl (fl (5 / 10) * r4.1))))
            (index3 + 2) (fl (fl (5 / 10) + fl (fl (5 / 10) * r5.1)))
        else
          storeAt (storeAt (storeAt st.color index3
            (fl (fl (3 / 10) + fl (fl (9 / 10) * r3.1))))
            (index3 + 1) (fl (fl (1 / 10) + fl (fl (9 / 10) * r4.1))))
            (index3 + 2) (fl (fl (1 / 10) + fl (fl (4 / 10) * r5.1)))
      { position := position, color := color, radius := radius, rng := r5.2 })
    { position := position, color := color, radius := radius, rng := drawn.2 }

/-- The `loadCircleScene` of `sceneLoader.cpp` in binary32.  `out` holds the values of the
four reference parameters before the call and `g` the generator state; the result holds
them after the call. -/
def loadCircleScene32 (lib : CLib) (sceneName : SceneName) (out : SceneArrays)
    (g : RandState) : SceneArrays × RandState :=
  if sceneName = CIRCLE_RGB then
    let numCircles : Int := 3
    let position := newFloats (3 * numCircles)
    let color := newFloats (3 * numCircles)
    let radius := newFloats numCircles
    let radius := (intRange 0 numCircles).foldl
      (fun radius (i : Int) => storeAt radius i (fl (3 / 10))) radius
    let position := storeRun position 0 [fl (4 / 10), fl (5 / 10), fl (75 / 100)]
    let color := storeRun color 0 [1, 0, 0]
    let position := storeRun position 3 [fl (5 / 10), fl (5 / 10), fl (5 / 10)]
    let color := storeRun color 3 [0, 1, 0]
    let position := storeRun position 6 [fl (6 / 10), fl (5 / 10), fl (25 / 100)]
    let color := storeRun color 6 [0, 0, 1]
    ({ numCircles := numCircles, position := position, color := color, radius := radius }, g)
  else if sceneName = CIRCLE_RGBY then
    let numCircles : Int := 4
    let position := newFloats (3 * numCircles)
    let color := newFloats (3 * numCircles)
    let radius := newFloats numCircles
    let TINY_RADIUS : ℚ := fl (1 / 10)
    let SMALL_RADIUS : ℚ := fl (19 / 100)
    let BIG_RADIUS : ℚ := fl (25 / 100)
    let radius := storeRun radius 0 [SMALL_RADIUS, SMALL_RADIUS, BIG_RADIUS, TINY_RADIUS]
    let position := storeRun position 0 [fl (25 / 100), fl (25 / 100), fl (75 / 100)]
    let color := storeRun color 0 [1, 0, 0]
    let position := storeRun position 3 [fl (3 / 10), fl (3 / 10), fl (5 / 10)]
    let color := storeRun color 3 [0, 1, 0]
    let position := storeRun position 6 [fl (5 / 10), fl (5 / 10), fl (25 / 100)]
    let color := storeRun color 6 [0, 0, 1]
    let position := storeRun position 9 [fl (2 / 10), fl (2 / 10), fl (9 / 10)]
    let color := storeRun color 9 [1, 1, 0]
    ({ numCircles := numCircles, position := position, color := color, radius := radius }, g)
  else if sceneName = CIRCLE_TEST_10K then
    let numCircles : Int := 10 * 1000
    let position := newFloats (3 * numCircles)
    let color := newFloats (3 * numCircles)
    let radius := newFloats numCircles
    let st := generateRandomCircles32 lib numCircles position color radius g
    ({ numCircles := numCircles, position := st.position, color := st.color,
       radius := st.radius }, st.rng)
  else if sceneName = CIRCLE_TEST_100K then
    let numCircles : Int := 100 * 1000
    let position := newFloats (3 * numCircles)
    let color := newFloats (3 * numCircles)
    let radius := newFloats numCircles
    let st := generateRandomCircles32 lib numCircles position color radius g
    ({ numCircles := numCircles, position := st.position, color := st.color,
       radius := st.radius }, st.rng)
  else if sceneName = PATTERN then
    let circleCount1 : Int := 16
    let circleCount2 : Int := 31
    let numCircles : Int := circleCount1 * circleCount1
    let numCircles : Int := numCircles + circleCount2 * circleCount2
    let position := newFloats (3 * numCircles)
    let color := newFloats (3 * numCircles)
    let radius := newFloats numCircles
    let startIndex : Int := 0
    let circleRadius : ℚ := fl (fl (5 / 10) * fl (1 / static_cast_float circleCount1))
    let startOffsetX : ℚ := circleRadius
    let startOffsetY : ℚ := circleRadius
    let circleColor : List ℚ := [1, 0, 0]
    let st := makeCircleGrid32 lib startIndex circleCount1 circleRadius circleColor
      startOffsetX startOffsetY position color radius g
    let startIndex := startIndex + circleCount1 * circleCount1
    let startOffsetX : ℚ := 0
    let startOffsetY : ℚ := 0
    let circleColor : List ℚ := [1, 1, 0]
    let st := makeCircleGrid32 lib startIndex circleCount2 circleRadius circleColor
      startOffsetX startOffsetY st.position st.color st.radius st.rng
    ({ numCircles := numCircles, position := st.position, color := st.color,
       radius := st.radius }, st.rng)
  else
    (out, g)

/-- Method `RefRenderer::loadScene` in binary32: the scene arrays of the renderer are the
reference parameters handed to `loadCircleScene`. -/
def RefRenderer.loadScene32 (lib : CLib) (scene : SceneName) (r : RefRenderer)
    (g : RandState) : RefRenderer × RandState :=
  let res := loadCircleScene32 lib scene
    { numCircles := r.numCircles, position := r.position, color := r.color, radius := r.radius } g
  ({ image := r.image, numCircles := res.1.numCircles, position := res.1.position,
     color := res.1.color, radius := res.1.radius }, res.2)

/-! ## Notions used to state the properties of the binary32 loader -/

/-- The value that the call number `k` (counting from 0) of `randomFloat` returns in
binary32 when the generator is in state `g`. -/
def draw32 (lib : CLib) (g : RandState) (k : Nat) : ℚ :=
  fl (static_cast_float ((g k : Nat) : Int) / static_cast_float (lib.RAND_MAX : Int))

/-- The circle that `generateRandomCircles` stores at index `i` in binary32, in terms of
the sorted depths and of the draws that follow the depth draws (`g` is the generator
state after them): six draws per circle, for the radius, x, y and the three colour
channels. -/
def randomCircle32 (lib : CLib) (numCircles : Int) (depths : List ℚ) (g : RandState)
    (i : Nat) : SceneCircle :=
  { x := draw32 lib g (6 * i + 1)
    y := draw32 lib g (6 * i + 2)
    depth := loadAt depths (i : Int)
    radius := fl (fl (2 / 100) + fl (fl (6 / 100) * draw32 lib g (6 * i)))
    colR := if numCircles ≤ 10000 then fl (fl (1 / 10) + fl (fl (9 / 10) * draw32 lib g (6 * i + 3)))
      else fl (fl (3 / 10) + fl (fl (9 / 10) * draw32 lib g (6 * i + 3)))
    colG := if numCircles ≤ 10000 then fl (fl (2 / 10) + fl (fl (5 / 10) * draw32 lib g (6 * i + 4)))
      else fl (fl (1 / 10) + fl (fl (9 / 10) * draw32 lib g (6 * i + 4)))
    colB := if numCircles ≤ 10000 then fl (fl (5 / 10) + fl (fl (5 / 10) * draw32 lib g (6 * i + 5)))
      else fl (fl (1 / 10) + fl (fl (4 / 10) * draw32 lib g (6 * i + 5))) }

/-- The circle that `makeCircleGrid` stores in binary32 for row `j` and column `i`, with
depth `z`. -/
def gridCircle32 (circleRadius : ℚ) (circleColor : List ℚ) (startOffsetX startOffsetY : ℚ)
    (i j : Int) (z : ℚ) : SceneCircle :=
  { x := fl (startOffsetX + fl (fl (2 * circleRadius) * static_cast_float i))
    y := fl (startOffsetY + fl (fl (2 * circleRadius) * static_cast_float j))
    depth := z
    radius := circleRadius
    colR := loadAt circleColor 0
    colG := loadAt circleColor 1
    colB := loadAt circleColor 2 }

/-- Body of the main loop of `generateRandomCircles` in binary32, for circle `i`. -/
def genStep32 (lib : CLib) (numCircles : Int) (depths : List ℚ) (st : LoadState) (i : Int) :
    LoadState :=
  let depth := loadAt depths i
  let r0 := randomFloat32 lib st.rng
  let radius := storeAt st.radius i (fl (fl (2 / 100) + fl (fl (6 / 100) * r0.1)))
  let index3 := 3 * i
  let r1 := randomFloat32 lib r0.2
  let position := storeAt st.position index3 r1.1
  let r2 := randomFloat32 lib r1.2
  let position := storeAt position (index3 + 1) r2.1
  let position := storeAt position (index3 + 2) depth
  let r3 := randomFloat32 lib r2.2
  let r4 := randomFloat32 lib r3.2
  let r5 := randomFloat32 lib r4.2
  let color :=
    if numCircles ≤ 10000 then
      storeAt (storeAt (storeAt st.color index3
        (fl (fl (1 / 10) + fl (fl (9 / 10) * r3.1))))
        (index3 + 1) (fl (fl (2 / 10) + fl (fl (5 / 10) * r4.1))))
        (index3 + 2) (fl (fl (5 / 10) + fl (fl (5 / 10) * r5.1)))
    else
      storeAt (storeAt (storeAt st.color index3
        (fl (fl (3 / 10) + fl (fl (9 / 10) * r3.1))))
        (index3 + 1) (fl (fl (1 / 10) + fl (fl (9 / 10) * r4.1))))
        (index3 + 2) (fl (fl (1 / 10) + fl (fl (4 / 10) * r5.1)))
  { position := position, color := color, radius := radius, rng := r5.2 }

/-- Body of the inner loop of `makeCircleGrid` in binary32, for column `i` of row `j`. -/
def gridStep32 (lib : CLib) (circleRadius : ℚ) (circleColor : List ℚ)
    (startOffsetX startOffsetY : ℚ) (j : Int) (st : GridState) (i : Int) : GridState :=
  let index3 := 3 * st.index
  let x := fl (startOffsetX + fl (fl (2 * circleRadius) * static_cast_float i))
  let y := fl (startOffsetY + fl (fl (2 * circleRadius) * static_cast_float j))
  let z := randomFloat32 lib st.rng
  let position := storeAt st.position index3 x
  let position := storeAt position (index3 + 1) y
  let position := storeAt position (index3 + 2) z.1
  let color := storeAt st.color index3 (loadAt circleColor 0)
  let color := storeAt color (index3 + 1) (loadAt circleColor 1)
  let color := storeAt color (index3 + 2) (loadAt circleColor 2)
  let radius := storeAt st.radius st.index circleRadius
  { position := position, color := color, radius := radius,
    index := st.index + 1, rng := z.2 }

/-- The depths of `generateRandomCircles` in binary32 after `std::sort`: the first `n`
draws after `srand(0)` in non-increasing order. -/
def sortedDepths32 (lib : CLib) (n : Nat) : List ℚ :=
  ((List.range n).map (draw32 lib (lib.srand 0))).insertionSort (fun a b => a ≥ b)

/-- The radius `.5f * (1.f / 16)` of the circles of the scene `PATTERN`. -/
def patternRadius32 : ℚ :=
  fl (fl (5 / 10) * fl (1 / static_cast_float 16))

/-- The first grid of the scene `PATTERN` in binary32. -/
def patternGrid1_32 (lib : CLib) (g : RandState) : GridState :=
  makeCircleGrid32 lib 0 ((16 : Nat) : Int) patternRadius32 [1, 0, 0] patternRadius32
    patternRadius32 (newFloats (3651 : Nat)) (newFloats (3651 : Nat)) (newFloats (1217 : Nat)) g

/-- The second grid of the scene `PATTERN` in binary32, stored after the first. -/
def patternGrid2_32 (lib : CLib) (g : RandState) : GridState :=
  makeCircleGrid32 lib 256 ((31 : Nat) : Int) patternRadius32 [1, 1, 0] 0 0
    (patternGrid1_32 lib g).position (patternGrid1_32 lib g).color
    (patternGrid1_32 lib g).radius (patternGrid1_32 lib g).rng

/-! ## Concrete inputs of the binary32 embedding -/

/-- Circle 0 of the scene `CIRCLE_RGB` as `loadCircleScene` stores it: centre
`(.4f, .5f)`, depth `.75f`, radius `.3f`, red. -/
def redCircle32 : SceneCircle :=
  { x := fl (4 / 10), y := fl (5 / 10), depth := fl (75 / 100), radius := fl (3 / 10),
    colR := 1, colG := 0, colB := 0 }

/-- Circle 1 of the scene `CIRCLE_RGB`: centre `(.5f, .5f)`, depth `.5f`, radius `.3f`,
green. -/
def greenCircle32 : SceneCircle :=
  { x := fl (5 / 10), y := fl (5 / 10), depth := fl (5 / 10), radius := fl (3 / 10),
    colR := 0, colG := 1, colB := 0 }

/-- Circle 2 of the scene `CIRCLE_RGB`: centre `(.6f, .5f)`, depth `.25f`, radius `.3f`,
blue. -/
def blueCircle32 : SceneCircle :=
  { x := fl (6 / 10), y := fl (5 / 10), depth := fl (25 / 100), radius := fl (3 / 10),
    colR := 0, colG := 0, colB := 1 }

/-- A small red circle: centre `(.3f, .5f)`, radius `.01f`. -/
def dotCircle32 : SceneCircle :=
  { x := fl (3 / 10), y := fl (5 / 10), depth := 0, radius := fl (1 / 100),
    colR := 1, colG := 0, colB := 0 }

/-- The white image of `15 x 15` pixels. -/
def white15 : Image := solidImage 15 15 1 1 1 1

/-- The white image of `5 x 5` pixels. -/
def white5 : Image := solidImage 5 5 1 1 1 1

/-- The renderer after the scene `CIRCLE_RGB` has been loaded in binary32 for a
`15 x 15` output image and the image has been cleared. -/
def rgbScene15 : RefRenderer :=
  ((freshRenderer.allocOutputImage 15 15).loadScene32 libZero CIRCLE_RGB altState).1.clearImage

/-! ## Rounding to the nearest integer -/

theorem roundHalfEven_eq_of_lt (q : ℚ) (m : Int) (h1 : (m : ℚ) - 1 / 2 < q)
    (h2 : q < (m : ℚ) + 1 / 2) : roundHalfEven q = m := by
  unfold roundHalfEven
  by_cases hq : (m : ℚ) ≤ q
  · have hf : ⌊q⌋ = m := by
      rw [Int.floor_eq_iff]
      exact ⟨hq, by linarith⟩
    rw [hf, if_pos (by linarith)]
  · have hf : ⌊q⌋ = m - 1 := by
      rw [Int.floor_eq_iff]
      push_cast
      exact ⟨by linarith, by linarith⟩
    rw [hf]
    push_cast
    rw [if_neg (by linarith), if_pos (by linarith)]
    ring

theorem roundHalfEven_intCast (m : Int) : roundHalfEven (m : ℚ) = m :=
  roundHalfEven_eq_of_lt _ m (by linarith) (by linarith)

theorem roundHalfEven_tie (f : Int) :
    roundHalfEven ((f : ℚ) + 1 / 2) = if f % 2 = 0 then f else f + 1 := by
  unfold roundHalfEven
  have hf : ⌊(f : ℚ) + 1 / 2⌋ = f := by
    rw [Int.floor_eq_iff]
    exact ⟨by linarith, by linarith⟩
  rw [hf, if_neg (by linarith), if_neg (by linarith)]

theorem roundHalfEven_bounds (q : ℚ) :
    ((roundHalfEven q : Int) : ℚ) - 1 / 2 ≤ q ∧ q ≤ ((roundHalfEven q : Int) : ℚ) + 1 / 2 := by
  have h1 := Int.floor_le q
  have h2 := Int.lt_floor_add_one q
  unfold roundHalfEven
  split
  · constructor <;> linarith
  · split
    · push_cast
      constructor <;> linarith
    · split
      · constructor <;> linarith
      · push_cast
        constructor <;> linarith

/-- A value that is not half-way between two integers, or whose rounding is known. -/
theorem roundHalfEven_cases (q : ℚ) :
    (((roundHalfEven q : Int) : ℚ) - 1 / 2 < q ∧ q < ((roundHalfEven q : Int) : ℚ) + 1 / 2) ∨
    ∃ f : Int, q = (f : ℚ) + 1 / 2 := by
  have h1 := Int.floor_le q
  have h2 := Int.lt_floor_add_one q
  by_cases ht : q - (⌊q⌋ : ℚ) = 1 / 2
  · right
    exact ⟨⌊q⌋, by linarith⟩
  · left
    unfold roundHalfEven
    rcases lt_or_gt_of_ne ht with h | h
    · rw [if_pos h]
      constructor <;> linarith
    · rw [if_neg (by linarith), if_pos h]
      push_cast
      constructor <;> linarith

theorem roundHalfEven_neg (q : ℚ) : roundHalfEven (-q) = -roundHalfEven q := by
  rcases roundHalfEven_cases q with ⟨h1, h2⟩ | ⟨f, rfl⟩
  · apply roundHalfEven_eq_of_lt
    · push_cast; linarith
    · push_cast; linarith
  · have e : -((f : ℚ) + 1 / 2) = ((-f - 1 : Int) : ℚ) + 1 / 2 := by push_cast; ring
    rw [e, roundHalfEven_tie, roundHalfEven_tie]
    by_cases hf : f % 2 = 0
    · have : ¬ (-f - 1) % 2 = 0 := by omega
      rw [if_pos hf, if_neg this]
      ring
    · have : (-f - 1) % 2 = 0 := by omega
      rw [if_neg hf, if_pos this]
      ring

theorem roundHalfEven_mono (q r : ℚ) (h : q ≤ r) : roundHalfEven q ≤ roundHalfEven r := by
  by_contra hcon
  have hlt : roundHalfEven r + 1 ≤ roundHalfEven q := by omega
  have hltq : ((roundHalfEven r : Int) : ℚ) + 1 ≤ ((roundHalfEven q : Int) : ℚ) := by
    exact_mod_cast hlt
  obtain ⟨a1, _⟩ := roundHalfEven_bounds q
  obtain ⟨_, b2⟩ := roundHalfEven_bounds r
  have e : q = r := by linarith
  rw [e] at hcon
  exact hcon (le_refl _)

theorem roundHalfEven_abs_le (q : ℚ) (n : Int) (h : |q| ≤ (n : ℚ)) :
    |roundHalfEven q| ≤ n := by
  obtain ⟨h1, h2⟩ := abs_le.mp h
  have a := roundHalfEven_mono _ _ h2
  have b := roundHalfEven_mono _ _ h1
  rw [roundHalfEven_intCast] at a
  have e : (-(n : ℚ)) = ((-n : Int) : ℚ) := by push_cast; ring
  rw [e, roundHalfEven_intCast] at b
  exact abs_le.mpr ⟨b, a⟩

/-! ## Rounding to binary32 -/

theorem log_two_spec (q : ℚ) (hq : q ≠ 0) :
    (2 : ℚ) ^ Int.log 2 |q| ≤ |q| ∧ |q| < (2 : ℚ) ^ (Int.log 2 |q| + 1) := by
  have h1 := @Int.zpow_log_le_self ℚ _ _ 2 |q| (by norm_num) (abs_pos.mpr hq)
  have h2 := @Int.lt_zpow_succ_log_self ℚ _ _ 2 (by norm_num) |q|
  simp only [Nat.cast_ofNat] at h1 h2
  exact ⟨h1, h2⟩

theorem log_two_eq (q : ℚ) (e : Int) (h1 : (2 : ℚ) ^ e ≤ |q|) (h2 : |q| < (2 : ℚ) ^ (e + 1)) :
    Int.log 2 |q| = e := by
  have hpos : (0 : ℚ) < |q| := lt_of_lt_of_le (by positivity) h1
  have a := (@Int.zpow_le_iff_le_log ℚ _ _ 2 (by norm_num) e |q| hpos).mp
    (by simpa only [Nat.cast_ofNat] using h1)
  have b := (@Int.lt_zpow_iff_log_lt ℚ _ _ 2 (by norm_num) (e + 1) |q| hpos).mp
    (by simpa only [Nat.cast_ofNat] using h2)
  omega

theorem log_two_lt (q : ℚ) (e : Int) (hq : q ≠ 0) (h2 : |q| < (2 : ℚ) ^ e) :
    Int.log 2 |q| < e :=
  (@Int.lt_zpow_iff_log_lt ℚ _ _ 2 (by norm_num) e |q| (abs_pos.mpr hq)).mp
    (by simpa only [Nat.cast_ofNat] using h2)

theorem ulpExp_eq (q : ℚ) (e : Int) (he : -126 ≤ e) (h1 : (2 : ℚ) ^ e ≤ |q|)
    (h2 : |q| < (2 : ℚ) ^ (e + 1)) : ulpExp q = e - 23 := by
  unfold ulpExp
  rw [log_two_eq q e h1 h2, max_eq_left he]

theorem ulpExp_ge (q : ℚ) : -149 ≤ ulpExp q := by
  unfold ulpExp
  have := le_max_right (Int.log 2 |q|) (-126)
  omega

theorem ulpExp_neg (q : ℚ) : ulpExp (-q) = ulpExp q := by
  unfold ulpExp
  rw [abs_neg]

/-- The magnitude of `q` is below `2^24` spacings. -/
theorem abs_lt_ulp (q : ℚ) : |q| < (2 : ℚ) ^ (ulpExp q + 24) := by
  by_cases hq : q = 0
  · subst hq
    rw [abs_zero]
    positivity
  · obtain ⟨_, h2⟩ := log_two_spec q hq
    refine lt_of_lt_of_le h2 ?_
    apply zpow_le_zpow_right₀ (by norm_num)
    unfold ulpExp
    have := le_max_left (Int.log 2 |q|) (-126)
    omega

/-- Above the subnormal range the magnitude of `q` is at least `2^23` spacings. -/
theorem ulp_le_abs (q : ℚ) (hq : q ≠ 0) (h : -149 < ulpExp q) :
    (2 : ℚ) ^ (ulpExp q + 23) ≤ |q| := by
  obtain ⟨h1, _⟩ := log_two_spec q hq
  have e : ulpExp q + 23 = Int.log 2 |q| := by
    unfold ulpExp at h ⊢
    rcases max_cases (Int.log 2 |q|) (-126) with ⟨h3, _⟩ | ⟨h3, _⟩
    · rw [h3]; ring
    · rw [h3] at h; omega
  rw [e]
  exact h1

theorem div_zpow_mul (q : ℚ) (k : Int) : q / 2 ^ k * 2 ^ k = q :=
  div_mul_cancel₀ q (by positivity)

theorem fl_eval (q : ℚ) (k m : Int) (hk : ulpExp q = k)
    (h1 : (m : ℚ) - 1 / 2 < q / 2 ^ k) (h2 : q / 2 ^ k < (m : ℚ) + 1 / 2)
    (hr1 : -(2 ^ 128) ≤ (m : ℚ) * 2 ^ k) (hr2 : (m : ℚ) * 2 ^ k ≤ 2 ^ 128) :
    fl q = (m : ℚ) * 2 ^ k := by
  unfold fl roundToUlp
  rw [hk, roundHalfEven_eq_of_lt _ m h1 h2, min_eq_left hr2, max_eq_right hr1]

theorem fl_zero : fl 0 = 0 := by
  unfold fl roundToUlp
  rw [zero_div, show roundHalfEven 0 = 0 from roundHalfEven_intCast 0]
  norm_num

theorem clamp_neg (x A : ℚ) (hA : 0 ≤ A) : max (-A) (min (-x) A) = -max (-A) (min x A) := by
  rcases le_total x A with h1 | h1
  · rcases le_total (-A) x with h2 | h2
    · have e1 : min (-x) A = -x := min_eq_left (by linarith)
      have e2 : min x A = x := min_eq_left h1
      rw [e1, e2, max_eq_right (by linarith), max_eq_right h2]
    · have e1 : min (-x) A = A := min_eq_right (by linarith)
      have e2 : min x A = x := min_eq_left h1
      rw [e1, e2, max_eq_right (by linarith), max_eq_left h2]
      ring
  · have e1 : min (-x) A = -x := min_eq_left (by linarith)
    have e2 : min x A = A := min_eq_right h1
    rw [e1, e2, max_eq_left (by linarith), max_eq_right (by linarith)]

theorem roundToUlp_neg (q : ℚ) : roundToUlp (-q) = -roundToUlp q := by
  unfold roundToUlp
  rw [ulpExp_neg, neg_div, roundHalfEven_neg]
  push_cast
  rw [neg_mul]

theorem fl_neg (q : ℚ) : fl (-q) = -fl q := by
  unfold fl
  rw [roundToUlp_neg]
  exact clamp_neg _ _ (by positivity)

theorem ulpExp_mono (a b : ℚ) (ha : 0 < a) (h : a ≤ b) : ulpExp a ≤ ulpExp b := by
  unfold ulpExp
  have hb : 0 < b := lt_of_lt_of_le ha h
  have := @Int.log_mono_right ℚ _ _ 2 |a| |b| (abs_pos.mpr ha.ne')
    (by rw [abs_of_pos ha, abs_of_pos hb]; exact h)
  have := max_le_max_right (-126) this
  omega

theorem roundToUlp_nonneg (q : ℚ) (h : 0 ≤ q) : 0 ≤ roundToUlp q := by
  unfold roundToUlp
  have h1 : (0 : ℚ) ≤ q / 2 ^ ulpExp q := div_nonneg h (by positivity)
  have h2 := roundHalfEven_mono _ _ h1
  rw [show roundHalfEven 0 = 0 from roundHalfEven_intCast 0] at h2
  have h3 : (0 : ℚ) ≤ ((roundHalfEven (q / 2 ^ ulpExp q) : Int) : ℚ) := by exact_mod_cast h2
  positivity

theorem roundToUlp_le (q : ℚ) : roundToUlp q ≤ (2 : ℚ) ^ (ulpExp q + 24) := by
  unfold roundToUlp
  have h1 : q / 2 ^ ulpExp q ≤ ((2 ^ 24 : Int) : ℚ) := by
    rw [div_le_iff₀ (by positivity)]
    push_cast
    have h := abs_lt_ulp q
    rw [zpow_add₀ (by norm_num), mul_comm] at h
    exact le_trans (le_abs_self q) (by norm_num at h ⊢; linarith)
  have h2 := roundHalfEven_mono _ _ h1
  rw [roundHalfEven_intCast] at h2
  have h3 : ((roundHalfEven (q / 2 ^ ulpExp q) : Int) : ℚ) ≤ ((2 ^ 24 : Int) : ℚ) := by
    exact_mod_cast h2
  rw [zpow_add₀ (by norm_num), mul_comm ((2 : ℚ) ^ ulpExp q)]
  push_cast at h3
  exact mul_le_mul_of_nonneg_right (by norm_num at h3 ⊢; linarith) (by positivity)

theorem le_roundToUlp (q : ℚ) (hq : 0 < q) (h : -149 < ulpExp q) :
    (2 : ℚ) ^ (ulpExp q + 23) ≤ roundToUlp q := by
  unfold roundToUlp
  have hb := ulp_le_abs q hq.ne' h
  rw [abs_of_pos hq] at hb
  have h1 : ((2 ^ 23 : Int) : ℚ) ≤ q / 2 ^ ulpExp q := by
    rw [le_div_iff₀ (by positivity)]
    push_cast
    rw [zpow_add₀ (by norm_num), mul_comm] at hb
    norm_num at hb ⊢
    linarith
  have h2 := roundHalfEven_mono _ _ h1
  rw [roundHalfEven_intCast] at h2
  have h3 : ((2 ^ 23 : Int) : ℚ) ≤ ((roundHalfEven (q / 2 ^ ulpExp q) : Int) : ℚ) := by
    exact_mod_cast h2
  rw [zpow_add₀ (by norm_num), mul_comm ((2 : ℚ) ^ ulpExp q)]
  push_cast at h3
  exact mul_le_mul_of_nonneg_right (by norm_num at h3 ⊢; linarith) (by positivity)

theorem roundToUlp_mono_pos (a b : ℚ) (ha : 0 < a) (h : a ≤ b) : roundToUlp a ≤ roundToUlp b := by
  have hb : 0 < b := lt_of_lt_of_le ha h
  rcases (ulpExp_mono a b ha h).eq_or_lt with he | hlt
  · unfold roundToUlp
    rw [he]
    have h1 : a / 2 ^ ulpExp b ≤ b / 2 ^ ulpExp b :=
      div_le_div_of_nonneg_right h (by positivity)
    have h2 := roundHalfEven_mono _ _ h1
    have h3 : ((roundHalfEven (a / 2 ^ ulpExp b) : Int) : ℚ) ≤
        ((roundHalfEven (b / 2 ^ ulpExp b) : Int) : ℚ) := by exact_mod_cast h2
    exact mul_le_mul_of_nonneg_right h3 (by positivity)
  · have h1 := roundToUlp_le a
    have h2 := le_roundToUlp b hb (by have := ulpExp_ge a; omega)
    have h3 : (2 : ℚ) ^ (ulpExp a + 24) ≤ 2 ^ (ulpExp b + 23) :=
      zpow_le_zpow_right₀ (by norm_num) (by omega)
    linarith

theorem roundToUlp_zero : roundToUlp 0 = 0 := by
  unfold roundToUlp
  rw [zero_div, show roundHalfEven 0 = 0 from roundHalfEven_intCast 0]
  norm_num

theorem roundToUlp_mono (a b : ℚ) (h : a ≤ b) : roundToUlp a ≤ roundToUlp b := by
  rcases lt_trichotomy a 0 with ha | ha | ha
  · rcases lt_trichotomy b 0 with hb | hb | hb
    · have := roundToUlp_mono_pos (-b) (-a) (by linarith) (by linarith)
      rw [roundToUlp_neg, roundToUlp_neg] at this
      linarith
    · subst hb
      have := roundToUlp_nonneg (-a) (by linarith)
      rw [roundToUlp_neg] at this
      rw [roundToUlp_zero]
      linarith
    · have h1 := roundToUlp_nonneg (-a) (by linarith)
      rw [roundToUlp_neg] at h1
      have h2 := roundToUlp_nonneg b hb.le
      linarith
  · subst ha
    rw [roundToUlp_zero]
    exact roundToUlp_nonneg b h
  · exact roundToUlp_mono_pos a b ha h

/-- Rounding to binary32 is monotone. -/
theorem fl_mono (a b : ℚ) (h : a ≤ b) : fl a ≤ fl b := by
  unfold fl
  exact max_le_max (le_refl _) (min_le_min (roundToUlp_mono a b h) (le_refl _))

theorem fl_nonneg (q : ℚ) (h : 0 ≤ q) : 0 ≤ fl q := by
  have := fl_mono 0 q h
  rwa [fl_zero] at this

theorem fl_nonpos (q : ℚ) (h : q ≤ 0) : fl q ≤ 0 := by
  have := fl_mono q 0 h
  rwa [fl_zero] at this

/-! ## Binary32 numbers -/

theorem zpow_natCast_int (n : Nat) : (2 : ℚ) ^ (n : Int) = (((2 : Int) ^ n : Int) : ℚ) := by
  rw [zpow_natCast]
  push_cast
  rfl

/-- A multiple `m * 2^k` of a power of two with `|m| < 2^24` and `-149 <= k <= 104` is a
binary32 number. -/
theorem fl_of_dyadic (m k : Int) (hm : |m| < 2 ^ 24) (hk1 : -149 ≤ k) (hk2 : k ≤ 104) :
    fl ((m : ℚ) * 2 ^ k) = (m : ℚ) * 2 ^ k := by
  by_cases hm0 : m = 0
  · subst hm0
    simp [fl_zero]
  have hq : (m : ℚ) * 2 ^ k ≠ 0 := by
    apply mul_ne_zero
    · exact_mod_cast hm0
    · positivity
  have hmq : |(m : ℚ)| < 2 ^ 24 := by
    have : ((|m| : Int) : ℚ) < ((2 ^ 24 : Int) : ℚ) := by exact_mod_cast hm
    simpa using this
  have habs : |(m : ℚ) * 2 ^ k| < (2 : ℚ) ^ (k + 24) := by
    rw [abs_mul, abs_of_pos (show (0 : ℚ) < 2 ^ k by positivity), zpow_add₀ (by norm_num),
      mul_comm]
    exact mul_lt_mul_of_pos_left (by norm_num at hmq ⊢; exact hmq) (by positivity)
  have hlog := log_two_lt _ _ hq habs
  have hj : ulpExp ((m : ℚ) * 2 ^ k) ≤ k := by
    unfold ulpExp
    have := max_le (show Int.log 2 |(m : ℚ) * 2 ^ k| ≤ k + 23 by omega)
      (show (-126 : Int) ≤ k + 23 by omega)
    omega
  obtain ⟨n, hn⟩ := Int.eq_ofNat_of_zero_le (show 0 ≤ k - ulpExp ((m : ℚ) * 2 ^ k) by omega)
  have hdiv : (m : ℚ) * 2 ^ k / 2 ^ ulpExp ((m : ℚ) * 2 ^ k) = ((m * 2 ^ n : Int) : ℚ) := by
    rw [mul_div_assoc, ← zpow_sub₀ (by norm_num), hn, zpow_natCast_int]
    push_cast
    ring
  have hval : ((m * 2 ^ n : Int) : ℚ) * 2 ^ ulpExp ((m : ℚ) * 2 ^ k) = (m : ℚ) * 2 ^ k := by
    rw [← hdiv]
    exact div_zpow_mul _ _
  have hbig : |(m : ℚ) * 2 ^ k| ≤ 2 ^ 128 := by
    refine le_trans habs.le ?_
    have : (2 : ℚ) ^ (k + 24) ≤ 2 ^ ((128 : Nat) : Int) :=
      zpow_le_zpow_right₀ (by norm_num) (by omega)
    rw [zpow_natCast] at this
    exact this
  obtain ⟨b1, b2⟩ := abs_le.mp hbig
  unfold fl roundToUlp
  rw [hdiv, roundHalfEven_intCast, hval, min_eq_left b2, max_eq_right b1]

theorem fl_two_pow_128 : fl (2 ^ 128) = 2 ^ 128 := by
  have hk : ulpExp (2 ^ 128 : ℚ) = 105 := by
    rw [ulpExp_eq (2 ^ 128) 128 (by norm_num) (by norm_num) (by norm_num)]
    norm_num
  have := fl_eval (2 ^ 128) 105 (2 ^ 23) hk (by norm_num) (by norm_num) (by norm_num)
    (by norm_num)
  rw [this]
  norm_num

theorem isF32_dyadic (m k : Int) (hm : |m| < 2 ^ 24) (hk1 : -149 ≤ k) (hk2 : k ≤ 104) :
    IsF32 ((m : ℚ) * 2 ^ k) :=
  fl_of_dyadic m k hm hk1 hk2

theorem isF32_zero : IsF32 0 := fl_zero

theorem isF32_neg (q : ℚ) (h : IsF32 q) : IsF32 (-q) := by
  unfold IsF32 at h ⊢
  rw [fl_neg, h]

/-- The result of a rounding is a binary32 number: rounding it again changes nothing. -/
theorem fl_fl (q : ℚ) : fl (fl q) = fl q := by
  have hinf : fl (-(2 ^ 128)) = -(2 ^ 128) := by rw [fl_neg, fl_two_pow_128]
  have hlt := abs_lt_ulp q
  have hn : |roundHalfEven (q / 2 ^ ulpExp q)| ≤ 2 ^ 24 := by
    apply roundHalfEven_abs_le
    rw [abs_div, abs_of_pos (show (0 : ℚ) < 2 ^ ulpExp q by positivity),
      div_le_iff₀ (by positivity)]
    rw [zpow_add₀ (by norm_num), mul_comm] at hlt
    push_cast
    norm_num at hlt ⊢
    linarith
  have hraw : roundToUlp q = ((roundHalfEven (q / 2 ^ ulpExp q) : Int) : ℚ) * 2 ^ ulpExp q := rfl
  -- the rounded value either saturates or is a multiple of a power of two
  by_cases hsat : (2 : ℚ) ^ 128 ≤ roundToUlp q
  · have : fl q = 2 ^ 128 := by
      unfold fl
      rw [min_eq_right hsat]
      exact max_eq_right (by norm_num)
    rw [this, fl_two_pow_128]
  by_cases hsat2 : roundToUlp q ≤ -(2 ^ 128)
  · have : fl q = -(2 ^ 128) := by
      unfold fl
      rw [min_eq_left (le_trans hsat2 (by norm_num))]
      exact max_eq_left hsat2
    rw [this, hinf]
  have hfl : fl q = roundToUlp q := by
    unfold fl
    rw [min_eq_left (not_le.mp hsat).le, max_eq_right (not_le.mp hsat2).le]
  rw [hfl]
  have hj := ulpExp_ge q
  rcases (abs_le.mp hn) with ⟨n1, n2⟩
  have hpow : (0 : ℚ) < 2 ^ ulpExp q := by positivity
  by_cases htop : |roundHalfEven (q / 2 ^ ulpExp q)| = 2 ^ 24
  · -- the mantissa reached 2^24: the value is a power of two
    have hj2 : ulpExp q ≤ 103 := by
      by_contra hc
      have h104 : (2 : ℚ) ^ (104 : Int) ≤ 2 ^ ulpExp q :=
        zpow_le_zpow_right₀ (by norm_num) (by omega)
      rcases abs_eq (show (0 : Int) ≤ 2 ^ 24 by norm_num) |>.mp htop with h | h
      · apply hsat
        rw [hraw, h]
        push_cast
        have : (2 : ℚ) ^ 24 * 2 ^ (104 : Int) ≤ 2 ^ 24 * 2 ^ ulpExp q :=
          mul_le_mul_of_nonneg_left h104 (by norm_num)
        norm_num at this ⊢
        linarith
      · apply hsat2
        rw [hraw, h]
        push_cast
        have : (2 : ℚ) ^ 24 * 2 ^ (104 : Int) ≤ 2 ^ 24 * 2 ^ ulpExp q :=
          mul_le_mul_of_nonneg_left h104 (by norm_num)
        norm_num at this ⊢
        linarith
    rcases abs_eq (show (0 : Int) ≤ 2 ^ 24 by norm_num) |>.mp htop with h | h
    · have e : roundToUlp q = ((2 ^ 23 : Int) : ℚ) * 2 ^ (ulpExp q + 1) := by
        rw [hraw, h, zpow_add₀ (by norm_num)]
        push_cast
        ring
      rw [e]
      exact fl_of_dyadic _ _ (by norm_num) (by omega) (by omega)
    · have e : roundToUlp q = ((-2 ^ 23 : Int) : ℚ) * 2 ^ (ulpExp q + 1) := by
        rw [hraw, h, zpow_add₀ (by norm_num)]
        push_cast
        ring
      rw [e]
      exact fl_of_dyadic _ _ (by norm_num) (by omega) (by omega)
  · have hlt24 : |roundHalfEven (q / 2 ^ ulpExp q)| < 2 ^ 24 := lt_of_le_of_ne hn htop
    by_cases hj2 : ulpExp q ≤ 104
    · rw [hraw]
      exact fl_of_dyadic _ _ hlt24 hj hj2
    · -- spacing above 2^104: the value is zero or saturates
      exfalso
      have hq0 : q ≠ 0 := by
        rintro rfl
        unfold ulpExp at hj2
        rw [abs_zero, Int.log_zero_right] at hj2
        simp at hj2
      have hge := ulp_le_abs q hq0 (by omega)
      have h105 : (2 : ℚ) ^ (105 : Int) ≤ 2 ^ ulpExp q :=
        zpow_le_zpow_right₀ (by norm_num) (by omega)
      rcases lt_or_gt_of_ne hq0 with hneg | hpos
      · have h1 := le_roundToUlp (-q) (by linarith) (by rw [ulpExp_neg]; omega)
        rw [roundToUlp_neg, ulpExp_neg, zpow_add₀ (by norm_num)] at h1
        apply hsat2
        have : (2 : ℚ) ^ (105 : Int) * 2 ^ (23 : Int) ≤ 2 ^ ulpExp q * 2 ^ (23 : Int) :=
          mul_le_mul_of_nonneg_right h105 (by norm_num)
        norm_num at this h1 ⊢
        linarith
      · have h1 := le_roundToUlp q hpos (by omega)
        rw [zpow_add₀ (by norm_num)] at h1
        apply hsat
        have : (2 : ℚ) ^ (105 : Int) * 2 ^ (23 : Int) ≤ 2 ^ ulpExp q * 2 ^ (23 : Int) :=
          mul_le_mul_of_nonneg_right h105 (by norm_num)
        norm_num at this h1 ⊢
        linarith

theorem isF32_fl (q : ℚ) : IsF32 (fl q) := fl_fl q

/-! ## Evaluation of roundings -/

/-- The rounding of a positive number in the binade `[2^e, 2^(e+1))` whose quotient by the
spacing is nearer to `m` than to any other integer. -/
theorem fl_eq_pos (q : ℚ) (e m : Int) (he : -126 ≤ e) (h1 : (2 : ℚ) ^ e ≤ q)
    (h2 : q < (2 : ℚ) ^ (e + 1))
    (hm1 : (m : ℚ) - 1 / 2 < q / 2 ^ (e - 23)) (hm2 : q / 2 ^ (e - 23) < (m : ℚ) + 1 / 2)
    (hr1 : -(2 ^ 128) ≤ (m : ℚ) * 2 ^ (e - 23)) (hr2 : (m : ℚ) * 2 ^ (e - 23) ≤ 2 ^ 128) :
    fl q = (m : ℚ) * 2 ^ (e - 23) := by
  have hq : 0 < q := lt_of_lt_of_le (zpow_pos (by norm_num) e) h1
  have ha : |q| = q := abs_of_pos hq
  exact fl_eval q (e - 23) m (ulpExp_eq q e he (by rw [ha]; exact h1) (by rw [ha]; exact h2))
    hm1 hm2 hr1 hr2

/-- The rounding of a positive number in the binade `[2^e, 2^(e+1))` that lies half way
between two neighbours: the one with the even multiple of the spacing is taken. -/
theorem fl_eq_tie (q : ℚ) (e f : Int) (he : -126 ≤ e) (h1 : (2 : ℚ) ^ e ≤ q)
    (h2 : q < (2 : ℚ) ^ (e + 1)) (hq : q / 2 ^ (e - 23) = (f : ℚ) + 1 / 2)
    (hr1 : -(2 ^ 128) ≤ (((if f % 2 = 0 then f else f + 1 : Int) : ℚ)) * 2 ^ (e - 23))
    (hr2 : (((if f % 2 = 0 then f else f + 1 : Int) : ℚ)) * 2 ^ (e - 23) ≤ 2 ^ 128) :
    fl q = (((if f % 2 = 0 then f else f + 1 : Int) : ℚ)) * 2 ^ (e - 23) := by
  have hq0 : 0 < q := lt_of_lt_of_le (zpow_pos (by norm_num) e) h1
  have ha : |q| = q := abs_of_pos hq0
  have hk := ulpExp_eq q e he (by rw [ha]; exact h1) (by rw [ha]; exact h2)
  unfold fl roundToUlp
  rw [hk, hq, roundHalfEven_tie, min_eq_left hr2, max_eq_right hr1]

/-- The constant `0.1f`. -/
theorem fl_tenth : fl (1 / 10) = 13421773 / 134217728 := by
  rw [fl_eq_pos (1 / 10) (-4) 13421773 (by norm_num) (by norm_num) (by norm_num)
    (by norm_num) (by norm_num) (by norm_num) (by norm_num)]
  norm_num

theorem fl_one : fl 1 = 1 := by
  have h := fl_of_dyadic 1 0 (by norm_num) (by norm_num) (by norm_num)
  simpa using h

theorem fl_sub_self (a : ℚ) : fl (a - a) = 0 := by
  rw [sub_self, fl_zero]

/-! ## Buffer lemmas -/

theorem length_storeAt (d : List ℚ) (i : Int) (v : ℚ) : (storeAt d i v).length = d.length := by
  unfold storeAt; split <;> simp

theorem loadAt_storeAt (d : List ℚ) (i j : Int) (v : ℚ) :
    loadAt (storeAt d i v) j = if i = j ∧ 0 ≤ i ∧ i < (d.length : Int) then v else loadAt d j := by
  unfold loadAt storeAt
  by_cases hi : 0 ≤ i
  · by_cases hj : 0 ≤ j
    · simp only [hi, hj, if_true, true_and]
      rw [List.getD_eq_getElem?_getD, List.getD_eq_getElem?_getD, List.getElem?_set]
      by_cases hij : i = j
      · subst hij
        by_cases hlt : i < (d.length : Int)
        · have : i.toNat < d.length := by omega
          simp [hlt, this]
        · have : ¬ i.toNat < d.length := by omega
          have h2 : d.length ≤ i.toNat := by omega
          simp [hlt, this, List.getElem?_eq_none h2]
      · have : i.toNat ≠ j.toNat := by omega
        simp [hij, this]
    · have : i ≠ j := by omega
      simp [hi, hj, this]
  · simp [hi]

theorem loadAt_storeAt_ne (d : List ℚ) (i j : Int) (v : ℚ) (h : i ≠ j) :
    loadAt (storeAt d i v) j = loadAt d j := by
  rw [loadAt_storeAt]; simp [h]

theorem loadAt_storeAt_same (d : List ℚ) (i : Int) (v : ℚ) (h0 : 0 ≤ i)
    (h1 : i < (d.length : Int)) : loadAt (storeAt d i v) i = v := by
  rw [loadAt_storeAt]; simp [h0, h1]

/-! ## One pixel -/

theorem length_shadePixel (r : RefRenderer) (ci : Int) (pcx pcy px py pz : ℚ) (d : List ℚ)
    (p : Int) : (r.shadePixel ci pcx pcy px py pz d p).length = d.length := by
  unfold RefRenderer.shadePixel
  simp only
  split
  · rfl
  · simp [length_storeAt]

/-- Outside the four values of its pixel `shadePixel` changes nothing. -/
theorem loadAt_shadePixel_other (r : RefRenderer) (ci : Int) (pcx pcy px py pz : ℚ)
    (d : List ℚ) (p j : Int) (h : j < p ∨ p + 3 < j) :
    loadAt (r.shadePixel ci pcx pcy px py pz d p) j = loadAt d j := by
  unfold RefRenderer.shadePixel
  simp only
  split
  · rfl
  · rw [loadAt_storeAt_ne _ _ _ _ (by omega), loadAt_storeAt_ne _ _ _ _ (by omega),
      loadAt_storeAt_ne _ _ _ _ (by omega), loadAt_storeAt_ne _ _ _ _ (by omega)]

/-- On the four values of its pixel `shadePixel` blends when the distance test
passes and changes nothing otherwise. -/
theorem loadAt_shadePixel_at (r : RefRenderer) (ci : Int) (pcx pcy px py pz : ℚ)
    (d : List ℚ) (p k : Int) (hp : 0 ≤ p) (hlen : p + 3 < (d.length : Int))
    (hk0 : 0 ≤ k) (hk3 : k ≤ 3) :
    loadAt (r.shadePixel ci pcx pcy px py pz d p) (p + k) =
      if (px - pcx) * (px - pcx) + (py - pcy) * (py - pcy) ≤
          loadAt r.radius ci * loadAt r.radius ci
      then blendChannel (r.circleAt ci) k (loadAt d (p + k)) else loadAt d (p + k) := by
  unfold RefRenderer.shadePixel
  simp only
  by_cases hc : (px - pcx) * (px - pcx) + (py - pcy) * (py - pcy) ≤
      loadAt r.radius ci * loadAt r.radius ci
  · rw [if_neg (not_lt.mpr hc), if_pos hc]
    have hk : k = 0 ∨ k = 1 ∨ k = 2 ∨ k = 3 := by omega
    rcases hk with rfl | rfl | rfl | rfl
    · rw [loadAt_storeAt_ne _ _ _ _ (by omega), loadAt_storeAt_ne _ _ _ _ (by omega),
        loadAt_storeAt_ne _ _ _ _ (by omega), add_zero,
        loadAt_storeAt_same _ _ _ hp (by omega)]
      simp only [blendChannel, RefRenderer.circleAt]; norm_num
    · rw [loadAt_storeAt_ne _ _ _ _ (by omega), loadAt_storeAt_ne _ _ _ _ (by omega),
        loadAt_storeAt_same _ _ _ (by omega) (by simp [length_storeAt]; omega),
        loadAt_storeAt_ne _ _ _ _ (by omega)]
      simp only [blendChannel, RefRenderer.circleAt]; norm_num
    · rw [loadAt_storeAt_ne _ _ _ _ (by omega),
        loadAt_storeAt_same _ _ _ (by omega) (by simp [length_storeAt]; omega),
        loadAt_storeAt_ne _ _ _ _ (by omega), loadAt_storeAt_ne _ _ _ _ (by omega)]
      simp only [blendChannel, RefRenderer.circleAt]; norm_num
    · rw [loadAt_storeAt_same _ _ _ (by omega) (by simp [length_storeAt]; omega),
        loadAt_storeAt_ne _ _ _ _ (by omega), loadAt_storeAt_ne _ _ _ _ (by omega),
        loadAt_storeAt_ne _ _ _ _ (by omega)]
      simp [blendChannel]
  · rw [if_pos (not_le.mp hc), if_neg hc]

/-! ## Pixel offsets -/

/-- Two different pixels of an image with `W` columns occupy disjoint groups of four
buffer elements. -/
theorem pixel_offset_sep (W x y x' y' k : Int) (hx : 0 ≤ x) (hxW : x < W)
    (hx' : 0 ≤ x') (hxW' : x' < W) (hk0 : 0 ≤ k) (hk3 : k ≤ 3) (hne : ¬ (y' = y ∧ x' = x)) :
    4 * (y' * W + x') + k < 4 * (y * W + x) ∨ 4 * (y * W + x) + 3 < 4 * (y' * W + x') + k := by
  rcases lt_trichotomy y' y with h | h | h
  · have h1 : y' * W + W ≤ y * W := by nlinarith
    left; omega
  · subst h
    have : x' ≠ x := fun h => hne ⟨rfl, h⟩
    omega
  · have h1 : y * W + W ≤ y' * W := by nlinarith
    right; omega

/-! ## One row -/

theorem renderRow_upto (r : RefRenderer) (ci : Int) (px py pz iw ih : ℚ) (lo y : Int)
    (data : List ℚ) (hlo : 0 ≤ lo) (hy : 0 ≤ y)
    (hlen : 4 * (y * r.image.width + r.image.width) ≤ (data.length : Int)) (n : Nat)
    (hn : lo + n ≤ r.image.width) :
    let st := ((List.range n).map (fun (k : Nat) => lo + (k : Int))).foldl
      (fun (st : List ℚ × Int) (pixelX : Int) =>
        let pixelCenterNormX := iw * ((pixelX : ℚ) + 1 / 2)
        let pixelCenterNormY := ih * ((y : ℚ) + 1 / 2)
        (r.shadePixel ci pixelCenterNormX pixelCenterNormY px py pz st.1 st.2, st.2 + 4))
      (data, 4 * (y * r.image.width + lo))
    st.2 = 4 * (y * r.image.width + lo) + 4 * n ∧ st.1.length = data.length ∧
    ∀ x' y' k : Int, 0 ≤ x' → x' < r.image.width → 0 ≤ k → k ≤ 3 →
      loadAt st.1 (4 * (y' * r.image.width + x') + k) =
        if y' = y ∧ lo ≤ x' ∧ x' < lo + n ∧ hitTest px py (loadAt r.radius ci) iw ih x' y
        then blendChannel (r.circleAt ci) k (loadAt data (4 * (y' * r.image.width + x') + k))
        else loadAt data (4 * (y' * r.image.width + x') + k) := by
  induction n with
  | zero =>
    simp only [List.range_zero, List.map_nil, List.foldl_nil, Nat.cast_zero, mul_zero, add_zero,
      true_and]
    intro x' y' k _ _ _ _
    rw [if_neg]; omega
  | succ n ih_n =>
    have hn' : lo + n ≤ r.image.width := by push_cast at hn; omega
    have IH := ih_n hn'
    simp only [List.range_succ, List.map_append, List.foldl_append, List.map_cons, List.map_nil,
      List.foldl_cons, List.foldl_nil] at IH ⊢
    obtain ⟨hptr, hl, hval⟩ := IH
    refine ⟨by rw [hptr]; push_cast; ring, by rw [length_shadePixel, hl], ?_⟩
    intro x' y' k hx0 hxW hk0 hk3
    rw [hptr]
    by_cases hxy : y' = y ∧ x' = lo + n
    · obtain ⟨rfl, rfl⟩ := hxy
      have hidx : 4 * (y' * r.image.width + (lo + ↑n)) + k =
          4 * (y' * r.image.width + lo) + 4 * ↑n + k := by ring
      rw [hidx, loadAt_shadePixel_at _ _ _ _ _ _ _ _ _ _ (by nlinarith) (by rw [hl]; push_cast at hn; nlinarith) hk0 hk3]
      rw [← hidx, hval _ _ _ hx0 hxW hk0 hk3]
      have h1 : ¬ (lo + (n : Int) < lo + n) := lt_irrefl _
      have h2 : lo + (n : Int) < lo + ((n : Int) + 1) := by omega
      simp only [h1, h2, false_and, and_false, if_false, hitTest, true_and, le_add_iff_nonneg_right,
        Nat.cast_nonneg, Nat.cast_succ, lt_add_iff_pos_right, zero_lt_one, Int.cast_add,
        Int.cast_natCast]
    · have hsep := pixel_offset_sep r.image.width (lo + n) y x' y' k (by omega) (by push_cast at hn; omega)
        hx0 hxW hk0 hk3 hxy
      rw [loadAt_shadePixel_other _ _ _ _ _ _ _ _ _ _ (by
        have e : 4 * (y * r.image.width + lo) + 4 * (n : Int) = 4 * (y * r.image.width + (lo + n)) := by ring
        rw [e]; exact hsep)]
      rw [hval _ _ _ hx0 hxW hk0 hk3]
      have hiff : (y' = y ∧ lo ≤ x' ∧ x' < lo + ((n + 1 : Nat) : Int) ∧
          hitTest px py (loadAt r.radius ci) iw ih x' y) ↔
          (y' = y ∧ lo ≤ x' ∧ x' < lo + (n : Int) ∧
          hitTest px py (loadAt r.radius ci) iw ih x' y) := by
        constructor
        · rintro ⟨h1, h2, h3, h4⟩
          refine ⟨h1, h2, ?_, h4⟩
          push_cast at h3
          by_contra hcon
          exact hxy ⟨h1, by omega⟩
        · rintro ⟨h1, h2, h3, h4⟩
          exact ⟨h1, h2, by push_cast; omega, h4⟩
      simp only [hiff]

theorem renderRow_spec (r : RefRenderer) (ci : Int) (px py pz iw ih : ℚ) (lo hi y : Int)
    (data : List ℚ) (hlo : 0 ≤ lo) (hloW : lo ≤ r.image.width) (hhi : hi ≤ r.image.width)
    (hy : 0 ≤ y) (hlen : 4 * (y * r.image.width + r.image.width) ≤ (data.length : Int)) :
    (r.renderRow ci px py pz iw ih lo hi y data).length = data.length ∧
    ∀ x' y' k : Int, 0 ≤ x' → x' < r.image.width → 0 ≤ k → k ≤ 3 →
      loadAt (r.renderRow ci px py pz iw ih lo hi y data) (4 * (y' * r.image.width + x') + k) =
        if y' = y ∧ lo ≤ x' ∧ x' < hi ∧ hitTest px py (loadAt r.radius ci) iw ih x' y
        then blendChannel (r.circleAt ci) k (loadAt data (4 * (y' * r.image.width + x') + k))
        else loadAt data (4 * (y' * r.image.width + x') + k) := by
  have hn : lo + ((hi - lo).toNat : Int) ≤ r.image.width := by omega
  obtain ⟨_, hl, hval⟩ := renderRow_upto r ci px py pz iw ih lo y data hlo hy hlen _ hn
  refine ⟨hl, ?_⟩
  intro x' y' k hx0 hxW hk0 hk3
  have h := hval x' y' k hx0 hxW hk0 hk3
  unfold RefRenderer.renderRow intRange
  simp only at h ⊢
  rw [h]
  have hiff : (lo ≤ x' ∧ x' < lo + ((hi - lo).toNat : Int)) ↔ (lo ≤ x' ∧ x' < hi) := by
    constructor <;> rintro ⟨h1, h2⟩ <;> exact ⟨h1, by omega⟩
  by_cases hy' : y' = y
  · by_cases hh : hitTest px py (loadAt r.radius ci) iw ih x' y
    · by_cases hb : lo ≤ x' ∧ x' < hi
      · have hb' := hiff.mpr hb
        rw [if_pos ⟨hy', hb'.1, hb'.2, hh⟩, if_pos ⟨hy', hb.1, hb.2, hh⟩]
      · have hb' : ¬ (lo ≤ x' ∧ x' < lo + ((hi - lo).toNat : Int)) := fun h => hb (hiff.mp h)
        rw [if_neg (fun h => hb' ⟨h.2.1, h.2.2.1⟩), if_neg (fun h => hb ⟨h.2.1, h.2.2.1⟩)]
    · rw [if_neg (fun h => hh h.2.2.2), if_neg (fun h => hh h.2.2.2)]
  · rw [if_neg (fun h => hy' h.1), if_neg (fun h => hy' h.1)]

/-! ## One circle -/

theorem renderRows_upto (r : RefRenderer) (ci : Int) (px py pz iw ih : ℚ)
    (lo hi ylo : Int) (data : List ℚ) (hlo : 0 ≤ lo) (hloW : lo ≤ r.image.width)
    (hhi : hi ≤ r.image.width)
    (hylo : 0 ≤ ylo) (n : Nat)
    (hlen : 4 * ((ylo + n) * r.image.width) ≤ (data.length : Int)) :
    let d := ((List.range n).map (fun (k : Nat) => ylo + (k : Int))).foldl
      (fun data (pixelY : Int) => r.renderRow ci px py pz iw ih lo hi pixelY data) data
    d.length = data.length ∧
    ∀ x' y' k : Int, 0 ≤ x' → x' < r.image.width → 0 ≤ k → k ≤ 3 →
      loadAt d (4 * (y' * r.image.width + x') + k) =
        if (ylo ≤ y' ∧ y' < ylo + n) ∧ lo ≤ x' ∧ x' < hi ∧
            hitTest px py (loadAt r.radius ci) iw ih x' y'
        then blendChannel (r.circleAt ci) k (loadAt data (4 * (y' * r.image.width + x') + k))
        else loadAt data (4 * (y' * r.image.width + x') + k) := by
  induction n with
  | zero =>
    simp only [List.range_zero, List.map_nil, List.foldl_nil, Nat.cast_zero, add_zero, true_and]
    intro x' y' k _ _ _ _
    rw [if_neg]; omega
  | succ n ih_n =>
    have hlen' : 4 * ((ylo + n) * r.image.width) ≤ (data.length : Int) := by
      push_cast at hlen; nlinarith
    have IH := ih_n hlen'
    simp only [List.range_succ, List.map_append, List.foldl_append, List.map_cons, List.map_nil,
      List.foldl_cons, List.foldl_nil] at IH ⊢
    obtain ⟨hl, hval⟩ := IH
    have hrow := renderRow_spec r ci px py pz iw ih lo hi (ylo + n)
      (((List.range n).map (fun (k : Nat) => ylo + (k : Int))).foldl
        (fun data (pixelY : Int) => r.renderRow ci px py pz iw ih lo hi pixelY data) data)
      hlo hloW hhi (by omega) (by rw [hl]; push_cast at hlen; nlinarith)
    obtain ⟨hl2, hval2⟩ := hrow
    refine ⟨by rw [hl2, hl], ?_⟩
    intro x' y' k hx0 hxW hk0 hk3
    rw [hval2 x' y' k hx0 hxW hk0 hk3, hval x' y' k hx0 hxW hk0 hk3]
    by_cases hy' : y' = ylo + n
    · subst hy'
      have h1 : ¬ (ylo + (n : Int) < ylo + n) := lt_irrefl _
      have h2 : ylo ≤ ylo + (n : Int) ∧ ylo + (n : Int) < ylo + ((n + 1 : Nat) : Int) := by
        push_cast; omega
      simp only [h1, h2, and_false, false_and, if_false, true_and]
    · have hiff : (ylo ≤ y' ∧ y' < ylo + ((n + 1 : Nat) : Int)) ↔ (ylo ≤ y' ∧ y' < ylo + n) := by
        constructor <;> rintro ⟨h1, h2⟩ <;> refine ⟨h1, ?_⟩
        · push_cast at h2; omega
        · push_cast; omega
      simp only [hy', false_and, if_false, hiff]

theorem CLAMP_bounds (x size : Int) (h : 0 ≤ size) :
    0 ≤ CLAMP x 0 size ∧ CLAMP x 0 size ≤ size := by
  unfold CLAMP
  constructor
  · exact le_max_left _ _
  · exact max_le h (min_le_right _ _)

/-- Effect of compositing one circle on every pixel of the buffer: a pixel inside the
bounding box that passes the distance test is blended once, every other pixel keeps
its value. -/
theorem renderCircle_spec (r : RefRenderer) (ci : Int) (data : List ℚ)
    (hW : 0 ≤ r.image.width) (hH : 0 ≤ r.image.height)
    (hlen : 4 * r.image.width * r.image.height ≤ (data.length : Int)) :
    (r.renderCircle ci data).length = data.length ∧
    ∀ x y k : Int, 0 ≤ x → x < r.image.width → 0 ≤ k → k ≤ 3 →
      loadAt (r.renderCircle ci data) (4 * (y * r.image.width + x) + k) =
        if (r.circleAt ci).inBox r.image.width r.image.height x y ∧
            hitTest (r.circleAt ci).x (r.circleAt ci).y (r.circleAt ci).radius
              (1 / (r.image.width : ℚ)) (1 / (r.image.height : ℚ)) x y
        then blendChannel (r.circleAt ci) k (loadAt data (4 * (y * r.image.width + x) + k))
        else loadAt data (4 * (y * r.image.width + x) + k) := by
  have hx1 := CLAMP_bounds (static_cast_int ((loadAt r.position (3 * ci) - loadAt r.radius ci) *
    (r.image.width : ℚ))) r.image.width hW
  have hx2 := CLAMP_bounds (static_cast_int ((loadAt r.position (3 * ci) + loadAt r.radius ci) *
    (r.image.width : ℚ)) + 1) r.image.width hW
  have hy1 := CLAMP_bounds (static_cast_int ((loadAt r.position (3 * ci + 1) - loadAt r.radius ci) *
    (r.image.height : ℚ))) r.image.height hH
  have hy2 := CLAMP_bounds (static_cast_int ((loadAt r.position (3 * ci + 1) + loadAt r.radius ci) *
    (r.image.height : ℚ)) + 1) r.image.height hH
  have key := renderRows_upto r ci (loadAt r.position (3 * ci)) (loadAt r.position (3 * ci + 1))
    (loadAt r.position (3 * ci + 2)) (1 / (r.image.width : ℚ)) (1 / (r.image.height : ℚ))
    (screenMin (loadAt r.position (3 * ci) - loadAt r.radius ci) r.image.width)
    (screenMax (loadAt r.position (3 * ci) + loadAt r.radius ci) r.image.width)
    (screenMin (loadAt r.position (3 * ci + 1) - loadAt r.radius ci) r.image.height) data
    hx1.1 hx1.2 hx2.2 hy1.1
    ((screenMax (loadAt r.position (3 * ci + 1) + loadAt r.radius ci) r.image.height -
      screenMin (loadAt r.position (3 * ci + 1) - loadAt r.radius ci) r.image.height).toNat)
    (by
      have h1 : screenMin (loadAt r.position (3 * ci + 1) - loadAt r.radius ci) r.image.height +
          ((screenMax (loadAt r.position (3 * ci + 1) + loadAt r.radius ci) r.image.height -
          screenMin (loadAt r.position (3 * ci + 1) - loadAt r.radius ci) r.image.height).toNat : Int)
          ≤ r.image.height := by
        have := hy1.2; have := hy2.2
        unfold screenMin screenMax
        omega
      have h2 := mul_le_mul_of_nonneg_right h1 hW
      nlinarith)
  obtain ⟨hl, hval⟩ := key
  refine ⟨hl, ?_⟩
  intro x y k hx0 hxW hk0 hk3
  have h := hval x y k hx0 hxW hk0 hk3
  unfold RefRenderer.renderCircle intRange
  simp only at h ⊢
  rw [h]
  have hiff : ∀ a b : Int, (a ≤ y ∧ y < a + ((b - a).toNat : Int)) ↔ (a ≤ y ∧ y < b) := by
    intro a b
    constructor <;> rintro ⟨h1, h2⟩ <;> exact ⟨h1, by omega⟩
  simp only [hiff, SceneCircle.inBox, RefRenderer.circleAt]
  congr 1
  apply propext
  constructor
  · rintro ⟨⟨h1, h2⟩, h3, h4, h5⟩
    exact ⟨⟨h3, h4, h1, h2⟩, h5⟩
  · rintro ⟨⟨h3, h4, h1, h2⟩, h5⟩
    exact ⟨⟨h1, h2⟩, h3, h4, h5⟩

/-! ## Truncation and the bounding box -/

theorem static_cast_int_of_nonneg (q : ℚ) (h : 0 ≤ q) : static_cast_int q = ⌊q⌋ := by
  unfold static_cast_int
  rw [Int.tdiv_eq_ediv (Rat.num_nonneg.mpr h) (by positivity), Rat.floor_def]

theorem static_cast_int_of_neg (q : ℚ) (h : q < 0) : static_cast_int q ≤ 0 := by
  unfold static_cast_int
  have h1 : q.num < 0 := Rat.num_neg.mpr h
  have h2 : (0 : Int) ≤ Int.tdiv (-q.num) q.den := Int.tdiv_nonneg (by omega) (by positivity)
  rw [Int.neg_tdiv] at h2
  omega

/-- The lower bound of the box does not exceed a pixel whose centre is at or beyond
the lower edge. -/
theorem screenMin_le (lo : ℚ) (size x : Int) (hx : 0 ≤ x)
    (h : lo * (size : ℚ) ≤ (x : ℚ) + 1 / 2) : screenMin lo size ≤ x := by
  unfold screenMin CLAMP
  apply max_le hx
  apply le_trans (min_le_left _ _)
  by_cases hq : 0 ≤ lo * (size : ℚ)
  · rw [static_cast_int_of_nonneg _ hq]
    have h1 : ((⌊lo * (size : ℚ)⌋ : Int) : ℚ) ≤ lo * (size : ℚ) := Int.floor_le _
    have h2 : ((⌊lo * (size : ℚ)⌋ : Int) : ℚ) < ((x + 1 : Int) : ℚ) := by
      push_cast; linarith
    have h3 := Int.cast_lt.mp h2
    omega
  · have := static_cast_int_of_neg _ (not_le.mp hq)
    omega

/-- The upper bound of the box exceeds a pixel whose centre is at or before the upper
edge. -/
theorem lt_screenMax (hi : ℚ) (size x : Int) (hx : 0 ≤ x) (hxs : x < size)
    (h : (x : ℚ) + 1 / 2 ≤ hi * (size : ℚ)) : x < screenMax hi size := by
  unfold screenMax CLAMP
  apply lt_max_of_lt_right
  apply lt_min _ hxs
  have hx' : (0 : ℚ) ≤ (x : ℚ) := by exact_mod_cast hx
  have hq : 0 ≤ hi * (size : ℚ) := by linarith
  rw [static_cast_int_of_nonneg _ hq]
  have h1 : x ≤ ⌊hi * (size : ℚ)⌋ := Int.le_floor.mpr (by linarith)
  omega

/-- The distance test computed by the renderer is the geometric one. -/
theorem hitTest_iff_covers (c : SceneCircle) (W H x y : Int) :
    hitTest c.x c.y c.radius (1 / (W : ℚ)) (1 / (H : ℚ)) x y ↔ c.covers W H x y := by
  unfold hitTest SceneCircle.covers
  have e1 : (c.x - 1 / (W : ℚ) * ((x : ℚ) + 1 / 2)) * (c.x - 1 / (W : ℚ) * ((x : ℚ) + 1 / 2)) +
      (c.y - 1 / (H : ℚ) * ((y : ℚ) + 1 / 2)) * (c.y - 1 / (H : ℚ) * ((y : ℚ) + 1 / 2)) =
      (c.x - ((x : ℚ) + 1 / 2) / (W : ℚ)) ^ 2 + (c.y - ((y : ℚ) + 1 / 2) / (H : ℚ)) ^ 2 := by
    ring
  have e2 : c.radius * c.radius = c.radius ^ 2 := by ring
  rw [e1, e2]

/-- A pixel whose centre lies in the disc of a circle of non-negative radius lies in
the bounding box computed for the circle. -/
theorem inBox_of_covers (c : SceneCircle) (W H x y : Int) (hW : 0 < W) (hH : 0 < H)
    (hr : 0 ≤ c.radius) (hx0 : 0 ≤ x) (hxW : x < W) (hy0 : 0 ≤ y) (hyH : y < H)
    (hc : c.covers W H x y) : c.inBox W H x y := by
  unfold SceneCircle.covers at hc
  have hWq : (0 : ℚ) < (W : ℚ) := by exact_mod_cast hW
  have hHq : (0 : ℚ) < (H : ℚ) := by exact_mod_cast hH
  have hsx : (c.x - ((x : ℚ) + 1 / 2) / (W : ℚ)) ^ 2 ≤ c.radius ^ 2 := by
    have := sq_nonneg (c.y - ((y : ℚ) + 1 / 2) / (H : ℚ)); linarith
  have hsy : (c.y - ((y : ℚ) + 1 / 2) / (H : ℚ)) ^ 2 ≤ c.radius ^ 2 := by
    have := sq_nonneg (c.x - ((x : ℚ) + 1 / 2) / (W : ℚ)); linarith
  obtain ⟨hx1, hx2⟩ := abs_le_of_sq_le_sq' hsx hr
  obtain ⟨hy1, hy2⟩ := abs_le_of_sq_le_sq' hsy hr
  have ex : ((x : ℚ) + 1 / 2) / (W : ℚ) * (W : ℚ) = (x : ℚ) + 1 / 2 :=
    div_mul_cancel₀ _ hWq.ne'
  have ey : ((y : ℚ) + 1 / 2) / (H : ℚ) * (H : ℚ) = (y : ℚ) + 1 / 2 :=
    div_mul_cancel₀ _ hHq.ne'
  refine ⟨screenMin_le _ _ _ hx0 ?_, lt_screenMax _ _ _ hx0 hxW ?_,
    screenMin_le _ _ _ hy0 ?_, lt_screenMax _ _ _ hy0 hyH ?_⟩
  · have := mul_le_mul_of_nonneg_right (show c.x - c.radius ≤ ((x : ℚ) + 1 / 2) / (W : ℚ) by linarith) hWq.le
    linarith
  · have := mul_le_mul_of_nonneg_right (show ((x : ℚ) + 1 / 2) / (W : ℚ) ≤ c.x + c.radius by linarith) hWq.le
    linarith
  · have := mul_le_mul_of_nonneg_right (show c.y - c.radius ≤ ((y : ℚ) + 1 / 2) / (H : ℚ) by linarith) hHq.le
    linarith
  · have := mul_le_mul_of_nonneg_right (show ((y : ℚ) + 1 / 2) / (H : ℚ) ≤ c.y + c.radius by linarith) hHq.le
    linarith

/-! ## Renderers holding a circle list -/

theorem loadAt_natCast (d : List ℚ) (i : Nat) : loadAt d (i : Int) = d.getD i 0 := by
  unfold loadAt; simp

theorem getD_flatMap3 (cs : List SceneCircle) (f g h : SceneCircle → ℚ) (i : Nat)
    (hi : i < cs.length) :
    (cs.flatMap (fun c => [f c, g c, h c])).getD (3 * i) 0 = f cs[i] ∧
    (cs.flatMap (fun c => [f c, g c, h c])).getD (3 * i + 1) 0 = g cs[i] ∧
    (cs.flatMap (fun c => [f c, g c, h c])).getD (3 * i + 2) 0 = h cs[i] := by
  induction cs generalizing i with
  | nil => simp at hi
  | cons c cs ih =>
    cases i with
    | zero => simp [List.flatMap_cons]
    | succ i =>
      have hi' : i < cs.length := by simpa using hi
      have e0 : 3 * (i + 1) = (3 * i) + 1 + 1 + 1 := by ring
      have e1 : 3 * (i + 1) + 1 = (3 * i + 1) + 1 + 1 + 1 := by ring
      have e2 : 3 * (i + 1) + 2 = (3 * i + 2) + 1 + 1 + 1 := by ring
      obtain ⟨h0, h1, h2⟩ := ih i hi'
      rw [e1, e2, e0]
      simp only [List.flatMap_cons, List.cons_append, List.nil_append, List.getD_cons_succ,
        List.getElem_cons_succ]
      exact ⟨h0, h1, h2⟩

theorem circleAt_ofCircles (cs : List SceneCircle) (img : Image) (i : Nat) (hi : i < cs.length) :
    (RefRenderer.ofCircles cs img).circleAt (i : Int) = cs[i] := by
  obtain ⟨p0, p1, p2⟩ := getD_flatMap3 cs (fun c => c.x) (fun c => c.y) (fun c => c.depth) i hi
  obtain ⟨c0, c1, c2⟩ := getD_flatMap3 cs (fun c => c.colR) (fun c => c.colG) (fun c => c.colB) i hi
  have e0 : (3 : Int) * (i : Int) = ((3 * i : Nat) : Int) := by push_cast; ring
  have e1 : (3 : Int) * (i : Int) + 1 = ((3 * i + 1 : Nat) : Int) := by push_cast; ring
  have e2 : (3 : Int) * (i : Int) + 2 = ((3 * i + 2 : Nat) : Int) := by push_cast; ring
  unfold RefRenderer.circleAt RefRenderer.ofCircles
  rw [e1, e2, e0]
  simp only [loadAt_natCast]
  rw [p0, p1, p2, c0, c1, c2]
  have hr : (List.map (fun c => c.radius) cs).getD i 0 = cs[i].radius := by
    rw [List.getD_eq_getElem?_getD]
    simp [hi]
  rw [hr]

/-- Compositing one circle reads the renderer's arrays only at that circle's index
and its image only for the dimensions. -/
theorem renderCircle_congr (r r' : RefRenderer) (ci cj : Int) (data : List ℚ)
    (hc : r.circleAt ci = r'.circleAt cj) (hw : r.image.width = r'.image.width)
    (hh : r.image.height = r'.image.height) :
    r.renderCircle ci data = r'.renderCircle cj data := by
  have h := hc
  unfold RefRenderer.circleAt at h
  injection h with h1 h2 h3 h4 h5 h6 h7
  unfold RefRenderer.renderCircle RefRenderer.renderRow RefRenderer.shadePixel
  simp only [h1, h2, h3, h4, h5, h6, h7, hw, hh]

theorem foldl_range_eq_foldl {α β : Type} (l : List α) (g : β → α → β) (h : β → Nat → β)
    (hh : ∀ d i (hi : i < l.length), h d i = g d l[i]) (d : β) :
    (List.range l.length).foldl h d = l.foldl g d := by
  induction l using List.reverseRecOn generalizing d with
  | nil => simp
  | append_singleton l a ih =>
    rw [List.length_append, List.length_singleton, List.range_succ, List.foldl_append,
      List.foldl_append]
    have hpre : (List.range l.length).foldl h d = l.foldl g d := by
      apply ih
      intro d i hi
      rw [hh d i (by simp; omega), List.getElem_append_left hi]
    rw [hpre]
    simp only [List.foldl_cons, List.foldl_nil]
    rw [hh _ l.length (by simp)]
    simp

theorem renderCircles_eq_foldl (cs : List SceneCircle) (img : Image) :
    renderCircles cs img =
      { img with data := cs.foldl (fun d c => compositeOne c img.width img.height d) img.data } := by
  unfold renderCircles RefRenderer.render intRange
  simp only [sub_zero]
  have hn : (RefRenderer.ofCircles cs img).numCircles.toNat = cs.length := by
    simp [RefRenderer.ofCircles]
  have himg : (RefRenderer.ofCircles cs img).image = img := rfl
  rw [hn, himg, List.foldl_map]
  congr 1
  apply foldl_range_eq_foldl
  intro d i hi
  unfold compositeOne
  apply renderCircle_congr
  · rw [zero_add, circleAt_ofCircles cs img i hi]
    have := circleAt_ofCircles [cs[i]] { width := img.width, height := img.height, data := [] } 0 (by simp)
    simpa using this.symm
  · rfl
  · rfl

/-! ## Images after compositing -/

theorem compositeOne_spec (c : SceneCircle) (W H : Int) (data : List ℚ) (hW : 0 ≤ W)
    (hH : 0 ≤ H) (hlen : 4 * W * H ≤ (data.length : Int)) :
    (compositeOne c W H data).length = data.length ∧
    ∀ x y k : Int, 0 ≤ x → x < W → 0 ≤ k → k ≤ 3 →
      loadAt (compositeOne c W H data) (4 * (y * W + x) + k) =
        if c.inBox W H x y ∧ c.covers W H x y
        then blendChannel c k (loadAt data (4 * (y * W + x) + k))
        else loadAt data (4 * (y * W + x) + k) := by
  have hc : (RefRenderer.ofCircles [c] { width := W, height := H, data := [] }).circleAt 0 = c := by
    have := circleAt_ofCircles [c] { width := W, height := H, data := [] } 0 (by simp)
    simpa using this
  have h := renderCircle_spec (RefRenderer.ofCircles [c] { width := W, height := H, data := [] })
    0 data hW hH hlen
  rw [hc] at h
  obtain ⟨hl, hval⟩ := h
  refine ⟨hl, ?_⟩
  intro x y k hx0 hxW hk0 hk3
  have hv := hval x y k hx0 hxW hk0 hk3
  simp only [hitTest_iff_covers] at hv
  exact hv

theorem renderCircles_width (cs : List SceneCircle) (img : Image) :
    (renderCircles cs img).width = img.width := by
  rw [renderCircles_eq_foldl]

theorem renderCircles_height (cs : List SceneCircle) (img : Image) :
    (renderCircles cs img).height = img.height := by
  rw [renderCircles_eq_foldl]

theorem renderCircles_nil (img : Image) : renderCircles [] img = img := by
  rw [renderCircles_eq_foldl]; rfl

theorem renderCircles_append (a b : List SceneCircle) (img : Image) :
    renderCircles (a ++ b) img = renderCircles b (renderCircles a img) := by
  simp only [renderCircles_eq_foldl, List.foldl_append]

theorem renderCircles_cons (c : SceneCircle) (cs : List SceneCircle) (img : Image) :
    renderCircles (c :: cs) img = renderCircles cs (renderCircles [c] img) :=
  renderCircles_append [c] cs img

theorem renderCircles_single_length (c : SceneCircle) (img : Image) (h : img.WF) :
    (renderCircles [c] img).data.length = img.data.length := by
  obtain ⟨hW, hH, hlen⟩ := h
  rw [renderCircles_eq_foldl]
  exact (compositeOne_spec c img.width img.height img.data hW.le hH.le hlen.ge).1

theorem renderCircles_single_WF (c : SceneCircle) (img : Image) (h : img.WF) :
    (renderCircles [c] img).WF := by
  have hl := renderCircles_single_length c img h
  obtain ⟨hW, hH, hlen⟩ := h
  refine ⟨by rw [renderCircles_width]; exact hW, by rw [renderCircles_height]; exact hH, ?_⟩
  rw [renderCircles_width, renderCircles_height, hl]; exact hlen

/-- Every channel of every pixel after compositing one circle. -/
theorem channel_renderCircles_single (c : SceneCircle) (img : Image) (h : img.WF)
    (x y k : Int) (hx0 : 0 ≤ x) (hxW : x < img.width) (hk0 : 0 ≤ k) (hk3 : k ≤ 3) :
    (renderCircles [c] img).channel x y k =
      if c.inBox img.width img.height x y ∧ c.covers img.width img.height x y
      then blendChannel c k (img.channel x y k) else img.channel x y k := by
  obtain ⟨hW, hH, hlen⟩ := h
  unfold Image.channel
  rw [renderCircles_eq_foldl]
  exact (compositeOne_spec c img.width img.height img.data hW.le hH.le hlen.ge).2 x y k hx0 hxW
    hk0 hk3

theorem channel_renderCircles_covered (c : SceneCircle) (img : Image) (h : img.WF)
    (x y k : Int) (hx0 : 0 ≤ x) (hxW : x < img.width) (hy0 : 0 ≤ y) (hyH : y < img.height)
    (hk0 : 0 ≤ k) (hk3 : k ≤ 3) (hr : 0 ≤ c.radius) (hc : c.covers img.width img.height x y) :
    (renderCircles [c] img).channel x y k = blendChannel c k (img.channel x y k) := by
  rw [channel_renderCircles_single c img h x y k hx0 hxW hk0 hk3,
    if_pos ⟨inBox_of_covers c _ _ x y h.1 h.2.1 hr hx0 hxW hy0 hyH hc, hc⟩]

/-- The renderer's own circle list gives back the renderer's rendering. -/
theorem render_image_eq_renderCircles (r : RefRenderer) :
    r.render.image = renderCircles r.circles r.image := by
  rw [renderCircles_eq_foldl]
  unfold RefRenderer.render RefRenderer.circles
  simp only
  congr 1
  unfold intRange
  rw [List.foldl_map, List.map_map, List.foldl_map]
  apply List.foldl_ext
  intro d i _
  unfold compositeOne
  apply renderCircle_congr
  · have := circleAt_ofCircles [r.circleAt (0 + (i : Int))]
      { width := r.image.width, height := r.image.height, data := [] } 0 (by simp)
    simpa using this.symm
  · rfl
  · rfl

/-! ## Cleared images -/

theorem getD_flatten_replicate4 (r g b a : ℚ) (n p : Nat) (hp : p < n) :
    ((List.replicate n [r, g, b, a]).flatten).getD (4 * p) 0 = r ∧
    ((List.replicate n [r, g, b, a]).flatten).getD (4 * p + 1) 0 = g ∧
    ((List.replicate n [r, g, b, a]).flatten).getD (4 * p + 2) 0 = b ∧
    ((List.replicate n [r, g, b, a]).flatten).getD (4 * p + 3) 0 = a := by
  induction n generalizing p with
  | zero => omega
  | succ n ih =>
    cases p with
    | zero => simp [List.replicate_succ]
    | succ p =>
      have e0 : 4 * (p + 1) = (4 * p) + 1 + 1 + 1 + 1 := by ring
      have e1 : 4 * (p + 1) + 1 = (4 * p + 1) + 1 + 1 + 1 + 1 := by ring
      have e2 : 4 * (p + 1) + 2 = (4 * p + 2) + 1 + 1 + 1 + 1 := by ring
      have e3 : 4 * (p + 1) + 3 = (4 * p + 3) + 1 + 1 + 1 + 1 := by ring
      obtain ⟨h0, h1, h2, h3⟩ := ih p (by omega)
      rw [e1, e2, e3, e0]
      simp only [List.replicate_succ, List.flatten_cons, List.cons_append, List.nil_append,
        List.getD_cons_succ]
      exact ⟨h0, h1, h2, h3⟩

theorem length_flatten_replicate4 (r g b a : ℚ) (n : Nat) :
    ((List.replicate n [r, g, b, a]).flatten).length = 4 * n := by
  induction n with
  | zero => simp
  | succ n ih => simp [List.replicate_succ, ih]; ring

theorem clear_WF (img : Image) (r g b a : ℚ) (hW : 0 < img.width) (hH : 0 < img.height) :
    (img.clear r g b a).WF := by
  refine ⟨hW, hH, ?_⟩
  unfold Image.clear
  simp only [length_flatten_replicate4]
  have : 0 ≤ img.width * img.height := by positivity
  push_cast
  rw [Int.toNat_of_nonneg this]; ring

theorem channel_clear (img : Image) (r g b a : ℚ) (x y k : Int) (hx0 : 0 ≤ x)
    (hxW : x < img.width) (hy0 : 0 ≤ y) (hyH : y < img.height) (hk0 : 0 ≤ k) (hk3 : k ≤ 3) :
    (img.clear r g b a).channel x y k =
      if k = 0 then r else if k = 1 then g else if k = 2 then b else a := by
  have hp0 : 0 ≤ y * img.width + x := by nlinarith
  have hp1 : y * img.width + x < img.width * img.height := by nlinarith
  have hp : (y * img.width + x).toNat < (img.width * img.height).toNat := by omega
  obtain ⟨h0, h1, h2, h3⟩ := getD_flatten_replicate4 r g b a _ _ hp
  have e : ∀ j : Nat, 4 * (y * img.width + x) + (j : Int) =
      ((4 * (y * img.width + x).toNat + j : Nat) : Int) := by
    intro j; push_cast; rw [Int.toNat_of_nonneg hp0]
  unfold Image.channel Image.clear
  simp only
  have hk : k = 0 ∨ k = 1 ∨ k = 2 ∨ k = 3 := by omega
  rcases hk with rfl | rfl | rfl | rfl
  · have := e 0; simp only [Nat.cast_zero] at this; rw [this, loadAt_natCast]; simpa using h0
  · have := e 1; simp only [Nat.cast_one] at this; rw [this, loadAt_natCast]; simpa using h1
  · have := e 2; simp only [Nat.cast_ofNat] at this; rw [this, loadAt_natCast]; simpa using h2
  · have := e 3; simp only [Nat.cast_ofNat] at this; rw [this, loadAt_natCast]; simpa using h3

/-! ## Pixels covered by every circle of a list -/

theorem channel_renderCircles_all_covered (cs : List SceneCircle) (img : Image) (h : img.WF)
    (x y k : Int) (hx0 : 0 ≤ x) (hxW : x < img.width) (hy0 : 0 ≤ y) (hyH : y < img.height)
    (hk0 : 0 ≤ k) (hk3 : k ≤ 3)
    (hc : ∀ c ∈ cs, 0 ≤ c.radius ∧ c.covers img.width img.height x y) :
    (renderCircles cs img).channel x y k =
      cs.foldl (fun v c => blendChannel c k v) (img.channel x y k) := by
  induction cs generalizing img with
  | nil => rw [renderCircles_nil]; rfl
  | cons c cs ih =>
    have hc1 := hc c (List.mem_cons_self _ _)
    rw [renderCircles_cons, ih _ (renderCircles_single_WF c img h)
      (by rw [renderCircles_width]; exact hxW) (by rw [renderCircles_height]; exact hyH)
      (by
        intro c' hc'
        rw [renderCircles_width, renderCircles_height]
        exact hc c' (List.mem_cons_of_mem _ hc')),
      channel_renderCircles_covered c img h x y k hx0 hxW hy0 hyH hk0 hk3 hc1.1 hc1.2]
    rfl

/-! ## Scenario A -/

theorem scenarioA_circles (lib : CLib) (g : RandState) (r0 : RefRenderer) :
    (scenarioA lib g r0).circles =
      [⟨4 / 10, 5 / 10, 75 / 100, 3 / 10, 1, 0, 0⟩, ⟨5 / 10, 5 / 10, 5 / 10, 3 / 10, 0, 1, 0⟩,
       ⟨6 / 10, 5 / 10, 25 / 100, 3 / 10, 0, 0, 1⟩] := rfl

theorem scenarioA_image (lib : CLib) (g : RandState) (r0 : RefRenderer) :
    (scenarioA lib g r0).image =
      Image.clear { width := 1024, height := 1024, data := newFloats (4 * 1024 * 1024) }
        1 1 1 1 := rfl

theorem scenarioA_WF (lib : CLib) (g : RandState) (r0 : RefRenderer) :
    (scenarioA lib g r0).image.WF := by
  rw [scenarioA_image]
  exact clear_WF _ 1 1 1 1 (by show (0 : Int) < 1024; norm_num) (by show (0 : Int) < 1024; norm_num)

theorem scenarioA_covers (lib : CLib) (g : RandState) (r0 : RefRenderer) :
    ∀ c ∈ (scenarioA lib g r0).circles, 0 ≤ c.radius ∧ c.covers 1024 1024 512 512 := by
  rw [scenarioA_circles]
  intro c hc
  simp only [List.mem_cons, List.mem_singleton, List.not_mem_nil, or_false] at hc
  rcases hc with rfl | rfl | rfl <;> refine ⟨by norm_num, ?_⟩ <;>
    simp only [SceneCircle.covers] <;> norm_num

theorem scenarioA_channel (lib : CLib) (g : RandState) (r0 : RefRenderer)
    (cs : List SceneCircle) (hcs : ∀ c ∈ cs, 0 ≤ c.radius ∧ c.covers 1024 1024 512 512)
    (k : Int) (hk0 : 0 ≤ k) (hk3 : k ≤ 3) :
    (renderCircles cs (scenarioA lib g r0).image).channel 512 512 k =
      cs.foldl (fun v c => blendChannel c k v) 1 := by
  have hWF := scenarioA_WF lib g r0
  have hw : (scenarioA lib g r0).image.width = 1024 := rfl
  have hh : (scenarioA lib g r0).image.height = 1024 := rfl
  rw [channel_renderCircles_all_covered cs _ hWF 512 512 k (by norm_num) (by rw [hw]; norm_num)
    (by norm_num) (by rw [hh]; norm_num) hk0 hk3 (by rw [hw, hh]; exact hcs)]
  congr 1
  rw [scenarioA_image, channel_clear _ 1 1 1 1 512 512 k (by norm_num)
    (by show (512 : Int) < 1024; norm_num) (by norm_num) (by show (512 : Int) < 1024; norm_num)
    hk0 hk3]
  simp

theorem perm3_cases (a b c : ℚ × ℚ × ℚ) (p : List (ℚ × ℚ × ℚ)) (h : p.Perm [a, b, c]) :
    p = [a, b, c] ∨ p = [a, c, b] ∨ p = [b, a, c] ∨ p = [b, c, a] ∨ p = [c, a, b] ∨
      p = [c, b, a] := by
  have := (List.mem_permutations).mpr h
  simp [List.permutations, List.permutationsAux_cons, List.permutationsAux2] at this
  tauto


/-! ## The comparison loop -/

theorem compareLoop_eq (f : Int → Bool) (l : List Int) (c : Int) (hc : c ≤ 100) :
    l.foldlM (fun (mismatch_count : Int) (i : Int) =>
        let mismatch_count := if f i then mismatch_count + 1 else mismatch_count
        if mismatch_count > 100 then (Except.error 1 : Except Int Int)
        else Except.ok mismatch_count) c =
      if c + (l.countP f : Int) ≤ 100 then Except.ok (c + (l.countP f : Int))
      else Except.error 1 := by
  induction l generalizing c with
  | nil => simp [hc]; rfl
  | cons a l ih =>
    rw [List.foldlM_cons]
    by_cases hf : f a = true
    · simp only [hf, if_true, List.countP_cons_of_pos]
      by_cases h100 : c + 1 > 100
      · rw [if_pos h100]
        have : ¬ (c + ((l.countP f + 1 : Nat) : Int) ≤ 100) := by push_cast; omega
        rw [if_neg this]; rfl
      · rw [if_neg h100]
        have e : c + ((l.countP f + 1 : Nat) : Int) = c + 1 + (l.countP f : Int) := by
          push_cast; ring
        rw [e]
        exact ih (c + 1) (by omega)
    · have hf' : f a = false := by simpa using hf
      simp only [hf', Bool.false_eq_true, if_false]
      rw [List.countP_cons_of_neg _ _ (by simp [hf'])]
      have h100 : ¬ c > 100 := by omega
      rw [if_neg h100]
      exact ih c hc

theorem intRange_zero (n : Int) : intRange 0 n = (List.range n.toNat).map (fun (k : Nat) => (k : Int)) := by
  unfold intRange
  simp

theorem countP_range_four (g : Nat → Bool) (n : Nat) :
    (List.range (4 * n)).countP g =
      ((List.range n).map (fun p => (List.range 4).countP (fun k => g (4 * p + k)))).sum := by
  induction n with
  | zero => simp
  | succ n ih =>
    have e : 4 * (n + 1) = 4 * n + 1 + 1 + 1 + 1 := by ring
    rw [e, List.range_succ, List.range_succ, List.range_succ, List.range_succ,
      List.range_succ n]
    simp only [List.countP_append, List.map_append, List.sum_append, ih, List.map_cons,
      List.map_nil, List.sum_cons, List.sum_nil]
    have e4 : List.range 4 = [0, 1, 2, 3] := by decide
    rw [e4]
    simp only [List.countP_cons, List.countP_nil, add_zero, zero_add]
    ring

/-- The counter of the loop of `compare_images`, without the early exit, is the count
in binary32. -/
theorem countP_mismatchAt (ref cuda : Image) :
    (intRange 0 (4 * ref.width * ref.height)).countP (mismatchAt ref cuda) =
      colourMismatches32 ref cuda := by
  rw [intRange_zero, List.countP_map]
  have e : (4 * ref.width * ref.height).toNat = 4 * (ref.width * ref.height).toNat := by
    rw [mul_assoc]
    rcases le_or_lt 0 (ref.width * ref.height) with h | h
    · omega
    · omega
  rw [e, countP_range_four]
  unfold colourMismatches32
  apply congrArg List.sum
  apply List.map_congr_left
  intro p _
  have e4 : List.range 4 = [0, 1, 2, 3] := by decide
  have e3 : List.range 3 = [0, 1, 2] := by decide
  rw [e4, e3]
  simp only [List.countP_cons, List.countP_nil, Function.comp, mismatchAt, exceeds32]
  push_cast
  have m0 : decide ((4 * (p : Int)) % 4 ≠ 3) = true := decide_eq_true (by omega)
  have m1 : decide ((4 * (p : Int) + 1) % 4 ≠ 3) = true := decide_eq_true (by omega)
  have m2 : decide ((4 * (p : Int) + 2) % 4 ≠ 3) = true := decide_eq_true (by omega)
  have m3 : decide ((4 * (p : Int) + 3) % 4 ≠ 3) = false := decide_eq_false (by omega)
  simp only [m0, m1, m2, m3, Bool.and_true, Bool.and_false, Bool.false_eq_true, if_false,
    add_zero, zero_add]

/-- What `compare_images` returns for images of equal dimensions. -/
theorem compare_images_eq (ref cuda : Image) (hw : ref.width = cuda.width)
    (hh : ref.height = cuda.height) :
    compare_images ref cuda =
      if colourMismatches32 ref cuda ≤ 100 then Except.ok (colourMismatches32 ref cuda : Int)
      else Except.error 1 := by
  unfold compare_images
  rw [if_neg (by simp [hw, hh])]
  rw [compareLoop_eq (mismatchAt ref cuda) _ 0 (by norm_num), countP_mismatchAt]
  simp only [zero_add, Nat.cast_le_ofNat]

theorem colourMismatches32_congr (ref cuda ref' cuda' : Image)
    (hw : ref'.width = ref.width) (hh : ref'.height = ref.height)
    (h : ∀ i : Int, i % 4 ≠ 3 →
      loadAt ref'.data i = loadAt ref.data i ∧ loadAt cuda'.data i = loadAt cuda.data i) :
    colourMismatches32 ref' cuda' = colourMismatches32 ref cuda := by
  unfold colourMismatches32
  rw [hw, hh]
  apply congrArg List.sum
  apply List.map_congr_left
  intro p _
  apply List.countP_congr
  intro k hk
  have hk3 : k < 3 := List.mem_range.mp hk
  have hm : (4 * (p : Int) + (k : Int)) % 4 ≠ 3 := by omega
  rw [(h _ hm).1, (h _ hm).2]

theorem countP_point (g g' : Int → Bool) (l : List Int) (j : Int) (hl : l.Nodup) (hj : j ∈ l)
    (hagree : ∀ i, i ≠ j → g i = g' i) (hg' : g' j = false) :
    l.countP g = l.countP g' + (if g j then 1 else 0) := by
  induction l with
  | nil => simp at hj
  | cons a l ih =>
    have hnd := List.nodup_cons.mp hl
    by_cases ha : a = j
    · subst ha
      have htail : l.countP g = l.countP g' := by
        apply List.countP_congr
        intro i hi
        have : i ≠ a := fun h => hnd.1 (h ▸ hi)
        rw [hagree i this]
      rw [List.countP_cons, List.countP_cons, htail, hg']
      simp
    · have hj' : j ∈ l := by
        rcases List.mem_cons.mp hj with h | h
        · exact absurd h.symm ha
        · exact h
      rw [List.countP_cons, List.countP_cons, ih hnd.2 hj', hagree a ha]
      omega

theorem intRange_nodup (lo hi : Int) : (intRange lo hi).Nodup := by
  unfold intRange
  apply List.Nodup.map _ (List.nodup_range _)
  intro a b h
  simp only at h
  omega

theorem mem_intRange (lo hi i : Int) : i ∈ intRange lo hi ↔ lo ≤ i ∧ i < hi := by
  unfold intRange
  simp only [List.mem_map, List.mem_range]
  constructor
  · rintro ⟨k, hk, rfl⟩
    omega
  · rintro ⟨h1, h2⟩
    exact ⟨(i - lo).toNat, by omega, by omega⟩

/-- Removing the difference at one colour position lowers the count by one when the
rounded difference exceeds `0.1f` and leaves it unchanged otherwise. -/
theorem colourMismatches32_point (ref cuda : Image) (i : Int) (hi0 : 0 ≤ i)
    (hi1 : i < 4 * ref.width * ref.height) (hlen : 4 * ref.width * ref.height ≤ cuda.data.length)
    (hcol : i % 4 ≠ 3) :
    colourMismatches32 ref cuda =
      colourMismatches32 ref { cuda with data := storeAt cuda.data i (loadAt ref.data i) } +
        (if |fl (loadAt ref.data i - loadAt cuda.data i)| > fl (1 / 10) then 1 else 0) := by
  rw [← countP_mismatchAt, ← countP_mismatchAt]
  rw [countP_point (mismatchAt ref cuda)
    (mismatchAt ref { cuda with data := storeAt cuda.data i (loadAt ref.data i) })
    _ i (intRange_nodup _ _) ((mem_intRange _ _ _).mpr ⟨hi0, hi1⟩)]
  · have hm : mismatchAt ref cuda i =
        decide (|fl (loadAt ref.data i - loadAt cuda.data i)| > fl (1 / 10)) := by
      unfold mismatchAt
      rw [decide_eq_true hcol, Bool.and_true]
    rw [hm]
    simp only [decide_eq_true_eq]
  · intro j hj
    unfold mismatchAt
    simp only
    rw [loadAt_storeAt_ne _ _ _ _ (Ne.symm hj)]
  · unfold mismatchAt
    simp only
    rw [loadAt_storeAt_same _ _ _ hi0 (by omega), sub_self, fl_zero, abs_zero, fl_tenth]
    norm_num

/-! ## Solid images -/

theorem loadAt_solid (W H : Int) (r g b a : ℚ) (p k : Nat) (hp : p < (W * H).toNat)
    (hk : k < 4) :
    loadAt (solidImage W H r g b a).data (4 * (p : Int) + (k : Int)) =
      if k = 0 then r else if k = 1 then g else if k = 2 then b else a := by
  obtain ⟨h0, h1, h2, h3⟩ := getD_flatten_replicate4 r g b a _ _ hp
  have e : 4 * (p : Int) + (k : Int) = ((4 * p + k : Nat) : Int) := by push_cast; ring
  rw [e, loadAt_natCast]
  unfold solidImage Image.clear
  simp only
  have hk' : k = 0 ∨ k = 1 ∨ k = 2 ∨ k = 3 := by omega
  rcases hk' with rfl | rfl | rfl | rfl
  · simpa using h0
  · simpa using h1
  · simpa using h2
  · simpa using h3

theorem colourMismatches_solid (W H : Int) (r g b a r' g' b' a' : ℚ) :
    colourMismatches (solidImage W H r g b a) (solidImage W H r' g' b' a') =
      (W * H).toNat * ((if |r - r'| > 1 / 10 then 1 else 0) + (if |g - g'| > 1 / 10 then 1 else 0) +
        (if |b - b'| > 1 / 10 then 1 else 0)) := by
  unfold colourMismatches
  have hw : (solidImage W H r g b a).width = W := rfl
  have hh : (solidImage W H r g b a).height = H := rfl
  rw [hw, hh]
  have hf : ∀ p ∈ List.range (W * H).toNat,
      (List.range 3).countP (fun (k : Nat) =>
        decide (|loadAt (solidImage W H r g b a).data (4 * (p : Int) + (k : Int)) -
          loadAt (solidImage W H r' g' b' a').data (4 * (p : Int) + (k : Int))| > 1 / 10)) =
      ((if |r - r'| > 1 / 10 then 1 else 0) + (if |g - g'| > 1 / 10 then 1 else 0) +
        (if |b - b'| > 1 / 10 then 1 else 0)) := by
    intro p hp
    have hp' := List.mem_range.mp hp
    have e3 : List.range 3 = [0, 1, 2] := by decide
    rw [e3]
    simp only [List.countP_cons, List.countP_nil]
    have l0 := loadAt_solid W H r g b a p 0 hp' (by norm_num)
    have l1 := loadAt_solid W H r g b a p 1 hp' (by norm_num)
    have l2 := loadAt_solid W H r g b a p 2 hp' (by norm_num)
    have l0' := loadAt_solid W H r' g' b' a' p 0 hp' (by norm_num)
    have l1' := loadAt_solid W H r' g' b' a' p 1 hp' (by norm_num)
    have l2' := loadAt_solid W H r' g' b' a' p 2 hp' (by norm_num)
    rw [l0, l1, l2, l0', l1', l2']
    simp
    ring
  rw [List.map_congr_left hf]
  simp

theorem isF32_tenth : IsF32 (13421773 / 134217728) := by
  unfold IsF32
  rw [← fl_tenth, fl_fl]

/-- A value that the rounded test counts differs by more than one tenth. -/
theorem exact_of_exceeds32 (a b : ℚ) (h : exceeds32 a b = true) : 1 / 10 < |a - b| := by
  unfold exceeds32 at h
  rw [decide_eq_true_eq] at h
  by_contra hc
  rw [not_lt, abs_le] at hc
  have h1 := fl_mono _ _ hc.2
  have h2 := fl_mono _ _ hc.1
  rw [fl_neg] at h2
  have h3 : |fl (a - b)| ≤ fl (1 / 10) := abs_le.mpr ⟨h2, h1⟩
  exact absurd h (not_lt.mpr h3)

theorem colourMismatches32_le (ref cuda : Image) :
    colourMismatches32 ref cuda ≤ colourMismatches ref cuda := by
  unfold colourMismatches32 colourMismatches
  apply List.sum_le_sum
  intro p _
  apply List.countP_mono_left
  intro k _ h
  rw [decide_eq_true_eq]
  exact exact_of_exceeds32 _ _ h

/-- Two solid images whose red values differ by more than one tenth differ in every
pixel. -/
theorem solid_red_differs (W H : Int) (n : Nat) (r r' g g' b b' a a' : ℚ)
    (hn : (W * H).toNat = n) (h : |r - r'| > 1 / 10) :
    differingPixels (solidImage W H r g b a) (solidImage W H r' g' b' a') = n ∧
    mismatchedPixels (solidImage W H r g b a) (solidImage W H r' g' b' a') = n ∧
    (∀ p : Nat, p < n →
      |loadAt (solidImage W H r g b a).data (4 * (p : Int) + ((0 : Nat) : Int)) -
        loadAt (solidImage W H r' g' b' a').data (4 * (p : Int) + ((0 : Nat) : Int))| >
          1 / 10) := by
  have hd : ∀ p : Nat, p < n →
      loadAt (solidImage W H r g b a).data (4 * (p : Int) + ((0 : Nat) : Int)) = r ∧
      loadAt (solidImage W H r' g' b' a').data (4 * (p : Int) + ((0 : Nat) : Int)) = r' := by
    intro p hp
    rw [loadAt_solid W H r g b a p 0 (by rw [hn]; exact hp) (by norm_num),
      loadAt_solid W H r' g' b' a' p 0 (by rw [hn]; exact hp) (by norm_num)]
    simp
  have hw : (solidImage W H r g b a).width = W := rfl
  have hh : (solidImage W H r g b a).height = H := rfl
  have hlen : (List.range n).length = n := List.length_range n
  have hne : r ≠ r' := by
    intro e
    rw [e, sub_self, abs_zero] at h
    norm_num at h
  refine ⟨?_, ?_, ?_⟩
  · unfold differingPixels
    rw [hw, hh, hn]
    conv_rhs => rw [← hlen]
    rw [List.countP_eq_length]
    intro p hp
    have hp' := List.mem_range.mp hp
    rw [decide_eq_true_eq]
    refine ⟨0, List.mem_range.mpr (by norm_num), ?_⟩
    rw [(hd p hp').1, (hd p hp').2]
    exact hne
  · unfold mismatchedPixels
    rw [hw, hh, hn]
    conv_rhs => rw [← hlen]
    rw [List.countP_eq_length]
    intro p hp
    have hp' := List.mem_range.mp hp
    rw [decide_eq_true_eq]
    unfold pixelMismatches
    apply List.countP_pos_iff.mpr
    refine ⟨0, List.mem_range.mpr (by norm_num), ?_⟩
    rw [decide_eq_true_eq, (hd p hp').1, (hd p hp').2]
    exact h
  · intro p hp
    rw [(hd p hp).1, (hd p hp).2]
    exact h

theorem colourMismatches32_solid (W H : Int) (r g b a r' g' b' a' : ℚ) :
    colourMismatches32 (solidImage W H r g b a) (solidImage W H r' g' b' a') =
      (W * H).toNat * ((if exceeds32 r r' then 1 else 0) + (if exceeds32 g g' then 1 else 0) +
        (if exceeds32 b b' then 1 else 0)) := by
  unfold colourMismatches32
  have hw : (solidImage W H r g b a).width = W := rfl
  have hh : (solidImage W H r g b a).height = H := rfl
  rw [hw, hh]
  have hf : ∀ p ∈ List.range (W * H).toNat,
      (List.range 3).countP (fun (k : Nat) =>
        exceeds32 (loadAt (solidImage W H r g b a).data (4 * (p : Int) + (k : Int)))
          (loadAt (solidImage W H r' g' b' a').data (4 * (p : Int) + (k : Int)))) =
      ((if exceeds32 r r' then 1 else 0) + (if exceeds32 g g' then 1 else 0) +
        (if exceeds32 b b' then 1 else 0)) := by
    intro p hp
    have hp' := List.mem_range.mp hp
    have e3 : List.range 3 = [0, 1, 2] := by decide
    rw [e3]
    simp only [List.countP_cons, List.countP_nil]
    have l0 := loadAt_solid W H r g b a p 0 hp' (by norm_num)
    have l1 := loadAt_solid W H r g b a p 1 hp' (by norm_num)
    have l2 := loadAt_solid W H r g b a p 2 hp' (by norm_num)
    have l0' := loadAt_solid W H r' g' b' a' p 0 hp' (by norm_num)
    have l1' := loadAt_solid W H r' g' b' a' p 1 hp' (by norm_num)
    have l2' := loadAt_solid W H r' g' b' a' p 2 hp' (by norm_num)
    rw [l0, l1, l2, l0', l1', l2']
    simp
    ring
  rw [List.map_congr_left hf]
  simp

theorem exceeds32_zero_one : exceeds32 0 1 = true := by
  unfold exceeds32
  rw [zero_sub, fl_neg, fl_one, fl_tenth]
  norm_num

theorem exceeds32_self (a : ℚ) : exceeds32 a a = false := by
  unfold exceeds32
  rw [sub_self, fl_zero, abs_zero, fl_tenth]
  norm_num

/-- The rounded difference between `0` and the constant `0.1f` is `0.1f`, which does not
exceed `0.1f`. -/
theorem exceeds32_zero_tenth : exceeds32 0 (13421773 / 134217728) = false := by
  unfold exceeds32
  rw [zero_sub, fl_neg, ← fl_tenth, fl_fl, abs_neg, abs_of_nonneg (fl_nonneg _ (by norm_num))]
  simp

/-! ## Pixels and colour values -/

theorem colourMismatches32_eq_sum (ref cuda : Image) :
    colourMismatches32 ref cuda =
      ((List.range (ref.width * ref.height).toNat).map (pixelMismatches32 ref cuda)).sum := rfl

theorem countP_pos_le_sum (f : Nat → Nat) (l : List Nat) :
    l.countP (fun p => decide (0 < f p)) ≤ (l.map f).sum := by
  induction l with
  | nil => simp
  | cons a l ih =>
    rw [List.countP_cons, List.map_cons, List.sum_cons]
    by_cases h : 0 < f a
    · simp only [h, decide_True, if_true]; omega
    · simp only [h, decide_False, Bool.false_eq_true, if_false]; omega

theorem sum_eq_countP_pos (f : Nat → Nat) (l : List Nat) (h1 : ∀ p ∈ l, f p ≤ 1) :
    (l.map f).sum = l.countP (fun p => decide (0 < f p)) := by
  induction l with
  | nil => simp
  | cons a l ih =>
    rw [List.countP_cons, List.map_cons, List.sum_cons,
      ih (fun p hp => h1 p (List.mem_cons_of_mem _ hp))]
    have ha := h1 a (List.mem_cons_self _ _)
    by_cases h : 0 < f a
    · simp only [h, decide_True, if_true]; omega
    · simp only [h, decide_False, Bool.false_eq_true, if_false]; omega

theorem mismatchedPixels32_le (ref cuda : Image) :
    mismatchedPixels32 ref cuda ≤ colourMismatches32 ref cuda := by
  rw [colourMismatches32_eq_sum]
  exact countP_pos_le_sum _ _

theorem colourMismatches32_eq_mismatchedPixels32 (ref cuda : Image)
    (h1 : ∀ p : Nat, p < (ref.width * ref.height).toNat → pixelMismatches32 ref cuda p ≤ 1) :
    colourMismatches32 ref cuda = mismatchedPixels32 ref cuda := by
  rw [colourMismatches32_eq_sum]
  exact sum_eq_countP_pos _ _ (fun p hp => h1 p (List.mem_range.mp hp))

/-! ## The fold over circles -/

theorem renderCircles_eq_foldl_single (cs : List SceneCircle) (img : Image) :
    renderCircles cs img = cs.foldl (fun im c => renderCircles [c] im) img := by
  induction cs generalizing img with
  | nil => rw [renderCircles_nil]; rfl
  | cons c cs ih => rw [renderCircles_cons, ih]; rfl

/-! ## Facts about the concrete inputs -/

theorem whiteUnit_WF : whiteUnit.WF :=
  clear_WF _ 1 1 1 1 (by show (0 : Int) < 1; norm_num) (by show (0 : Int) < 1; norm_num)

theorem colourMismatches32_black_red_100 :
    colourMismatches32 (solidImage 100 1 0 0 0 0) (solidImage 100 1 1 0 0 0) = 100 := by
  have hn : ((100 : Int) * 1).toNat = 100 := by decide
  rw [colourMismatches32_solid, hn, exceeds32_zero_one, exceeds32_self]
  norm_num

theorem colourMismatches32_black_red_101 :
    colourMismatches32 (solidImage 101 1 0 0 0 0) (solidImage 101 1 1 0 0 0) = 101 := by
  have hn : ((101 : Int) * 1).toNat = 101 := by decide
  rw [colourMismatches32_solid, hn, exceeds32_zero_one, exceeds32_self]
  norm_num

/-! ## The claims -/

/-- C1.  `RefRenderer::render` is the left fold of single-circle compositing in list
order: rendering `a ++ b` onto an image is rendering `a` and then rendering `b` onto the
result; rendering `cs ++ [c]` is compositing `c` alone onto the rendering of `cs`;
rendering the empty list leaves the image unchanged; and for every renderer state the
image after `render` is that fold over the circles its arrays hold. -/
theorem render_left_fold (img : Image) (a b : List SceneCircle) :
    renderCircles (a ++ b) img = renderCircles b (renderCircles a img) ∧
    (∀ (cs : List SceneCircle) (c : SceneCircle),
      renderCircles (cs ++ [c]) img = renderCircles [c] (renderCircles cs img)) ∧
    renderCircles [] img = img ∧
    renderCircles a img = a.foldl (fun im c => renderCircles [c] im) img ∧
    (∀ r : RefRenderer,
      r.render.image = r.circles.foldl (fun im c => renderCircles [c] im) r.image) :=
  ⟨renderCircles_append a b img, fun cs c => renderCircles_append cs [c] img,
    renderCircles_nil img, renderCircles_eq_foldl_single a img,
    fun r => by rw [render_image_eq_renderCircles, renderCircles_eq_foldl_single]⟩

/-- C4 (end-to-end scenario A).  With the `1024 x 1024` image of `main`, the scene
`CIRCLE_RGB` loaded and the image cleared to white, the pixel `(512, 512)` contains the
point `(0.5, 0.5)` and is covered by the three circles, whose colours are red, green
and blue in list order; after `render` its colour is
`blend(blue, blend(green, blend(red, white))) = (0.25, 0.375, 0.625)`, and blending
the three colours over white in any other order gives a different colour. -/
theorem scenarioA_center_pixel (lib : CLib) (g : RandState) (r0 : RefRenderer) :
    ((scenarioA lib g r0).image.width = 1024 ∧ (scenarioA lib g r0).image.height = 1024) ∧
    ((512 : ℚ) / 1024 ≤ 1 / 2 ∧ (1 / 2 : ℚ) < (512 + 1) / 1024) ∧
    (scenarioA lib g r0).circles.map (fun c => (c.colR, c.colG, c.colB)) =
      [(1, 0, 0), (0, 1, 0), (0, 0, 1)] ∧
    (∀ c ∈ (scenarioA lib g r0).circles, c.covers 1024 1024 512 512) ∧
    (scenarioA lib g r0).render.image.rgb 512 512 =
      blendRGB (0, 0, 1) (blendRGB (0, 1, 0) (blendRGB (1, 0, 0) (1, 1, 1))) ∧
    (scenarioA lib g r0).render.image.rgb 512 512 = (1 / 4, 3 / 8, 5 / 8) ∧
    ∀ p : List (ℚ × ℚ × ℚ), p.Perm [(1, 0, 0), (0, 1, 0), (0, 0, 1)] →
      p ≠ [(1, 0, 0), (0, 1, 0), (0, 0, 1)] →
      p.foldl (fun d c => blendRGB c d) (1, 1, 1) ≠
        (scenarioA lib g r0).render.image.rgb 512 512 := by
  have hrgb : (scenarioA lib g r0).render.image.rgb 512 512 = (1 / 4, 3 / 8, 5 / 8) := by
    unfold Image.rgb
    rw [render_image_eq_renderCircles,
      scenarioA_channel lib g r0 _ (scenarioA_covers lib g r0) 0 (by norm_num) (by norm_num),
      scenarioA_channel lib g r0 _ (scenarioA_covers lib g r0) 1 (by norm_num) (by norm_num),
      scenarioA_channel lib g r0 _ (scenarioA_covers lib g r0) 2 (by norm_num) (by norm_num),
      scenarioA_circles]
    simp only [List.foldl_cons, List.foldl_nil, blendChannel]
    norm_num
  refine ⟨⟨rfl, rfl⟩, ⟨by norm_num, by norm_num⟩, by rw [scenarioA_circles]; rfl,
    fun c hc => (scenarioA_covers lib g r0 c hc).2, ?_, hrgb, ?_⟩
  · rw [hrgb]; simp only [blendRGB]; norm_num
  · intro p hp hne
    rw [hrgb]
    rcases perm3_cases _ _ _ p hp with rfl | rfl | rfl | rfl | rfl | rfl
    · exact absurd rfl hne
    all_goals
      simp only [List.foldl_cons, List.foldl_nil, blendRGB]
      norm_num

/-- C5 (order sensitivity).  On the white `1024 x 1024` image of scenario A, rendering the
circle list of `CIRCLE_RGB`, whose three circles all cover pixel `(512, 512)`, and
rendering its reversal give different colours at that pixel; hence there are an image, a
circle list and a permutation of it whose renderings differ at some pixel. -/
theorem render_order_sensitive (lib : CLib) (g : RandState) (r0 : RefRenderer) :
    ((scenarioA lib g r0).circles.reverse.Perm (scenarioA lib g r0).circles ∧
     (∀ c ∈ (scenarioA lib g r0).circles, c.covers 1024 1024 512 512) ∧
     renderCircles (scenarioA lib g r0).circles (scenarioA lib g r0).image =
       (scenarioA lib g r0).render.image ∧
     (renderCircles (scenarioA lib g r0).circles (scenarioA lib g r0).image).rgb 512 512 =
       (1 / 4, 3 / 8, 5 / 8) ∧
     (renderCircles (scenarioA lib g r0).circles.reverse (scenarioA lib g r0).image).rgb 512 512 =
       (5 / 8, 3 / 8, 1 / 4)) ∧
    ∃ (img : Image) (cs cs' : List SceneCircle) (x y k : Int),
      cs'.Perm cs ∧ (renderCircles cs' img).channel x y k ≠ (renderCircles cs img).channel x y k := by
  have hcov := scenarioA_covers lib g r0
  have hcov' : ∀ c ∈ (scenarioA lib g r0).circles.reverse,
      0 ≤ c.radius ∧ c.covers 1024 1024 512 512 :=
    fun c hc => hcov c (List.mem_reverse.mp hc)
  have h1 : (renderCircles (scenarioA lib g r0).circles (scenarioA lib g r0).image).rgb 512 512 =
      (1 / 4, 3 / 8, 5 / 8) := by
    unfold Image.rgb
    rw [scenarioA_channel lib g r0 _ hcov 0 (by norm_num) (by norm_num),
      scenarioA_channel lib g r0 _ hcov 1 (by norm_num) (by norm_num),
      scenarioA_channel lib g r0 _ hcov 2 (by norm_num) (by norm_num), scenarioA_circles]
    simp only [List.foldl_cons, List.foldl_nil, blendChannel]
    norm_num
  have h2 : (renderCircles (scenarioA lib g r0).circles.reverse
      (scenarioA lib g r0).image).rgb 512 512 = (5 / 8, 3 / 8, 1 / 4) := by
    unfold Image.rgb
    rw [scenarioA_channel lib g r0 _ hcov' 0 (by norm_num) (by norm_num),
      scenarioA_channel lib g r0 _ hcov' 1 (by norm_num) (by norm_num),
      scenarioA_channel lib g r0 _ hcov' 2 (by norm_num) (by norm_num), scenarioA_circles]
    simp only [List.reverse_cons, List.reverse_nil, List.nil_append, List.cons_append,
      List.foldl_cons, List.foldl_nil, blendChannel]
    norm_num
  refine ⟨⟨List.reverse_perm _, fun c hc => (hcov c hc).2,
    (render_image_eq_renderCircles _).symm, h1, h2⟩, ?_⟩
  refine ⟨(scenarioA lib g r0).image, (scenarioA lib g r0).circles,
    (scenarioA lib g r0).circles.reverse, 512, 512, 0, List.reverse_perm _, ?_⟩
  have e1 := congrArg Prod.fst h1
  have e2 := congrArg Prod.fst h2
  simp only [Image.rgb] at e1 e2
  rw [e1, e2]
  norm_num

/-- C6, as stated, fails.  The reference image is black and the other image has the red
value `0.1f = 13421773/134217728` in each of its 101 pixels; both hold binary32 numbers.
All 101 red values differ from the reference by more than `0.1`, so the count of the
claim is 101, yet `compare_images` returns normally and reports 0: the rounded difference
is compared with the constant `0.1f`, which it does not exceed. -/
theorem compare_images_threshold_counterexample :
    IsF32 (13421773 / 134217728) ∧
    (solidImage 101 1 0 0 0 0).width =
      (solidImage 101 1 (13421773 / 134217728) 0 0 0).width ∧
    (solidImage 101 1 0 0 0 0).height =
      (solidImage 101 1 (13421773 / 134217728) 0 0 0).height ∧
    colourMismatches (solidImage 101 1 0 0 0 0)
      (solidImage 101 1 (13421773 / 134217728) 0 0 0) = 101 ∧
    compare_images (solidImage 101 1 0 0 0 0)
      (solidImage 101 1 (13421773 / 134217728) 0 0 0) = Except.ok 0 := by
  have hn : ((101 : Int) * 1).toNat = 101 := by decide
  refine ⟨isF32_tenth, rfl, rfl, ?_, ?_⟩
  · rw [colourMismatches_solid, hn]
    norm_num [abs_of_pos]
  · rw [compare_images_eq (solidImage 101 1 0 0 0 0)
        (solidImage 101 1 (13421773 / 134217728) 0 0 0) rfl rfl,
      colourMismatches32_solid, hn, exceeds32_zero_tenth, exceeds32_self]
    rfl

/-- C6, amended.  For two images of equal width and height `compare_images` returns
normally exactly when the number of values (pixel, channel among red, green, blue) whose
binary32 difference `ref - cuda` has a magnitude above the constant `0.1f` is at most
100, the count it then reports is that number, and it exits with status 1 otherwise;
images that differ from the given ones only in alpha values give the same result and the
same count.  At most 100 values with `|ref - cuda| > 0.1` are enough for the normal
return, since a value counted by the loop has `|ref - cuda| > 0.1`. -/
theorem compare_images_rounded_count (ref cuda : Image) (hw : ref.width = cuda.width)
    (hh : ref.height = cuda.height) :
    ((∃ n, compare_images ref cuda = Except.ok n) ↔ colourMismatches32 ref cuda ≤ 100) ∧
    (∀ n, compare_images ref cuda = Except.ok n → n = (colourMismatches32 ref cuda : Int)) ∧
    (100 < colourMismatches32 ref cuda → compare_images ref cuda = Except.error 1) ∧
    (∀ ref' cuda' : Image, ref'.width = ref.width → ref'.height = ref.height →
      cuda'.width = cuda.width → cuda'.height = cuda.height →
      (∀ i : Int, i % 4 ≠ 3 →
        loadAt ref'.data i = loadAt ref.data i ∧ loadAt cuda'.data i = loadAt cuda.data i) →
      compare_images ref' cuda' = compare_images ref cuda ∧
        colourMismatches32 ref' cuda' = colourMismatches32 ref cuda) ∧
    (colourMismatches ref cuda ≤ 100 → ∃ n, compare_images ref cuda = Except.ok n) := by
  have heq := compare_images_eq ref cuda hw hh
  refine ⟨?_, ?_, ?_, ?_, ?_⟩
  · constructor
    · rintro ⟨n, hn⟩
      by_contra hc
      rw [heq, if_neg hc] at hn
      cases hn
    · intro hle
      exact ⟨_, by rw [heq, if_pos hle]⟩
  · intro n hn
    by_cases hc : colourMismatches32 ref cuda ≤ 100
    · rw [heq, if_pos hc] at hn
      injection hn with hn
      exact hn.symm
    · rw [heq, if_neg hc] at hn
      cases hn
  · intro hgt
    rw [heq, if_neg (by omega)]
  · intro ref' cuda' hw1 hh1 hw2 hh2 hdata
    have hcm := colourMismatches32_congr ref cuda ref' cuda' hw1 hh1 hdata
    refine ⟨?_, hcm⟩
    rw [compare_images_eq ref' cuda' (by rw [hw1, hw2, hw]) (by rw [hh1, hh2, hh]), heq, hcm]
  · intro hle
    have h := colourMismatches32_le ref cuda
    exact ⟨_, by rw [heq, if_pos (le_trans h hle)]⟩

/-- Witness for the amended C6: a black and a red image of 100 pixels, which differ in 100
colour values. -/
theorem compare_images_rounded_count_witness :
    (solidImage 100 1 0 0 0 0).width = (solidImage 100 1 1 0 0 0).width ∧
    (solidImage 100 1 0 0 0 0).height = (solidImage 100 1 1 0 0 0).height ∧
    colourMismatches32 (solidImage 100 1 0 0 0 0) (solidImage 100 1 1 0 0 0) = 100 ∧
    ((∃ n, compare_images (solidImage 100 1 0 0 0 0) (solidImage 100 1 1 0 0 0) = Except.ok n) ↔
      colourMismatches32 (solidImage 100 1 0 0 0 0) (solidImage 100 1 1 0 0 0) ≤ 100) :=
  ⟨rfl, rfl, colourMismatches32_black_red_100,
    (compare_images_rounded_count (solidImage 100 1 0 0 0 0) (solidImage 100 1 1 0 0 0)
      rfl rfl).1⟩

/-- C7, as stated, fails in both halves.  The black and the white image of `100 x 1`
pixels have equal dimensions and differ in exactly 100 pixels, every channel of every
pixel by more than `0.1`, and `compare_images` exits with status 1 on them: the cap
counts colour values.  The black image and the image with red value `0.1f` of `101 x 1`
pixels differ in exactly 101 pixels, each red value by more than `0.1`, and
`compare_images` returns normally: the tolerance is the constant `0.1f`. -/
theorem mismatch_cap_counterexample :
    ((solidImage 100 1 0 0 0 0).width = (solidImage 100 1 1 1 1 1).width ∧
     (solidImage 100 1 0 0 0 0).height = (solidImage 100 1 1 1 1 1).height ∧
     differingPixels (solidImage 100 1 0 0 0 0) (solidImage 100 1 1 1 1 1) = 100 ∧
     mismatchedPixels (solidImage 100 1 0 0 0 0) (solidImage 100 1 1 1 1 1) = 100 ∧
     (∀ p k : Nat, p < 100 → k < 4 →
       |loadAt (solidImage 100 1 0 0 0 0).data (4 * (p : Int) + (k : Int)) -
         loadAt (solidImage 100 1 1 1 1 1).data (4 * (p : Int) + (k : Int))| > 1 / 10) ∧
     compare_images (solidImage 100 1 0 0 0 0) (solidImage 100 1 1 1 1 1) = Except.error 1) ∧
    ((solidImage 101 1 0 0 0 0).width =
       (solidImage 101 1 (13421773 / 134217728) 0 0 0).width ∧
     (solidImage 101 1 0 0 0 0).height =
       (solidImage 101 1 (13421773 / 134217728) 0 0 0).height ∧
     differingPixels (solidImage 101 1 0 0 0 0)
       (solidImage 101 1 (13421773 / 134217728) 0 0 0) = 101 ∧
     mismatchedPixels (solidImage 101 1 0 0 0 0)
       (solidImage 101 1 (13421773 / 134217728) 0 0 0) = 101 ∧
     (∀ p : Nat, p < 101 →
       |loadAt (solidImage 101 1 0 0 0 0).data (4 * (p : Int) + ((0 : Nat) : Int)) -
         loadAt (solidImage 101 1 (13421773 / 134217728) 0 0 0).data
           (4 * (p : Int) + ((0 : Nat) : Int))| > 1 / 10) ∧
     compare_images (solidImage 101 1 0 0 0 0)
       (solidImage 101 1 (13421773 / 134217728) 0 0 0) = Except.ok 0) := by
  have hn : ((100 : Int) * 1).toNat = 100 := by decide
  have hn1 : ((101 : Int) * 1).toNat = 101 := by decide
  have hA := solid_red_differs 100 1 100 0 1 0 1 0 1 0 1 hn (by norm_num)
  have hB := solid_red_differs 101 1 101 0 (13421773 / 134217728) 0 0 0 0 0 0 hn1
    (by norm_num [abs_of_pos])
  refine ⟨⟨rfl, rfl, hA.1, hA.2.1, ?_, ?_⟩, ⟨rfl, rfl, hB.1, hB.2.1, hB.2.2, ?_⟩⟩
  · intro p k hp hk
    rw [loadAt_solid 100 1 0 0 0 0 p k (by rw [hn]; exact hp) hk,
      loadAt_solid 100 1 1 1 1 1 p k (by rw [hn]; exact hp) hk]
    simp
    norm_num
  · rw [compare_images_eq (solidImage 100 1 0 0 0 0) (solidImage 100 1 1 1 1 1) rfl rfl,
      colourMismatches32_solid, hn, exceeds32_zero_one]
    norm_num
  · rw [compare_images_eq (solidImage 101 1 0 0 0 0)
        (solidImage 101 1 (13421773 / 134217728) 0 0 0) rfl rfl,
      colourMismatches32_solid, hn1, exceeds32_zero_tenth, exceeds32_self]
    rfl

/-- C7, amended.  The cap counts colour values, not pixels, and a value counts when its
binary32 difference `ref - cuda` has a magnitude above the constant `0.1f`.  For images
of equal dimensions: when exactly 101 values (pixel, channel among red, green, blue)
count, and so also when exactly 101 pixels have such a value, `compare_images` exits
with status 1; when exactly 100 values count, and so also when exactly 100 pixels have
such a value and each of them has only one, it returns normally and reports 100. -/
theorem mismatch_cap_rounded_channels (ref cuda : Image) (hw : ref.width = cuda.width)
    (hh : ref.height = cuda.height) :
    (colourMismatches32 ref cuda = 101 → compare_images ref cuda = Except.error 1) ∧
    (colourMismatches32 ref cuda = 100 → compare_images ref cuda = Except.ok 100) ∧
    (mismatchedPixels32 ref cuda = 101 → compare_images ref cuda = Except.error 1) ∧
    (mismatchedPixels32 ref cuda = 100 →
      (∀ p : Nat, p < (ref.width * ref.height).toNat → pixelMismatches32 ref cuda p ≤ 1) →
      compare_images ref cuda = Except.ok 100) := by
  have heq := compare_images_eq ref cuda hw hh
  refine ⟨?_, ?_, ?_, ?_⟩
  · intro h
    rw [heq, h]; rfl
  · intro h
    rw [heq, h]; rfl
  · intro h
    have hle := mismatchedPixels32_le ref cuda
    rw [heq, if_neg (by omega)]
  · intro h h1
    have he := colourMismatches32_eq_mismatchedPixels32 ref cuda h1
    rw [heq, he, h]; rfl

/-- Witness for the amended C7: black against red images of 101 and of 100 pixels. -/
theorem mismatch_cap_rounded_channels_witness :
    ((solidImage 101 1 0 0 0 0).width = (solidImage 101 1 1 0 0 0).width ∧
     (solidImage 101 1 0 0 0 0).height = (solidImage 101 1 1 0 0 0).height ∧
     colourMismatches32 (solidImage 101 1 0 0 0 0) (solidImage 101 1 1 0 0 0) = 101 ∧
     compare_images (solidImage 101 1 0 0 0 0) (solidImage 101 1 1 0 0 0) = Except.error 1) ∧
    ((solidImage 100 1 0 0 0 0).width = (solidImage 100 1 1 0 0 0).width ∧
     (solidImage 100 1 0 0 0 0).height = (solidImage 100 1 1 0 0 0).height ∧
     colourMismatches32 (solidImage 100 1 0 0 0 0) (solidImage 100 1 1 0 0 0) = 100 ∧
     compare_images (solidImage 100 1 0 0 0 0) (solidImage 100 1 1 0 0 0) = Except.ok 100) :=
  ⟨⟨rfl, rfl, colourMismatches32_black_red_101,
      (mismatch_cap_rounded_channels (solidImage 101 1 0 0 0 0) (solidImage 101 1 1 0 0 0)
        rfl rfl).1 (colourMismatches32_black_red_101)⟩,
    ⟨rfl, rfl, colourMismatches32_black_red_100,
      (mismatch_cap_rounded_channels (solidImage 100 1 0 0 0 0) (solidImage 100 1 1 0 0 0)
        rfl rfl).2.1 (colourMismatches32_black_red_100)⟩⟩

/-- C8, as stated, fails.  In the one-pixel images with red values `0` and
`0.1f = 13421773/134217728`, both binary32 numbers, the red values differ by more than
`0.1`, yet `compare_images` reports no mismatch: the rounded difference equals the
constant `0.1f` and the test is a strict comparison with that constant. -/
theorem tolerance_boundary_counterexample :
    IsF32 (loadAt (solidImage 1 1 0 0 0 0).data 0) ∧
    IsF32 (loadAt (solidImage 1 1 (13421773 / 134217728) 0 0 0).data 0) ∧
    |loadAt (solidImage 1 1 0 0 0 0).data 0 -
      loadAt (solidImage 1 1 (13421773 / 134217728) 0 0 0).data 0| > 1 / 10 ∧
    mismatchAt (solidImage 1 1 0 0 0 0) (solidImage 1 1 (13421773 / 134217728) 0 0 0) 0 =
      false ∧
    compare_images (solidImage 1 1 0 0 0 0) (solidImage 1 1 (13421773 / 134217728) 0 0 0) =
      Except.ok 0 := by
  have h0 := loadAt_solid 1 1 0 0 0 0 0 0 (by decide) (by norm_num)
  have h1 := loadAt_solid 1 1 (13421773 / 134217728) 0 0 0 0 0 (by decide) (by norm_num)
  simp only [Nat.cast_zero, mul_zero, add_zero, if_true] at h0 h1
  have hn : ((1 : Int) * 1).toNat = 1 := by decide
  have hx := exceeds32_zero_tenth
  unfold exceeds32 at hx
  refine ⟨?_, ?_, ?_, ?_, ?_⟩
  · rw [h0]; exact isF32_zero
  · rw [h1]; exact isF32_tenth
  · rw [h0, h1]
    norm_num [abs_of_pos]
  · unfold mismatchAt
    rw [h0, h1, hx]
    rfl
  · rw [compare_images_eq (solidImage 1 1 0 0 0 0)
        (solidImage 1 1 (13421773 / 134217728) 0 0 0) rfl rfl,
      colourMismatches32_solid, hn, exceeds32_zero_tenth, exceeds32_self]
    rfl

/-- C8, amended (tolerance boundary).  For images of equal dimensions and a colour
position `i` (an index of the buffers with `i % 4 ≠ 3`), compare the run of
`compare_images` with the run on the images in which `cuda[i]` is replaced by `ref[i]`.
When the binary32 difference `ref[i] - cuda[i]` has a magnitude of exactly the constant
`0.1f`, and more generally of at most `0.1f`, the two runs have the same outcome and
report the same count: the position is not counted.  When the binary32 difference has a
magnitude above `0.1f`, the position is counted as exactly one mismatch: a count `n` of
the second run becomes `n + 1`, or the exit with status 1 when `n + 1` exceeds 100, and
an exit of the second run remains one. -/
theorem tolerance_boundary_rounded (ref cuda : Image) (hw : ref.width = cuda.width)
    (hh : ref.height = cuda.height) (i : Int) (hi0 : 0 ≤ i)
    (hi1 : i < 4 * ref.width * ref.height)
    (hlen : 4 * ref.width * ref.height ≤ (cuda.data.length : Int)) (hcol : i % 4 ≠ 3) :
    (|fl (loadAt ref.data i - loadAt cuda.data i)| = fl (1 / 10) →
      compare_images ref cuda =
        compare_images ref { cuda with data := storeAt cuda.data i (loadAt ref.data i) }) ∧
    (|fl (loadAt ref.data i - loadAt cuda.data i)| ≤ fl (1 / 10) →
      compare_images ref cuda =
        compare_images ref { cuda with data := storeAt cuda.data i (loadAt ref.data i) }) ∧
    (|fl (loadAt ref.data i - loadAt cuda.data i)| > fl (1 / 10) →
      (∀ n : Int,
        compare_images ref { cuda with data := storeAt cuda.data i (loadAt ref.data i) } =
          Except.ok n →
        compare_images ref cuda =
          if n + 1 ≤ 100 then Except.ok (n + 1) else Except.error 1) ∧
      (compare_images ref { cuda with data := storeAt cuda.data i (loadAt ref.data i) } =
          Except.error 1 →
        compare_images ref cuda = Except.error 1)) := by
  have hpt := colourMismatches32_point ref cuda i hi0 hi1 hlen hcol
  have e1 := compare_images_eq ref cuda hw hh
  have e2 := compare_images_eq ref
    { cuda with data := storeAt cuda.data i (loadAt ref.data i) } hw hh
  have hsame : ¬ (|fl (loadAt ref.data i - loadAt cuda.data i)| > fl (1 / 10)) →
      compare_images ref cuda =
        compare_images ref { cuda with data := storeAt cuda.data i (loadAt ref.data i) } := by
    intro hnot
    rw [if_neg hnot, add_zero] at hpt
    rw [e1, e2, ← hpt]
  generalize colourMismatches32 ref
    { cuda with data := storeAt cuda.data i (loadAt ref.data i) } = c at hpt e2
  refine ⟨?_, ?_, ?_⟩
  · intro hd
    exact hsame (not_lt.mpr (le_of_eq hd))
  · intro hd
    exact hsame (not_lt.mpr hd)
  · intro hd
    rw [if_pos hd] at hpt
    constructor
    · intro n hn
      rw [e2] at hn
      by_cases hc : c ≤ 100
      · rw [if_pos hc] at hn
        have hn' : (c : Int) = n := Except.ok.inj hn
        subst hn'
        rw [e1, hpt]
        by_cases hc1 : c + 1 ≤ 100
        · rw [if_pos hc1, if_pos (by omega)]
          push_cast
          rfl
        · rw [if_neg hc1, if_neg (by omega)]
      · rw [if_neg hc] at hn
        cases hn
    · intro herr
      rw [e2] at herr
      by_cases hc : c ≤ 100
      · rw [if_pos hc] at herr
        cases herr
      · rw [e1, hpt, if_neg (by omega)]

/-- Witness for the amended C8, on one-pixel images.  The red values `0` and `0.1f` have
a binary32 difference of magnitude exactly `0.1f`, which is not counted.  The red values
`0` and `1` have a difference above `0.1f`: the run with the value replaced reports 0 and
`compare_images` reports 1. -/
theorem tolerance_boundary_rounded_witness :
    (|fl (loadAt (solidImage 1 1 0 0 0 0).data 0 -
        loadAt (solidImage 1 1 (13421773 / 134217728) 0 0 0).data 0)| = fl (1 / 10) ∧
      compare_images (solidImage 1 1 0 0 0 0)
          (solidImage 1 1 (13421773 / 134217728) 0 0 0) =
        compare_images (solidImage 1 1 0 0 0 0)
          { solidImage 1 1 (13421773 / 134217728) 0 0 0 with
            data := storeAt (solidImage 1 1 (13421773 / 134217728) 0 0 0).data 0
              (loadAt (solidImage 1 1 0 0 0 0).data 0) }) ∧
    (|fl (loadAt (solidImage 1 1 0 0 0 0).data 0 - loadAt (solidImage 1 1 1 0 0 0).data 0)| >
        fl (1 / 10) ∧
      compare_images (solidImage 1 1 0 0 0 0)
          { solidImage 1 1 1 0 0 0 with
            data := storeAt (solidImage 1 1 1 0 0 0).data 0
              (loadAt (solidImage 1 1 0 0 0 0).data 0) } = Except.ok 0 ∧
      compare_images (solidImage 1 1 0 0 0 0) (solidImage 1 1 1 0 0 0) = Except.ok 1) := by
  have h0 := loadAt_solid 1 1 0 0 0 0 0 0 (by decide) (by norm_num)
  have h1 := loadAt_solid 1 1 (13421773 / 134217728) 0 0 0 0 0 (by decide) (by norm_num)
  have h2 := loadAt_solid 1 1 1 0 0 0 0 0 (by decide) (by norm_num)
  simp only [Nat.cast_zero, mul_zero, add_zero, if_true] at h0 h1 h2
  have hn : ((1 : Int) * 1).toNat = 1 := by decide
  have hb : |fl (loadAt (solidImage 1 1 0 0 0 0).data 0 -
      loadAt (solidImage 1 1 (13421773 / 134217728) 0 0 0).data 0)| = fl (1 / 10) := by
    rw [h0, h1, zero_sub, fl_neg, abs_neg, ← fl_tenth, fl_fl,
      abs_of_nonneg (fl_nonneg _ (by norm_num))]
  have ha : |fl (loadAt (solidImage 1 1 0 0 0 0).data 0 -
      loadAt (solidImage 1 1 1 0 0 0).data 0)| > fl (1 / 10) := by
    rw [h0, h2, zero_sub, fl_neg, fl_one, fl_tenth]
    norm_num
  have hlen : ∀ v : ℚ, (4 : Int) * (solidImage 1 1 0 0 0 0).width *
      (solidImage 1 1 0 0 0 0).height ≤ ((solidImage 1 1 v 0 0 0).data.length : Int) := by
    intro v
    show (4 : Int) * 1 * 1 ≤ _
    unfold solidImage Image.clear
    simp only [length_flatten_replicate4]
    decide
  have hi1 : (0 : Int) < 4 * (solidImage 1 1 0 0 0 0).width *
      (solidImage 1 1 0 0 0 0).height := by
    show (0 : Int) < 4 * 1 * 1
    norm_num
  have hrepl : compare_images (solidImage 1 1 0 0 0 0)
      { solidImage 1 1 1 0 0 0 with
        data := storeAt (solidImage 1 1 1 0 0 0).data 0
          (loadAt (solidImage 1 1 0 0 0 0).data 0) } = Except.ok 0 := by
    have e : ({ solidImage 1 1 1 0 0 0 with
        data := storeAt (solidImage 1 1 1 0 0 0).data 0
          (loadAt (solidImage 1 1 0 0 0 0).data 0) } : Image) = solidImage 1 1 0 0 0 0 := by
      rw [h0]
      rfl
    rw [e, compare_images_eq (solidImage 1 1 0 0 0 0) (solidImage 1 1 0 0 0 0) rfl rfl,
      colourMismatches32_solid, hn, exceeds32_self]
    rfl
  refine ⟨⟨hb, ?_⟩, ha, hrepl, ?_⟩
  · exact (tolerance_boundary_rounded (solidImage 1 1 0 0 0 0) (solidImage 1 1 (13421773 / 134217728) 0 0 0)
      rfl rfl 0 (le_refl _) hi1 (hlen _) (by decide)).1 hb
  · have h := ((tolerance_boundary_rounded (solidImage 1 1 0 0 0 0) (solidImage 1 1 1 0 0 0)
      rfl rfl 0 (le_refl _) hi1 (hlen _) (by decide)).2.2 ha).1 0 hrepl
    rw [h]
    rfl

/-- C9.  For two images whose widths differ or whose heights differ `compare_images`
exits with status 1, whatever the buffers hold; it never returns normally. -/
theorem compare_images_dimension_mismatch (ref cuda : Image)
    (h : ref.width ≠ cuda.width ∨ ref.height ≠ cuda.height) :
    compare_images ref cuda = Except.error 1 ∧
    (∀ n, compare_images ref cuda ≠ Except.ok n) ∧
    (∀ d d' : List ℚ, compare_images { ref with data := d } { cuda with data := d' } =
      Except.error 1) := by
  have h1 : compare_images ref cuda = Except.error 1 := by
    unfold compare_images
    rw [if_pos h]
  refine ⟨h1, ?_, ?_⟩
  · intro n hn
    rw [h1] at hn
    cases hn
  · intro d d'
    unfold compare_images
    rw [if_pos h]

/-- Witness for C9: images of one and of two pixels. -/
theorem compare_images_dimension_mismatch_witness :
    ((solidImage 1 1 0 0 0 0).width ≠ (solidImage 2 1 0 0 0 0).width ∨
      (solidImage 1 1 0 0 0 0).height ≠ (solidImage 2 1 0 0 0 0).height) ∧
    compare_images (solidImage 1 1 0 0 0 0) (solidImage 2 1 0 0 0 0) = Except.error 1 :=
  ⟨Or.inl (by show (1 : Int) ≠ 2; decide),
    (compare_images_dimension_mismatch (solidImage 1 1 0 0 0 0) (solidImage 2 1 0 0 0 0)
      (Or.inl (by show (1 : Int) ≠ 2; decide))).1⟩

/-! ## The scene loader -/

/-! ## Writing one circle into the arrays -/

theorem randomFloat_eq (lib : CLib) (g : RandState) :
    randomFloat lib g = (draw lib g 0, afterDraws g 1) := rfl

theorem afterDraws_afterDraws (g : RandState) (a b : Nat) :
    afterDraws (afterDraws g a) b = afterDraws g (a + b) := by
  funext n
  unfold afterDraws
  congr 1
  omega

theorem draw_afterDraws (lib : CLib) (g : RandState) (a k : Nat) :
    draw lib (afterDraws g a) k = draw lib g (k + a) := rfl

theorem afterDraws_zero (g : RandState) : afterDraws g 0 = g := rfl

theorem loadAt_store3 (p : List ℚ) (b j : Int) (x y z : ℚ) (hb : 0 ≤ b)
    (hlen : b + 2 < (p.length : Int)) :
    loadAt (storeAt (storeAt (storeAt p b x) (b + 1) y) (b + 2) z) j =
      if j = b then x else if j = b + 1 then y else if j = b + 2 then z else loadAt p j := by
  by_cases h0 : j = b
  · subst h0
    rw [loadAt_storeAt_ne _ _ _ _ (by omega), loadAt_storeAt_ne _ _ _ _ (by omega),
      loadAt_storeAt_same _ _ _ hb (by omega), if_pos rfl]
  · by_cases h1 : j = b + 1
    · subst h1
      rw [loadAt_storeAt_ne _ _ _ _ (by omega),
        loadAt_storeAt_same _ _ _ (by omega) (by rw [length_storeAt]; omega), if_neg h0,
        if_pos rfl]
    · by_cases h2 : j = b + 2
      · subst h2
        rw [loadAt_storeAt_same _ _ _ (by omega)
          (by rw [length_storeAt, length_storeAt]; omega), if_neg h0, if_neg h1, if_pos rfl]
      · rw [loadAt_storeAt_ne _ _ _ _ (Ne.symm h2), loadAt_storeAt_ne _ _ _ _ (Ne.symm h1),
          loadAt_storeAt_ne _ _ _ _ (Ne.symm h0), if_neg h0, if_neg h1, if_neg h2]

/-- Storing a circle at index `i` of the three arrays changes the circle at index `i`
and no other. -/
theorem circleOfArrays_write (p c r : List ℚ) (i idx : Int) (x y z rad cr cg cb : ℚ)
    (hi : 0 ≤ i) (hp : 3 * i + 2 < (p.length : Int)) (hc : 3 * i + 2 < (c.length : Int))
    (hr : i < (r.length : Int)) :
    circleOfArrays (storeAt (storeAt (storeAt p (3 * i) x) (3 * i + 1) y) (3 * i + 2) z)
        (storeAt (storeAt (storeAt c (3 * i) cr) (3 * i + 1) cg) (3 * i + 2) cb)
        (storeAt r i rad) idx =
      if idx = i then
        { x := x, y := y, depth := z, radius := rad, colR := cr, colG := cg, colB := cb }
      else circleOfArrays p c r idx := by
  unfold circleOfArrays
  simp only [loadAt_store3 p (3 * i) _ x y z (by omega) hp,
    loadAt_store3 c (3 * i) _ cr cg cb (by omega) hc, loadAt_storeAt]
  by_cases h : idx = i
  · subst h
    simp [hi, hr]
  · have e1 : ¬ (3 * idx = 3 * i) := by omega
    have e2 : ¬ (3 * idx = 3 * i + 1) := by omega
    have e3 : ¬ (3 * idx = 3 * i + 2) := by omega
    have e4 : ¬ (3 * idx + 1 = 3 * i) := by omega
    have e5 : ¬ (3 * idx + 1 = 3 * i + 1) := by omega
    have e6 : ¬ (3 * idx + 1 = 3 * i + 2) := by omega
    have e7 : ¬ (3 * idx + 2 = 3 * i) := by omega
    have e8 : ¬ (3 * idx + 2 = 3 * i + 1) := by omega
    have e9 : ¬ (3 * idx + 2 = 3 * i + 2) := by omega
    have e10 : ¬ (i = idx) := fun h' => h h'.symm
    simp only [h, e1, e2, e3, e4, e5, e6, e7, e8, e9, e10, if_false, false_and]

/-! ## The loops of `generateRandomCircles` -/

theorem generateRandomCircles_eq (lib : CLib) (n : Int) (p c r : List ℚ) (g : RandState) :
    generateRandomCircles lib n p c r g =
      (intRange 0 n).foldl
        (genStep lib n ((drawDepths lib n (lib.srand 0)).1.insertionSort (fun a b => a ≥ b)))
        { position := p, color := c, radius := r, rng := (drawDepths lib n (lib.srand 0)).2 } :=
  rfl

theorem genStep_spec (lib : CLib) (n : Int) (depths : List ℚ) (st : LoadState) (g0 : RandState)
    (k : Nat) (hrng : st.rng = afterDraws g0 (6 * k))
    (hp : 3 * (k : Int) + 2 < (st.position.length : Int))
    (hc : 3 * (k : Int) + 2 < (st.color.length : Int))
    (hr : (k : Int) < (st.radius.length : Int)) :
    (genStep lib n depths st (k : Int)).rng = afterDraws g0 (6 * (k + 1)) ∧
    (genStep lib n depths st (k : Int)).position.length = st.position.length ∧
    (genStep lib n depths st (k : Int)).color.length = st.color.length ∧
    (genStep lib n depths st (k : Int)).radius.length = st.radius.length ∧
    ∀ idx : Int,
      circleOfArrays (genStep lib n depths st (k : Int)).position
          (genStep lib n depths st (k : Int)).color
          (genStep lib n depths st (k : Int)).radius idx =
        if idx = (k : Int) then randomCircle lib n depths g0 k
        else circleOfArrays st.position st.color st.radius idx := by
  unfold genStep
  simp only [randomFloat_eq, afterDraws_afterDraws, draw_afterDraws, zero_add, hrng]
  refine ⟨by congr 1, ?_, ?_, ?_, ?_⟩
  · simp only [length_storeAt]
  · split <;> simp only [length_storeAt]
  · simp only [length_storeAt]
  · intro idx
    by_cases hn : n ≤ 10000
    · simp only [hn, if_true]
      rw [circleOfArrays_write _ _ _ (k : Int) idx _ _ _ _ _ _ _ (Int.natCast_nonneg k) hp hc hr]
      simp only [randomCircle, hn, if_true]
    · simp only [hn, if_false]
      rw [circleOfArrays_write _ _ _ (k : Int) idx _ _ _ _ _ _ _ (Int.natCast_nonneg k) hp hc hr]
      simp only [randomCircle, hn, if_false]

theorem genLoop_upto (lib : CLib) (n : Int) (depths p c r : List ℚ) (g0 : RandState)
    (hp : 3 * n ≤ (p.length : Int)) (hc : 3 * n ≤ (c.length : Int))
    (hr : n ≤ (r.length : Int)) (k : Nat) (hk : (k : Int) ≤ n) :
    let st := ((List.range k).map (fun (i : Nat) => (i : Int))).foldl
      (genStep lib n depths) { position := p, color := c, radius := r, rng := g0 }
    st.rng = afterDraws g0 (6 * k) ∧ st.position.length = p.length ∧
    st.color.length = c.length ∧ st.radius.length = r.length ∧
    ∀ idx : Int, circleOfArrays st.position st.color st.radius idx =
      if 0 ≤ idx ∧ idx < (k : Int) then randomCircle lib n depths g0 idx.toNat
      else circleOfArrays p c r idx := by
  induction k with
  | zero =>
    simp only [List.range_zero, List.map_nil, List.foldl_nil, Nat.cast_zero, mul_zero,
      true_and]
    refine ⟨rfl, ?_⟩
    intro idx
    rw [if_neg]; omega
  | succ k ih =>
    have hk' : (k : Int) ≤ n := by push_cast at hk; omega
    have hk1 : (k : Int) < n := by push_cast at hk; omega
    have IH := ih hk'
    simp only [List.range_succ, List.map_append, List.foldl_append, List.map_cons, List.map_nil,
      List.foldl_cons, List.foldl_nil, zero_add] at IH ⊢
    obtain ⟨hrng, hpl, hcl, hrl, hcirc⟩ := IH
    obtain ⟨h1, h2, h3, h4, h5⟩ := genStep_spec lib n depths _ g0 k hrng (by rw [hpl]; omega)
      (by rw [hcl]; omega) (by rw [hrl]; omega)
    refine ⟨h1, by rw [h2, hpl], by rw [h3, hcl], by rw [h4, hrl], ?_⟩
    intro idx
    rw [h5 idx, hcirc idx]
    by_cases hidx : idx = (k : Int)
    · subst hidx
      have e1 : (0 : Int) ≤ (k : Int) ∧ (k : Int) < ((k + 1 : Nat) : Int) := by
        push_cast; omega
      simp only [if_true, e1, and_self, Int.toNat_ofNat]
    · have hiff : (0 ≤ idx ∧ idx < ((k + 1 : Nat) : Int)) ↔ (0 ≤ idx ∧ idx < (k : Int)) := by
        push_cast; omega
      simp only [hidx, if_false, hiff]

/-- Every circle that `generateRandomCircles` stores, for arrays that hold `n` circles. -/
theorem generateRandomCircles_circle (lib : CLib) (n : Nat) (p c r : List ℚ) (g : RandState)
    (hp : 3 * (n : Int) ≤ (p.length : Int)) (hc : 3 * (n : Int) ≤ (c.length : Int))
    (hr : (n : Int) ≤ (r.length : Int)) (i : Nat) (hi : i < n) :
    circleOfArrays (generateRandomCircles lib n p c r g).position
        (generateRandomCircles lib n p c r g).color
        (generateRandomCircles lib n p c r g).radius (i : Int) =
      randomCircle lib n
        ((drawDepths lib n (lib.srand 0)).1.insertionSort (fun a b => a ≥ b))
        (drawDepths lib n (lib.srand 0)).2 i := by
  rw [generateRandomCircles_eq]
  have h := genLoop_upto lib n
    ((drawDepths lib n (lib.srand 0)).1.insertionSort (fun a b => a ≥ b)) p c r
    (drawDepths lib n (lib.srand 0)).2 hp hc hr n (le_refl _)
  rw [intRange_zero, Int.toNat_ofNat]
  rw [h.2.2.2.2 (i : Int), if_pos ⟨Int.natCast_nonneg i, by exact_mod_cast hi⟩, Int.toNat_ofNat]

theorem list_eq_map_range (l : List ℚ) (f : Nat → ℚ) (n : Nat) (hlen : l.length = n)
    (h : ∀ j : Nat, j < n → loadAt l (j : Int) = f j) : l = (List.range n).map f := by
  apply List.ext_getElem
  · simp [hlen]
  · intro i h1 h2
    have hi : i < n := by omega
    have := h i hi
    rw [loadAt_natCast, List.getD_eq_getElem _ _ h1] at this
    simp [this]

theorem length_newFloats (n : Nat) : (newFloats (n : Int)).length = n := by
  unfold newFloats
  simp

theorem drawDepths_upto (lib : CLib) (n : Nat) (g : RandState) (k : Nat) (hk : k ≤ n) :
    let st := ((List.range k).map (fun (i : Nat) => (i : Int))).foldl
      (fun (st : List ℚ × RandState) (i : Int) =>
        let d := randomFloat lib st.2
        (storeAt st.1 i d.1, d.2))
      (newFloats (n : Int), g)
    st.2 = afterDraws g k ∧ st.1.length = n ∧
    ∀ j : Nat, j < k → loadAt st.1 (j : Int) = draw lib g j := by
  induction k with
  | zero =>
    simp only [List.range_zero, List.map_nil, List.foldl_nil]
    exact ⟨rfl, length_newFloats n, fun j hj => absurd hj (Nat.not_lt_zero j)⟩
  | succ k ih =>
    have IH := ih (by omega)
    simp only [List.range_succ, List.map_append, List.foldl_append, List.map_cons, List.map_nil,
      List.foldl_cons, List.foldl_nil, zero_add] at IH ⊢
    obtain ⟨hrng, hl, hval⟩ := IH
    refine ⟨?_, by rw [length_storeAt, hl], ?_⟩
    · rw [hrng, randomFloat_eq, afterDraws_afterDraws]
    · intro j hj
      by_cases hjk : j = k
      · subst hjk
        rw [loadAt_storeAt_same _ _ _ (Int.natCast_nonneg j)
          (by rw [hl]; exact_mod_cast (show j < n by omega)),
          hrng, randomFloat_eq, draw_afterDraws, zero_add]
      · rw [loadAt_storeAt_ne _ _ _ _ (by intro h; exact hjk (by exact_mod_cast h.symm))]
        exact hval j (by omega)

/-- The first loop of `generateRandomCircles` stores the first `n` draws, in order. -/
theorem drawDepths_eq (lib : CLib) (n : Nat) (g : RandState) :
    drawDepths lib n g = ((List.range n).map (draw lib g), afterDraws g n) := by
  have h := drawDepths_upto lib n g n (le_refl n)
  unfold drawDepths
  rw [intRange_zero, Int.toNat_ofNat]
  simp only at h
  obtain ⟨h1, h2, h3⟩ := h
  exact Prod.ext (list_eq_map_range _ _ n h2 h3) h1

theorem generateRandomCircles_circle_eq (lib : CLib) (n : Nat) (p c r : List ℚ)
    (g : RandState) (hp : 3 * (n : Int) ≤ (p.length : Int))
    (hc : 3 * (n : Int) ≤ (c.length : Int)) (hr : (n : Int) ≤ (r.length : Int)) (i : Nat)
    (hi : i < n) :
    circleOfArrays (generateRandomCircles lib n p c r g).position
        (generateRandomCircles lib n p c r g).color
        (generateRandomCircles lib n p c r g).radius (i : Int) =
      randomCircle lib n (sortedDepths lib n) (afterDraws (lib.srand 0) n) i := by
  rw [generateRandomCircles_circle lib n p c r g hp hc hr i hi, drawDepths_eq]
  rfl

theorem sortedDepths_length (lib : CLib) (n : Nat) : (sortedDepths lib n).length = n := by
  unfold sortedDepths
  rw [List.length_insertionSort]
  simp

theorem sortedDepths_sorted (lib : CLib) (n : Nat) :
    (sortedDepths lib n).Sorted (fun a b => a ≥ b) :=
  List.sorted_insertionSort _ _

theorem sortedDepths_perm (lib : CLib) (n : Nat) :
    (sortedDepths lib n).Perm ((List.range n).map (draw lib (lib.srand 0))) :=
  List.perm_insertionSort _ _

/-! ## The loops of `makeCircleGrid` -/

theorem makeCircleGrid_eq (lib : CLib) (s n : Int) (rad : ℚ) (col : List ℚ) (ox oy : ℚ)
    (p c r : List ℚ) (g : RandState) :
    makeCircleGrid lib s n rad col ox oy p c r g =
      (intRange 0 n).foldl
        (fun st (j : Int) => (intRange 0 n).foldl (gridStep lib rad col ox oy j) st)
        { position := p, color := c, radius := r, index := s, rng := g } := rfl

theorem gridStep_spec (lib : CLib) (rad : ℚ) (col : List ℚ) (ox oy : ℚ) (j i : Int)
    (st : GridState) (h0 : 0 ≤ st.index)
    (hp : 3 * st.index + 2 < (st.position.length : Int))
    (hc : 3 * st.index + 2 < (st.color.length : Int))
    (hr : st.index < (st.radius.length : Int)) :
    (gridStep lib rad col ox oy j st i).index = st.index + 1 ∧
    (gridStep lib rad col ox oy j st i).rng = afterDraws st.rng 1 ∧
    (gridStep lib rad col ox oy j st i).position.length = st.position.length ∧
    (gridStep lib rad col ox oy j st i).color.length = st.color.length ∧
    (gridStep lib rad col ox oy j st i).radius.length = st.radius.length ∧
    ∀ idx : Int,
      circleOfArrays (gridStep lib rad col ox oy j st i).position
          (gridStep lib rad col ox oy j st i).color
          (gridStep lib rad col ox oy j st i).radius idx =
        if idx = st.index then gridCircle rad col ox oy i j (draw lib st.rng 0)
        else circleOfArrays st.position st.color st.radius idx := by
  unfold gridStep
  refine ⟨rfl, rfl, ?_, ?_, ?_, ?_⟩
  · simp only [length_storeAt]
  · simp only [length_storeAt]
  · simp only [length_storeAt]
  · intro idx
    simp only [randomFloat_eq]
    rw [circleOfArrays_write _ _ _ st.index idx _ _ _ _ _ _ _ h0 hp hc hr]
    rfl

theorem gridRow_upto (lib : CLib) (rad : ℚ) (col : List ℚ) (ox oy : ℚ) (j : Int)
    (st0 : GridState) (h0 : 0 ≤ st0.index) (m : Nat)
    (hp : 3 * (st0.index + m) ≤ (st0.position.length : Int))
    (hc : 3 * (st0.index + m) ≤ (st0.color.length : Int))
    (hr : st0.index + m ≤ (st0.radius.length : Int)) :
    let st := ((List.range m).map (fun (i : Nat) => (i : Int))).foldl
      (gridStep lib rad col ox oy j) st0
    st.index = st0.index + m ∧ st.rng = afterDraws st0.rng m ∧
    st.position.length = st0.position.length ∧ st.color.length = st0.color.length ∧
    st.radius.length = st0.radius.length ∧
    ∀ idx : Int, circleOfArrays st.position st.color st.radius idx =
      if st0.index ≤ idx ∧ idx < st0.index + m then
        gridCircle rad col ox oy (idx - st0.index) j (draw lib st0.rng (idx - st0.index).toNat)
      else circleOfArrays st0.position st0.color st0.radius idx := by
  induction m with
  | zero =>
    simp only [List.range_zero, List.map_nil, List.foldl_nil]
    refine ⟨by push_cast; ring, rfl, ?_, ?_, ?_, ?_⟩
    · trivial
    · trivial
    · trivial
    · intro idx
      rw [if_neg]; push_cast; omega
  | succ m ih =>
    have IH := ih (by push_cast at hp; omega) (by push_cast at hc; omega)
      (by push_cast at hr; omega)
    simp only [List.range_succ, List.map_append, List.foldl_append, List.map_cons, List.map_nil,
      List.foldl_cons, List.foldl_nil, zero_add] at IH ⊢
    obtain ⟨hidx, hrng, hpl, hcl, hrl, hcirc⟩ := IH
    obtain ⟨h1, h2, h3, h4, h5, h6⟩ := gridStep_spec lib rad col ox oy j (m : Int) _
      (by rw [hidx]; omega) (by rw [hidx, hpl]; push_cast at hp; omega)
      (by rw [hidx, hcl]; push_cast at hc; omega) (by rw [hidx, hrl]; push_cast at hr; omega)
    refine ⟨by rw [h1, hidx]; push_cast; ring, by rw [h2, hrng, afterDraws_afterDraws],
      by rw [h3, hpl], by rw [h4, hcl], by rw [h5, hrl], ?_⟩
    intro idx
    rw [h6 idx, hcirc idx, hidx, hrng]
    by_cases hi : idx = st0.index + (m : Int)
    · subst hi
      have e1 : st0.index ≤ st0.index + (m : Int) ∧
          st0.index + (m : Int) < st0.index + ((m + 1 : Nat) : Int) := by push_cast; omega
      have e2 : st0.index + (m : Int) - st0.index = (m : Int) := by ring
      simp only [if_true, e1, and_self, e2, Int.toNat_ofNat, draw_afterDraws, zero_add]
    · have hiff : (st0.index ≤ idx ∧ idx < st0.index + ((m + 1 : Nat) : Int)) ↔
          (st0.index ≤ idx ∧ idx < st0.index + (m : Int)) := by push_cast; omega
      simp only [hi, if_false, hiff]

theorem gridRows_upto (lib : CLib) (rad : ℚ) (col : List ℚ) (ox oy : ℚ) (n : Nat)
    (st0 : GridState) (h0 : 0 ≤ st0.index)
    (hp : 3 * (st0.index + n * n) ≤ (st0.position.length : Int))
    (hc : 3 * (st0.index + n * n) ≤ (st0.color.length : Int))
    (hr : st0.index + n * n ≤ (st0.radius.length : Int)) (J : Nat) (hJ : J ≤ n) :
    let st := ((List.range J).map (fun (j : Nat) => (j : Int))).foldl
      (fun st (j : Int) =>
        ((List.range n).map (fun (i : Nat) => (i : Int))).foldl
          (gridStep lib rad col ox oy j) st) st0
    st.index = st0.index + J * n ∧ st.rng = afterDraws st0.rng (J * n) ∧
    st.position.length = st0.position.length ∧ st.color.length = st0.color.length ∧
    st.radius.length = st0.radius.length ∧
    (∀ j i : Nat, j < J → i < n →
      circleOfArrays st.position st.color st.radius (st0.index + j * n + i) =
        gridCircle rad col ox oy i j (draw lib st0.rng (j * n + i))) ∧
    (∀ idx : Int, (idx < st0.index ∨ st0.index + J * n ≤ idx) →
      circleOfArrays st.position st.color st.radius idx =
        circleOfArrays st0.position st0.color st0.radius idx) := by
  induction J with
  | zero =>
    simp only [List.range_zero, List.map_nil, List.foldl_nil]
    refine ⟨by push_cast; ring, by rw [Nat.zero_mul]; rfl, ?_, ?_, ?_,
      fun j i hj => absurd hj (Nat.not_lt_zero j), ?_⟩
    · trivial
    · trivial
    · trivial
    · intro idx _
      trivial
  | succ J ih =>
    have IH := ih (by omega)
    simp only [List.range_succ, List.map_append, List.foldl_append, List.map_cons, List.map_nil,
      List.foldl_cons, List.foldl_nil, zero_add] at IH ⊢
    obtain ⟨hidx, hrng, hpl, hcl, hrl, hin, hout⟩ := IH
    have hJn : (J : Int) * n + n ≤ (n : Int) * n := by
      have : ((J : Int) + 1) * n ≤ (n : Int) * n :=
        mul_le_mul_of_nonneg_right (by exact_mod_cast hJ) (Int.natCast_nonneg n)
      linarith
    have hJ0 : (0 : Int) ≤ (J : Int) * n := by positivity
    obtain ⟨h1, h2, h3, h4, h5, h6⟩ := gridRow_upto lib rad col ox oy (J : Int) _
      (by rw [hidx]; omega) n (by rw [hidx, hpl]; omega) (by rw [hidx, hcl]; omega)
      (by rw [hidx, hrl]; omega)
    refine ⟨by rw [h1, hidx]; push_cast; ring,
      by rw [h2, hrng, afterDraws_afterDraws, Nat.succ_mul],
      by rw [h3, hpl], by rw [h4, hcl], by rw [h5, hrl], ?_, ?_⟩
    · intro j i hj hi
      rw [h6, hidx]
      by_cases hjJ : j = J
      · subst hjJ
        have e1 : st0.index + (j : Int) * n ≤ st0.index + (j : Int) * n + i ∧
            st0.index + (j : Int) * n + i < st0.index + (j : Int) * n + n := by
          constructor
          · omega
          · have : (i : Int) < n := by exact_mod_cast hi
            omega
        have e2 : st0.index + (j : Int) * n + i - (st0.index + (j : Int) * n) = (i : Int) := by
          ring
        rw [if_pos e1, e2, hrng, draw_afterDraws, Int.toNat_ofNat]
        congr 2
        ring
      · have hlt : j < J := by omega
        have hjn : (j : Int) * n + n ≤ (J : Int) * n := by
          have : ((j : Int) + 1) * n ≤ (J : Int) * n :=
            mul_le_mul_of_nonneg_right (by exact_mod_cast hlt) (Int.natCast_nonneg n)
          linarith
        have hi' : (i : Int) < n := by exact_mod_cast hi
        rw [if_neg (by omega)]
        exact hin j i hlt hi
    · intro idx hidx'
      have e : st0.index + ((J + 1 : Nat) : Int) * n = st0.index + (J : Int) * n + n := by
        push_cast; ring
      rw [e] at hidx'
      rw [h6, hidx, if_neg (by omega)]
      exact hout idx (by omega)

/-- Every circle that `makeCircleGrid` stores, and the circles it leaves alone, for
arrays that hold the circles `startIndex ≤ index < startIndex + n * n`. -/
theorem makeCircleGrid_spec (lib : CLib) (s : Int) (n : Nat) (rad : ℚ) (col : List ℚ)
    (ox oy : ℚ) (p c r : List ℚ) (g : RandState) (h0 : 0 ≤ s)
    (hp : 3 * (s + n * n) ≤ (p.length : Int)) (hc : 3 * (s + n * n) ≤ (c.length : Int))
    (hr : s + n * n ≤ (r.length : Int)) :
    (makeCircleGrid lib s n rad col ox oy p c r g).rng = afterDraws g (n * n) ∧
    (makeCircleGrid lib s n rad col ox oy p c r g).position.length = p.length ∧
    (makeCircleGrid lib s n rad col ox oy p c r g).color.length = c.length ∧
    (makeCircleGrid lib s n rad col ox oy p c r g).radius.length = r.length ∧
    (∀ j i : Nat, j < n → i < n →
      circleOfArrays (makeCircleGrid lib s n rad col ox oy p c r g).position
          (makeCircleGrid lib s n rad col ox oy p c r g).color
          (makeCircleGrid lib s n rad col ox oy p c r g).radius (s + j * n + i) =
        gridCircle rad col ox oy i j (draw lib g (j * n + i))) ∧
    (∀ idx : Int, (idx < s ∨ s + n * n ≤ idx) →
      circleOfArrays (makeCircleGrid lib s n rad col ox oy p c r g).position
          (makeCircleGrid lib s n rad col ox oy p c r g).color
          (makeCircleGrid lib s n rad col ox oy p c r g).radius idx =
        circleOfArrays p c r idx) := by
  have h := gridRows_upto lib rad col ox oy n
    { position := p, color := c, radius := r, index := s, rng := g } h0 hp hc hr n (le_refl n)
  rw [makeCircleGrid_eq]
  simp only [intRange_zero, Int.toNat_ofNat]
  simp only at h
  exact ⟨h.2.1, h.2.2.1, h.2.2.2.1, h.2.2.2.2.1, h.2.2.2.2.2.1, h.2.2.2.2.2.2⟩

/-! ## The scenes of `loadCircleScene` -/

theorem loadCircleScene_unknown (lib : CLib) (sceneName : SceneName) (out : SceneArrays)
    (g : RandState) (h0 : sceneName ≠ CIRCLE_RGB) (h1 : sceneName ≠ CIRCLE_RGBY)
    (h2 : sceneName ≠ CIRCLE_TEST_10K) (h3 : sceneName ≠ CIRCLE_TEST_100K)
    (h4 : sceneName ≠ PATTERN) : loadCircleScene lib sceneName out g = (out, g) := by
  unfold loadCircleScene
  rw [if_neg h0, if_neg h1, if_neg h2, if_neg h3, if_neg h4]

theorem loadCircleScene_10K (lib : CLib) (out : SceneArrays) (g : RandState) :
    loadCircleScene lib CIRCLE_TEST_10K out g =
      ({ numCircles := 10000,
         position := (generateRandomCircles lib ((10000 : Nat) : Int) (newFloats (30000 : Nat))
           (newFloats (30000 : Nat)) (newFloats (10000 : Nat)) g).position,
         color := (generateRandomCircles lib ((10000 : Nat) : Int) (newFloats (30000 : Nat))
           (newFloats (30000 : Nat)) (newFloats (10000 : Nat)) g).color,
         radius := (generateRandomCircles lib ((10000 : Nat) : Int) (newFloats (30000 : Nat))
           (newFloats (30000 : Nat)) (newFloats (10000 : Nat)) g).radius },
       (generateRandomCircles lib ((10000 : Nat) : Int) (newFloats (30000 : Nat))
           (newFloats (30000 : Nat)) (newFloats (10000 : Nat)) g).rng) := by
  unfold loadCircleScene
  rw [if_neg (by decide), if_neg (by decide), if_pos rfl]
  have e1 : (10 * 1000 : Int) = ((10000 : Nat) : Int) := by decide
  have e3 : (3 * ((10000 : Nat) : Int)) = ((30000 : Nat) : Int) := by decide
  simp only [e1, e3]
  rfl

theorem loadCircleScene_100K (lib : CLib) (out : SceneArrays) (g : RandState) :
    loadCircleScene lib CIRCLE_TEST_100K out g =
      ({ numCircles := 100000,
         position := (generateRandomCircles lib ((100000 : Nat) : Int) (newFloats (300000 : Nat))
           (newFloats (300000 : Nat)) (newFloats (100000 : Nat)) g).position,
         color := (generateRandomCircles lib ((100000 : Nat) : Int) (newFloats (300000 : Nat))
           (newFloats (300000 : Nat)) (newFloats (100000 : Nat)) g).color,
         radius := (generateRandomCircles lib ((100000 : Nat) : Int) (newFloats (300000 : Nat))
           (newFloats (300000 : Nat)) (newFloats (100000 : Nat)) g).radius },
       (generateRandomCircles lib ((100000 : Nat) : Int) (newFloats (300000 : Nat))
           (newFloats (300000 : Nat)) (newFloats (100000 : Nat)) g).rng) := by
  unfold loadCircleScene
  rw [if_neg (by decide), if_neg (by decide), if_neg (by decide), if_pos rfl]
  have e1 : (100 * 1000 : Int) = ((100000 : Nat) : Int) := by decide
  have e3 : (3 * ((100000 : Nat) : Int)) = ((300000 : Nat) : Int) := by decide
  simp only [e1, e3]
  rfl

theorem loadCircleScene_PATTERN (lib : CLib) (out : SceneArrays) (g : RandState) :
    loadCircleScene lib PATTERN out g =
      ({ numCircles := 1217, position := (patternGrid2 lib g).position,
         color := (patternGrid2 lib g).color, radius := (patternGrid2 lib g).radius },
       (patternGrid2 lib g).rng) := by
  unfold loadCircleScene
  rw [if_neg (by decide), if_neg (by decide), if_neg (by decide), if_neg (by decide), if_pos rfl]
  have hr : (1 / 2 * (1 / (((16 : Int)) : ℚ)) : ℚ) = 1 / 32 := by norm_num
  have e1 : (16 * 16 + 31 * 31 : Int) = ((1217 : Nat) : Int) := by decide
  have e3 : (3 * ((1217 : Nat) : Int)) = ((3651 : Nat) : Int) := by decide
  have e4 : ((0 : Int) + 16 * 16) = 256 := by decide
  simp only [hr, e1, e3, e4]
  rfl

theorem circleAt_mk (n : Int) (p c r : List ℚ) (i : Int) :
    (SceneArrays.mk n p c r).circleAt i = circleOfArrays p c r i := rfl

theorem patternGrid1_spec (lib : CLib) (g : RandState) :
    (patternGrid1 lib g).rng = afterDraws g 256 ∧
    (patternGrid1 lib g).position.length = 3651 ∧
    (patternGrid1 lib g).color.length = 3651 ∧
    (patternGrid1 lib g).radius.length = 1217 ∧
    (∀ j i : Nat, j < 16 → i < 16 →
      circleOfArrays (patternGrid1 lib g).position (patternGrid1 lib g).color
          (patternGrid1 lib g).radius ((j : Int) * 16 + (i : Int)) =
        gridCircle (1 / 32) [1, 0, 0] (1 / 32) (1 / 32) i j (draw lib g (j * 16 + i))) := by
  have h := makeCircleGrid_spec lib 0 16 (1 / 32) [1, 0, 0] (1 / 32) (1 / 32)
    (newFloats (3651 : Nat)) (newFloats (3651 : Nat)) (newFloats (1217 : Nat)) g (le_refl _)
    (by rw [length_newFloats]; decide) (by rw [length_newFloats]; decide)
    (by rw [length_newFloats]; decide)
  obtain ⟨h1, h2, h3, h4, h5, _⟩ := h
  refine ⟨h1, by rw [patternGrid1, h2, length_newFloats], by rw [patternGrid1, h3, length_newFloats],
    by rw [patternGrid1, h4, length_newFloats], ?_⟩
  intro j i hj hi
  have := h5 j i hj hi
  simp only [zero_add, Nat.cast_ofNat] at this
  exact this

theorem patternGrid2_spec (lib : CLib) (g : RandState) :
    (patternGrid2 lib g).rng = afterDraws g 1217 ∧
    (∀ j i : Nat, j < 16 → i < 16 →
      circleOfArrays (patternGrid2 lib g).position (patternGrid2 lib g).color
          (patternGrid2 lib g).radius ((j : Int) * 16 + (i : Int)) =
        gridCircle (1 / 32) [1, 0, 0] (1 / 32) (1 / 32) i j (draw lib g (j * 16 + i))) ∧
    (∀ j i : Nat, j < 31 → i < 31 →
      circleOfArrays (patternGrid2 lib g).position (patternGrid2 lib g).color
          (patternGrid2 lib g).radius (256 + (j : Int) * 31 + (i : Int)) =
        gridCircle (1 / 32) [1, 1, 0] 0 0 i j (draw lib g (256 + (j * 31 + i)))) := by
  obtain ⟨g1, g2, g3, g4, g5⟩ := patternGrid1_spec lib g
  have h := makeCircleGrid_spec lib 256 31 (1 / 32) [1, 1, 0] 0 0
    (patternGrid1 lib g).position (patternGrid1 lib g).color (patternGrid1 lib g).radius
    (patternGrid1 lib g).rng (by decide) (by rw [g2]; decide) (by rw [g3]; decide)
    (by rw [g4]; decide)
  obtain ⟨h1, _, _, _, h5, h6⟩ := h
  refine ⟨by rw [patternGrid2, h1, g1, afterDraws_afterDraws], ?_, ?_⟩
  · intro j i hj hi
    have hlt : (j : Int) * 16 + (i : Int) < 256 := by omega
    rw [patternGrid2, h6 _ (Or.inl hlt)]
    exact g5 j i hj hi
  · intro j i hj hi
    have := h5 j i hj hi
    unfold patternGrid2
    simp only [Nat.cast_ofNat] at this ⊢
    have e : j * 31 + i + 256 = 256 + (j * 31 + i) := by omega
    rw [this, g1, draw_afterDraws, e]

/-- The circles of the scene `PATTERN`. -/
theorem pattern_circles (lib : CLib) (out : SceneArrays) (g : RandState) :
    (loadCircleScene lib PATTERN out g).1.numCircles = 1217 ∧
    (∀ j i : Nat, j < 16 → i < 16 →
      (loadCircleScene lib PATTERN out g).1.circleAt ((j : Int) * 16 + (i : Int)) =
        gridCircle (1 / 32) [1, 0, 0] (1 / 32) (1 / 32) i j (draw lib g (j * 16 + i))) ∧
    (∀ j i : Nat, j < 31 → i < 31 →
      (loadCircleScene lib PATTERN out g).1.circleAt (256 + (j : Int) * 31 + (i : Int)) =
        gridCircle (1 / 32) [1, 1, 0] 0 0 i j (draw lib g (256 + (j * 31 + i)))) := by
  rw [congrArg Prod.fst (loadCircleScene_PATTERN lib out g)]
  refine ⟨rfl, ?_, ?_⟩
  · intro j i hj hi
    rw [circleAt_mk]
    exact (patternGrid2_spec lib g).2.1 j i hj hi
  · intro j i hj hi
    rw [circleAt_mk]
    exact (patternGrid2_spec lib g).2.2 j i hj hi

/-- The circles of the scene `CIRCLE_TEST_10K`. -/
theorem random10K_circles (lib : CLib) (out : SceneArrays) (g : RandState) (i : Nat)
    (hi : i < 10000) :
    (loadCircleScene lib CIRCLE_TEST_10K out g).1.circleAt (i : Int) =
      randomCircle lib 10000 (sortedDepths lib 10000) (afterDraws (lib.srand 0) 10000) i := by
  have h := generateRandomCircles_circle_eq lib 10000 (newFloats (30000 : Nat))
    (newFloats (30000 : Nat)) (newFloats (10000 : Nat)) g (by rw [length_newFloats]; decide)
    (by rw [length_newFloats]; decide) (by rw [length_newFloats]) i hi
  rw [congrArg Prod.fst (loadCircleScene_10K lib out g), circleAt_mk, h]
  rfl

/-- The circles of the scene `CIRCLE_TEST_100K`. -/
theorem random100K_circles (lib : CLib) (out : SceneArrays) (g : RandState) (i : Nat)
    (hi : i < 100000) :
    (loadCircleScene lib CIRCLE_TEST_100K out g).1.circleAt (i : Int) =
      randomCircle lib 100000 (sortedDepths lib 100000) (afterDraws (lib.srand 0) 100000) i := by
  have h := generateRandomCircles_circle_eq lib 100000 (newFloats (300000 : Nat))
    (newFloats (300000 : Nat)) (newFloats (100000 : Nat)) g (by rw [length_newFloats]; decide)
    (by rw [length_newFloats]; decide) (by rw [length_newFloats]) i hi
  rw [congrArg Prod.fst (loadCircleScene_100K lib out g), circleAt_mk, h]
  rfl

/-- The circles of the scene `CIRCLE_RGB`. -/
theorem rgb_circles (lib : CLib) (out : SceneArrays) (g : RandState) :
    (loadCircleScene lib CIRCLE_RGB out g).1.numCircles = 3 ∧
    (loadCircleScene lib CIRCLE_RGB out g).1.circleAt 0 =
      ⟨4 / 10, 5 / 10, 75 / 100, 3 / 10, 1, 0, 0⟩ ∧
    (loadCircleScene lib CIRCLE_RGB out g).1.circleAt 1 =
      ⟨5 / 10, 5 / 10, 5 / 10, 3 / 10, 0, 1, 0⟩ ∧
    (loadCircleScene lib CIRCLE_RGB out g).1.circleAt 2 =
      ⟨6 / 10, 5 / 10, 25 / 100, 3 / 10, 0, 0, 1⟩ :=
  ⟨rfl, rfl, rfl, rfl⟩

/-- The circles of the scene `CIRCLE_RGBY`. -/
theorem rgby_circles (lib : CLib) (out : SceneArrays) (g : RandState) :
    (loadCircleScene lib CIRCLE_RGBY out g).1.numCircles = 4 ∧
    (loadCircleScene lib CIRCLE_RGBY out g).1.circleAt 0 =
      ⟨25 / 100, 25 / 100, 75 / 100, 19 / 100, 1, 0, 0⟩ ∧
    (loadCircleScene lib CIRCLE_RGBY out g).1.circleAt 1 =
      ⟨3 / 10, 3 / 10, 5 / 10, 19 / 100, 0, 1, 0⟩ ∧
    (loadCircleScene lib CIRCLE_RGBY out g).1.circleAt 2 =
      ⟨5 / 10, 5 / 10, 25 / 100, 25 / 100, 0, 0, 1⟩ ∧
    (loadCircleScene lib CIRCLE_RGBY out g).1.circleAt 3 =
      ⟨2 / 10, 2 / 10, 9 / 10, 1 / 10, 1, 1, 0⟩ :=
  ⟨rfl, rfl, rfl, rfl, rfl⟩

/-! ## Ranges of the generated values -/

theorem draw_nonneg (lib : CLib) (g : RandState) (k : Nat) : 0 ≤ draw lib g k := by
  unfold draw
  positivity

theorem draw_le_one (lib : CLib) (g : RandState) (k : Nat) (h : g k ≤ lib.RAND_MAX) :
    draw lib g k ≤ 1 := by
  unfold draw
  apply div_le_one_of_le₀
  · exact_mod_cast h
  · positivity

theorem mem_sortedDepths (lib : CLib) (n : Nat) (d : ℚ) (hd : d ∈ sortedDepths lib n) :
    ∃ k : Nat, k < n ∧ d = draw lib (lib.srand 0) k := by
  have h := (sortedDepths_perm lib n).mem_iff.mp hd
  rw [List.mem_map] at h
  obtain ⟨k, hk, rfl⟩ := h
  exact ⟨k, List.mem_range.mp hk, rfl⟩

theorem loadAt_sortedDepths (lib : CLib) (n i : Nat) (hi : i < n) :
    ∃ k : Nat, k < n ∧ loadAt (sortedDepths lib n) (i : Int) = draw lib (lib.srand 0) k := by
  have hlen : i < (sortedDepths lib n).length := by rw [sortedDepths_length]; exact hi
  rw [loadAt_natCast, List.getD_eq_getElem _ _ hlen]
  exact mem_sortedDepths lib n _ (List.getElem_mem hlen)

/-- Every index of a loaded scene holds one of the circles listed here: the scene loader
as a case table. -/
theorem loaded_circle_cases (lib : CLib) (sceneName : SceneName) (out : SceneArrays)
    (g : RandState)
    (hs : sceneName = CIRCLE_RGB ∨ sceneName = CIRCLE_RGBY ∨ sceneName = CIRCLE_TEST_10K ∨
      sceneName = CIRCLE_TEST_100K ∨ sceneName = PATTERN)
    (idx : Int) (h0 : 0 ≤ idx) (h1 : idx < (loadCircleScene lib sceneName out g).1.numCircles) :
    (sceneName = CIRCLE_RGB ∧
      ((loadCircleScene lib sceneName out g).1.circleAt idx =
          ⟨4 / 10, 5 / 10, 75 / 100, 3 / 10, 1, 0, 0⟩ ∨
       (loadCircleScene lib sceneName out g).1.circleAt idx =
          ⟨5 / 10, 5 / 10, 5 / 10, 3 / 10, 0, 1, 0⟩ ∨
       (loadCircleScene lib sceneName out g).1.circleAt idx =
          ⟨6 / 10, 5 / 10, 25 / 100, 3 / 10, 0, 0, 1⟩)) ∨
    (sceneName = CIRCLE_RGBY ∧
      ((loadCircleScene lib sceneName out g).1.circleAt idx =
          ⟨25 / 100, 25 / 100, 75 / 100, 19 / 100, 1, 0, 0⟩ ∨
       (loadCircleScene lib sceneName out g).1.circleAt idx =
          ⟨3 / 10, 3 / 10, 5 / 10, 19 / 100, 0, 1, 0⟩ ∨
       (loadCircleScene lib sceneName out g).1.circleAt idx =
          ⟨5 / 10, 5 / 10, 25 / 100, 25 / 100, 0, 0, 1⟩ ∨
       (loadCircleScene lib sceneName out g).1.circleAt idx =
          ⟨2 / 10, 2 / 10, 9 / 10, 1 / 10, 1, 1, 0⟩)) ∨
    (sceneName = CIRCLE_TEST_10K ∧ ∃ i : Nat, i < 10000 ∧ idx = (i : Int) ∧
      (loadCircleScene lib sceneName out g).1.circleAt idx =
        randomCircle lib 10000 (sortedDepths lib 10000) (afterDraws (lib.srand 0) 10000) i) ∨
    (sceneName = CIRCLE_TEST_100K ∧ ∃ i : Nat, i < 100000 ∧ idx = (i : Int) ∧
      (loadCircleScene lib sceneName out g).1.circleAt idx =
        randomCircle lib 100000 (sortedDepths lib 100000)
          (afterDraws (lib.srand 0) 100000) i) ∨
    (sceneName = PATTERN ∧ idx < 256 ∧ ∃ j i : Nat, j < 16 ∧ i < 16 ∧
      idx = (j : Int) * 16 + (i : Int) ∧
      (loadCircleScene lib sceneName out g).1.circleAt idx =
        gridCircle (1 / 32) [1, 0, 0] (1 / 32) (1 / 32) i j (draw lib g (j * 16 + i))) ∨
    (sceneName = PATTERN ∧ 256 ≤ idx ∧ ∃ j i : Nat, j < 31 ∧ i < 31 ∧
      idx = 256 + (j : Int) * 31 + (i : Int) ∧
      (loadCircleScene lib sceneName out g).1.circleAt idx =
        gridCircle (1 / 32) [1, 1, 0] 0 0 i j (draw lib g (256 + (j * 31 + i)))) := by
  rcases hs with rfl | rfl | rfl | rfl | rfl
  · left
    refine ⟨rfl, ?_⟩
    obtain ⟨hn, c0, c1, c2⟩ := rgb_circles lib out g
    rw [hn] at h1
    have : idx = 0 ∨ idx = 1 ∨ idx = 2 := by omega
    rcases this with rfl | rfl | rfl
    · exact Or.inl c0
    · exact Or.inr (Or.inl c1)
    · exact Or.inr (Or.inr c2)
  · right; left
    refine ⟨rfl, ?_⟩
    obtain ⟨hn, c0, c1, c2, c3⟩ := rgby_circles lib out g
    rw [hn] at h1
    have : idx = 0 ∨ idx = 1 ∨ idx = 2 ∨ idx = 3 := by omega
    rcases this with rfl | rfl | rfl | rfl
    · exact Or.inl c0
    · exact Or.inr (Or.inl c1)
    · exact Or.inr (Or.inr (Or.inl c2))
    · exact Or.inr (Or.inr (Or.inr c3))
  · right; right; left
    refine ⟨rfl, ?_⟩
    rw [congrArg Prod.fst (loadCircleScene_10K lib out g)] at h1
    have h1 : idx < 10000 := h1
    obtain ⟨i, rfl⟩ := Int.eq_ofNat_of_zero_le h0
    have hi : i < 10000 := by omega
    exact ⟨i, hi, rfl, random10K_circles lib out g i hi⟩
  · right; right; right; left
    refine ⟨rfl, ?_⟩
    rw [congrArg Prod.fst (loadCircleScene_100K lib out g)] at h1
    have h1 : idx < 100000 := h1
    obtain ⟨i, rfl⟩ := Int.eq_ofNat_of_zero_le h0
    have hi : i < 100000 := by omega
    exact ⟨i, hi, rfl, random100K_circles lib out g i hi⟩
  · obtain ⟨hn, c1, c2⟩ := pattern_circles lib out g
    rw [hn] at h1
    obtain ⟨k, rfl⟩ := Int.eq_ofNat_of_zero_le h0
    by_cases hk : k < 256
    · right; right; right; right; left
      have e : ((k : Nat) : Int) = ((k / 16 : Nat) : Int) * 16 + ((k % 16 : Nat) : Int) := by
        omega
      refine ⟨rfl, by omega, k / 16, k % 16, by omega, by omega, e, ?_⟩
      rw [e]
      exact c1 (k / 16) (k % 16) (by omega) (by omega)
    · right; right; right; right; right
      have e : ((k : Nat) : Int) =
          256 + (((k - 256) / 31 : Nat) : Int) * 31 + (((k - 256) % 31 : Nat) : Int) := by
        omega
      refine ⟨rfl, by omega, (k - 256) / 31, (k - 256) % 31, by omega, by omega, e, ?_⟩
      rw [e]
      exact c2 ((k - 256) / 31) ((k - 256) % 31) (by omega) (by omega)

/-! ## The scene loader: layout, ranges and determinism -/

/-- C15: the scene `PATTERN` has `16*16 + 31*31 = 1217` circles; the circles 0..255 are
red `(1,0,0)` and the circles 256..1216 are yellow `(1,1,0)`, all of radius `0.5/16`; the
circle of row `j` and column `i` of the first grid has index `0 + j*16 + i` and position
`(r + 2*r*i, r + 2*r*j)`, that of the second grid has index `256 + j*31 + i` and
position `(0 + 2*r*i, 0 + 2*r*j)`, where `r` is the radius. -/
theorem pattern_scene_layout (lib : CLib) (out : SceneArrays) (g : RandState) :
    (16 * 16 + 31 * 31 : Int) = 1217 ∧
    (loadCircleScene lib PATTERN out g).1.numCircles = 16 * 16 + 31 * 31 ∧
    (∀ idx : Int, 0 ≤ idx → idx < 256 →
      ((loadCircleScene lib PATTERN out g).1.circleAt idx).colR = 1 ∧
      ((loadCircleScene lib PATTERN out g).1.circleAt idx).colG = 0 ∧
      ((loadCircleScene lib PATTERN out g).1.circleAt idx).colB = 0 ∧
      ((loadCircleScene lib PATTERN out g).1.circleAt idx).radius = (1 / 2) / 16) ∧
    (∀ idx : Int, 256 ≤ idx → idx < 1217 →
      ((loadCircleScene lib PATTERN out g).1.circleAt idx).colR = 1 ∧
      ((loadCircleScene lib PATTERN out g).1.circleAt idx).colG = 1 ∧
      ((loadCircleScene lib PATTERN out g).1.circleAt idx).colB = 0 ∧
      ((loadCircleScene lib PATTERN out g).1.circleAt idx).radius = (1 / 2) / 16) ∧
    (∀ j i : Nat, j < 16 → i < 16 →
      (0 : Int) ≤ 0 + (j : Int) * 16 + (i : Int) ∧ 0 + (j : Int) * 16 + (i : Int) < 256 ∧
      ((loadCircleScene lib PATTERN out g).1.circleAt (0 + (j : Int) * 16 + (i : Int))).x =
        (1 / 2) / 16 + 2 * ((1 / 2) / 16) * (i : ℚ) ∧
      ((loadCircleScene lib PATTERN out g).1.circleAt (0 + (j : Int) * 16 + (i : Int))).y =
        (1 / 2) / 16 + 2 * ((1 / 2) / 16) * (j : ℚ)) ∧
    (∀ j i : Nat, j < 31 → i < 31 →
      (256 : Int) ≤ 256 + (j : Int) * 31 + (i : Int) ∧
      256 + (j : Int) * 31 + (i : Int) < 1217 ∧
      ((loadCircleScene lib PATTERN out g).1.circleAt (256 + (j : Int) * 31 + (i : Int))).x =
        0 + 2 * ((1 / 2) / 16) * (i : ℚ) ∧
      ((loadCircleScene lib PATTERN out g).1.circleAt (256 + (j : Int) * 31 + (i : Int))).y =
        0 + 2 * ((1 / 2) / 16) * (j : ℚ)) := by
  obtain ⟨hn, c1, c2⟩ := pattern_circles lib out g
  refine ⟨by decide, by rw [hn]; decide, ?_, ?_, ?_, ?_⟩
  · intro idx h0 h1
    have hlt : idx < (loadCircleScene lib PATTERN out g).1.numCircles := by rw [hn]; omega
    rcases loaded_circle_cases lib PATTERN out g (by simp) idx h0 hlt with
      h | h | h | h | h | h
    · exact absurd h.1 (by decide)
    · exact absurd h.1 (by decide)
    · exact absurd h.1 (by decide)
    · exact absurd h.1 (by decide)
    · obtain ⟨_, _, j, i, _, _, _, hc⟩ := h
      rw [hc]
      simp only [gridCircle]
      refine ⟨rfl, rfl, rfl, by norm_num⟩
    · omega
  · intro idx h0 h1
    have hlt : idx < (loadCircleScene lib PATTERN out g).1.numCircles := by rw [hn]; omega
    rcases loaded_circle_cases lib PATTERN out g (by simp) idx (by omega) hlt with
      h | h | h | h | h | h
    · exact absurd h.1 (by decide)
    · exact absurd h.1 (by decide)
    · exact absurd h.1 (by decide)
    · exact absurd h.1 (by decide)
    · omega
    · obtain ⟨_, _, j, i, _, _, _, hc⟩ := h
      rw [hc]
      simp only [gridCircle]
      refine ⟨rfl, rfl, rfl, by norm_num⟩
  · intro j i hj hi
    refine ⟨by omega, by omega, ?_, ?_⟩
    · rw [zero_add, c1 j i hj hi]
      simp only [gridCircle]
      norm_num
    · rw [zero_add, c1 j i hj hi]
      simp only [gridCircle]
      norm_num
  · intro j i hj hi
    refine ⟨by omega, by omega, ?_, ?_⟩
    · rw [c2 j i hj hi]
      simp only [gridCircle]
      norm_num
    · rw [c2 j i hj hi]
      simp only [gridCircle]
      norm_num

/-- Witness for C15: circle 17 (row 1, column 1 of the first grid) and circle 273 (row 0,
column 17 of the second grid) for the library `libZero`. -/
theorem pattern_scene_layout_witness :
    ((loadCircleScene libZero PATTERN noScene altState).1.circleAt 17).colG = 0 ∧
    ((loadCircleScene libZero PATTERN noScene altState).1.circleAt 273).colG = 1 ∧
    ((loadCircleScene libZero PATTERN noScene altState).1.circleAt
      (256 + ((0 : Nat) : Int) * 31 + ((17 : Nat) : Int))).x = 0 + 2 * ((1 / 2) / 16) *
        ((17 : Nat) : ℚ) :=
  ⟨((pattern_scene_layout libZero noScene altState).2.2.1 17 (by decide) (by decide)).2.1,
   ((pattern_scene_layout libZero noScene altState).2.2.2.1 273 (by decide) (by decide)).2.1,
   ((pattern_scene_layout libZero noScene altState).2.2.2.2.2 0 17 (by decide)
      (by decide)).2.2.1⟩

/-- C18: for a scene identifier other than the five known ones `loadCircleScene` returns
with `numCircles`, `position`, `color` and `radius` (and the generator) as they were
before the call; for the five known identifiers it sets `numCircles` to 3, 4, 10000,
100000 and 1217. -/
theorem unknown_scene_leaves_outputs (lib : CLib) (sceneName : SceneName)
    (out : SceneArrays) (g : RandState) (h0 : sceneName ≠ CIRCLE_RGB)
    (h1 : sceneName ≠ CIRCLE_RGBY) (h2 : sceneName ≠ CIRCLE_TEST_10K)
    (h3 : sceneName ≠ CIRCLE_TEST_100K) (h4 : sceneName ≠ PATTERN) :
    loadCircleScene lib sceneName out g = (out, g) ∧
    (loadCircleScene lib sceneName out g).1.numCircles = out.numCircles ∧
    (loadCircleScene lib sceneName out g).1.position = out.position ∧
    (loadCircleScene lib sceneName out g).1.color = out.color ∧
    (loadCircleScene lib sceneName out g).1.radius = out.radius ∧
    (loadCircleScene lib CIRCLE_RGB out g).1.numCircles = 3 ∧
    (loadCircleScene lib CIRCLE_RGBY out g).1.numCircles = 4 ∧
    (loadCircleScene lib CIRCLE_TEST_10K out g).1.numCircles = 10000 ∧
    (loadCircleScene lib CIRCLE_TEST_100K out g).1.numCircles = 100000 ∧
    (loadCircleScene lib PATTERN out g).1.numCircles = 1217 := by
  have h := loadCircleScene_unknown lib sceneName out g h0 h1 h2 h3 h4
  refine ⟨h, by rw [h], by rw [h], by rw [h], by rw [h], rfl, rfl, ?_, ?_, ?_⟩
  · rw [congrArg Prod.fst (loadCircleScene_10K lib out g)]
  · rw [congrArg Prod.fst (loadCircleScene_100K lib out g)]
  · rw [congrArg Prod.fst (loadCircleScene_PATTERN lib out g)]

/-- Witness for C18: the identifier 5, one past the last enumerator, with the outputs
holding the three circles of `CIRCLE_RGB` before the call. -/
theorem unknown_scene_leaves_outputs_witness :
    loadCircleScene libZero 5 (loadCircleScene libZero CIRCLE_RGB noScene altState).1
        altState =
      ((loadCircleScene libZero CIRCLE_RGB noScene altState).1, altState) ∧
    (loadCircleScene libZero 5 (loadCircleScene libZero CIRCLE_RGB noScene altState).1
        altState).1.numCircles = 3 :=
  ⟨(unknown_scene_leaves_outputs libZero 5
      (loadCircleScene libZero CIRCLE_RGB noScene altState).1 altState (by decide)
      (by decide) (by decide) (by decide) (by decide)).1,
   (unknown_scene_leaves_outputs libZero 5
      (loadCircleScene libZero CIRCLE_RGB noScene altState).1 altState (by decide)
      (by decide) (by decide) (by decide) (by decide)).2.1⟩

theorem generateRandomCircles_ignores_generator (lib : CLib) (numCircles : Int)
    (p c r : List ℚ) (g g' : RandState) :
    generateRandomCircles lib numCircles p c r g =
      generateRandomCircles lib numCircles p c r g' := rfl

/-- C13: for `CIRCLE_TEST_10K` and `CIRCLE_TEST_100K` the result of `loadCircleScene`,
arrays and generator state, does not depend on the generator state or on the outputs
before the call: `generateRandomCircles` starts with `srand(0)`.  Loading the scene a
second time, in the state the first load left, gives the same result, and every circle
is a function of the index and of the sequence installed by `srand(0)`. -/
theorem randomized_scenes_deterministic (lib : CLib) (out out' : SceneArrays)
    (g g' : RandState) :
    loadCircleScene lib CIRCLE_TEST_10K out g = loadCircleScene lib CIRCLE_TEST_10K out' g' ∧
    loadCircleScene lib CIRCLE_TEST_100K out g =
      loadCircleScene lib CIRCLE_TEST_100K out' g' ∧
    loadCircleScene lib CIRCLE_TEST_10K (loadCircleScene lib CIRCLE_TEST_10K out g).1
        (loadCircleScene lib CIRCLE_TEST_10K out g).2 =
      loadCircleScene lib CIRCLE_TEST_10K out g ∧
    loadCircleScene lib CIRCLE_TEST_100K (loadCircleScene lib CIRCLE_TEST_100K out g).1
        (loadCircleScene lib CIRCLE_TEST_100K out g).2 =
      loadCircleScene lib CIRCLE_TEST_100K out g ∧
    (∀ (numCircles : Int) (p c r : List ℚ),
      generateRandomCircles lib numCircles p c r g =
        generateRandomCircles lib numCircles p c r g') ∧
    (∀ i : Nat, i < 10000 →
      (loadCircleScene lib CIRCLE_TEST_10K out g).1.circleAt (i : Int) =
        randomCircle lib 10000 (sortedDepths lib 10000) (afterDraws (lib.srand 0) 10000) i) ∧
    (∀ i : Nat, i < 100000 →
      (loadCircleScene lib CIRCLE_TEST_100K out g).1.circleAt (i : Int) =
        randomCircle lib 100000 (sortedDepths lib 100000)
          (afterDraws (lib.srand 0) 100000) i) := by
  have a : ∀ (o o' : SceneArrays) (s s' : RandState),
      loadCircleScene lib CIRCLE_TEST_10K o s = loadCircleScene lib CIRCLE_TEST_10K o' s' := by
    intro o o' s s'
    rw [loadCircleScene_10K, loadCircleScene_10K,
      generateRandomCircles_ignores_generator lib _ _ _ _ s s']
  have b : ∀ (o o' : SceneArrays) (s s' : RandState),
      loadCircleScene lib CIRCLE_TEST_100K o s =
        loadCircleScene lib CIRCLE_TEST_100K o' s' := by
    intro o o' s s'
    rw [loadCircleScene_100K, loadCircleScene_100K,
      generateRandomCircles_ignores_generator lib _ _ _ _ s s']
  exact ⟨a _ _ _ _, b _ _ _ _, a _ _ _ _, b _ _ _ _,
    fun n p c r => generateRandomCircles_ignores_generator lib n p c r g g',
    fun i hi => random10K_circles lib out g i hi,
    fun i hi => random100K_circles lib out g i hi⟩

/-- Witness for C13: circle 0 of `CIRCLE_TEST_10K` for the library `libCycle`. -/
theorem randomized_scenes_deterministic_witness :
    (loadCircleScene libCycle CIRCLE_TEST_10K noScene altState).1.circleAt ((0 : Nat) : Int) =
      randomCircle libCycle 10000 (sortedDepths libCycle 10000)
        (afterDraws (libCycle.srand 0) 10000) 0 :=
  (randomized_scenes_deterministic libCycle noScene noScene altState altState).2.2.2.2.2.1 0
    (by decide)

theorem depthsOf_generateRandomCircles (lib : CLib) (n : Nat) (p c r : List ℚ)
    (g : RandState) (hp : 3 * (n : Int) ≤ (p.length : Int))
    (hc : 3 * (n : Int) ≤ (c.length : Int)) (hr : (n : Int) ≤ (r.length : Int)) :
    depthsOf (generateRandomCircles lib n p c r g).position n = sortedDepths lib n := by
  symm
  unfold depthsOf
  apply list_eq_map_range _ _ n (sortedDepths_length lib n)
  intro j hj
  have h := congrArg SceneCircle.depth
    (generateRandomCircles_circle_eq lib n p c r g hp hc hr j hj)
  simp only [circleOfArrays, randomCircle] at h
  exact h.symm

/-- C14: for every circle count `n` and every draw sequence, the depths that
`generateRandomCircles` stores (element `3*i+2` of the position array) are in
non-increasing order along the list and are a permutation of the first `n` draws after
`srand(0)`. -/
theorem generated_depths_sorted (lib : CLib) (n : Nat) (p c r : List ℚ) (g : RandState)
    (hp : 3 * (n : Int) ≤ (p.length : Int)) (hc : 3 * (n : Int) ≤ (c.length : Int))
    (hr : (n : Int) ≤ (r.length : Int)) :
    (∀ i j : Nat, i < j → j < n →
      loadAt (generateRandomCircles lib n p c r g).position (3 * (i : Int) + 2) ≥
        loadAt (generateRandomCircles lib n p c r g).position (3 * (j : Int) + 2)) ∧
    (depthsOf (generateRandomCircles lib n p c r g).position n).Sorted (fun a b => a ≥ b) ∧
    (depthsOf (generateRandomCircles lib n p c r g).position n).Perm
      ((List.range n).map (draw lib (lib.srand 0))) := by
  have e := depthsOf_generateRandomCircles lib n p c r g hp hc hr
  refine ⟨?_, ?_, ?_⟩
  · intro i j hij hj
    have hs := sortedDepths_sorted lib n
    rw [← e] at hs
    have hlen : (depthsOf (generateRandomCircles lib n p c r g).position n).length = n := by
      unfold depthsOf; simp
    have := (List.pairwise_iff_getElem.mp hs) i j (by omega) (by omega) hij
    simpa [depthsOf] using this
  · rw [e]; exact sortedDepths_sorted lib n
  · rw [e]; exact sortedDepths_perm lib n

/-- Witness for C14: four circles with the draws 0, 1/2, 1, 0 of `libCycle`. -/
theorem generated_depths_sorted_witness :
    (3 * ((4 : Nat) : Int) ≤ (((newFloats (12 : Nat)).length : Nat) : Int) ∧
      ((4 : Nat) : Int) ≤ (((newFloats (4 : Nat)).length : Nat) : Int)) ∧
    (depthsOf (generateRandomCircles libCycle (4 : Nat) (newFloats (12 : Nat))
      (newFloats (12 : Nat)) (newFloats (4 : Nat)) altState).position 4).Sorted
        (fun a b => a ≥ b) :=
  ⟨⟨by decide, by decide⟩,
   (generated_depths_sorted libCycle 4 (newFloats (12 : Nat)) (newFloats (12 : Nat))
      (newFloats (4 : Nat)) altState (by decide) (by decide) (by decide)).2.1⟩

theorem loadCircleScene_PATTERN_rng (lib : CLib) (out : SceneArrays) (g : RandState) :
    (loadCircleScene lib PATTERN out g).2 = afterDraws g 1217 := by
  rw [congrArg Prod.snd (loadCircleScene_PATTERN lib out g)]
  have h := (patternGrid2_spec lib g).1
  rw [← h]

theorem pattern_first_depth (lib : CLib) (out : SceneArrays) (g : RandState) :
    ((loadCircleScene lib PATTERN out g).1.circleAt 0).depth = draw lib g 0 := by
  have h := (pattern_circles lib out g).2.1 0 0 (by decide) (by decide)
  simp only [Nat.cast_zero, zero_mul, zero_add, Nat.zero_mul, Nat.add_zero] at h
  rw [h]
  rfl

theorem depth_eq_of_position_eq (s t : SceneArrays) (h : s.position = t.position) (i : Int) :
    (s.circleAt i).depth = (t.circleAt i).depth := by
  unfold SceneArrays.circleAt circleOfArrays
  simp only
  rw [h]

/-- C12, evaluated: two successive loads of `PATTERN`, the second in the state left by
the first, as `main` performs them for the two renderers of the check mode.  With the
generator returning 0, 1, 0, 1, ... the two circle lists differ: circle 0 has depth 0
after the first load and depth 1 after the second. -/
theorem pattern_depth_follows_generator :
    (loadCircleScene libZero PATTERN noScene altState).1.numCircles = 1217 ∧
    (loadCircleScene libZero PATTERN (loadCircleScene libZero PATTERN noScene altState).1
      (loadCircleScene libZero PATTERN noScene altState).2).1.numCircles = 1217 ∧
    ((loadCircleScene libZero PATTERN noScene altState).1.circleAt 0).depth = 0 ∧
    ((loadCircleScene libZero PATTERN (loadCircleScene libZero PATTERN noScene altState).1
      (loadCircleScene libZero PATTERN noScene altState).2).1.circleAt 0).depth = 1 ∧
    (loadCircleScene libZero PATTERN noScene altState).1.position ≠
      (loadCircleScene libZero PATTERN (loadCircleScene libZero PATTERN noScene altState).1
        (loadCircleScene libZero PATTERN noScene altState).2).1.position := by
  have d1 : ((loadCircleScene libZero PATTERN noScene altState).1.circleAt 0).depth = 0 := by
    rw [pattern_first_depth]
    simp [draw, altState]
  have d2 : ((loadCircleScene libZero PATTERN
      (loadCircleScene libZero PATTERN noScene altState).1
      (loadCircleScene libZero PATTERN noScene altState).2).1.circleAt 0).depth = 1 := by
    rw [pattern_first_depth, loadCircleScene_PATTERN_rng]
    simp [draw, altState, afterDraws, libZero]
  refine ⟨(pattern_circles _ _ _).1, (pattern_circles _ _ _).1, d1, d2, ?_⟩
  intro hp
  have e := depth_eq_of_position_eq _ _ hp 0
  rw [d1, d2] at e
  exact absurd e (by norm_num)

theorem loadAt_sortedDepths_bounds (lib : CLib) (n i : Nat) (hi : i < n)
    (hs : ∀ k : Nat, draw lib (lib.srand 0) k ≤ 1) :
    0 ≤ loadAt (sortedDepths lib n) (i : Int) ∧ loadAt (sortedDepths lib n) (i : Int) ≤ 1 := by
  obtain ⟨k, _, hk⟩ := loadAt_sortedDepths lib n i hi
  rw [hk]
  exact ⟨draw_nonneg _ _ _, hs k⟩

/-- C16, counterexample: with every draw equal to 0, circle 273 of `PATTERN` (row 0,
column 17 of the second grid) has `x = 17/16`, which is not in `[0,1]`. -/
theorem position_range_counterexample :
    (∀ k : Nat, 0 ≤ draw libZero (libZero.srand 0) k ∧ draw libZero (libZero.srand 0) k ≤ 1) ∧
    (∀ k : Nat, 0 ≤ draw libZero (constState 0) k ∧ draw libZero (constState 0) k ≤ 1) ∧
    (0 : Int) ≤ 273 ∧
    (273 : Int) < (loadCircleScene libZero PATTERN noScene (constState 0)).1.numCircles ∧
    ((loadCircleScene libZero PATTERN noScene (constState 0)).1.circleAt 273).x = 17 / 16 ∧
    ¬ ((loadCircleScene libZero PATTERN noScene (constState 0)).1.circleAt 273).x ≤ 1 := by
  have hx : ((loadCircleScene libZero PATTERN noScene (constState 0)).1.circleAt 273).x =
      17 / 16 := by
    have h := (pattern_circles libZero noScene (constState 0)).2.2 0 17 (by decide)
      (by decide)
    have e : (256 + ((0 : Nat) : Int) * 31 + ((17 : Nat) : Int)) = 273 := by decide
    rw [e] at h
    rw [h]
    simp only [gridCircle]
    norm_num
  refine ⟨fun k => ⟨draw_nonneg _ _ _, ?_⟩, fun k => ⟨draw_nonneg _ _ _, ?_⟩, by decide, ?_,
    hx, ?_⟩
  · simp [draw, libZero]
  · simp [draw, constState]
  · rw [(pattern_circles libZero noScene (constState 0)).1]
    decide
  · rw [hx]
    norm_num

/-- C16, amended: for each of the five scenes, with every draw in `[0,1]`, every circle
has its depth in `[0,1]` and its `x` and `y` in `[0,1]`, except the circles of the second
grid of `PATTERN` (indices 256..1216), whose `x` and `y` lie in `[0, 15/8]`. -/
theorem loaded_positions_range (lib : CLib) (sceneName : SceneName) (out : SceneArrays)
    (g : RandState)
    (hscene : sceneName = CIRCLE_RGB ∨ sceneName = CIRCLE_RGBY ∨
      sceneName = CIRCLE_TEST_10K ∨ sceneName = CIRCLE_TEST_100K ∨ sceneName = PATTERN)
    (hs : ∀ k : Nat, draw lib (lib.srand 0) k ≤ 1) (hg : ∀ k : Nat, draw lib g k ≤ 1)
    (idx : Int) (h0 : 0 ≤ idx)
    (h1 : idx < (loadCircleScene lib sceneName out g).1.numCircles) :
    0 ≤ ((loadCircleScene lib sceneName out g).1.circleAt idx).depth ∧
    ((loadCircleScene lib sceneName out g).1.circleAt idx).depth ≤ 1 ∧
    0 ≤ ((loadCircleScene lib sceneName out g).1.circleAt idx).x ∧
    0 ≤ ((loadCircleScene lib sceneName out g).1.circleAt idx).y ∧
    ((sceneName ≠ PATTERN ∨ idx < 256) →
      ((loadCircleScene lib sceneName out g).1.circleAt idx).x ≤ 1 ∧
      ((loadCircleScene lib sceneName out g).1.circleAt idx).y ≤ 1) ∧
    ((sceneName = PATTERN ∧ 256 ≤ idx) →
      ((loadCircleScene lib sceneName out g).1.circleAt idx).x ≤ 15 / 8 ∧
      ((loadCircleScene lib sceneName out g).1.circleAt idx).y ≤ 15 / 8) := by
  rcases loaded_circle_cases lib sceneName out g hscene idx h0 h1 with
    ⟨_, h | h | h⟩ | ⟨_, h | h | h | h⟩ | ⟨_, i, hi, _, h⟩ | ⟨_, i, hi, _, h⟩ |
    ⟨_, hlt, j, i, hj, hi, _, h⟩ | ⟨hsc, hge, j, i, hj, hi, _, h⟩
  · rw [h]; norm_num
  · rw [h]; norm_num
  · rw [h]; norm_num
  · rw [h]; norm_num
  · rw [h]; norm_num
  · rw [h]; norm_num
  · rw [h]; norm_num
  · rw [h]
    simp only [randomCircle]
    obtain ⟨d0, d1⟩ := loadAt_sortedDepths_bounds lib 10000 i hi hs
    have hb : ∀ k : Nat, draw lib (afterDraws (lib.srand 0) 10000) k ≤ 1 := by
      intro k; rw [draw_afterDraws]; exact hs _
    exact ⟨d0, d1, draw_nonneg _ _ _, draw_nonneg _ _ _, fun _ => ⟨hb _, hb _⟩,
      fun _ => ⟨le_trans (hb _) (by norm_num), le_trans (hb _) (by norm_num)⟩⟩
  · rw [h]
    simp only [randomCircle]
    obtain ⟨d0, d1⟩ := loadAt_sortedDepths_bounds lib 100000 i hi hs
    have hb : ∀ k : Nat, draw lib (afterDraws (lib.srand 0) 100000) k ≤ 1 := by
      intro k; rw [draw_afterDraws]; exact hs _
    exact ⟨d0, d1, draw_nonneg _ _ _, draw_nonneg _ _ _, fun _ => ⟨hb _, hb _⟩,
      fun _ => ⟨le_trans (hb _) (by norm_num), le_trans (hb _) (by norm_num)⟩⟩
  · rw [h]
    simp only [gridCircle]
    have hi' : ((i : Int) : ℚ) ≤ 15 := by
      have : (i : Int) ≤ 15 := by omega
      exact_mod_cast this
    have hj' : ((j : Int) : ℚ) ≤ 15 := by
      have : (j : Int) ≤ 15 := by omega
      exact_mod_cast this
    have hi0 : (0 : ℚ) ≤ ((i : Int) : ℚ) := by exact_mod_cast Int.natCast_nonneg i
    have hj0 : (0 : ℚ) ≤ ((j : Int) : ℚ) := by exact_mod_cast Int.natCast_nonneg j
    refine ⟨draw_nonneg _ _ _, hg _, by linarith, by linarith, fun _ => ⟨by linarith,
      by linarith⟩, fun _ => ⟨by linarith, by linarith⟩⟩
  · rw [h]
    simp only [gridCircle]
    have hi' : ((i : Int) : ℚ) ≤ 30 := by
      have : (i : Int) ≤ 30 := by omega
      exact_mod_cast this
    have hj' : ((j : Int) : ℚ) ≤ 30 := by
      have : (j : Int) ≤ 30 := by omega
      exact_mod_cast this
    have hi0 : (0 : ℚ) ≤ ((i : Int) : ℚ) := by exact_mod_cast Int.natCast_nonneg i
    have hj0 : (0 : ℚ) ≤ ((j : Int) : ℚ) := by exact_mod_cast Int.natCast_nonneg j
    refine ⟨draw_nonneg _ _ _, hg _, by linarith, by linarith, ?_,
      fun _ => ⟨by linarith, by linarith⟩⟩
    intro hh
    rcases hh with hh | hh
    · exact absurd hsc hh
    · omega

/-- Witness for the amended C16: circle 273 of `PATTERN` with every draw equal to 0. -/
theorem loaded_positions_range_witness :
    ((loadCircleScene libZero PATTERN noScene (constState 0)).1.circleAt 273).depth ≤ 1 ∧
    ((loadCircleScene libZero PATTERN noScene (constState 0)).1.circleAt 273).x ≤ 15 / 8 :=
  ⟨(loaded_positions_range libZero PATTERN noScene (constState 0) (by simp)
      (fun k => by simp [draw, libZero]) (fun k => by simp [draw, constState]) 273
      (by decide) (by rw [(pattern_circles libZero noScene (constState 0)).1]; decide)).2.1,
   ((loaded_positions_range libZero PATTERN noScene (constState 0) (by simp)
      (fun k => by simp [draw, libZero]) (fun k => by simp [draw, constState]) 273
      (by decide)
      (by rw [(pattern_circles libZero noScene (constState 0)).1]; decide)).2.2.2.2.2
        ⟨rfl, by decide⟩).1⟩

/-! ## Clearing keeps the circles -/

theorem clearImage_circles (r : RefRenderer) : r.clearImage.circles = r.circles := rfl

/-! ## The frame loops of `CheckBenchmark` -/

theorem checkFrame_zero {σ : Type} (R : CircleRenderer σ) (filename : String)
    (st : FrameLoop σ) :
    checkFrame R filename st 0 =
      { renderer := clearRender R st.renderer
        clock := afterTicks st.clock 7
        startTime := st.clock 0
        totalClearTime := st.totalClearTime + (st.clock 2 - st.clock 1)
        totalRenderTime := st.totalRenderTime + (st.clock 4 - st.clock 3)
        totalFileSaveTime := st.totalFileSaveTime + (st.clock 6 - st.clock 5)
        files := st.files ++ [(filename, R.getImage (clearRender R st.renderer))] } := rfl

theorem checkFrame_pos {σ : Type} (R : CircleRenderer σ) (filename : String)
    (st : FrameLoop σ) (frame : Int) (h : frame ≠ 0) :
    checkFrame R filename st frame =
      { renderer := clearRender R st.renderer
        clock := afterTicks st.clock 4
        startTime := st.startTime
        totalClearTime := st.totalClearTime + (st.clock 1 - st.clock 0)
        totalRenderTime := st.totalRenderTime + (st.clock 3 - st.clock 2)
        totalFileSaveTime := st.totalFileSaveTime
        files := st.files } := by
  unfold checkFrame
  simp only [if_neg h]
  rfl

theorem checkFrames_upto {σ : Type} (R : CircleRenderer σ) (filename : String)
    (s : FrameLoop σ) (k : Nat) :
    ((List.range (k + 1)).map (fun (f : Nat) => (f : Int))).foldl (checkFrame R filename) s =
      { renderer := (clearRender R)^[k + 1] s.renderer
        clock := afterTicks s.clock (4 * k + 7)
        startTime := s.clock 0
        totalClearTime := s.totalClearTime + ((List.range (k + 1)).map (clearDuration s.clock)).sum
        totalRenderTime :=
          s.totalRenderTime + ((List.range (k + 1)).map (renderDuration s.clock)).sum
        totalFileSaveTime := s.totalFileSaveTime + (s.clock 6 - s.clock 5)
        files := s.files ++ [(filename, R.getImage (clearRender R s.renderer))] } := by
  induction k with
  | zero =>
    have e1 : List.range (0 + 1) = [0] := rfl
    rw [e1]
    simp only [List.map_cons, List.map_nil, List.foldl_cons, List.foldl_nil,
      Nat.cast_zero, checkFrame_zero, List.sum_cons, List.sum_nil, clearDuration,
      renderDuration, frameStart, if_pos, Function.iterate_one, zero_add, add_zero,
      Nat.mul_zero, Nat.zero_add]
  | succ k ih =>
    rw [List.range_succ, List.map_append, List.foldl_append, ih]
    have hne : ((k + 1 : Nat) : Int) ≠ 0 := by omega
    simp only [List.map_cons, List.map_nil, List.foldl_cons, List.foldl_nil]
    rw [checkFrame_pos R filename _ _ hne]
    have hfs : frameStart (k + 1) = 4 * k + 7 := by
      unfold frameStart
      rw [if_neg (by omega)]
      omega
    have hc : clearDuration s.clock (k + 1) =
        afterTicks s.clock (4 * k + 7) 1 - afterTicks s.clock (4 * k + 7) 0 := by
      unfold clearDuration afterTicks
      rw [hfs]
      congr 2 <;> omega
    have hr : renderDuration s.clock (k + 1) =
        afterTicks s.clock (4 * k + 7) 3 - afterTicks s.clock (4 * k + 7) 2 := by
      unfold renderDuration afterTicks
      rw [hfs]
      congr 2 <;> omega
    have hclk : afterTicks (afterTicks s.clock (4 * k + 7)) 4 =
        afterTicks s.clock (4 * (k + 1) + 7) := by
      funext n
      unfold afterTicks
      congr 1
      omega
    simp only [List.map_append, List.sum_append, List.map_cons, List.map_nil, List.sum_cons,
      List.sum_nil, add_zero]
    rw [hc, hr, hclk, Function.iterate_succ_apply' (clearRender R) (k + 1), add_assoc,
      add_assoc]

theorem checkFrames_ten {σ : Type} (R : CircleRenderer σ) (filename : String)
    (s : FrameLoop σ) :
    (intRange 0 10).foldl (checkFrame R filename) s =
      { renderer := (clearRender R)^[10] s.renderer
        clock := afterTicks s.clock 43
        startTime := s.clock 0
        totalClearTime := s.totalClearTime + ((List.range 10).map (clearDuration s.clock)).sum
        totalRenderTime := s.totalRenderTime + ((List.range 10).map (renderDuration s.clock)).sum
        totalFileSaveTime := s.totalFileSaveTime + (s.clock 6 - s.clock 5)
        files := s.files ++ [(filename, R.getImage (clearRender R s.renderer))] } := by
  have e : (10 : Int).toNat = 9 + 1 := by decide
  rw [intRange_zero, e]
  exact checkFrames_upto R filename s 9

theorem CheckBenchmark_eq {σ τ : Type} (Rref : CircleRenderer σ) (Rcuda : CircleRenderer τ)
    (ref_renderer : σ) (cuda_renderer : τ) (frameFilename : String) (clk : Clock) :
    CheckBenchmark Rref Rcuda ref_renderer cuda_renderer frameFilename clk =
      match compare_images (Rref.getImage ((clearRender Rref)^[10] ref_renderer))
        (Rcuda.getImage ((clearRender Rcuda)^[10] cuda_renderer)) with
      | Except.error e => Except.error e
      | Except.ok mismatch_count =>
        Except.ok
          { ref_renderer := (clearRender Rref)^[10] ref_renderer
            cuda_renderer := (clearRender Rcuda)^[10] cuda_renderer
            clock := afterTicks clk 87
            files := [(frameFilename ++ "_cpu.ppm", Rref.getImage (clearRender Rref ref_renderer)),
              (frameFilename ++ "_cuda.ppm", Rcuda.getImage (clearRender Rcuda cuda_renderer))]
            mismatch_count := mismatch_count
            cpuClear := 1000 * meanOfTen (clearDuration clk)
            cpuRender := 1000 * meanOfTen (renderDuration clk)
            cpuTotal := 1000 * (meanOfTen (clearDuration clk) + meanOfTen (renderDuration clk))
            cpuFile := 1000 * (clk 6 - clk 5)
            cudaClear := 1000 * meanOfTen (clearDuration (afterTicks clk 43))
            cudaRender := 1000 * meanOfTen (renderDuration (afterTicks clk 43))
            cudaTotal := 1000 * (meanOfTen (clearDuration (afterTicks clk 43)) +
              meanOfTen (renderDuration (afterTicks clk 43)))
            cudaFile := 1000 * (clk 49 - clk 48)
            totalTime := clk 86 - clk 43
            speedup := doubleDiv (meanOfTen (renderDuration clk))
              (meanOfTen (renderDuration (afterTicks clk 43))) } := by
  unfold CheckBenchmark
  simp only [checkFrames_ten, zero_add, List.nil_append, meanOfTen]
  rfl

theorem colourMismatches32_self (img : Image) : colourMismatches32 img img = 0 := by
  unfold colourMismatches32
  simp [exceeds32_self]

theorem compare_images_self (img : Image) : compare_images img img = Except.ok 0 := by
  rw [compare_images_eq img img rfl rfl, colourMismatches32_self]
  rfl

theorem doubleDiv_of_ne (a b : ℚ) (h : b ≠ 0) : doubleDiv a b = DoubleQuot.finite (a / b) := by
  unfold doubleDiv
  rw [if_pos h]

theorem doubleDiv_zero (a : ℚ) :
    doubleDiv a 0 =
      if 0 < a then DoubleQuot.posInf else if a < 0 then DoubleQuot.negInf
      else DoubleQuot.nan := by
  unfold doubleDiv
  rw [if_neg (by simp)]

theorem range_ten : List.range 10 = [0, 1, 2, 3, 4, 5, 6, 7, 8, 9] := by decide

theorem stalledClock_means :
    meanOfTen (renderDuration stalledClock) = 1 ∧
    meanOfTen (renderDuration (afterTicks stalledClock 43)) = 0 := by
  constructor
  · unfold meanOfTen
    rw [range_ten]
    simp only [List.map_cons, List.map_nil, List.sum_cons, List.sum_nil, renderDuration,
      frameStart, stalledClock]
    norm_num
  · unfold meanOfTen
    rw [range_ten]
    simp only [List.map_cons, List.map_nil, List.sum_cons, List.sum_nil, renderDuration,
      frameStart, stalledClock, afterTicks]
    norm_num

theorem tickingClock_means :
    meanOfTen (renderDuration tickingClock) = 1 ∧
    meanOfTen (renderDuration (afterTicks tickingClock 43)) = 1 := by
  constructor
  · unfold meanOfTen
    rw [range_ten]
    simp only [List.map_cons, List.map_nil, List.sum_cons, List.sum_nil, renderDuration,
      frameStart, tickingClock]
    norm_num
  · unfold meanOfTen
    rw [range_ten]
    simp only [List.map_cons, List.map_nil, List.sum_cons, List.sum_nil, renderDuration,
      frameStart, tickingClock, afterTicks]
    norm_num

theorem idle_iterate (img : Image) : (clearRender idleRenderer)^[10] img = img := rfl

/-- C19, counterexample: two engines that leave a one-pixel white image unchanged and a
clock that stands still during the frames of the second engine.  The mean render time of
the accelerated engine is 0, the run is not an error, and the speedup is the result of the
division `1 / 0`, that is `+inf`. -/
theorem speedup_zero_mean_counterexample :
    meanOfTen (renderDuration (afterTicks stalledClock 43)) = 0 ∧
    Except.map (fun (rep : CheckReport Image Image) => rep.cudaRender)
      (CheckBenchmark idleRenderer idleRenderer whiteUnit whiteUnit frameName stalledClock) =
      Except.ok 0 ∧
    Except.map (fun (rep : CheckReport Image Image) => rep.speedup)
      (CheckBenchmark idleRenderer idleRenderer whiteUnit whiteUnit frameName stalledClock) =
      Except.ok (doubleDiv 1 0) ∧
    Except.map (fun (rep : CheckReport Image Image) => rep.speedup)
      (CheckBenchmark idleRenderer idleRenderer whiteUnit whiteUnit frameName stalledClock) =
      Except.ok DoubleQuot.posInf := by
  obtain ⟨m1, m0⟩ := stalledClock_means
  have h : compare_images (idleRenderer.getImage ((clearRender idleRenderer)^[10] whiteUnit))
      (idleRenderer.getImage ((clearRender idleRenderer)^[10] whiteUnit)) = Except.ok 0 :=
    compare_images_self _
  rw [CheckBenchmark_eq, h, m1, m0]
  refine ⟨rfl, ?_, rfl, ?_⟩
  · simp [Except.map]
  · simp [Except.map, doubleDiv]

/-- C19, amended: `CheckBenchmark` computes the speedup by the unguarded `double` division
of the mean reference render time by the mean accelerated render time; it has no test for
a zero mean and no error for it.  Whenever `compare_images` passes, the run returns, and
for a zero accelerated mean the speedup is `+inf`, `-inf` or NaN according to the sign of
the reference mean; for a non-zero one it is the quotient. -/
theorem speedup_division_unguarded {σ τ : Type} (Rref : CircleRenderer σ)
    (Rcuda : CircleRenderer τ) (ref_renderer : σ) (cuda_renderer : τ) (frameFilename : String)
    (clk : Clock) (n : Int)
    (hcmp : compare_images (Rref.getImage ((clearRender Rref)^[10] ref_renderer))
      (Rcuda.getImage ((clearRender Rcuda)^[10] cuda_renderer)) = Except.ok n) :
    ∃ rep : CheckReport σ τ,
      CheckBenchmark Rref Rcuda ref_renderer cuda_renderer frameFilename clk = Except.ok rep ∧
      rep.speedup = doubleDiv (meanOfTen (renderDuration clk))
        (meanOfTen (renderDuration (afterTicks clk 43))) ∧
      (meanOfTen (renderDuration (afterTicks clk 43)) = 0 →
        (0 < meanOfTen (renderDuration clk) → rep.speedup = DoubleQuot.posInf) ∧
        (meanOfTen (renderDuration clk) < 0 → rep.speedup = DoubleQuot.negInf) ∧
        (meanOfTen (renderDuration clk) = 0 → rep.speedup = DoubleQuot.nan)) ∧
      (meanOfTen (renderDuration (afterTicks clk 43)) ≠ 0 →
        rep.speedup = DoubleQuot.finite
          (meanOfTen (renderDuration clk) / meanOfTen (renderDuration (afterTicks clk 43)))) := by
  rw [CheckBenchmark_eq, hcmp]
  refine ⟨_, rfl, rfl, ?_, ?_⟩
  · intro h0
    simp only [h0, doubleDiv_zero]
    refine ⟨fun h => by rw [if_pos h], fun h => by rw [if_neg (not_lt.mpr h.le), if_pos h],
      fun h => by rw [h]; simp⟩
  · intro hne
    exact doubleDiv_of_ne _ _ hne

/-- Witness for the amended C19: the idle engines and the clock that stands still during
the frames of the second engine. -/
theorem speedup_division_unguarded_witness :
    ∃ rep : CheckReport Image Image,
      CheckBenchmark idleRenderer idleRenderer whiteUnit whiteUnit frameName stalledClock =
        Except.ok rep ∧
      rep.speedup = doubleDiv (meanOfTen (renderDuration stalledClock))
        (meanOfTen (renderDuration (afterTicks stalledClock 43))) :=
  (speedup_division_unguarded idleRenderer idleRenderer whiteUnit whiteUnit frameName stalledClock
    0 (compare_images_self whiteUnit)).imp (fun _ h => ⟨h.1, h.2.1⟩)

/-- C20: when `compare_images` passes and the mean render time of the accelerated engine
is not zero, `CheckBenchmark` returns with each engine having run `clearImage; render` 10
times; the clear and render times it prints for an engine are 1000 times (milliseconds) the
sum of the 10 per-frame durations of that engine divided by 10, the accelerated engine's
taken from the clock reads that follow the 43 reads of the reference loop, its totals
started again from 0; and the speedup is the mean reference render time divided by the
mean accelerated render time.  The frame loops themselves run 10 frames whatever the
comparison gives. -/
theorem check_benchmark_means {σ τ : Type} (Rref : CircleRenderer σ)
    (Rcuda : CircleRenderer τ) (ref_renderer : σ) (cuda_renderer : τ) (frameFilename : String)
    (clk : Clock) (n : Int)
    (hcmp : compare_images (Rref.getImage ((clearRender Rref)^[10] ref_renderer))
      (Rcuda.getImage ((clearRender Rcuda)^[10] cuda_renderer)) = Except.ok n)
    (hne : meanOfTen (renderDuration (afterTicks clk 43)) ≠ 0) :
    (∃ rep : CheckReport σ τ,
      CheckBenchmark Rref Rcuda ref_renderer cuda_renderer frameFilename clk = Except.ok rep ∧
      rep.ref_renderer = (clearRender Rref)^[10] ref_renderer ∧
      rep.cuda_renderer = (clearRender Rcuda)^[10] cuda_renderer ∧
      rep.cpuClear = 1000 * (((List.range 10).map (clearDuration clk)).sum / 10) ∧
      rep.cpuRender = 1000 * (((List.range 10).map (renderDuration clk)).sum / 10) ∧
      rep.cudaClear =
        1000 * (((List.range 10).map (clearDuration (afterTicks clk 43))).sum / 10) ∧
      rep.cudaRender =
        1000 * (((List.range 10).map (renderDuration (afterTicks clk 43))).sum / 10) ∧
      rep.speedup = DoubleQuot.finite
        (meanOfTen (renderDuration clk) / meanOfTen (renderDuration (afterTicks clk 43))) ∧
      rep.mismatch_count = n) ∧
    (∀ (s : FrameLoop σ) (filename : String),
      ((intRange 0 10).foldl (checkFrame Rref filename) s).renderer =
        (clearRender Rref)^[10] s.renderer ∧
      ((intRange 0 10).foldl (checkFrame Rref filename) s).totalClearTime =
        s.totalClearTime + ((List.range 10).map (clearDuration s.clock)).sum ∧
      ((intRange 0 10).foldl (checkFrame Rref filename) s).totalRenderTime =
        s.totalRenderTime + ((List.range 10).map (renderDuration s.clock)).sum ∧
      ((intRange 0 10).foldl (checkFrame Rref filename) s).clock = afterTicks s.clock 43) ∧
    (∀ (s : FrameLoop τ) (filename : String),
      ((intRange 0 10).foldl (checkFrame Rcuda filename) s).renderer =
        (clearRender Rcuda)^[10] s.renderer ∧
      ((intRange 0 10).foldl (checkFrame Rcuda filename) s).totalClearTime =
        s.totalClearTime + ((List.range 10).map (clearDuration s.clock)).sum ∧
      ((intRange 0 10).foldl (checkFrame Rcuda filename) s).totalRenderTime =
        s.totalRenderTime + ((List.range 10).map (renderDuration s.clock)).sum ∧
      ((intRange 0 10).foldl (checkFrame Rcuda filename) s).clock = afterTicks s.clock 43) := by
  refine ⟨?_, ?_, ?_⟩
  · rw [CheckBenchmark_eq, hcmp]
    exact ⟨_, rfl, rfl, rfl, rfl, rfl, rfl, rfl, doubleDiv_of_ne _ _ hne, rfl⟩
  · intro s filename
    rw [checkFrames_ten]
    exact ⟨rfl, rfl, rfl, rfl⟩
  · intro s filename
    rw [checkFrames_ten]
    exact ⟨rfl, rfl, rfl, rfl⟩

/-- Witness for C20: the idle engines and a clock that advances by one second per read;
every duration is one second and the speedup is 1. -/
theorem check_benchmark_means_witness :
    meanOfTen (renderDuration (afterTicks tickingClock 43)) ≠ 0 ∧
    ∃ rep : CheckReport Image Image,
      CheckBenchmark idleRenderer idleRenderer whiteUnit whiteUnit frameName tickingClock =
        Except.ok rep ∧
      rep.speedup = DoubleQuot.finite (meanOfTen (renderDuration tickingClock) /
        meanOfTen (renderDuration (afterTicks tickingClock 43))) :=
  ⟨by rw [tickingClock_means.2]; norm_num,
   (check_benchmark_means idleRenderer idleRenderer whiteUnit whiteUnit frameName tickingClock 0
      (compare_images_self whiteUnit)
      (by rw [tickingClock_means.2]; norm_num)).1.imp
    (fun _ h => ⟨h.1, h.2.2.2.2.2.2.2.1⟩)⟩

/-! ## Properties of rendering -/

/-! ## Depth is not read -/

/-- Compositing one circle does not read the depth component of its position. -/
theorem renderCircle_congr_shape (r r' : RefRenderer) (ci cj : Int) (data : List ℚ)
    (hc : (r.circleAt ci).shape = (r'.circleAt cj).shape) (hw : r.image.width = r'.image.width)
    (hh : r.image.height = r'.image.height) :
    r.renderCircle ci data = r'.renderCircle cj data := by
  have h := hc
  unfold SceneCircle.shape RefRenderer.circleAt at h
  simp only [Prod.mk.injEq] at h
  obtain ⟨h1, h2, h4, h5, h6, h7⟩ := h
  unfold RefRenderer.renderCircle RefRenderer.renderRow RefRenderer.shadePixel
  simp only [h1, h2, h4, h5, h6, h7, hw, hh]

theorem compositeOne_congr_shape (c c' : SceneCircle) (W H : Int) (data : List ℚ)
    (h : c.shape = c'.shape) : compositeOne c W H data = compositeOne c' W H data := by
  unfold compositeOne
  apply renderCircle_congr_shape
  · have e1 := circleAt_ofCircles [c] { width := W, height := H, data := [] } 0 (by simp)
    have e2 := circleAt_ofCircles [c'] { width := W, height := H, data := [] } 0 (by simp)
    simp only [Nat.cast_zero, List.getElem_cons_zero] at e1 e2
    rw [e1, e2]
    exact h
  · rfl
  · rfl

theorem renderCircles_congr_shape (cs cs' : List SceneCircle) (img : Image)
    (h : cs.map SceneCircle.shape = cs'.map SceneCircle.shape) :
    renderCircles cs img = renderCircles cs' img := by
  rw [renderCircles_eq_foldl, renderCircles_eq_foldl]
  congr 1
  generalize img.data = d
  induction cs generalizing cs' d with
  | nil =>
    cases cs' with
    | nil => rfl
    | cons c' cs' => simp at h
  | cons c cs ih =>
    cases cs' with
    | nil => simp at h
    | cons c' cs' =>
      simp only [List.map_cons, List.cons.injEq] at h
      simp only [List.foldl_cons]
      rw [compositeOne_congr_shape c c' _ _ d h.1]
      exact ih cs' h.2 _

theorem circles_map_shape (r r' : RefRenderer) (hn : r.numCircles = r'.numCircles)
    (hcol : r.color = r'.color) (hrad : r.radius = r'.radius)
    (hpos : ∀ i : Int, 0 ≤ i → i < r.numCircles →
      loadAt r.position (3 * i) = loadAt r'.position (3 * i) ∧
      loadAt r.position (3 * i + 1) = loadAt r'.position (3 * i + 1)) :
    r.circles.map SceneCircle.shape = r'.circles.map SceneCircle.shape := by
  unfold RefRenderer.circles
  rw [← hn, List.map_map, List.map_map]
  apply List.map_congr_left
  intro i hi
  rw [mem_intRange] at hi
  obtain ⟨p0, p1⟩ := hpos i hi.1 hi.2
  simp only [Function.comp, SceneCircle.shape, RefRenderer.circleAt, p0, p1, hcol, hrad]

/-- C21: `render` does not read the depth.  Two circle lists that agree on centre, radius
and colour of every circle (hence have equal length) and differ at most in the depths give
the same image on every image; so do two renderers whose arrays agree except for the depth
components `position[3*i+2]`. -/
theorem depth_not_read (cs cs' : List SceneCircle) (img : Image)
    (h : cs.map SceneCircle.shape = cs'.map SceneCircle.shape) :
    cs.length = cs'.length ∧
    renderCircles cs img = renderCircles cs' img ∧
    (∀ z : SceneCircle → ℚ,
      renderCircles (cs.map (fun c => { c with depth := z c })) img = renderCircles cs img) ∧
    (∀ r r' : RefRenderer, r.image = r'.image → r.numCircles = r'.numCircles →
      r.color = r'.color → r.radius = r'.radius →
      (∀ i : Int, 0 ≤ i → i < r.numCircles →
        loadAt r.position (3 * i) = loadAt r'.position (3 * i) ∧
        loadAt r.position (3 * i + 1) = loadAt r'.position (3 * i + 1)) →
      r.render.image = r'.render.image) := by
  refine ⟨?_, renderCircles_congr_shape cs cs' img h, ?_, ?_⟩
  · have := congrArg List.length h
    simpa using this
  · intro z
    apply renderCircles_congr_shape
    rw [List.map_map]
    apply List.map_congr_left
    intro c _
    rfl
  · intro r r' himg hn hcol hrad hpos
    rw [render_image_eq_renderCircles, render_image_eq_renderCircles, himg]
    exact renderCircles_congr_shape _ _ _ (circles_map_shape r r' hn hcol hrad hpos)

/-- Witness for C21: a green circle in front of or behind the white one-pixel image. -/
theorem depth_not_read_witness :
    renderCircles [greenCircle] whiteUnit =
      renderCircles [{ greenCircle with depth := 0 }] whiteUnit :=
  (depth_not_read [greenCircle] [{ greenCircle with depth := 0 }] whiteUnit rfl).2.1

/-! ## Accesses to the image buffer stay inside it -/

theorem loadChecked_eq (d : List ℚ) (i : Int) (h0 : 0 ≤ i) (h1 : i < (d.length : Int)) :
    loadChecked d i = some (loadAt d i) := by
  unfold loadChecked
  rw [if_pos ⟨h0, h1⟩]

theorem storeChecked_eq (d : List ℚ) (i : Int) (v : ℚ) (h0 : 0 ≤ i)
    (h1 : i < (d.length : Int)) : storeChecked d i v = some (storeAt d i v) := by
  unfold storeChecked
  rw [if_pos ⟨h0, h1⟩]

/-- With the four values of the pixel inside the buffer, the checked `shadePixel` succeeds
and agrees with the total one. -/
theorem shadePixelChecked_eq (r : RefRenderer) (ci : Int) (pcx pcy px py pz : ℚ)
    (d : List ℚ) (p : Int) (hp : 0 ≤ p) (hlen : p + 3 < (d.length : Int)) :
    r.shadePixelChecked ci pcx pcy px py pz d p = some (r.shadePixel ci pcx pcy px py pz d p) := by
  unfold RefRenderer.shadePixelChecked RefRenderer.shadePixel
  simp only
  split
  · rfl
  · rw [loadChecked_eq d p hp (by omega), Option.some_bind,
      storeChecked_eq d p _ hp (by omega), Option.some_bind,
      loadChecked_eq _ (p + 1) (by omega) (by rw [length_storeAt]; omega), Option.some_bind,
      storeChecked_eq _ (p + 1) _ (by omega) (by rw [length_storeAt]; omega), Option.some_bind,
      loadChecked_eq _ (p + 2) (by omega) (by rw [length_storeAt, length_storeAt]; omega),
      Option.some_bind,
      storeChecked_eq _ (p + 2) _ (by omega) (by rw [length_storeAt, length_storeAt]; omega),
      Option.some_bind,
      loadChecked_eq _ (p + 3) (by omega)
        (by rw [length_storeAt, length_storeAt, length_storeAt]; omega),
      Option.some_bind,
      storeChecked_eq _ (p + 3) _ (by omega)
        (by rw [length_storeAt, length_storeAt, length_storeAt]; omega)]

/-- The checked `shadePixel` fails when the distance test passes and the pixel lies
outside the buffer. -/
theorem shadePixelChecked_outside (r : RefRenderer) (ci : Int) (pcx pcy px py pz : ℚ)
    (d : List ℚ) (p : Int) (hp : p < 0 ∨ (d.length : Int) ≤ p)
    (hit : (px - pcx) * (px - pcx) + (py - pcy) * (py - pcy) ≤
      loadAt r.radius ci * loadAt r.radius ci) :
    r.shadePixelChecked ci pcx pcy px py pz d p = none := by
  unfold RefRenderer.shadePixelChecked
  simp only
  rw [if_neg (not_lt.mpr hit)]
  have : loadChecked d p = none := by
    unfold loadChecked
    rw [if_neg (by omega)]
  rw [this]
  rfl

theorem pixelStepChecked_eq (r : RefRenderer) (ci : Int) (px py pz iw ih : ℚ) (y : Int)
    (st : List ℚ × Int) (x : Int) (hp : 0 ≤ st.2) (hlen : st.2 + 3 < (st.1.length : Int)) :
    r.pixelStepChecked ci px py pz iw ih y st x =
      some (r.shadePixel ci (iw * ((x : ℚ) + 1 / 2)) (ih * ((y : ℚ) + 1 / 2)) px py pz st.1 st.2,
        st.2 + 4) := by
  unfold RefRenderer.pixelStepChecked
  simp only
  rw [shadePixelChecked_eq r ci _ _ px py pz st.1 st.2 hp hlen]
  rfl

theorem renderRowChecked_upto (r : RefRenderer) (ci : Int) (px py pz iw ih : ℚ) (lo y : Int)
    (data : List ℚ) (hlo : 0 ≤ lo) (hy : 0 ≤ y) (hW : 0 ≤ r.image.width)
    (hlen : 4 * (y * r.image.width + r.image.width) ≤ (data.length : Int)) (n : Nat)
    (hn : lo + n ≤ r.image.width) :
    ((List.range n).map (fun (k : Nat) => lo + (k : Int))).foldlM
        (r.pixelStepChecked ci px py pz iw ih y) (data, 4 * (y * r.image.width + lo)) =
      some (((List.range n).map (fun (k : Nat) => lo + (k : Int))).foldl
        (fun (st : List ℚ × Int) (pixelX : Int) =>
          let pixelCenterNormX := iw * ((pixelX : ℚ) + 1 / 2)
          let pixelCenterNormY := ih * ((y : ℚ) + 1 / 2)
          (r.shadePixel ci pixelCenterNormX pixelCenterNormY px py pz st.1 st.2, st.2 + 4))
        (data, 4 * (y * r.image.width + lo))) := by
  induction n with
  | zero => rfl
  | succ n ih_n =>
    have hn' : lo + n ≤ r.image.width := by push_cast at hn; omega
    obtain ⟨hptr, hl, _⟩ := renderRow_upto r ci px py pz iw ih lo y data hlo hy hlen n hn'
    rw [List.range_succ, List.map_append, List.foldlM_append, ih_n hn', List.foldl_append]
    simp only [List.map_cons, List.map_nil, List.foldl_cons, List.foldl_nil]
    have hyW : 0 ≤ y * r.image.width := mul_nonneg hy hW
    simp only [List.foldlM_cons, List.foldlM_nil, Option.bind_eq_bind, Option.some_bind]
    rw [pixelStepChecked_eq r ci px py pz iw ih y _ _ (by rw [hptr]; omega)
        (by rw [hptr, hl]; push_cast at hn; omega)]
    rfl

theorem renderRowChecked_eq (r : RefRenderer) (ci : Int) (px py pz iw ih : ℚ) (lo hi y : Int)
    (data : List ℚ) (hlo : 0 ≤ lo) (hhi : hi ≤ r.image.width) (hy : 0 ≤ y)
    (hW : 0 ≤ r.image.width)
    (hlen : 4 * (y * r.image.width + r.image.width) ≤ (data.length : Int)) :
    r.renderRowChecked ci px py pz iw ih lo hi y data =
      some (r.renderRow ci px py pz iw ih lo hi y data) := by
  unfold RefRenderer.renderRowChecked RefRenderer.renderRow intRange
  simp only
  by_cases hle : lo ≤ hi
  · rw [renderRowChecked_upto r ci px py pz iw ih lo y data hlo hy hW hlen _ (by omega)]
    rfl
  · have e : (hi - lo).toNat = 0 := by omega
    rw [e]
    rfl

theorem foldlM_eq_some_foldl {α β : Type} (f : β → α → β) (fc : β → α → Option β)
    (P : β → Prop) (l : List α)
    (h : ∀ b a, a ∈ l → P b → fc b a = some (f b a) ∧ P (f b a)) (b : β) (hb : P b) :
    l.foldlM fc b = some (l.foldl f b) := by
  induction l generalizing b with
  | nil => rfl
  | cons a l ih =>
    obtain ⟨h1, h2⟩ := h b a (List.mem_cons_self _ _) hb
    simp only [List.foldlM_cons, List.foldl_cons, h1, Option.bind_eq_bind, Option.some_bind]
    exact ih (fun b' a' ha' hb' => h b' a' (List.mem_cons_of_mem _ ha') hb') _ h2

theorem screen_bounds (q : ℚ) (size : Int) (h : 0 ≤ size) :
    0 ≤ screenMin q size ∧ screenMin q size ≤ size ∧ 0 ≤ screenMax q size ∧
      screenMax q size ≤ size := by
  unfold screenMin screenMax
  exact ⟨(CLAMP_bounds _ size h).1, (CLAMP_bounds _ size h).2, (CLAMP_bounds _ size h).1,
    (CLAMP_bounds _ size h).2⟩

theorem renderCircleChecked_eq (r : RefRenderer) (ci : Int) (data : List ℚ)
    (hW : 0 ≤ r.image.width) (hH : 0 ≤ r.image.height)
    (hlen : 4 * r.image.width * r.image.height ≤ (data.length : Int)) :
    r.renderCircleChecked ci data = some (r.renderCircle ci data) := by
  unfold RefRenderer.renderCircleChecked RefRenderer.renderCircle
  simp only
  apply foldlM_eq_some_foldl _ _ (fun d => d.length = data.length) _ _ _ rfl
  intro d y hy hd
  rw [mem_intRange] at hy
  obtain ⟨x0, x1, _, x3⟩ := screen_bounds (loadAt r.position (3 * ci) - loadAt r.radius ci)
    r.image.width hW
  obtain ⟨_, _, _, x3'⟩ := screen_bounds (loadAt r.position (3 * ci) + loadAt r.radius ci)
    r.image.width hW
  obtain ⟨y0, _, _, _⟩ := screen_bounds (loadAt r.position (3 * ci + 1) - loadAt r.radius ci)
    r.image.height hH
  obtain ⟨_, _, _, y3⟩ := screen_bounds (loadAt r.position (3 * ci + 1) + loadAt r.radius ci)
    r.image.height hH
  have hy0 : 0 ≤ y := by omega
  have hyH : y + 1 ≤ r.image.height := by omega
  have hl : 4 * (y * r.image.width + r.image.width) ≤ (d.length : Int) := by
    rw [hd]
    have := mul_le_mul_of_nonneg_right hyH hW
    nlinarith
  exact ⟨renderRowChecked_eq r ci _ _ _ _ _ _ _ y d x0 x3' hy0 hW hl,
    ((renderRow_spec r ci _ _ _ _ _ _ _ y d x0 x1 x3' hy0 hl).1).trans hd⟩

theorem renderChecked_eq (r : RefRenderer) (hW : 0 ≤ r.image.width) (hH : 0 ≤ r.image.height)
    (hlen : 4 * r.image.width * r.image.height ≤ (r.image.data.length : Int)) :
    r.renderChecked = some r.render := by
  unfold RefRenderer.renderChecked RefRenderer.render
  simp only
  rw [foldlM_eq_some_foldl (fun data (circleIndex : Int) => r.renderCircle circleIndex data)
    (fun data (circleIndex : Int) => r.renderCircleChecked circleIndex data)
    (fun d => d.length = r.image.data.length) _ _ _ rfl]
  · rfl
  · intro d ci _ hd
    exact ⟨renderCircleChecked_eq r ci d hW hH (by rw [hd]; exact hlen),
      ((renderCircle_spec r ci d hW hH (by rw [hd]; exact hlen)).1).trans hd⟩

theorem pixel_index_bounds (W H x y k : Int) (hx0 : 0 ≤ x) (hxW : x < W) (hy0 : 0 ≤ y)
    (hyH : y < H) (hk0 : 0 ≤ k) (hk3 : k ≤ 3) :
    0 ≤ 4 * (y * W + x) + k ∧ 4 * (y * W + x) + k < 4 * W * H := by
  have h1 : 0 ≤ y * W := mul_nonneg hy0 (by omega)
  have h2 : (y + 1) * W ≤ H * W := mul_le_mul_of_nonneg_right (by omega) (by omega)
  constructor
  · omega
  · nlinarith

/-- C22: for an image with `W, H > 0` whose buffer holds `4*W*H` values and every circle,
the pixel ranges that `render` computes lie in `[0, W]` and `[0, H]`; every pixel
`(x, y)` of these ranges, the pixels passed to `shadePixel`, has `0 <= x < W` and
`0 <= y < H`, and its four data indices `4*(y*W + x) + k` lie in `[0, 4*W*H)`, inside
the buffer; hence `render` with checked buffer accesses never fails and returns what the
total `render` returns. -/
theorem bounding_box_clamp_safe (r : RefRenderer) (hWF : r.image.WF) (circleIndex : Int) :
    (∀ q : ℚ, (0 ≤ screenMin q r.image.width ∧ screenMin q r.image.width ≤ r.image.width) ∧
      (0 ≤ screenMax q r.image.width ∧ screenMax q r.image.width ≤ r.image.width) ∧
      (0 ≤ screenMin q r.image.height ∧ screenMin q r.image.height ≤ r.image.height) ∧
      (0 ≤ screenMax q r.image.height ∧ screenMax q r.image.height ≤ r.image.height)) ∧
    (∀ pixelY ∈ intRange
        (screenMin ((r.circleAt circleIndex).y - (r.circleAt circleIndex).radius) r.image.height)
        (screenMax ((r.circleAt circleIndex).y + (r.circleAt circleIndex).radius) r.image.height),
      ∀ pixelX ∈ intRange
        (screenMin ((r.circleAt circleIndex).x - (r.circleAt circleIndex).radius) r.image.width)
        (screenMax ((r.circleAt circleIndex).x + (r.circleAt circleIndex).radius) r.image.width),
      (0 ≤ pixelX ∧ pixelX < r.image.width) ∧ (0 ≤ pixelY ∧ pixelY < r.image.height) ∧
      ∀ k : Int, 0 ≤ k → k ≤ 3 →
        0 ≤ 4 * (pixelY * r.image.width + pixelX) + k ∧
        4 * (pixelY * r.image.width + pixelX) + k < 4 * r.image.width * r.image.height ∧
        4 * (pixelY * r.image.width + pixelX) + k < (r.image.data.length : Int)) ∧
    (∀ data : List ℚ, 4 * r.image.width * r.image.height ≤ (data.length : Int) →
      r.renderCircleChecked circleIndex data = some (r.renderCircle circleIndex data)) ∧
    r.renderChecked = some r.render := by
  obtain ⟨hW, hH, hlen⟩ := hWF
  refine ⟨?_, ?_, ?_, ?_⟩
  · intro q
    obtain ⟨a, b, c, d⟩ := screen_bounds q r.image.width hW.le
    obtain ⟨a', b', c', d'⟩ := screen_bounds q r.image.height hH.le
    exact ⟨⟨a, b⟩, ⟨c, d⟩, ⟨a', b'⟩, ⟨c', d'⟩⟩
  · intro y hy x hx
    rw [mem_intRange] at hy hx
    obtain ⟨x0, _, _, _⟩ := screen_bounds
      ((r.circleAt circleIndex).x - (r.circleAt circleIndex).radius) r.image.width hW.le
    obtain ⟨_, _, _, x3⟩ := screen_bounds
      ((r.circleAt circleIndex).x + (r.circleAt circleIndex).radius) r.image.width hW.le
    obtain ⟨y0, _, _, _⟩ := screen_bounds
      ((r.circleAt circleIndex).y - (r.circleAt circleIndex).radius) r.image.height hH.le
    obtain ⟨_, _, _, y3⟩ := screen_bounds
      ((r.circleAt circleIndex).y + (r.circleAt circleIndex).radius) r.image.height hH.le
    refine ⟨⟨by omega, by omega⟩, ⟨by omega, by omega⟩, ?_⟩
    intro k hk0 hk3
    obtain ⟨i0, i1⟩ := pixel_index_bounds r.image.width r.image.height x y k (by omega)
      (by omega) (by omega) (by omega) hk0 hk3
    exact ⟨i0, i1, by rw [hlen]; exact i1⟩
  · intro data hd
    exact renderCircleChecked_eq r circleIndex data hW.le hH.le hd
  · exact renderChecked_eq r hW.le hH.le hlen.ge

/-- Witness for C22: a circle composited onto the white one-pixel image. -/
theorem bounding_box_clamp_safe_witness :
    (RefRenderer.ofCircles [boundaryCircle] whiteUnit).renderChecked =
      some (RefRenderer.ofCircles [boundaryCircle] whiteUnit).render :=
  (bounding_box_clamp_safe (RefRenderer.ofCircles [boundaryCircle] whiteUnit) whiteUnit_WF
    0).2.2.2

/-! ## Colour channels of a blend -/

theorem blendChannel_colour (c : SceneCircle) (k : Int) (v : ℚ) (hk0 : 0 ≤ k) (hk2 : k ≤ 2) :
    blendChannel c k v = 1 / 2 * c.colour k + 1 / 2 * v := by
  have hk : k = 0 ∨ k = 1 ∨ k = 2 := by omega
  rcases hk with rfl | rfl | rfl <;> simp [blendChannel, SceneCircle.colour]

/-! ## Images with equal channels -/

theorem colour_mem_unit (c : SceneCircle) (k : Int)
    (hc : (0 ≤ c.colR ∧ c.colR ≤ 1) ∧ (0 ≤ c.colG ∧ c.colG ≤ 1) ∧ (0 ≤ c.colB ∧ c.colB ≤ 1)) :
    0 ≤ c.colour k ∧ c.colour k ≤ 1 := by
  unfold SceneCircle.colour
  split
  · exact hc.1
  · split
    · exact hc.2.1
    · exact hc.2.2

theorem exportClamp_of_mem (v : ℚ) (h0 : 0 ≤ v) (h1 : v ≤ 1) : exportClamp v = v := by
  unfold exportClamp
  rw [min_eq_left h1, max_eq_right h0]

theorem colour_range_step (c : SceneCircle) (img : Image) (h : img.WF) (x y k : Int)
    (hx0 : 0 ≤ x) (hxW : x < img.width) (hk0 : 0 ≤ k) (hk2 : k ≤ 2)
    (hc : (0 ≤ c.colR ∧ c.colR ≤ 1) ∧ (0 ≤ c.colG ∧ c.colG ≤ 1) ∧ (0 ≤ c.colB ∧ c.colB ≤ 1))
    (hv : 0 ≤ img.channel x y k ∧ img.channel x y k ≤ 1) :
    0 ≤ (renderCircles [c] img).channel x y k ∧ (renderCircles [c] img).channel x y k ≤ 1 := by
  rw [channel_renderCircles_single c img h x y k hx0 hxW hk0 (by omega)]
  split
  · rw [blendChannel_colour c k _ hk0 hk2]
    obtain ⟨c0, c1⟩ := colour_mem_unit c k hc
    constructor <;> linarith [hv.1, hv.2]
  · exact hv

theorem colour_range_pixel (cs : List SceneCircle) (img : Image) (h : img.WF) (x y k : Int)
    (hx0 : 0 ≤ x) (hxW : x < img.width) (hk0 : 0 ≤ k) (hk2 : k ≤ 2)
    (hcs : ∀ c ∈ cs,
      (0 ≤ c.colR ∧ c.colR ≤ 1) ∧ (0 ≤ c.colG ∧ c.colG ≤ 1) ∧ (0 ≤ c.colB ∧ c.colB ≤ 1))
    (hv : 0 ≤ img.channel x y k ∧ img.channel x y k ≤ 1) :
    0 ≤ (renderCircles cs img).channel x y k ∧ (renderCircles cs img).channel x y k ≤ 1 := by
  induction cs generalizing img with
  | nil => rw [renderCircles_nil]; exact hv
  | cons c cs ih =>
    rw [renderCircles_cons]
    exact ih _ (renderCircles_single_WF c img h) (by rw [renderCircles_width]; exact hxW)
      (fun c' hc' => hcs c' (List.mem_cons_of_mem _ hc'))
      (colour_range_step c img h x y k hx0 hxW hk0 hk2 (hcs c (List.mem_cons_self _ _)) hv)

/-- C25: for an image with `W, H > 0` whose buffer holds `4*W*H` values and whose red,
green and blue values all lie in `[0,1]`, and a circle list whose colour channels all lie
in `[0,1]`, every red, green and blue value after `render` lies in `[0,1]`, each blend
being the convex combination `0.5 * colour + 0.5 * old`; so the clamp to `[0,1]` of the
image export leaves every such value unchanged. -/
theorem colour_range_invariant (cs : List SceneCircle) (img : Image) (hWF : img.WF)
    (himg : ∀ x y k : Int, 0 ≤ x → x < img.width → 0 ≤ y → y < img.height → 0 ≤ k → k ≤ 2 →
      0 ≤ img.channel x y k ∧ img.channel x y k ≤ 1)
    (hcs : ∀ c ∈ cs,
      (0 ≤ c.colR ∧ c.colR ≤ 1) ∧ (0 ≤ c.colG ∧ c.colG ≤ 1) ∧ (0 ≤ c.colB ∧ c.colB ≤ 1)) :
    (∀ x y k : Int, 0 ≤ x → x < img.width → 0 ≤ y → y < img.height → 0 ≤ k → k ≤ 2 →
      0 ≤ (renderCircles cs img).channel x y k ∧ (renderCircles cs img).channel x y k ≤ 1 ∧
      exportClamp ((renderCircles cs img).channel x y k) =
        (renderCircles cs img).channel x y k) ∧
    (∀ r : RefRenderer, r.image = img → r.circles = cs →
      ∀ x y k : Int, 0 ≤ x → x < img.width → 0 ≤ y → y < img.height → 0 ≤ k → k ≤ 2 →
        0 ≤ r.render.image.channel x y k ∧ r.render.image.channel x y k ≤ 1 ∧
        exportClamp (r.render.image.channel x y k) = r.render.image.channel x y k) ∧
    (∀ (c : SceneCircle) (k : Int) (old : ℚ), 0 ≤ k → k ≤ 2 →
      blendChannel c k old = 1 / 2 * c.colour k + (1 - 1 / 2) * old) := by
  have main : ∀ x y k : Int, 0 ≤ x → x < img.width → 0 ≤ y → y < img.height → 0 ≤ k →
      k ≤ 2 →
      0 ≤ (renderCircles cs img).channel x y k ∧ (renderCircles cs img).channel x y k ≤ 1 ∧
      exportClamp ((renderCircles cs img).channel x y k) =
        (renderCircles cs img).channel x y k := by
    intro x y k hx0 hxW hy0 hyH hk0 hk2
    obtain ⟨a, b⟩ := colour_range_pixel cs img hWF x y k hx0 hxW hk0 hk2 hcs
      (himg x y k hx0 hxW hy0 hyH hk0 hk2)
    exact ⟨a, b, exportClamp_of_mem _ a b⟩
  refine ⟨main, ?_, ?_⟩
  · intro r hi hc x y k hx0 hxW hy0 hyH hk0 hk2
    rw [render_image_eq_renderCircles, hi, hc]
    exact main x y k hx0 hxW hy0 hyH hk0 hk2
  · intro c k old hk0 hk2
    rw [blendChannel_colour c k old hk0 hk2]
    norm_num

theorem whiteUnit_channel (x y k : Int) (hx0 : 0 ≤ x) (hxW : x < whiteUnit.width)
    (hy0 : 0 ≤ y) (hyH : y < whiteUnit.height) (hk0 : 0 ≤ k) (hk3 : k ≤ 3) :
    whiteUnit.channel x y k = 1 := by
  have e : whiteUnit = Image.clear { width := 1, height := 1, data := [] } 1 1 1 1 := rfl
  have hxW' : x < ({ width := 1, height := 1, data := [] } : Image).width := hxW
  have hyH' : y < ({ width := 1, height := 1, data := [] } : Image).height := hyH
  rw [e, channel_clear _ 1 1 1 1 x y k hx0 hxW' hy0 hyH' hk0 hk3]
  simp

/-- Witness for C25: a red and a green circle over the white one-pixel image. -/
theorem colour_range_invariant_witness :
    0 ≤ (renderCircles [boundaryCircle, greenCircle] whiteUnit).channel 0 0 0 ∧
    (renderCircles [boundaryCircle, greenCircle] whiteUnit).channel 0 0 0 ≤ 1 ∧
    exportClamp ((renderCircles [boundaryCircle, greenCircle] whiteUnit).channel 0 0 0) =
      (renderCircles [boundaryCircle, greenCircle] whiteUnit).channel 0 0 0 :=
  (colour_range_invariant [boundaryCircle, greenCircle] whiteUnit whiteUnit_WF
    (fun x y k hx0 hxW hy0 hyH hk0 hk2 => by
      rw [whiteUnit_channel x y k hx0 hxW hy0 hyH hk0 (by omega)]
      norm_num)
    (by
      intro c hc
      simp only [List.mem_cons, List.mem_singleton, List.not_mem_nil, or_false] at hc
      rcases hc with rfl | rfl
      · simp only [boundaryCircle]; norm_num
      · simp only [greenCircle]; norm_num)).1 0 0 0 (le_refl _)
    (by show (0 : Int) < 1; norm_num) (le_refl _) (by show (0 : Int) < 1; norm_num) (le_refl _)
    (by norm_num)

/-! ## The binary32 renderer: one pixel -/

theorem length_shadePixel32 (r : RefRenderer) (ci : Int) (pcx pcy px py pz : ℚ) (d : List ℚ)
    (p : Int) : (r.shadePixel32 ci pcx pcy px py pz d p).length = d.length := by
  unfold RefRenderer.shadePixel32
  simp only
  split
  · rfl
  · simp [length_storeAt]

/-- Outside the four values of its pixel `shadePixel32` changes nothing. -/
theorem loadAt_shadePixel32_other (r : RefRenderer) (ci : Int) (pcx pcy px py pz : ℚ)
    (d : List ℚ) (p j : Int) (h : j < p ∨ p + 3 < j) :
    loadAt (r.shadePixel32 ci pcx pcy px py pz d p) j = loadAt d j := by
  unfold RefRenderer.shadePixel32
  simp only
  split
  · rfl
  · rw [loadAt_storeAt_ne _ _ _ _ (by omega), loadAt_storeAt_ne _ _ _ _ (by omega),
      loadAt_storeAt_ne _ _ _ _ (by omega), loadAt_storeAt_ne _ _ _ _ (by omega)]

/-- On the four values of its pixel `shadePixel32` blends when the distance test
passes and changes nothing otherwise. -/
theorem loadAt_shadePixel32_at (r : RefRenderer) (ci : Int) (pcx pcy px py pz : ℚ)
    (d : List ℚ) (p k : Int) (hp : 0 ≤ p) (hlen : p + 3 < (d.length : Int))
    (hk0 : 0 ≤ k) (hk3 : k ≤ 3) :
    loadAt (r.shadePixel32 ci pcx pcy px py pz d p) (p + k) =
      if pixelDist32 px py pcx pcy ≤ fl (loadAt r.radius ci * loadAt r.radius ci)
      then blendChannel32 (r.circleAt ci) k (loadAt d (p + k)) else loadAt d (p + k) := by
  unfold RefRenderer.shadePixel32 pixelDist32
  simp only
  by_cases hc : fl (fl (fl (px - pcx) * fl (px - pcx)) + fl (fl (py - pcy) * fl (py - pcy))) ≤
      fl (loadAt r.radius ci * loadAt r.radius ci)
  · rw [if_neg (not_lt.mpr hc), if_pos hc]
    have hk : k = 0 ∨ k = 1 ∨ k = 2 ∨ k = 3 := by omega
    rcases hk with rfl | rfl | rfl | rfl
    · rw [loadAt_storeAt_ne _ _ _ _ (by omega), loadAt_storeAt_ne _ _ _ _ (by omega),
        loadAt_storeAt_ne _ _ _ _ (by omega), add_zero,
        loadAt_storeAt_same _ _ _ hp (by omega)]
      simp [blendChannel32, RefRenderer.circleAt]
    · rw [loadAt_storeAt_ne _ _ _ _ (by omega), loadAt_storeAt_ne _ _ _ _ (by omega),
        loadAt_storeAt_same _ _ _ (by omega) (by simp [length_storeAt]; omega),
        loadAt_storeAt_ne _ _ _ _ (by omega)]
      simp [blendChannel32, RefRenderer.circleAt]
    · rw [loadAt_storeAt_ne _ _ _ _ (by omega),
        loadAt_storeAt_same _ _ _ (by omega) (by simp [length_storeAt]; omega),
        loadAt_storeAt_ne _ _ _ _ (by omega), loadAt_storeAt_ne _ _ _ _ (by omega)]
      simp [blendChannel32, RefRenderer.circleAt]
    · rw [loadAt_storeAt_same _ _ _ (by omega) (by simp [length_storeAt]; omega),
        loadAt_storeAt_ne _ _ _ _ (by omega), loadAt_storeAt_ne _ _ _ _ (by omega),
        loadAt_storeAt_ne _ _ _ _ (by omega)]
      simp [blendChannel32]
  · rw [if_pos (not_le.mp hc), if_neg hc]


/-! ## The binary32 renderer: one row -/

theorem renderRow32_upto (r : RefRenderer) (ci : Int) (px py pz iw ih : ℚ) (lo y : Int)
    (data : List ℚ) (hlo : 0 ≤ lo) (hy : 0 ≤ y)
    (hlen : 4 * (y * r.image.width + r.image.width) ≤ (data.length : Int)) (n : Nat)
    (hn : lo + n ≤ r.image.width) :
    let st := ((List.range n).map (fun (k : Nat) => lo + (k : Int))).foldl
      (fun (st : List ℚ × Int) (pixelX : Int) =>
        let pixelCenterNormX := fl (iw * fl (static_cast_float pixelX + 1 / 2))
        let pixelCenterNormY := fl (ih * fl (static_cast_float y + 1 / 2))
        (r.shadePixel32 ci pixelCenterNormX pixelCenterNormY px py pz st.1 st.2, st.2 + 4))
      (data, 4 * (y * r.image.width + lo))
    st.2 = 4 * (y * r.image.width + lo) + 4 * n ∧ st.1.length = data.length ∧
    ∀ x' y' k : Int, 0 ≤ x' → x' < r.image.width → 0 ≤ k → k ≤ 3 →
      loadAt st.1 (4 * (y' * r.image.width + x') + k) =
        if y' = y ∧ lo ≤ x' ∧ x' < lo + n ∧ hitTest32 px py (loadAt r.radius ci) iw ih x' y
        then blendChannel32 (r.circleAt ci) k (loadAt data (4 * (y' * r.image.width + x') + k))
        else loadAt data (4 * (y' * r.image.width + x') + k) := by
  induction n with
  | zero =>
    simp only [List.range_zero, List.map_nil, List.foldl_nil, Nat.cast_zero, mul_zero, add_zero,
      true_and]
    intro x' y' k _ _ _ _
    rw [if_neg]; omega
  | succ n ih_n =>
    have hn' : lo + n ≤ r.image.width := by push_cast at hn; omega
    have IH := ih_n hn'
    simp only [List.range_succ, List.map_append, List.foldl_append, List.map_cons, List.map_nil,
      List.foldl_cons, List.foldl_nil] at IH ⊢
    obtain ⟨hptr, hl, hval⟩ := IH
    refine ⟨by rw [hptr]; push_cast; ring, by rw [length_shadePixel32, hl], ?_⟩
    intro x' y' k hx0 hxW hk0 hk3
    rw [hptr]
    by_cases hxy : y' = y ∧ x' = lo + n
    · obtain ⟨rfl, rfl⟩ := hxy
      have hidx : 4 * (y' * r.image.width + (lo + ↑n)) + k =
          4 * (y' * r.image.width + lo) + 4 * ↑n + k := by ring
      rw [hidx, loadAt_shadePixel32_at _ _ _ _ _ _ _ _ _ _ (by nlinarith) (by rw [hl]; push_cast at hn; nlinarith) hk0 hk3]
      rw [← hidx, hval _ _ _ hx0 hxW hk0 hk3]
      have h1 : ¬ (lo + (n : Int) < lo + n) := lt_irrefl _
      have h2 : lo + (n : Int) < lo + ((n : Int) + 1) := by omega
      simp only [h1, h2, false_and, and_false, if_false, hitTest32, pixelCenterNorm, true_and,
        le_add_iff_nonneg_right, Nat.cast_nonneg, Nat.cast_succ, lt_add_iff_pos_right,
        zero_lt_one]
    · have hsep := pixel_offset_sep r.image.width (lo + n) y x' y' k (by omega) (by push_cast at hn; omega)
        hx0 hxW hk0 hk3 hxy
      rw [loadAt_shadePixel32_other _ _ _ _ _ _ _ _ _ _ (by
        have e : 4 * (y * r.image.width + lo) + 4 * (n : Int) = 4 * (y * r.image.width + (lo + n)) := by ring
        rw [e]; exact hsep)]
      rw [hval _ _ _ hx0 hxW hk0 hk3]
      have hiff : (y' = y ∧ lo ≤ x' ∧ x' < lo + ((n + 1 : Nat) : Int) ∧
          hitTest32 px py (loadAt r.radius ci) iw ih x' y) ↔
          (y' = y ∧ lo ≤ x' ∧ x' < lo + (n : Int) ∧
          hitTest32 px py (loadAt r.radius ci) iw ih x' y) := by
        constructor
        · rintro ⟨h1, h2, h3, h4⟩
          refine ⟨h1, h2, ?_, h4⟩
          push_cast at h3
          by_contra hcon
          exact hxy ⟨h1, by omega⟩
        · rintro ⟨h1, h2, h3, h4⟩
          exact ⟨h1, h2, by push_cast; omega, h4⟩
      simp only [hiff]

theorem renderRow32_spec (r : RefRenderer) (ci : Int) (px py pz iw ih : ℚ) (lo hi y : Int)
    (data : List ℚ) (hlo : 0 ≤ lo) (hloW : lo ≤ r.image.width) (hhi : hi ≤ r.image.width)
    (hy : 0 ≤ y) (hlen : 4 * (y * r.image.width + r.image.width) ≤ (data.length : Int)) :
    (r.renderRow32 ci px py pz iw ih lo hi y data).length = data.length ∧
    ∀ x' y' k : Int, 0 ≤ x' → x' < r.image.width → 0 ≤ k → k ≤ 3 →
      loadAt (r.renderRow32 ci px py pz iw ih lo hi y data) (4 * (y' * r.image.width + x') + k) =
        if y' = y ∧ lo ≤ x' ∧ x' < hi ∧ hitTest32 px py (loadAt r.radius ci) iw ih x' y
        then blendChannel32 (r.circleAt ci) k (loadAt data (4 * (y' * r.image.width + x') + k))
        else loadAt data (4 * (y' * r.image.width + x') + k) := by
  have hn : lo + ((hi - lo).toNat : Int) ≤ r.image.width := by omega
  obtain ⟨_, hl, hval⟩ := renderRow32_upto r ci px py pz iw ih lo y data hlo hy hlen _ hn
  refine ⟨hl, ?_⟩
  intro x' y' k hx0 hxW hk0 hk3
  have h := hval x' y' k hx0 hxW hk0 hk3
  unfold RefRenderer.renderRow32 intRange
  simp only at h ⊢
  rw [h]
  have hiff : (lo ≤ x' ∧ x' < lo + ((hi - lo).toNat : Int)) ↔ (lo ≤ x' ∧ x' < hi) := by
    constructor <;> rintro ⟨h1, h2⟩ <;> exact ⟨h1, by omega⟩
  by_cases hy' : y' = y
  · by_cases hh : hitTest32 px py (loadAt r.radius ci) iw ih x' y
    · by_cases hb : lo ≤ x' ∧ x' < hi
      · have hb' := hiff.mpr hb
        rw [if_pos ⟨hy', hb'.1, hb'.2, hh⟩, if_pos ⟨hy', hb.1, hb.2, hh⟩]
      · have hb' : ¬ (lo ≤ x' ∧ x' < lo + ((hi - lo).toNat : Int)) := fun h => hb (hiff.mp h)
        rw [if_neg (fun h => hb' ⟨h.2.1, h.2.2.1⟩), if_neg (fun h => hb ⟨h.2.1, h.2.2.1⟩)]
    · rw [if_neg (fun h => hh h.2.2.2), if_neg (fun h => hh h.2.2.2)]
  · rw [if_neg (fun h => hy' h.1), if_neg (fun h => hy' h.1)]

/-! ## The binary32 renderer: one circle -/

theorem renderRows32_upto (r : RefRenderer) (ci : Int) (px py pz iw ih : ℚ)
    (lo hi ylo : Int) (data : List ℚ) (hlo : 0 ≤ lo) (hloW : lo ≤ r.image.width)
    (hhi : hi ≤ r.image.width)
    (hylo : 0 ≤ ylo) (n : Nat)
    (hlen : 4 * ((ylo + n) * r.image.width) ≤ (data.length : Int)) :
    let d := ((List.range n).map (fun (k : Nat) => ylo + (k : Int))).foldl
      (fun data (pixelY : Int) => r.renderRow32 ci px py pz iw ih lo hi pixelY data) data
    d.length = data.length ∧
    ∀ x' y' k : Int, 0 ≤ x' → x' < r.image.width → 0 ≤ k → k ≤ 3 →
      loadAt d (4 * (y' * r.image.width + x') + k) =
        if (ylo ≤ y' ∧ y' < ylo + n) ∧ lo ≤ x' ∧ x' < hi ∧
            hitTest32 px py (loadAt r.radius ci) iw ih x' y'
        then blendChannel32 (r.circleAt ci) k (loadAt data (4 * (y' * r.image.width + x') + k))
        else loadAt data (4 * (y' * r.image.width + x') + k) := by
  induction n with
  | zero =>
    simp only [List.range_zero, List.map_nil, List.foldl_nil, Nat.cast_zero, add_zero, true_and]
    intro x' y' k _ _ _ _
    rw [if_neg]; omega
  | succ n ih_n =>
    have hlen' : 4 * ((ylo + n) * r.image.width) ≤ (data.length : Int) := by
      push_cast at hlen; nlinarith
    have IH := ih_n hlen'
    simp only [List.range_succ, List.map_append, List.foldl_append, List.map_cons, List.map_nil,
      List.foldl_cons, List.foldl_nil] at IH ⊢
    obtain ⟨hl, hval⟩ := IH
    have hrow := renderRow32_spec r ci px py pz iw ih lo hi (ylo + n)
      (((List.range n).map (fun (k : Nat) => ylo + (k : Int))).foldl
        (fun data (pixelY : Int) => r.renderRow32 ci px py pz iw ih lo hi pixelY data) data)
      hlo hloW hhi (by omega) (by rw [hl]; push_cast at hlen; nlinarith)
    obtain ⟨hl2, hval2⟩ := hrow
    refine ⟨by rw [hl2, hl], ?_⟩
    intro x' y' k hx0 hxW hk0 hk3
    rw [hval2 x' y' k hx0 hxW hk0 hk3, hval x' y' k hx0 hxW hk0 hk3]
    by_cases hy' : y' = ylo + n
    · subst hy'
      have h1 : ¬ (ylo + (n : Int) < ylo + n) := lt_irrefl _
      have h2 : ylo ≤ ylo + (n : Int) ∧ ylo + (n : Int) < ylo + ((n + 1 : Nat) : Int) := by
        push_cast; omega
      simp only [h1, h2, and_false, false_and, if_false, true_and]
    · have hiff : (ylo ≤ y' ∧ y' < ylo + ((n + 1 : Nat) : Int)) ↔ (ylo ≤ y' ∧ y' < ylo + n) := by
        constructor <;> rintro ⟨h1, h2⟩ <;> refine ⟨h1, ?_⟩
        · push_cast at h2; omega
        · push_cast; omega
      simp only [hy', false_and, if_false, hiff]


theorem screenMin32_bounds (undef : ℚ → Int) (lo : ℚ) (size : Int) (h : 0 ≤ size) :
    0 ≤ screenMin32 undef lo size ∧ screenMin32 undef lo size ≤ size :=
  CLAMP_bounds _ _ h

theorem screenMax32_bounds (undef : ℚ → Int) (hi : ℚ) (size : Int) (h : 0 ≤ size) :
    0 ≤ screenMax32 undef hi size ∧ screenMax32 undef hi size ≤ size :=
  CLAMP_bounds _ _ h

/-- Effect of compositing one circle on every pixel of the buffer: a pixel inside the
bounding box that passes the distance test is blended once, every other pixel keeps
its value. -/
theorem renderCircle32_spec (undef : ℚ → Int) (r : RefRenderer) (ci : Int) (data : List ℚ)
    (hW : 0 ≤ r.image.width) (hH : 0 ≤ r.image.height)
    (hlen : 4 * r.image.width * r.image.height ≤ (data.length : Int)) :
    (r.renderCircle32 undef ci data).length = data.length ∧
    ∀ x y k : Int, 0 ≤ x → x < r.image.width → 0 ≤ k → k ≤ 3 →
      loadAt (r.renderCircle32 undef ci data) (4 * (y * r.image.width + x) + k) =
        if (r.circleAt ci).blends32 undef r.image.width r.image.height x y
        then blendChannel32 (r.circleAt ci) k (loadAt data (4 * (y * r.image.width + x) + k))
        else loadAt data (4 * (y * r.image.width + x) + k) := by
  have hx1 := screenMin32_bounds undef
    (fl (loadAt r.position (3 * ci) - loadAt r.radius ci)) r.image.width hW
  have hx2 := screenMax32_bounds undef
    (fl (loadAt r.position (3 * ci) + loadAt r.radius ci)) r.image.width hW
  have hy1 := screenMin32_bounds undef
    (fl (loadAt r.position (3 * ci + 1) - loadAt r.radius ci)) r.image.height hH
  have hy2 := screenMax32_bounds undef
    (fl (loadAt r.position (3 * ci + 1) + loadAt r.radius ci)) r.image.height hH
  have key := renderRows32_upto r ci (loadAt r.position (3 * ci)) (loadAt r.position (3 * ci + 1))
    (loadAt r.position (3 * ci + 2)) (fl (1 / static_cast_float r.image.width))
    (fl (1 / static_cast_float r.image.height))
    (screenMin32 undef (fl (loadAt r.position (3 * ci) - loadAt r.radius ci)) r.image.width)
    (screenMax32 undef (fl (loadAt r.position (3 * ci) + loadAt r.radius ci)) r.image.width)
    (screenMin32 undef (fl (loadAt r.position (3 * ci + 1) - loadAt r.radius ci))
      r.image.height) data
    hx1.1 hx1.2 hx2.2 hy1.1
    ((screenMax32 undef (fl (loadAt r.position (3 * ci + 1) + loadAt r.radius ci))
        r.image.height -
      screenMin32 undef (fl (loadAt r.position (3 * ci + 1) - loadAt r.radius ci))
        r.image.height).toNat)
    (by
      have h1 : screenMin32 undef (fl (loadAt r.position (3 * ci + 1) - loadAt r.radius ci))
            r.image.height +
          ((screenMax32 undef (fl (loadAt r.position (3 * ci + 1) + loadAt r.radius ci))
              r.image.height -
            screenMin32 undef (fl (loadAt r.position (3 * ci + 1) - loadAt r.radius ci))
              r.image.height).toNat : Int)
          ≤ r.image.height := by
        have := hy1.2; have := hy2.2
        omega
      have h2 := mul_le_mul_of_nonneg_right h1 hW
      nlinarith)
  obtain ⟨hl, hval⟩ := key
  refine ⟨hl, ?_⟩
  intro x y k hx0 hxW hk0 hk3
  have h := hval x y k hx0 hxW hk0 hk3
  unfold RefRenderer.renderCircle32 intRange
  simp only at h ⊢
  rw [h]
  have hiff : ∀ a b : Int, (a ≤ y ∧ y < a + ((b - a).toNat : Int)) ↔ (a ≤ y ∧ y < b) := by
    intro a b
    constructor <;> rintro ⟨h1, h2⟩ <;> exact ⟨h1, by omega⟩
  simp only [hiff, SceneCircle.blends32, SceneCircle.inBox32, SceneCircle.passes32,
    RefRenderer.circleAt]
  apply if_congr _ rfl rfl
  constructor
  · rintro ⟨⟨h1, h2⟩, h3, h4, h5⟩
    exact ⟨⟨h3, h4, h1, h2⟩, h5⟩
  · rintro ⟨⟨h3, h4, h1, h2⟩, h5⟩
    exact ⟨⟨h1, h2⟩, h3, h4, h5⟩

/-- Compositing one circle reads the renderer's arrays only at that circle's index
and its image only for the dimensions. -/
theorem renderCircle32_congr (undef : ℚ → Int) (r r' : RefRenderer) (ci cj : Int) (data : List ℚ)
    (hc : r.circleAt ci = r'.circleAt cj) (hw : r.image.width = r'.image.width)
    (hh : r.image.height = r'.image.height) :
    r.renderCircle32 undef ci data = r'.renderCircle32 undef cj data := by
  have h := hc
  unfold RefRenderer.circleAt at h
  injection h with h1 h2 h3 h4 h5 h6 h7
  unfold RefRenderer.renderCircle32 RefRenderer.renderRow32 RefRenderer.shadePixel32
  simp only [h1, h2, h3, h4, h5, h6, h7, hw, hh]


theorem renderCircles32_eq_foldl (undef : ℚ → Int) (cs : List SceneCircle) (img : Image) :
    renderCircles32 undef cs img =
      { img with data := cs.foldl (fun d c => compositeOne32 undef c img.width img.height d) img.data } := by
  unfold renderCircles32 RefRenderer.render32 intRange
  simp only [sub_zero]
  have hn : (RefRenderer.ofCircles cs img).numCircles.toNat = cs.length := by
    simp [RefRenderer.ofCircles]
  have himg : (RefRenderer.ofCircles cs img).image = img := rfl
  rw [hn, himg, List.foldl_map]
  congr 1
  apply foldl_range_eq_foldl
  intro d i hi
  unfold compositeOne32
  apply renderCircle32_congr
  · rw [zero_add, circleAt_ofCircles cs img i hi]
    have := circleAt_ofCircles [cs[i]] { width := img.width, height := img.height, data := [] } 0 (by simp)
    simpa using this.symm
  · rfl
  · rfl

/-! ## Images after compositing in binary32 -/

theorem compositeOne32_spec (undef : ℚ → Int) (c : SceneCircle) (W H : Int) (data : List ℚ) (hW : 0 ≤ W)
    (hH : 0 ≤ H) (hlen : 4 * W * H ≤ (data.length : Int)) :
    (compositeOne32 undef c W H data).length = data.length ∧
    ∀ x y k : Int, 0 ≤ x → x < W → 0 ≤ k → k ≤ 3 →
      loadAt (compositeOne32 undef c W H data) (4 * (y * W + x) + k) =
        if c.blends32 undef W H x y
        then blendChannel32 c k (loadAt data (4 * (y * W + x) + k))
        else loadAt data (4 * (y * W + x) + k) := by
  have hc : (RefRenderer.ofCircles [c] { width := W, height := H, data := [] }).circleAt 0 = c := by
    have := circleAt_ofCircles [c] { width := W, height := H, data := [] } 0 (by simp)
    simpa using this
  have h := renderCircle32_spec undef
    (RefRenderer.ofCircles [c] { width := W, height := H, data := [] }) 0 data hW hH hlen
  rw [hc] at h
  obtain ⟨hl, hval⟩ := h
  refine ⟨hl, ?_⟩
  intro x y k hx0 hxW hk0 hk3
  exact hval x y k hx0 hxW hk0 hk3

theorem renderCircles32_width (undef : ℚ → Int) (cs : List SceneCircle) (img : Image) :
    (renderCircles32 undef cs img).width = img.width := by
  rw [renderCircles32_eq_foldl]

theorem renderCircles32_height (undef : ℚ → Int) (cs : List SceneCircle) (img : Image) :
    (renderCircles32 undef cs img).height = img.height := by
  rw [renderCircles32_eq_foldl]

theorem renderCircles32_nil (undef : ℚ → Int) (img : Image) : renderCircles32 undef [] img = img := by
  rw [renderCircles32_eq_foldl]; rfl

theorem renderCircles32_append (undef : ℚ → Int) (a b : List SceneCircle) (img : Image) :
    renderCircles32 undef (a ++ b) img = renderCircles32 undef b (renderCircles32 undef a img) := by
  simp only [renderCircles32_eq_foldl, List.foldl_append]

theorem renderCircles32_cons (undef : ℚ → Int) (c : SceneCircle) (cs : List SceneCircle) (img : Image) :
    renderCircles32 undef (c :: cs) img = renderCircles32 undef cs (renderCircles32 undef [c] img) :=
  renderCircles32_append undef [c] cs img

theorem renderCircles32_single_length (undef : ℚ → Int) (c : SceneCircle) (img : Image) (h : img.WF) :
    (renderCircles32 undef [c] img).data.length = img.data.length := by
  obtain ⟨hW, hH, hlen⟩ := h
  rw [renderCircles32_eq_foldl]
  exact (compositeOne32_spec undef c img.width img.height img.data hW.le hH.le hlen.ge).1

theorem renderCircles32_single_WF (undef : ℚ → Int) (c : SceneCircle) (img : Image) (h : img.WF) :
    (renderCircles32 undef [c] img).WF := by
  have hl := renderCircles32_single_length undef c img h
  obtain ⟨hW, hH, hlen⟩ := h
  refine ⟨by rw [renderCircles32_width]; exact hW, by rw [renderCircles32_height]; exact hH, ?_⟩
  rw [renderCircles32_width, renderCircles32_height, hl]; exact hlen

theorem renderCircles32_WF (undef : ℚ → Int) (cs : List SceneCircle) (img : Image) (h : img.WF) :
    (renderCircles32 undef cs img).WF := by
  induction cs generalizing img with
  | nil => rw [renderCircles32_nil]; exact h
  | cons c cs ih =>
    rw [renderCircles32_cons]
    exact ih _ (renderCircles32_single_WF undef c img h)

/-- Every channel of every pixel after compositing one circle. -/
theorem channel_renderCircles32_single (undef : ℚ → Int) (c : SceneCircle) (img : Image) (h : img.WF)
    (x y k : Int) (hx0 : 0 ≤ x) (hxW : x < img.width) (hk0 : 0 ≤ k) (hk3 : k ≤ 3) :
    (renderCircles32 undef [c] img).channel x y k =
      if c.blends32 undef img.width img.height x y
      then blendChannel32 c k (img.channel x y k) else img.channel x y k := by
  obtain ⟨hW, hH, hlen⟩ := h
  unfold Image.channel
  rw [renderCircles32_eq_foldl]
  exact (compositeOne32_spec undef c img.width img.height img.data hW.le hH.le hlen.ge).2 x y k hx0 hxW
    hk0 hk3


/-- The renderer's own circle list gives back the renderer's rendering. -/
theorem render32_image_eq_renderCircles32 (undef : ℚ → Int) (r : RefRenderer) :
    (r.render32 undef).image = renderCircles32 undef r.circles r.image := by
  rw [renderCircles32_eq_foldl]
  unfold RefRenderer.render32 RefRenderer.circles
  simp only
  congr 1
  unfold intRange
  rw [List.foldl_map, List.map_map, List.foldl_map]
  apply List.foldl_ext
  intro d i _
  unfold compositeOne32
  apply renderCircle32_congr
  · have := circleAt_ofCircles [r.circleAt (0 + (i : Int))]
      { width := r.image.width, height := r.image.height, data := [] } 0 (by simp)
    simpa using this.symm
  · rfl
  · rfl

/-! ## Pixels of the binary32 rendering -/

theorem channel_renderCircles32_blended (undef : ℚ → Int) (c : SceneCircle) (img : Image)
    (h : img.WF) (x y k : Int) (hx0 : 0 ≤ x) (hxW : x < img.width) (hk0 : 0 ≤ k) (hk3 : k ≤ 3)
    (hb : c.blends32 undef img.width img.height x y) :
    (renderCircles32 undef [c] img).channel x y k = blendChannel32 c k (img.channel x y k) := by
  rw [channel_renderCircles32_single undef c img h x y k hx0 hxW hk0 hk3, if_pos hb]

theorem channel_renderCircles32_kept (undef : ℚ → Int) (c : SceneCircle) (img : Image)
    (h : img.WF) (x y k : Int) (hx0 : 0 ≤ x) (hxW : x < img.width) (hk0 : 0 ≤ k) (hk3 : k ≤ 3)
    (hb : ¬ c.blends32 undef img.width img.height x y) :
    (renderCircles32 undef [c] img).channel x y k = img.channel x y k := by
  rw [channel_renderCircles32_single undef c img h x y k hx0 hxW hk0 hk3, if_neg hb]

theorem blendingCircles_cons (undef : ℚ → Int) (c : SceneCircle) (cs : List SceneCircle)
    (W H x y : Int) :
    blendingCircles undef (c :: cs) W H x y =
      if c.blends32 undef W H x y then c :: blendingCircles undef cs W H x y
      else blendingCircles undef cs W H x y := by
  unfold blendingCircles
  rw [List.filter_cons]
  simp

/-- Every channel of a pixel after rendering: the blends of the circles that `render`
blends into the pixel, in list order, applied to the old value. -/
theorem channel_renderCircles32_blending (undef : ℚ → Int) (cs : List SceneCircle)
    (img : Image) (h : img.WF) (x y k : Int) (hx0 : 0 ≤ x) (hxW : x < img.width)
    (hk0 : 0 ≤ k) (hk3 : k ≤ 3) :
    (renderCircles32 undef cs img).channel x y k =
      (blendingCircles undef cs img.width img.height x y).foldl
        (fun v c => blendChannel32 c k v) (img.channel x y k) := by
  induction cs generalizing img with
  | nil => rw [renderCircles32_nil]; rfl
  | cons c cs ih =>
    rw [renderCircles32_cons, ih _ (renderCircles32_single_WF undef c img h)
      (by rw [renderCircles32_width]; exact hxW),
      renderCircles32_width, renderCircles32_height,
      channel_renderCircles32_single undef c img h x y k hx0 hxW hk0 hk3,
      blendingCircles_cons]
    by_cases hb : c.blends32 undef img.width img.height x y
    · rw [if_pos hb, if_pos hb]
      rfl
    · rw [if_neg hb, if_neg hb]

/-! ## Alpha in binary32 -/

theorem blendChannel32_alpha (c : SceneCircle) (v : ℚ) : blendChannel32 c 3 v = fl (v + 1 / 2) := by
  simp [blendChannel32]

theorem le_fl_add_half (v : ℚ) (hv : IsF32 v) : v ≤ fl (v + 1 / 2) := by
  have h := fl_mono v (v + 1 / 2) (by linarith)
  rw [hv] at h
  exact h

theorem alpha32_step (undef : ℚ → Int) (c : SceneCircle) (img : Image) (h : img.WF)
    (x y : Int) (hx0 : 0 ≤ x) (hxW : x < img.width) :
    (renderCircles32 undef [c] img).channel x y 3 =
      if c.blends32 undef img.width img.height x y then fl (img.channel x y 3 + 1 / 2)
      else img.channel x y 3 := by
  rw [channel_renderCircles32_single undef c img h x y 3 hx0 hxW (by norm_num) (by norm_num),
    blendChannel32_alpha]

theorem alpha32_step_isF32 (undef : ℚ → Int) (c : SceneCircle) (img : Image) (h : img.WF)
    (x y : Int) (hx0 : 0 ≤ x) (hxW : x < img.width) (hv : IsF32 (img.channel x y 3)) :
    IsF32 ((renderCircles32 undef [c] img).channel x y 3) := by
  rw [alpha32_step undef c img h x y hx0 hxW]
  split
  · exact isF32_fl _
  · exact hv

theorem alpha32_step_le (undef : ℚ → Int) (c : SceneCircle) (img : Image) (h : img.WF)
    (x y : Int) (hx0 : 0 ≤ x) (hxW : x < img.width) (hv : IsF32 (img.channel x y 3)) :
    img.channel x y 3 ≤ (renderCircles32 undef [c] img).channel x y 3 := by
  rw [alpha32_step undef c img h x y hx0 hxW]
  split
  · exact le_fl_add_half _ hv
  · exact le_refl _

theorem alpha32_render_isF32 (undef : ℚ → Int) (cs : List SceneCircle) (img : Image)
    (h : img.WF) (x y : Int) (hx0 : 0 ≤ x) (hxW : x < img.width)
    (hv : IsF32 (img.channel x y 3)) :
    IsF32 ((renderCircles32 undef cs img).channel x y 3) := by
  induction cs generalizing img with
  | nil => rw [renderCircles32_nil]; exact hv
  | cons c cs ih =>
    rw [renderCircles32_cons]
    exact ih _ (renderCircles32_single_WF undef c img h)
      (by rw [renderCircles32_width]; exact hxW)
      (alpha32_step_isF32 undef c img h x y hx0 hxW hv)

theorem alpha32_render_le (undef : ℚ → Int) (cs : List SceneCircle) (img : Image)
    (h : img.WF) (x y : Int) (hx0 : 0 ≤ x) (hxW : x < img.width)
    (hv : IsF32 (img.channel x y 3)) :
    img.channel x y 3 ≤ (renderCircles32 undef cs img).channel x y 3 := by
  induction cs generalizing img with
  | nil => rw [renderCircles32_nil]
  | cons c cs ih =>
    rw [renderCircles32_cons]
    exact le_trans (alpha32_step_le undef c img h x y hx0 hxW hv)
      (ih _ (renderCircles32_single_WF undef c img h)
        (by rw [renderCircles32_width]; exact hxW)
        (alpha32_step_isF32 undef c img h x y hx0 hxW hv))

/-- Half an integer below `2^24` in magnitude is a binary32 number. -/
theorem fl_half_int (m : Int) (hm : |m| < 2 ^ 24) : fl ((m : ℚ) / 2) = (m : ℚ) / 2 := by
  have h := fl_of_dyadic m (-1) hm (by norm_num) (by norm_num)
  have e : (m : ℚ) * 2 ^ (-1 : Int) = (m : ℚ) / 2 := by
    rw [zpow_neg, zpow_one, div_eq_mul_inv]
  rw [e] at h
  exact h

/-- Adding `0.5` is exact on the multiples of `0.5` between `0` and `2^23 - 1`. -/
theorem fl_add_half_exact (j : Nat) (hj : j < 16777215) :
    fl ((j : ℚ) / 2 + 1 / 2) = (j : ℚ) / 2 + 1 / 2 := by
  have h := fl_half_int ((j : Int) + 1) (by rw [abs_of_nonneg (by omega)]; omega)
  have e : (((j : Int) + 1 : Int) : ℚ) / 2 = (j : ℚ) / 2 + 1 / 2 := by
    push_cast
    ring
  rw [e] at h
  exact h

theorem alpha32_fold (l : List SceneCircle) (j : Nat) (hj : j + l.length < 16777216) :
    l.foldl (fun v c => blendChannel32 c 3 v) ((j : ℚ) / 2) =
      (j : ℚ) / 2 + 1 / 2 * (l.length : ℚ) := by
  induction l generalizing j with
  | nil => simp
  | cons c l ih =>
    rw [List.length_cons] at hj
    rw [List.foldl_cons, blendChannel32_alpha, fl_add_half_exact j (by omega)]
    have e : (j : ℚ) / 2 + 1 / 2 = ((j + 1 : Nat) : ℚ) / 2 := by
      push_cast
      ring
    rw [e, ih (j + 1) (by omega), List.length_cons]
    push_cast
    ring

theorem blendingCircles_length_le (undef : ℚ → Int) (cs : List SceneCircle) (W H x y : Int) :
    (blendingCircles undef cs W H x y).length ≤ cs.length := by
  unfold blendingCircles
  exact List.length_filter_le _ _

/-! ## Colours in binary32 -/

theorem blendChannel32_red (c : SceneCircle) (v : ℚ) :
    blendChannel32 c 0 v = fl (fl (1 / 2 * c.colR) + fl (fl (1 - 1 / 2) * v)) := by
  simp [blendChannel32]

theorem alpha_one_step : fl ((1 : ℚ) + 1 / 2) = 3 / 2 := by
  have h := fl_half_int 3 (by norm_num)
  have e : (1 : ℚ) + 1 / 2 = ((3 : Int) : ℚ) / 2 := by norm_num
  rw [e, h]
  norm_num

/-! ## Conversion to `int` -/

theorem static_cast_int32_of_nonneg (undef : ℚ → Int) (q : ℚ) (n : Int) (h0 : 0 ≤ q)
    (h1 : (n : ℚ) ≤ q) (h2 : q < (n : ℚ) + 1) (h3 : n ≤ 2147483647) :
    static_cast_int32 undef q = n := by
  have e : Int.tdiv q.num (q.den : Int) = n := by
    have h := static_cast_int_of_nonneg q h0
    unfold static_cast_int at h
    rw [h, Int.floor_eq_iff]
    exact ⟨h1, h2⟩
  have hn : (0 : ℚ) < (n : ℚ) + 1 := lt_of_le_of_lt h0 h2
  have hn' : (0 : Int) < n + 1 := by exact_mod_cast hn
  unfold static_cast_int32
  rw [e, if_pos ⟨by omega, h3⟩]

/-! ## Roundings of the concrete inputs -/

theorem rounding_of_4_10 : fl (4 / 10) = 13421773 / 33554432 := by
  have h : (4 / 10 : ℚ) = 2 / 5 := by norm_num
  rw [h, fl_eq_pos (2 / 5) (-2) 13421773 (by norm_num) (by norm_num) (by norm_num) (by norm_num) (by norm_num) (by norm_num) (by norm_num)]
  norm_num

theorem rounding_of_5_10 : fl (5 / 10) = 1 / 2 := by
  have h : (5 / 10 : ℚ) = 1 / 2 := by norm_num
  rw [h, fl_eq_pos (1 / 2) (-1) 8388608 (by norm_num) (by norm_num) (by norm_num) (by norm_num) (by norm_num) (by norm_num) (by norm_num)]
  norm_num

theorem rounding_of_3_10 : fl (3 / 10) = 5033165 / 16777216 := by
  rw [fl_eq_pos (3 / 10) (-2) 10066330 (by norm_num) (by norm_num) (by norm_num) (by norm_num) (by norm_num) (by norm_num) (by norm_num)]
  norm_num

theorem rounding_of_15 : fl 15 = 15 := by
  rw [fl_eq_pos (15) (3) 15728640 (by norm_num) (by norm_num) (by norm_num) (by norm_num) (by norm_num) (by norm_num) (by norm_num)]
  norm_num

theorem rounding_of_1_15 : fl (1 / 15) = 8947849 / 134217728 := by
  rw [fl_eq_pos (1 / 15) (-4) 8947849 (by norm_num) (by norm_num) (by norm_num) (by norm_num) (by norm_num) (by norm_num) (by norm_num)]
  norm_num

theorem rounding_of_10 : fl 10 = 10 := by
  rw [fl_eq_pos (10) (3) 10485760 (by norm_num) (by norm_num) (by norm_num) (by norm_num) (by norm_num) (by norm_num) (by norm_num)]
  norm_num

theorem rounding_1 : fl (10 + 1 / 2) = 21 / 2 := by
  have h : (10 + 1 / 2 : ℚ) = 21 / 2 := by norm_num
  rw [h, fl_eq_pos (21 / 2) (3) 11010048 (by norm_num) (by norm_num) (by norm_num) (by norm_num) (by norm_num) (by norm_num) (by norm_num)]
  norm_num

theorem rounding_2 : fl ((8947849 / 134217728) * (21 / 2)) = 2936013 / 4194304 := by
  have h : ((8947849 / 134217728) * (21 / 2) : ℚ) = 187904829 / 268435456 := by norm_num
  rw [h, fl_eq_pos (187904829 / 268435456) (-1) 11744052 (by norm_num) (by norm_num) (by norm_num) (by norm_num) (by norm_num) (by norm_num) (by norm_num)]
  norm_num

theorem rounding_of_7 : fl 7 = 7 := by
  rw [fl_eq_pos (7) (2) 14680064 (by norm_num) (by norm_num) (by norm_num) (by norm_num) (by norm_num) (by norm_num) (by norm_num)]
  norm_num

theorem rounding_3 : fl (7 + 1 / 2) = 15 / 2 := by
  have h : (7 + 1 / 2 : ℚ) = 15 / 2 := by norm_num
  rw [h, fl_eq_pos (15 / 2) (2) 15728640 (by norm_num) (by norm_num) (by norm_num) (by norm_num) (by norm_num) (by norm_num) (by norm_num)]
  norm_num

theorem rounding_4 : fl ((8947849 / 134217728) * (15 / 2)) = 1 / 2 := by
  have h : ((8947849 / 134217728) * (15 / 2) : ℚ) = 134217735 / 268435456 := by norm_num
  rw [h, fl_eq_pos (134217735 / 268435456) (-1) 8388608 (by norm_num) (by norm_num) (by norm_num) (by norm_num) (by norm_num) (by norm_num) (by norm_num)]
  norm_num

theorem rounding_5 : fl ((13421773 / 33554432) - (2936013 / 4194304)) = -(10066331 / 33554432) := by
  have h : ((13421773 / 33554432) - (2936013 / 4194304) : ℚ) = -(10066331 / 33554432) := by norm_num
  rw [h, fl_neg, fl_eq_pos (10066331 / 33554432) (-2) 10066331 (by norm_num) (by norm_num) (by norm_num) (by norm_num) (by norm_num) (by norm_num) (by norm_num)]
  norm_num

theorem rounding_6 : fl ((1 / 2) - (1 / 2)) = 0 := by
  have h : ((1 / 2) - (1 / 2) : ℚ) = 0 := by norm_num
  rw [h, fl_zero]

theorem rounding_7 : fl ((-(10066331 / 33554432)) * (-(10066331 / 33554432))) = 12079599 / 134217728 := by
  have h : ((-(10066331 / 33554432)) * (-(10066331 / 33554432)) : ℚ) = 101331019801561 / 1125899906842624 := by norm_num
  rw [h, fl_eq_pos (101331019801561 / 1125899906842624) (-4) 12079599 (by norm_num) (by norm_num) (by norm_num) (by norm_num) (by norm_num) (by norm_num) (by norm_num)]
  norm_num

theorem rounding_8 : fl (0 * 0) = 0 := by
  have h : (0 * 0 : ℚ) = 0 := by norm_num
  rw [h, fl_zero]

theorem rounding_9 : fl ((12079599 / 134217728) + 0) = 12079599 / 134217728 := by
  have h : ((12079599 / 134217728) + 0 : ℚ) = 12079599 / 134217728 := by norm_num
  rw [h, fl_eq_pos (12079599 / 134217728) (-4) 12079599 (by norm_num) (by norm_num) (by norm_num) (by norm_num) (by norm_num) (by norm_num) (by norm_num)]
  norm_num

theorem rounding_10 : fl ((5033165 / 16777216) * (5033165 / 16777216)) = 3019899 / 33554432 := by
  have h : ((5033165 / 16777216) * (5033165 / 16777216) : ℚ) = 25332749917225 / 281474976710656 := by norm_num
  rw [h, fl_eq_pos (25332749917225 / 281474976710656) (-4) 12079596 (by norm_num) (by norm_num) (by norm_num) (by norm_num) (by norm_num) (by norm_num) (by norm_num)]
  norm_num

theorem rounding_11 : fl ((13421773 / 33554432) - (5033165 / 16777216)) = 3355443 / 33554432 := by
  have h : ((13421773 / 33554432) - (5033165 / 16777216) : ℚ) = 3355443 / 33554432 := by norm_num
  rw [h, fl_eq_pos (3355443 / 33554432) (-4) 13421772 (by norm_num) (by norm_num) (by norm_num) (by norm_num) (by norm_num) (by norm_num) (by norm_num)]
  norm_num

theorem rounding_12 : fl ((3355443 / 33554432) * 15) = 12582911 / 8388608 := by
  have h : ((3355443 / 33554432) * 15 : ℚ) = 50331645 / 33554432 := by norm_num
  rw [h, fl_eq_pos (50331645 / 33554432) (0) 12582911 (by norm_num) (by norm_num) (by norm_num) (by norm_num) (by norm_num) (by norm_num) (by norm_num)]
  norm_num

theorem rounding_13 : fl ((13421773 / 33554432) + (5033165 / 16777216)) = 2936013 / 4194304 := by
  have h : ((13421773 / 33554432) + (5033165 / 16777216) : ℚ) = 23488103 / 33554432 := by norm_num
  rw [h, fl_eq_tie (23488103 / 33554432) (-1) 11744051 (by norm_num) (by norm_num) (by norm_num) (by norm_num) (by norm_num) (by norm_num)]
  norm_num

theorem rounding_14 : fl ((2936013 / 4194304) * 15) = 11010049 / 1048576 := by
  have h : ((2936013 / 4194304) * 15 : ℚ) = 44040195 / 4194304 := by norm_num
  rw [h, fl_eq_pos (44040195 / 4194304) (3) 11010049 (by norm_num) (by norm_num) (by norm_num) (by norm_num) (by norm_num) (by norm_num) (by norm_num)]
  norm_num

theorem rounding_15 : fl ((1 / 2) - (5033165 / 16777216)) = 3355443 / 16777216 := by
  have h : ((1 / 2) - (5033165 / 16777216) : ℚ) = 3355443 / 16777216 := by norm_num
  rw [h, fl_eq_pos (3355443 / 16777216) (-3) 13421772 (by norm_num) (by norm_num) (by norm_num) (by norm_num) (by norm_num) (by norm_num) (by norm_num)]
  norm_num

theorem rounding_16 : fl ((3355443 / 16777216) * 15) = 12582911 / 4194304 := by
  have h : ((3355443 / 16777216) * 15 : ℚ) = 50331645 / 16777216 := by norm_num
  rw [h, fl_eq_pos (50331645 / 16777216) (1) 12582911 (by norm_num) (by norm_num) (by norm_num) (by norm_num) (by norm_num) (by norm_num) (by norm_num)]
  norm_num

theorem rounding_17 : fl ((1 / 2) + (5033165 / 16777216)) = 13421773 / 16777216 := by
  have h : ((1 / 2) + (5033165 / 16777216) : ℚ) = 13421773 / 16777216 := by norm_num
  rw [h, fl_eq_pos (13421773 / 16777216) (-1) 13421773 (by norm_num) (by norm_num) (by norm_num) (by norm_num) (by norm_num) (by norm_num) (by norm_num)]
  norm_num

theorem rounding_18 : fl ((13421773 / 16777216) * 15) = 12 := by
  have h : ((13421773 / 16777216) * 15 : ℚ) = 201326595 / 16777216 := by norm_num
  rw [h, fl_eq_pos (201326595 / 16777216) (3) 12582912 (by norm_num) (by norm_num) (by norm_num) (by norm_num) (by norm_num) (by norm_num) (by norm_num)]
  norm_num

theorem rounding_19 : fl ((1 / 2) - (2936013 / 4194304)) = -(838861 / 4194304) := by
  have h : ((1 / 2) - (2936013 / 4194304) : ℚ) = -(838861 / 4194304) := by norm_num
  rw [h, fl_neg, fl_eq_pos (838861 / 4194304) (-3) 13421776 (by norm_num) (by norm_num) (by norm_num) (by norm_num) (by norm_num) (by norm_num) (by norm_num)]
  norm_num

theorem rounding_20 : fl ((-(838861 / 4194304)) * (-(838861 / 4194304))) = 10737423 / 268435456 := by
  have h : ((-(838861 / 4194304)) * (-(838861 / 4194304)) : ℚ) = 703687777321 / 17592186044416 := by norm_num
  rw [h, fl_eq_pos (703687777321 / 17592186044416) (-5) 10737423 (by norm_num) (by norm_num) (by norm_num) (by norm_num) (by norm_num) (by norm_num) (by norm_num)]
  norm_num

theorem rounding_21 : fl ((10737423 / 268435456) + 0) = 10737423 / 268435456 := by
  have h : ((10737423 / 268435456) + 0 : ℚ) = 10737423 / 268435456 := by norm_num
  rw [h, fl_eq_pos (10737423 / 268435456) (-5) 10737423 (by norm_num) (by norm_num) (by norm_num) (by norm_num) (by norm_num) (by norm_num) (by norm_num)]
  norm_num

theorem rounding_of_6_10 : fl (6 / 10) = 5033165 / 8388608 := by
  have h : (6 / 10 : ℚ) = 3 / 5 := by norm_num
  rw [h, fl_eq_pos (3 / 5) (-1) 10066330 (by norm_num) (by norm_num) (by norm_num) (by norm_num) (by norm_num) (by norm_num) (by norm_num)]
  norm_num

theorem rounding_22 : fl ((5033165 / 8388608) - (2936013 / 4194304)) = -(838861 / 8388608) := by
  have h : ((5033165 / 8388608) - (2936013 / 4194304) : ℚ) = -(838861 / 8388608) := by norm_num
  rw [h, fl_neg, fl_eq_pos (838861 / 8388608) (-4) 13421776 (by norm_num) (by norm_num) (by norm_num) (by norm_num) (by norm_num) (by norm_num) (by norm_num)]
  norm_num

theorem rounding_23 : fl ((-(838861 / 8388608)) * (-(838861 / 8388608))) = 10737423 / 1073741824 := by
  have h : ((-(838861 / 8388608)) * (-(838861 / 8388608)) : ℚ) = 703687777321 / 70368744177664 := by norm_num
  rw [h, fl_eq_pos (703687777321 / 70368744177664) (-7) 10737423 (by norm_num) (by norm_num) (by norm_num) (by norm_num) (by norm_num) (by norm_num) (by norm_num)]
  norm_num

theorem rounding_24 : fl ((10737423 / 1073741824) + 0) = 10737423 / 1073741824 := by
  have h : ((10737423 / 1073741824) + 0 : ℚ) = 10737423 / 1073741824 := by norm_num
  rw [h, fl_eq_pos (10737423 / 1073741824) (-7) 10737423 (by norm_num) (by norm_num) (by norm_num) (by norm_num) (by norm_num) (by norm_num) (by norm_num)]
  norm_num

theorem rounding_25 : fl ((5033165 / 8388608) - (5033165 / 16777216)) = 5033165 / 16777216 := by
  have h : ((5033165 / 8388608) - (5033165 / 16777216) : ℚ) = 5033165 / 16777216 := by norm_num
  rw [h, fl_eq_pos (5033165 / 16777216) (-2) 10066330 (by norm_num) (by norm_num) (by norm_num) (by norm_num) (by norm_num) (by norm_num) (by norm_num)]
  norm_num

theorem rounding_26 : fl ((5033165 / 16777216) * 15) = 9 / 2 := by
  have h : ((5033165 / 16777216) * 15 : ℚ) = 75497475 / 16777216 := by norm_num
  rw [h, fl_eq_pos (75497475 / 16777216) (2) 9437184 (by norm_num) (by norm_num) (by norm_num) (by norm_num) (by norm_num) (by norm_num) (by norm_num)]
  norm_num

theorem rounding_27 : fl ((5033165 / 8388608) + (5033165 / 16777216)) = 15099495 / 16777216 := by
  have h : ((5033165 / 8388608) + (5033165 / 16777216) : ℚ) = 15099495 / 16777216 := by norm_num
  rw [h, fl_eq_pos (15099495 / 16777216) (-1) 15099495 (by norm_num) (by norm_num) (by norm_num) (by norm_num) (by norm_num) (by norm_num) (by norm_num)]
  norm_num

theorem rounding_28 : fl ((15099495 / 16777216) * 15) = 14155777 / 1048576 := by
  have h : ((15099495 / 16777216) * 15 : ℚ) = 226492425 / 16777216 := by norm_num
  rw [h, fl_eq_pos (226492425 / 16777216) (3) 14155777 (by norm_num) (by norm_num) (by norm_num) (by norm_num) (by norm_num) (by norm_num) (by norm_num)]
  norm_num

theorem rounding_of_5 : fl 5 = 5 := by
  rw [fl_eq_pos (5) (2) 10485760 (by norm_num) (by norm_num) (by norm_num) (by norm_num) (by norm_num) (by norm_num) (by norm_num)]
  norm_num

theorem rounding_of_1_5 : fl (1 / 5) = 13421773 / 67108864 := by
  rw [fl_eq_pos (1 / 5) (-3) 13421773 (by norm_num) (by norm_num) (by norm_num) (by norm_num) (by norm_num) (by norm_num) (by norm_num)]
  norm_num

theorem rounding_of_1 : fl 1 = 1 := by
  rw [fl_eq_pos (1) (0) 8388608 (by norm_num) (by norm_num) (by norm_num) (by norm_num) (by norm_num) (by norm_num) (by norm_num)]
  norm_num

theorem rounding_29 : fl (1 + 1 / 2) = 3 / 2 := by
  have h : (1 + 1 / 2 : ℚ) = 3 / 2 := by norm_num
  rw [h, fl_eq_pos (3 / 2) (0) 12582912 (by norm_num) (by norm_num) (by norm_num) (by norm_num) (by norm_num) (by norm_num) (by norm_num)]
  norm_num

theorem rounding_30 : fl ((13421773 / 67108864) * (3 / 2)) = 5033165 / 16777216 := by
  have h : ((13421773 / 67108864) * (3 / 2) : ℚ) = 40265319 / 134217728 := by norm_num
  rw [h, fl_eq_pos (40265319 / 134217728) (-2) 10066330 (by norm_num) (by norm_num) (by norm_num) (by norm_num) (by norm_num) (by norm_num) (by norm_num)]
  norm_num

theorem rounding_of_2 : fl 2 = 2 := by
  rw [fl_eq_pos (2) (1) 8388608 (by norm_num) (by norm_num) (by norm_num) (by norm_num) (by norm_num) (by norm_num) (by norm_num)]
  norm_num

theorem rounding_31 : fl (2 + 1 / 2) = 5 / 2 := by
  have h : (2 + 1 / 2 : ℚ) = 5 / 2 := by norm_num
  rw [h, fl_eq_pos (5 / 2) (1) 10485760 (by norm_num) (by norm_num) (by norm_num) (by norm_num) (by norm_num) (by norm_num) (by norm_num)]
  norm_num

theorem rounding_32 : fl ((13421773 / 67108864) * (5 / 2)) = 1 / 2 := by
  have h : ((13421773 / 67108864) * (5 / 2) : ℚ) = 67108865 / 134217728 := by norm_num
  rw [h, fl_eq_pos (67108865 / 134217728) (-1) 8388608 (by norm_num) (by norm_num) (by norm_num) (by norm_num) (by norm_num) (by norm_num) (by norm_num)]
  norm_num

theorem rounding_33 : fl ((3019899 / 33554432) + 0) = 3019899 / 33554432 := by
  have h : ((3019899 / 33554432) + 0 : ℚ) = 3019899 / 33554432 := by norm_num
  rw [h, fl_eq_pos (3019899 / 33554432) (-4) 12079596 (by norm_num) (by norm_num) (by norm_num) (by norm_num) (by norm_num) (by norm_num) (by norm_num)]
  norm_num

theorem rounding_34 : fl ((5033165 / 16777216) * 5) = 3 / 2 := by
  have h : ((5033165 / 16777216) * 5 : ℚ) = 25165825 / 16777216 := by norm_num
  rw [h, fl_eq_tie (25165825 / 16777216) (0) 12582912 (by norm_num) (by norm_num) (by norm_num) (by norm_num) (by norm_num) (by norm_num)]
  norm_num

theorem rounding_35 : fl ((15099495 / 16777216) * 5) = 9 / 2 := by
  have h : ((15099495 / 16777216) * 5 : ℚ) = 75497475 / 16777216 := by norm_num
  rw [h, fl_eq_pos (75497475 / 16777216) (2) 9437184 (by norm_num) (by norm_num) (by norm_num) (by norm_num) (by norm_num) (by norm_num) (by norm_num)]
  norm_num

theorem rounding_36 : fl ((3355443 / 16777216) * 5) = 16777215 / 16777216 := by
  have h : ((3355443 / 16777216) * 5 : ℚ) = 16777215 / 16777216 := by norm_num
  rw [h, fl_eq_pos (16777215 / 16777216) (-1) 16777215 (by norm_num) (by norm_num) (by norm_num) (by norm_num) (by norm_num) (by norm_num) (by norm_num)]
  norm_num

theorem rounding_37 : fl ((13421773 / 16777216) * 5) = 4 := by
  have h : ((13421773 / 16777216) * 5 : ℚ) = 67108865 / 16777216 := by norm_num
  rw [h, fl_eq_pos (67108865 / 16777216) (2) 8388608 (by norm_num) (by norm_num) (by norm_num) (by norm_num) (by norm_num) (by norm_num) (by norm_num)]
  norm_num

theorem rounding_of_1_100 : fl (1 / 100) = 5368709 / 536870912 := by
  rw [fl_eq_pos (1 / 100) (-7) 10737418 (by norm_num) (by norm_num) (by norm_num) (by norm_num) (by norm_num) (by norm_num) (by norm_num)]
  norm_num

theorem rounding_41 : fl ((5033165 / 16777216) - (5368709 / 536870912)) = 4865393 / 16777216 := by
  have h : ((5033165 / 16777216) - (5368709 / 536870912) : ℚ) = 155692571 / 536870912 := by norm_num
  rw [h, fl_eq_pos (155692571 / 536870912) (-2) 9730786 (by norm_num) (by norm_num) (by norm_num) (by norm_num) (by norm_num) (by norm_num) (by norm_num)]
  norm_num

theorem rounding_43 : fl ((5033165 / 16777216) + (5368709 / 536870912)) = 5200937 / 16777216 := by
  have h : ((5033165 / 16777216) + (5368709 / 536870912) : ℚ) = 166429989 / 536870912 := by norm_num
  rw [h, fl_eq_pos (166429989 / 536870912) (-2) 10401874 (by norm_num) (by norm_num) (by norm_num) (by norm_num) (by norm_num) (by norm_num) (by norm_num)]
  norm_num

theorem rounding_45 : fl ((1 / 2) - (5368709 / 536870912)) = 2055209 / 4194304 := by
  have h : ((1 / 2) - (5368709 / 536870912) : ℚ) = 263066747 / 536870912 := by norm_num
  rw [h, fl_eq_pos (263066747 / 536870912) (-2) 16441672 (by norm_num) (by norm_num) (by norm_num) (by norm_num) (by norm_num) (by norm_num) (by norm_num)]
  norm_num

theorem rounding_47 : fl ((1 / 2) + (5368709 / 536870912)) = 2139095 / 4194304 := by
  have h : ((1 / 2) + (5368709 / 536870912) : ℚ) = 273804165 / 536870912 := by norm_num
  rw [h, fl_eq_pos (273804165 / 536870912) (-1) 8556380 (by norm_num) (by norm_num) (by norm_num) (by norm_num) (by norm_num) (by norm_num) (by norm_num)]
  norm_num

theorem rounding_of_1_1 : fl (1 / 1) = 1 := by
  have h : (1 / 1 : ℚ) = 1 := by norm_num
  rw [h, fl_eq_pos (1) (0) 8388608 (by norm_num) (by norm_num) (by norm_num) (by norm_num) (by norm_num) (by norm_num) (by norm_num)]
  norm_num

theorem rounding_of_0 : fl 0 = 0 := by
  have h : (0 : ℚ) = 0 := by norm_num
  rw [h, fl_zero]

theorem rounding_54 : fl ((4865393 / 16777216) * 1) = 4865393 / 16777216 := by
  have h : ((4865393 / 16777216) * 1 : ℚ) = 4865393 / 16777216 := by norm_num
  rw [h, fl_eq_pos (4865393 / 16777216) (-2) 9730786 (by norm_num) (by norm_num) (by norm_num) (by norm_num) (by norm_num) (by norm_num) (by norm_num)]
  norm_num

theorem rounding_55 : fl ((5200937 / 16777216) * 1) = 5200937 / 16777216 := by
  have h : ((5200937 / 16777216) * 1 : ℚ) = 5200937 / 16777216 := by norm_num
  rw [h, fl_eq_pos (5200937 / 16777216) (-2) 10401874 (by norm_num) (by norm_num) (by norm_num) (by norm_num) (by norm_num) (by norm_num) (by norm_num)]
  norm_num

theorem rounding_56 : fl ((2055209 / 4194304) * 1) = 2055209 / 4194304 := by
  have h : ((2055209 / 4194304) * 1 : ℚ) = 2055209 / 4194304 := by norm_num
  rw [h, fl_eq_pos (2055209 / 4194304) (-2) 16441672 (by norm_num) (by norm_num) (by norm_num) (by norm_num) (by norm_num) (by norm_num) (by norm_num)]
  norm_num

theorem rounding_57 : fl ((2139095 / 4194304) * 1) = 2139095 / 4194304 := by
  have h : ((2139095 / 4194304) * 1 : ℚ) = 2139095 / 4194304 := by norm_num
  rw [h, fl_eq_pos (2139095 / 4194304) (-1) 8556380 (by norm_num) (by norm_num) (by norm_num) (by norm_num) (by norm_num) (by norm_num) (by norm_num)]
  norm_num

theorem rounding_60 : fl (1 / 2 * 0) = 0 := by
  have h : (1 / 2 * 0 : ℚ) = 0 := by norm_num
  rw [h, fl_zero]

theorem rounding_61 : fl (1 - 1 / 2) = 1 / 2 := by
  have h : (1 - 1 / 2 : ℚ) = 1 / 2 := by norm_num
  rw [h, fl_eq_pos (1 / 2) (-1) 8388608 (by norm_num) (by norm_num) (by norm_num) (by norm_num) (by norm_num) (by norm_num) (by norm_num)]
  norm_num

theorem rounding_62 : fl ((1 / 2) * 1) = 1 / 2 := by
  have h : ((1 / 2) * 1 : ℚ) = 1 / 2 := by norm_num
  rw [h, fl_eq_pos (1 / 2) (-1) 8388608 (by norm_num) (by norm_num) (by norm_num) (by norm_num) (by norm_num) (by norm_num) (by norm_num)]
  norm_num

theorem rounding_63 : fl (0 + (1 / 2)) = 1 / 2 := by
  have h : (0 + (1 / 2) : ℚ) = 1 / 2 := by norm_num
  rw [h, fl_eq_pos (1 / 2) (-1) 8388608 (by norm_num) (by norm_num) (by norm_num) (by norm_num) (by norm_num) (by norm_num) (by norm_num)]
  norm_num

theorem rounding_67 : fl ((1 / 2) + (1 / 2)) = 1 := by
  have h : ((1 / 2) + (1 / 2) : ℚ) = 1 := by norm_num
  rw [h, fl_eq_pos (1) (0) 8388608 (by norm_num) (by norm_num) (by norm_num) (by norm_num) (by norm_num) (by norm_num) (by norm_num)]
  norm_num

theorem rounding_of_1_10 : fl (1 / 10) = 13421773 / 134217728 := by
  rw [fl_eq_pos (1 / 10) (-4) 13421773 (by norm_num) (by norm_num) (by norm_num) (by norm_num) (by norm_num) (by norm_num) (by norm_num)]
  norm_num

theorem rounding_of_9_10 : fl (9 / 10) = 7549747 / 8388608 := by
  rw [fl_eq_pos (9 / 10) (-1) 15099494 (by norm_num) (by norm_num) (by norm_num) (by norm_num) (by norm_num) (by norm_num) (by norm_num)]
  norm_num

theorem rounding_70 : fl ((13421773 / 134217728) + (7549747 / 8388608)) = 1 := by
  have h : ((13421773 / 134217728) + (7549747 / 8388608) : ℚ) = 134217725 / 134217728 := by norm_num
  rw [h, fl_eq_pos (134217725 / 134217728) (-1) 16777216 (by norm_num) (by norm_num) (by norm_num) (by norm_num) (by norm_num) (by norm_num) (by norm_num)]
  norm_num

theorem rounding_of_2_10 : fl (2 / 10) = 13421773 / 67108864 := by
  have h : (2 / 10 : ℚ) = 1 / 5 := by norm_num
  rw [h, fl_eq_pos (1 / 5) (-3) 13421773 (by norm_num) (by norm_num) (by norm_num) (by norm_num) (by norm_num) (by norm_num) (by norm_num)]
  norm_num

theorem rounding_71 : fl ((13421773 / 67108864) + (1 / 2)) = 11744051 / 16777216 := by
  have h : ((13421773 / 67108864) + (1 / 2) : ℚ) = 46976205 / 67108864 := by norm_num
  rw [h, fl_eq_pos (46976205 / 67108864) (-1) 11744051 (by norm_num) (by norm_num) (by norm_num) (by norm_num) (by norm_num) (by norm_num) (by norm_num)]
  norm_num

theorem rounding_72 : fl ((5033165 / 16777216) + (7549747 / 8388608)) = 5033165 / 4194304 := by
  have h : ((5033165 / 16777216) + (7549747 / 8388608) : ℚ) = 20132659 / 16777216 := by norm_num
  rw [h, fl_eq_tie (20132659 / 16777216) (0) 10066329 (by norm_num) (by norm_num) (by norm_num) (by norm_num) (by norm_num) (by norm_num)]
  norm_num

theorem rounding_73 : fl ((13421773 / 134217728) + (13421773 / 33554432)) = 1 / 2 := by
  have h : ((13421773 / 134217728) + (13421773 / 33554432) : ℚ) = 67108865 / 134217728 := by norm_num
  rw [h, fl_eq_pos (67108865 / 134217728) (-1) 8388608 (by norm_num) (by norm_num) (by norm_num) (by norm_num) (by norm_num) (by norm_num) (by norm_num)]
  norm_num

theorem rounding_74 : fl ((7549747 / 8388608) * 1) = 7549747 / 8388608 := by
  have h : ((7549747 / 8388608) * 1 : ℚ) = 7549747 / 8388608 := by norm_num
  rw [h, fl_eq_pos (7549747 / 8388608) (-1) 15099494 (by norm_num) (by norm_num) (by norm_num) (by norm_num) (by norm_num) (by norm_num) (by norm_num)]
  norm_num

theorem rounding_cast_1 (undef : ℚ → Int) : static_cast_int32 undef (12582911 / 8388608) = 1 :=
  static_cast_int32_of_nonneg undef _ 1 (by norm_num) (by norm_num) (by norm_num)
    (by norm_num)

theorem rounding_cast_2 (undef : ℚ → Int) : static_cast_int32 undef (11010049 / 1048576) = 10 :=
  static_cast_int32_of_nonneg undef _ 10 (by norm_num) (by norm_num) (by norm_num)
    (by norm_num)

theorem rounding_cast_3 (undef : ℚ → Int) : static_cast_int32 undef (12582911 / 4194304) = 2 :=
  static_cast_int32_of_nonneg undef _ 2 (by norm_num) (by norm_num) (by norm_num)
    (by norm_num)

theorem rounding_cast_4 (undef : ℚ → Int) : static_cast_int32 undef 12 = 12 :=
  static_cast_int32_of_nonneg undef _ 12 (by norm_num) (by norm_num) (by norm_num)
    (by norm_num)

theorem rounding_cast_5 (undef : ℚ → Int) : static_cast_int32 undef (9 / 2) = 4 :=
  static_cast_int32_of_nonneg undef _ 4 (by norm_num) (by norm_num) (by norm_num)
    (by norm_num)

theorem rounding_cast_6 (undef : ℚ → Int) : static_cast_int32 undef (14155777 / 1048576) = 13 :=
  static_cast_int32_of_nonneg undef _ 13 (by norm_num) (by norm_num) (by norm_num)
    (by norm_num)

theorem rounding_cast_7 (undef : ℚ → Int) : static_cast_int32 undef (3 / 2) = 1 :=
  static_cast_int32_of_nonneg undef _ 1 (by norm_num) (by norm_num) (by norm_num)
    (by norm_num)

theorem rounding_cast_8 (undef : ℚ → Int) : static_cast_int32 undef (16777215 / 16777216) = 0 :=
  static_cast_int32_of_nonneg undef _ 0 (by norm_num) (by norm_num) (by norm_num)
    (by norm_num)

theorem rounding_cast_9 (undef : ℚ → Int) : static_cast_int32 undef 4 = 4 :=
  static_cast_int32_of_nonneg undef _ 4 (by norm_num) (by norm_num) (by norm_num)
    (by norm_num)

theorem rounding_cast_14 (undef : ℚ → Int) : static_cast_int32 undef (4865393 / 16777216) = 0 :=
  static_cast_int32_of_nonneg undef _ 0 (by norm_num) (by norm_num) (by norm_num)
    (by norm_num)

theorem rounding_cast_15 (undef : ℚ → Int) : static_cast_int32 undef (5200937 / 16777216) = 0 :=
  static_cast_int32_of_nonneg undef _ 0 (by norm_num) (by norm_num) (by norm_num)
    (by norm_num)

theorem rounding_cast_16 (undef : ℚ → Int) : static_cast_int32 undef (2055209 / 4194304) = 0 :=
  static_cast_int32_of_nonneg undef _ 0 (by norm_num) (by norm_num) (by norm_num)
    (by norm_num)

theorem rounding_cast_17 (undef : ℚ → Int) : static_cast_int32 undef (2139095 / 4194304) = 0 :=
  static_cast_int32_of_nonneg undef _ 0 (by norm_num) (by norm_num) (by norm_num)
    (by norm_num)

theorem redCircle32_fails_15_10_7 : ¬ redCircle32.passes32 15 15 10 7 := by
  simp only [SceneCircle.passes32, hitTest32, pixelDist32, pixelCenterNorm, static_cast_float,
    redCircle32, Int.cast_ofNat, Int.cast_zero, Int.cast_one,
    rounding_of_4_10, rounding_of_5_10, rounding_of_3_10, rounding_of_15, rounding_of_1_15, rounding_of_10,
    rounding_1, rounding_2, rounding_of_7, rounding_3, rounding_4, rounding_5,
    rounding_6, rounding_7, rounding_8, rounding_9, rounding_10]
  norm_num

theorem redCircle32_inBox_15_10_7 (undef : ℚ → Int) : redCircle32.inBox32 undef 15 15 10 7 := by
  simp only [SceneCircle.inBox32, screenMin32, screenMax32, static_cast_float,
    redCircle32, Int.cast_ofNat, Int.cast_zero, Int.cast_one,
    rounding_of_4_10, rounding_of_3_10, rounding_11, rounding_of_15, rounding_12, rounding_13,
    rounding_14, rounding_of_5_10, rounding_15, rounding_16, rounding_17, rounding_18,
    rounding_cast_1, rounding_cast_2, rounding_cast_3, rounding_cast_4]
  decide

theorem greenCircle32_passes_15_10_7 : greenCircle32.passes32 15 15 10 7 := by
  simp only [SceneCircle.passes32, hitTest32, pixelDist32, pixelCenterNorm, static_cast_float,
    greenCircle32, Int.cast_ofNat, Int.cast_zero, Int.cast_one,
    rounding_of_5_10, rounding_of_3_10, rounding_of_15, rounding_of_1_15, rounding_of_10, rounding_1,
    rounding_2, rounding_of_7, rounding_3, rounding_4, rounding_19, rounding_6,
    rounding_20, rounding_8, rounding_21, rounding_10]
  norm_num

theorem greenCircle32_inBox_15_10_7 (undef : ℚ → Int) : greenCircle32.inBox32 undef 15 15 10 7 := by
  simp only [SceneCircle.inBox32, screenMin32, screenMax32, static_cast_float,
    greenCircle32, Int.cast_ofNat, Int.cast_zero, Int.cast_one,
    rounding_of_5_10, rounding_of_3_10, rounding_15, rounding_of_15, rounding_16, rounding_17,
    rounding_18, rounding_cast_3, rounding_cast_4]
  decide

theorem greenCircle32_blends_15_10_7 (undef : ℚ → Int) :
    greenCircle32.blends32 undef 15 15 10 7 :=
  ⟨greenCircle32_inBox_15_10_7 undef, greenCircle32_passes_15_10_7⟩

theorem blueCircle32_passes_15_10_7 : blueCircle32.passes32 15 15 10 7 := by
  simp only [SceneCircle.passes32, hitTest32, pixelDist32, pixelCenterNorm, static_cast_float,
    blueCircle32, Int.cast_ofNat, Int.cast_zero, Int.cast_one,
    rounding_of_6_10, rounding_of_5_10, rounding_of_3_10, rounding_of_15, rounding_of_1_15, rounding_of_10,
    rounding_1, rounding_2, rounding_of_7, rounding_3, rounding_4, rounding_22,
    rounding_6, rounding_23, rounding_8, rounding_24, rounding_10]
  norm_num

theorem blueCircle32_inBox_15_10_7 (undef : ℚ → Int) : blueCircle32.inBox32 undef 15 15 10 7 := by
  simp only [SceneCircle.inBox32, screenMin32, screenMax32, static_cast_float,
    blueCircle32, Int.cast_ofNat, Int.cast_zero, Int.cast_one,
    rounding_of_6_10, rounding_of_3_10, rounding_25, rounding_of_15, rounding_26, rounding_27,
    rounding_28, rounding_of_5_10, rounding_15, rounding_16, rounding_17, rounding_18,
    rounding_cast_5, rounding_cast_6, rounding_cast_3, rounding_cast_4]
  decide

theorem blueCircle32_blends_15_10_7 (undef : ℚ → Int) :
    blueCircle32.blends32 undef 15 15 10 7 :=
  ⟨blueCircle32_inBox_15_10_7 undef, blueCircle32_passes_15_10_7⟩

theorem blueCircle32_passes_5_1_2 : blueCircle32.passes32 5 5 1 2 := by
  simp only [SceneCircle.passes32, hitTest32, pixelDist32, pixelCenterNorm, static_cast_float,
    blueCircle32, Int.cast_ofNat, Int.cast_zero, Int.cast_one,
    rounding_of_6_10, rounding_of_5_10, rounding_of_3_10, rounding_of_5, rounding_of_1_5, rounding_of_1,
    rounding_29, rounding_30, rounding_of_2, rounding_31, rounding_32, rounding_25,
    rounding_6, rounding_10, rounding_8, rounding_33]
  norm_num

theorem blueCircle32_inBox_5_1_2 (undef : ℚ → Int) : blueCircle32.inBox32 undef 5 5 1 2 := by
  simp only [SceneCircle.inBox32, screenMin32, screenMax32, static_cast_float,
    blueCircle32, Int.cast_ofNat, Int.cast_zero, Int.cast_one,
    rounding_of_6_10, rounding_of_3_10, rounding_25, rounding_of_5, rounding_34, rounding_27,
    rounding_35, rounding_of_5_10, rounding_15, rounding_36, rounding_17, rounding_37,
    rounding_cast_7, rounding_cast_5, rounding_cast_8, rounding_cast_9]
  decide

theorem blueCircle32_blends_5_1_2 (undef : ℚ → Int) :
    blueCircle32.blends32 undef 5 5 1 2 :=
  ⟨blueCircle32_inBox_5_1_2 undef, blueCircle32_passes_5_1_2⟩

theorem dotCircle32_inBox_1_0_0 (undef : ℚ → Int) : dotCircle32.inBox32 undef 1 1 0 0 := by
  simp only [SceneCircle.inBox32, screenMin32, screenMax32, static_cast_float,
    dotCircle32, Int.cast_ofNat, Int.cast_zero, Int.cast_one,
    rounding_of_3_10, rounding_of_1_100, rounding_41, rounding_of_1, rounding_54, rounding_43,
    rounding_55, rounding_of_5_10, rounding_45, rounding_56, rounding_47, rounding_57,
    rounding_cast_14, rounding_cast_15, rounding_cast_16, rounding_cast_17]
  decide

theorem blue_over_white : blendChannel32 blueCircle32 0 1 = 1 / 2 := by
  rw [blendChannel32_red]
  simp only [blueCircle32,
    rounding_60, rounding_61, rounding_62, rounding_63]

theorem colour_sum_1_9 : fl (fl (1 / 10) + fl (9 / 10)) = 1 := by
  simp only [rounding_of_1_10, rounding_of_9_10, rounding_70]

theorem colour_sum_2_5 : fl (fl (2 / 10) + fl (5 / 10)) = 11744051 / 16777216 := by
  simp only [rounding_of_2_10, rounding_of_5_10, rounding_71]

theorem colour_sum_5_5 : fl (fl (5 / 10) + fl (5 / 10)) = 1 := by
  simp only [rounding_of_5_10, rounding_67]

theorem colour_sum_3_9 : fl (fl (3 / 10) + fl (9 / 10)) = 5033165 / 4194304 := by
  simp only [rounding_of_3_10, rounding_of_9_10, rounding_72]

theorem colour_sum_1_4 : fl (fl (1 / 10) + fl (4 / 10)) = 1 / 2 := by
  simp only [rounding_of_1_10, rounding_of_4_10, rounding_73]

theorem red_of_unit_draw : fl (fl (3 / 10) + fl (fl (9 / 10) * 1)) = 5033165 / 4194304 := by
  simp only [rounding_of_3_10, rounding_of_9_10, rounding_74, rounding_72]

theorem green_of_unit_draw : fl (fl (1 / 10) + fl (fl (9 / 10) * 1)) = 1 := by
  simp only [rounding_of_1_10, rounding_of_9_10, rounding_74, rounding_70]

/-! ## Facts about the concrete inputs of the binary32 renderer -/

theorem solidImage_WF (W H : Int) (r g b a : ℚ) (hW : 0 < W) (hH : 0 < H) :
    (solidImage W H r g b a).WF :=
  clear_WF _ r g b a hW hH

theorem channel_solidImage (W H : Int) (r g b a : ℚ) (x y k : Int) (hx0 : 0 ≤ x) (hxW : x < W)
    (hy0 : 0 ≤ y) (hyH : y < H) (hk0 : 0 ≤ k) (hk3 : k ≤ 3) :
    (solidImage W H r g b a).channel x y k =
      if k = 0 then r else if k = 1 then g else if k = 2 then b else a :=
  channel_clear _ r g b a x y k hx0 hxW hy0 hyH hk0 hk3

theorem white15_WF : white15.WF :=
  solidImage_WF 15 15 1 1 1 1 (by norm_num) (by norm_num)

theorem white5_WF : white5.WF :=
  solidImage_WF 5 5 1 1 1 1 (by norm_num) (by norm_num)

theorem white15_channel (k : Int) (hk0 : 0 ≤ k) (hk3 : k ≤ 3) : white15.channel 10 7 k = 1 := by
  unfold white15
  rw [channel_solidImage 15 15 1 1 1 1 10 7 k (by norm_num) (by norm_num) (by norm_num)
    (by norm_num) hk0 hk3]
  simp

theorem white5_channel (k : Int) (hk0 : 0 ≤ k) (hk3 : k ≤ 3) : white5.channel 1 2 k = 1 := by
  unfold white5
  rw [channel_solidImage 5 5 1 1 1 1 1 2 k (by norm_num) (by norm_num) (by norm_num)
    (by norm_num) hk0 hk3]
  simp

theorem redCircle32_covers : redCircle32.covers 15 15 10 7 := by
  simp only [SceneCircle.covers, redCircle32, rounding_of_4_10, rounding_of_5_10, rounding_of_3_10]
  norm_num

theorem blueCircle32_not_covers : ¬ blueCircle32.covers 5 5 1 2 := by
  simp only [SceneCircle.covers, blueCircle32, rounding_of_5_10, rounding_of_3_10, rounding_of_6_10]
  norm_num

theorem redCircle32_not_blends (undef : ℚ → Int) :
    ¬ redCircle32.blends32 undef white15.width white15.height 10 7 :=
  fun h => redCircle32_fails_15_10_7 h.2

theorem white5_alpha_isF32 : IsF32 (white5.channel 1 2 3) := by
  rw [white5_channel 3 (by norm_num) (by norm_num)]
  exact fl_one

/-- C3, as stated, fails.  Circle 2 of `CIRCLE_RGB` (centre `(.6f, .5f)`, radius `.3f`) on
the white `5 x 5` image: pixel `(1, 2)` lies in the bounding box and its centre
`(1.5/5, 2.5/5)` is at squared distance greater than `radius²` from the circle centre,
yet compositing the circle blends the pixel: red becomes `1/2` and alpha `3/2`.  In
binary32 `pixelDist` and `maxDist` are the same number. -/
theorem uncovered_pixel_counterexample :
    white5.WF ∧ blueCircle32.inBox32 x86Conversion white5.width white5.height 1 2 ∧
    (blueCircle32.x - (((1 : Int) : ℚ) + 1 / 2) / (white5.width : ℚ)) ^ 2 +
      (blueCircle32.y - (((2 : Int) : ℚ) + 1 / 2) / (white5.height : ℚ)) ^ 2 >
        blueCircle32.radius ^ 2 ∧
    white5.channel 1 2 0 = 1 ∧ white5.channel 1 2 3 = 1 ∧
    (renderCircles32 x86Conversion [blueCircle32] white5).channel 1 2 0 = 1 / 2 ∧
    (renderCircles32 x86Conversion [blueCircle32] white5).channel 1 2 3 = 3 / 2 := by
  have hbl : blueCircle32.blends32 x86Conversion white5.width white5.height 1 2 :=
    blueCircle32_blends_5_1_2 x86Conversion
  refine ⟨white5_WF, blueCircle32_inBox_5_1_2 x86Conversion,
    not_le.mp blueCircle32_not_covers, white5_channel 0 (by norm_num) (by norm_num),
    white5_channel 3 (by norm_num) (by norm_num), ?_, ?_⟩
  · rw [channel_renderCircles32_blended x86Conversion blueCircle32 white5 white5_WF 1 2 0
      (by norm_num) (by show (1 : Int) < 5; norm_num) (by norm_num) (by norm_num) hbl,
      white5_channel 0 (by norm_num) (by norm_num)]
    exact blue_over_white
  · rw [channel_renderCircles32_blended x86Conversion blueCircle32 white5 white5_WF 1 2 3
      (by norm_num) (by show (1 : Int) < 5; norm_num) (by norm_num) (by norm_num) hbl,
      white5_channel 3 (by norm_num) (by norm_num), blendChannel32_alpha]
    exact alpha_one_step

/-- C3, amended.  A pixel of the image that lies outside the bounding box computed by
`render`, or inside the box with the binary32 value `pixelDist` of `shadePixel` greater
than the binary32 value `maxDist`, keeps all four channels when the circle is
composited. -/
theorem pixel_unchanged32 (undef : ℚ → Int) (img : Image) (c : SceneCircle) (x y : Int)
    (hWF : img.WF) (hx0 : 0 ≤ x) (hxW : x < img.width) (_hy0 : 0 ≤ y) (_hyH : y < img.height)
    (h : ¬ c.inBox32 undef img.width img.height x y ∨
      (c.inBox32 undef img.width img.height x y ∧
        pixelDist32 c.x c.y
            (pixelCenterNorm (fl (1 / static_cast_float img.width)) x)
            (pixelCenterNorm (fl (1 / static_cast_float img.height)) y) >
          fl (c.radius * c.radius))) :
    (renderCircles32 undef [c] img).channel x y 0 = img.channel x y 0 ∧
    (renderCircles32 undef [c] img).channel x y 1 = img.channel x y 1 ∧
    (renderCircles32 undef [c] img).channel x y 2 = img.channel x y 2 ∧
    (renderCircles32 undef [c] img).channel x y 3 = img.channel x y 3 := by
  have hnb : ¬ c.blends32 undef img.width img.height x y := by
    rintro ⟨h1, h2⟩
    rcases h with h | ⟨_, h⟩
    · exact h h1
    · exact absurd h2 (not_le.mpr h)
  exact ⟨channel_renderCircles32_kept undef c img hWF x y 0 hx0 hxW (by norm_num) (by norm_num)
      hnb,
    channel_renderCircles32_kept undef c img hWF x y 1 hx0 hxW (by norm_num) (by norm_num) hnb,
    channel_renderCircles32_kept undef c img hWF x y 2 hx0 hxW (by norm_num) (by norm_num) hnb,
    channel_renderCircles32_kept undef c img hWF x y 3 hx0 hxW (by norm_num) (by norm_num) hnb⟩

/-- Witness for the amended C3: circle 0 of `CIRCLE_RGB` on the white `15 x 15` image and
pixel `(10, 7)`, which lies in the bounding box and fails the distance test. -/
theorem pixel_unchanged32_witness :
    white15.WF ∧ redCircle32.inBox32 x86Conversion white15.width white15.height 10 7 ∧
    pixelDist32 redCircle32.x redCircle32.y
        (pixelCenterNorm (fl (1 / static_cast_float white15.width)) 10)
        (pixelCenterNorm (fl (1 / static_cast_float white15.height)) 7) >
      fl (redCircle32.radius * redCircle32.radius) ∧
    ((renderCircles32 x86Conversion [redCircle32] white15).channel 10 7 0 =
      white15.channel 10 7 0 ∧
    (renderCircles32 x86Conversion [redCircle32] white15).channel 10 7 1 =
      white15.channel 10 7 1 ∧
    (renderCircles32 x86Conversion [redCircle32] white15).channel 10 7 2 =
      white15.channel 10 7 2 ∧
    (renderCircles32 x86Conversion [redCircle32] white15).channel 10 7 3 =
      white15.channel 10 7 3) :=
  ⟨white15_WF, redCircle32_inBox_15_10_7 x86Conversion, not_le.mp redCircle32_fails_15_10_7,
    pixel_unchanged32 x86Conversion white15 redCircle32 10 7 white15_WF (by norm_num)
      (by show (10 : Int) < 15; norm_num) (by norm_num) (by show (7 : Int) < 15; norm_num)
      (Or.inr ⟨redCircle32_inBox_15_10_7 x86Conversion,
        not_le.mp redCircle32_fails_15_10_7⟩)⟩

/-- C10, as stated, fails in both directions.  On the white `15 x 15` image the disc of
circle 0 of `CIRCLE_RGB` contains the centre of pixel `(10, 7)`, yet compositing the
circle leaves the alpha of the pixel at `1`.  On the white `5 x 5` image the disc of
circle 2 of `CIRCLE_RGB` does not contain the centre of pixel `(1, 2)`, yet compositing
the circle raises the alpha of the pixel from `1` to `3/2`. -/
theorem alpha_increment_counterexample :
    (redCircle32.covers white15.width white15.height 10 7 ∧
      white15.channel 10 7 3 = 1 ∧
      (renderCircles32 x86Conversion [redCircle32] white15).channel 10 7 3 = 1) ∧
    (¬ blueCircle32.covers white5.width white5.height 1 2 ∧
      white5.channel 1 2 3 = 1 ∧
      (renderCircles32 x86Conversion [blueCircle32] white5).channel 1 2 3 = 3 / 2) := by
  refine ⟨⟨redCircle32_covers, white15_channel 3 (by norm_num) (by norm_num), ?_⟩,
    ⟨blueCircle32_not_covers, white5_channel 3 (by norm_num) (by norm_num), ?_⟩⟩
  · rw [channel_renderCircles32_kept x86Conversion redCircle32 white15 white15_WF 10 7 3
      (by norm_num) (by show (10 : Int) < 15; norm_num) (by norm_num) (by norm_num)
      (redCircle32_not_blends x86Conversion)]
    exact white15_channel 3 (by norm_num) (by norm_num)
  · rw [channel_renderCircles32_blended x86Conversion blueCircle32 white5 white5_WF 1 2 3
      (by norm_num) (by show (1 : Int) < 5; norm_num) (by norm_num) (by norm_num)
      (blueCircle32_blends_5_1_2 x86Conversion),
      white5_channel 3 (by norm_num) (by norm_num), blendChannel32_alpha]
    exact alpha_one_step

/-- C10, amended (alpha monotonicity).  For a pixel of an image whose alpha is a binary32
number, compositing a circle never lowers the alpha of the pixel.  The alpha becomes the
rounded `fl (old + 0.5)` when `render` blends the circle into the pixel, that is when the
pixel lies in the bounding box and the binary32 value `pixelDist` does not exceed
`maxDist`, and it stays otherwise; the increase is exactly `0.5` when the old alpha is a
multiple of `0.5` between `0` and `2^23 - 1`.  Hence along a render the alpha of the
pixel is non-decreasing: it does not drop below its starting value and each further
circle leaves it at least as large. -/
theorem alpha_monotone32 (undef : ℚ → Int) (img : Image) (c : SceneCircle) (x y : Int)
    (hWF : img.WF) (hx0 : 0 ≤ x) (hxW : x < img.width) (_hy0 : 0 ≤ y) (_hyH : y < img.height)
    (hv : IsF32 (img.channel x y 3)) :
    img.channel x y 3 ≤ (renderCircles32 undef [c] img).channel x y 3 ∧
    (c.blends32 undef img.width img.height x y →
      (renderCircles32 undef [c] img).channel x y 3 = fl (img.channel x y 3 + 1 / 2)) ∧
    (¬ c.blends32 undef img.width img.height x y →
      (renderCircles32 undef [c] img).channel x y 3 = img.channel x y 3) ∧
    (∀ j : Nat, j < 16777215 → img.channel x y 3 = (j : ℚ) / 2 →
      c.blends32 undef img.width img.height x y →
      (renderCircles32 undef [c] img).channel x y 3 = img.channel x y 3 + 1 / 2) ∧
    (∀ cs : List SceneCircle,
      img.channel x y 3 ≤ (renderCircles32 undef cs img).channel x y 3) ∧
    (∀ (cs : List SceneCircle) (c' : SceneCircle),
      (renderCircles32 undef cs img).channel x y 3 ≤
        (renderCircles32 undef (cs ++ [c']) img).channel x y 3) := by
  have hstep := alpha32_step undef c img hWF x y hx0 hxW
  refine ⟨alpha32_step_le undef c img hWF x y hx0 hxW hv, ?_, ?_, ?_, ?_, ?_⟩
  · intro hb
    rw [hstep, if_pos hb]
  · intro hb
    rw [hstep, if_neg hb]
  · intro j hj hold hb
    rw [hstep, if_pos hb, hold, fl_add_half_exact j hj]
  · intro cs
    exact alpha32_render_le undef cs img hWF x y hx0 hxW hv
  · intro cs c'
    rw [renderCircles32_append]
    exact alpha32_step_le undef c' _ (renderCircles32_WF undef cs img hWF) x y hx0
      (by rw [renderCircles32_width]; exact hxW)
      (alpha32_render_isF32 undef cs img hWF x y hx0 hxW hv)

/-- Witness for the amended C10: circle 2 of `CIRCLE_RGB` on the white `5 x 5` image and
pixel `(1, 2)`, whose alpha `1` is a binary32 number; `render` blends the circle into the
pixel and the alpha becomes `1 + 0.5`. -/
theorem alpha_monotone32_witness :
    white5.WF ∧ IsF32 (white5.channel 1 2 3) ∧
    blueCircle32.blends32 x86Conversion white5.width white5.height 1 2 ∧
    white5.channel 1 2 3 ≤ (renderCircles32 x86Conversion [blueCircle32] white5).channel 1 2 3 ∧
    (renderCircles32 x86Conversion [blueCircle32] white5).channel 1 2 3 =
      fl (white5.channel 1 2 3 + 1 / 2) ∧
    (renderCircles32 x86Conversion [blueCircle32] white5).channel 1 2 3 =
      white5.channel 1 2 3 + 1 / 2 :=
  ⟨white5_WF, white5_alpha_isF32, blueCircle32_blends_5_1_2 x86Conversion,
    (alpha_monotone32 x86Conversion white5 blueCircle32 1 2 white5_WF (by norm_num)
      (by show (1 : Int) < 5; norm_num) (by norm_num) (by show (2 : Int) < 5; norm_num)
      white5_alpha_isF32).1,
    (alpha_monotone32 x86Conversion white5 blueCircle32 1 2 white5_WF (by norm_num)
      (by show (1 : Int) < 5; norm_num) (by norm_num) (by show (2 : Int) < 5; norm_num)
      white5_alpha_isF32).2.1 (blueCircle32_blends_5_1_2 x86Conversion),
    (alpha_monotone32 x86Conversion white5 blueCircle32 1 2 white5_WF (by norm_num)
      (by show (1 : Int) < 5; norm_num) (by norm_num) (by show (2 : Int) < 5; norm_num)
      white5_alpha_isF32).2.2.2.1 2 (by norm_num)
      (by rw [white5_channel 3 (by norm_num) (by norm_num)]; norm_num)
      (blueCircle32_blends_5_1_2 x86Conversion)⟩

/-! ## The fold of blends in binary32 -/

theorem randomFloat32_eq (lib : CLib) (g : RandState) :
    randomFloat32 lib g = (draw32 lib g 0, afterDraws g 1) := rfl

theorem draw32_afterDraws (lib : CLib) (g : RandState) (a k : Nat) :
    draw32 lib (afterDraws g a) k = draw32 lib g (k + a) := rfl

theorem generateRandomCircles32_eq (lib : CLib) (n : Int) (p c r : List ℚ) (g : RandState) :
    generateRandomCircles32 lib n p c r g =
      (intRange 0 n).foldl
        (genStep32 lib n ((drawDepths32 lib n (lib.srand 0)).1.insertionSort (fun a b => a ≥ b)))
        { position := p, color := c, radius := r, rng := (drawDepths32 lib n (lib.srand 0)).2 } :=
  rfl

theorem genStep32_spec (lib : CLib) (n : Int) (depths : List ℚ) (st : LoadState) (g0 : RandState)
    (k : Nat) (hrng : st.rng = afterDraws g0 (6 * k))
    (hp : 3 * (k : Int) + 2 < (st.position.length : Int))
    (hc : 3 * (k : Int) + 2 < (st.color.length : Int))
    (hr : (k : Int) < (st.radius.length : Int)) :
    (genStep32 lib n depths st (k : Int)).rng = afterDraws g0 (6 * (k + 1)) ∧
    (genStep32 lib n depths st (k : Int)).position.length = st.position.length ∧
    (genStep32 lib n depths st (k : Int)).color.length = st.color.length ∧
    (genStep32 lib n depths st (k : Int)).radius.length = st.radius.length ∧
    ∀ idx : Int,
      circleOfArrays (genStep32 lib n depths st (k : Int)).position
          (genStep32 lib n depths st (k : Int)).color
          (genStep32 lib n depths st (k : Int)).radius idx =
        if idx = (k : Int) then randomCircle32 lib n depths g0 k
        else circleOfArrays st.position st.color st.radius idx := by
  unfold genStep32
  simp only [randomFloat32_eq, afterDraws_afterDraws, draw32_afterDraws, zero_add, hrng]
  refine ⟨by congr 1, ?_, ?_, ?_, ?_⟩
  · simp only [length_storeAt]
  · split <;> simp only [length_storeAt]
  · simp only [length_storeAt]
  · intro idx
    by_cases hn : n ≤ 10000
    · simp only [hn, if_true]
      rw [circleOfArrays_write _ _ _ (k : Int) idx _ _ _ _ _ _ _ (Int.natCast_nonneg k) hp hc hr]
      simp only [randomCircle32, hn, if_true]
    · simp only [hn, if_false]
      rw [circleOfArrays_write _ _ _ (k : Int) idx _ _ _ _ _ _ _ (Int.natCast_nonneg k) hp hc hr]
      simp only [randomCircle32, hn, if_false]

theorem genLoop32_upto (lib : CLib) (n : Int) (depths p c r : List ℚ) (g0 : RandState)
    (hp : 3 * n ≤ (p.length : Int)) (hc : 3 * n ≤ (c.length : Int))
    (hr : n ≤ (r.length : Int)) (k : Nat) (hk : (k : Int) ≤ n) :
    let st := ((List.range k).map (fun (i : Nat) => (i : Int))).foldl
      (genStep32 lib n depths) { position := p, color := c, radius := r, rng := g0 }
    st.rng = afterDraws g0 (6 * k) ∧ st.position.length = p.length ∧
    st.color.length = c.length ∧ st.radius.length = r.length ∧
    ∀ idx : Int, circleOfArrays st.position st.color st.radius idx =
      if 0 ≤ idx ∧ idx < (k : Int) then randomCircle32 lib n depths g0 idx.toNat
      else circleOfArrays p c r idx := by
  induction k with
  | zero =>
    simp only [List.range_zero, List.map_nil, List.foldl_nil, Nat.cast_zero, mul_zero,
      true_and]
    refine ⟨rfl, ?_⟩
    intro idx
    rw [if_neg]; omega
  | succ k ih =>
    have hk' : (k : Int) ≤ n := by push_cast at hk; omega
    have hk1 : (k : Int) < n := by push_cast at hk; omega
    have IH := ih hk'
    simp only [List.range_succ, List.map_append, List.foldl_append, List.map_cons, List.map_nil,
      List.foldl_cons, List.foldl_nil, zero_add] at IH ⊢
    obtain ⟨hrng, hpl, hcl, hrl, hcirc⟩ := IH
    obtain ⟨h1, h2, h3, h4, h5⟩ := genStep32_spec lib n depths _ g0 k hrng (by rw [hpl]; omega)
      (by rw [hcl]; omega) (by rw [hrl]; omega)
    refine ⟨h1, by rw [h2, hpl], by rw [h3, hcl], by rw [h4, hrl], ?_⟩
    intro idx
    rw [h5 idx, hcirc idx]
    by_cases hidx : idx = (k : Int)
    · subst hidx
      have e1 : (0 : Int) ≤ (k : Int) ∧ (k : Int) < ((k + 1 : Nat) : Int) := by
        push_cast; omega
      simp only [if_true, e1, and_self, Int.toNat_ofNat]
    · have hiff : (0 ≤ idx ∧ idx < ((k + 1 : Nat) : Int)) ↔ (0 ≤ idx ∧ idx < (k : Int)) := by
        push_cast; omega
      simp only [hidx, if_false, hiff]

/-- Every circle that `generateRandomCircles32` stores, for arrays that hold `n` circles. -/
theorem generateRandomCircles32_circle (lib : CLib) (n : Nat) (p c r : List ℚ) (g : RandState)
    (hp : 3 * (n : Int) ≤ (p.length : Int)) (hc : 3 * (n : Int) ≤ (c.length : Int))
    (hr : (n : Int) ≤ (r.length : Int)) (i : Nat) (hi : i < n) :
    circleOfArrays (generateRandomCircles32 lib n p c r g).position
        (generateRandomCircles32 lib n p c r g).color
        (generateRandomCircles32 lib n p c r g).radius (i : Int) =
      randomCircle32 lib n
        ((drawDepths32 lib n (lib.srand 0)).1.insertionSort (fun a b => a ≥ b))
        (drawDepths32 lib n (lib.srand 0)).2 i := by
  rw [generateRandomCircles32_eq]
  have h := genLoop32_upto lib n
    ((drawDepths32 lib n (lib.srand 0)).1.insertionSort (fun a b => a ≥ b)) p c r
    (drawDepths32 lib n (lib.srand 0)).2 hp hc hr n (le_refl _)
  rw [intRange_zero, Int.toNat_ofNat]
  rw [h.2.2.2.2 (i : Int), if_pos ⟨Int.natCast_nonneg i, by exact_mod_cast hi⟩, Int.toNat_ofNat]

theorem drawDepths32_upto (lib : CLib) (n : Nat) (g : RandState) (k : Nat) (hk : k ≤ n) :
    let st := ((List.range k).map (fun (i : Nat) => (i : Int))).foldl
      (fun (st : List ℚ × RandState) (i : Int) =>
        let d := randomFloat32 lib st.2
        (storeAt st.1 i d.1, d.2))
      (newFloats (n : Int), g)
    st.2 = afterDraws g k ∧ st.1.length = n ∧
    ∀ j : Nat, j < k → loadAt st.1 (j : Int) = draw32 lib g j := by
  induction k with
  | zero =>
    simp only [List.range_zero, List.map_nil, List.foldl_nil]
    exact ⟨rfl, length_newFloats n, fun j hj => absurd hj (Nat.not_lt_zero j)⟩
  | succ k ih =>
    have IH := ih (by omega)
    simp only [List.range_succ, List.map_append, List.foldl_append, List.map_cons, List.map_nil,
      List.foldl_cons, List.foldl_nil, zero_add] at IH ⊢
    obtain ⟨hrng, hl, hval⟩ := IH
    refine ⟨?_, by rw [length_storeAt, hl], ?_⟩
    · rw [hrng, randomFloat32_eq, afterDraws_afterDraws]
    · intro j hj
      by_cases hjk : j = k
      · subst hjk
        rw [loadAt_storeAt_same _ _ _ (Int.natCast_nonneg j)
          (by rw [hl]; exact_mod_cast (show j < n by omega)),
          hrng, randomFloat32_eq, draw32_afterDraws, zero_add]
      · rw [loadAt_storeAt_ne _ _ _ _ (by intro h; exact hjk (by exact_mod_cast h.symm))]
        exact hval j (by omega)

/-- The first loop of `generateRandomCircles32` stores the first `n` draws, in order. -/
theorem drawDepths32_eq (lib : CLib) (n : Nat) (g : RandState) :
    drawDepths32 lib n g = ((List.range n).map (draw32 lib g), afterDraws g n) := by
  have h := drawDepths32_upto lib n g n (le_refl n)
  unfold drawDepths32
  rw [intRange_zero, Int.toNat_ofNat]
  simp only at h
  obtain ⟨h1, h2, h3⟩ := h
  exact Prod.ext (list_eq_map_range _ _ n h2 h3) h1

theorem generateRandomCircles32_circle_eq (lib : CLib) (n : Nat) (p c r : List ℚ)
    (g : RandState) (hp : 3 * (n : Int) ≤ (p.length : Int))
    (hc : 3 * (n : Int) ≤ (c.length : Int)) (hr : (n : Int) ≤ (r.length : Int)) (i : Nat)
    (hi : i < n) :
    circleOfArrays (generateRandomCircles32 lib n p c r g).position
        (generateRandomCircles32 lib n p c r g).color
        (generateRandomCircles32 lib n p c r g).radius (i : Int) =
      randomCircle32 lib n (sortedDepths32 lib n) (afterDraws (lib.srand 0) n) i := by
  rw [generateRandomCircles32_circle lib n p c r g hp hc hr i hi, drawDepths32_eq]
  rfl

theorem makeCircleGrid32_eq (lib : CLib) (s n : Int) (rad : ℚ) (col : List ℚ) (ox oy : ℚ)
    (p c r : List ℚ) (g : RandState) :
    makeCircleGrid32 lib s n rad col ox oy p c r g =
      (intRange 0 n).foldl
        (fun st (j : Int) => (intRange 0 n).foldl (gridStep32 lib rad col ox oy j) st)
        { position := p, color := c, radius := r, index := s, rng := g } := rfl

theorem gridStep32_spec (lib : CLib) (rad : ℚ) (col : List ℚ) (ox oy : ℚ) (j i : Int)
    (st : GridState) (h0 : 0 ≤ st.index)
    (hp : 3 * st.index + 2 < (st.position.length : Int))
    (hc : 3 * st.index + 2 < (st.color.length : Int))
    (hr : st.index < (st.radius.length : Int)) :
    (gridStep32 lib rad col ox oy j st i).index = st.index + 1 ∧
    (gridStep32 lib rad col ox oy j st i).rng = afterDraws st.rng 1 ∧
    (gridStep32 lib rad col ox oy j st i).position.length = st.position.length ∧
    (gridStep32 lib rad col ox oy j st i).color.length = st.color.length ∧
    (gridStep32 lib rad col ox oy j st i).radius.length = st.radius.length ∧
    ∀ idx : Int,
      circleOfArrays (gridStep32 lib rad col ox oy j st i).position
          (gridStep32 lib rad col ox oy j st i).color
          (gridStep32 lib rad col ox oy j st i).radius idx =
        if idx = st.index then gridCircle32 rad col ox oy i j (draw32 lib st.rng 0)
        else circleOfArrays st.position st.color st.radius idx := by
  unfold gridStep32
  refine ⟨rfl, rfl, ?_, ?_, ?_, ?_⟩
  · simp only [length_storeAt]
  · simp only [length_storeAt]
  · simp only [length_storeAt]
  · intro idx
    simp only [randomFloat32_eq]
    rw [circleOfArrays_write _ _ _ st.index idx _ _ _ _ _ _ _ h0 hp hc hr]
    rfl

theorem gridRow32_upto (lib : CLib) (rad : ℚ) (col : List ℚ) (ox oy : ℚ) (j : Int)
    (st0 : GridState) (h0 : 0 ≤ st0.index) (m : Nat)
    (hp : 3 * (st0.index + m) ≤ (st0.position.length : Int))
    (hc : 3 * (st0.index + m) ≤ (st0.color.length : Int))
    (hr : st0.index + m ≤ (st0.radius.length : Int)) :
    let st := ((List.range m).map (fun (i : Nat) => (i : Int))).foldl
      (gridStep32 lib rad col ox oy j) st0
    st.index = st0.index + m ∧ st.rng = afterDraws st0.rng m ∧
    st.position.length = st0.position.length ∧ st.color.length = st0.color.length ∧
    st.radius.length = st0.radius.length ∧
    ∀ idx : Int, circleOfArrays st.position st.color st.radius idx =
      if st0.index ≤ idx ∧ idx < st0.index + m then
        gridCircle32 rad col ox oy (idx - st0.index) j (draw32 lib st0.rng (idx - st0.index).toNat)
      else circleOfArrays st0.position st0.color st0.radius idx := by
  induction m with
  | zero =>
    simp only [List.range_zero, List.map_nil, List.foldl_nil]
    refine ⟨by push_cast; ring, rfl, ?_, ?_, ?_, ?_⟩
    · trivial
    · trivial
    · trivial
    · intro idx
      rw [if_neg]; push_cast; omega
  | succ m ih =>
    have IH := ih (by push_cast at hp; omega) (by push_cast at hc; omega)
      (by push_cast at hr; omega)
    simp only [List.range_succ, List.map_append, List.foldl_append, List.map_cons, List.map_nil,
      List.foldl_cons, List.foldl_nil, zero_add] at IH ⊢
    obtain ⟨hidx, hrng, hpl, hcl, hrl, hcirc⟩ := IH
    obtain ⟨h1, h2, h3, h4, h5, h6⟩ := gridStep32_spec lib rad col ox oy j (m : Int) _
      (by rw [hidx]; omega) (by rw [hidx, hpl]; push_cast at hp; omega)
      (by rw [hidx, hcl]; push_cast at hc; omega) (by rw [hidx, hrl]; push_cast at hr; omega)
    refine ⟨by rw [h1, hidx]; push_cast; ring, by rw [h2, hrng, afterDraws_afterDraws],
      by rw [h3, hpl], by rw [h4, hcl], by rw [h5, hrl], ?_⟩
    intro idx
    rw [h6 idx, hcirc idx, hidx, hrng]
    by_cases hi : idx = st0.index + (m : Int)
    · subst hi
      have e1 : st0.index ≤ st0.index + (m : Int) ∧
          st0.index + (m : Int) < st0.index + ((m + 1 : Nat) : Int) := by push_cast; omega
      have e2 : st0.index + (m : Int) - st0.index = (m : Int) := by ring
      simp only [if_true, e1, and_self, e2, Int.toNat_ofNat, draw32_afterDraws, zero_add]
    · have hiff : (st0.index ≤ idx ∧ idx < st0.index + ((m + 1 : Nat) : Int)) ↔
          (st0.index ≤ idx ∧ idx < st0.index + (m : Int)) := by push_cast; omega
      simp only [hi, if_false, hiff]

theorem gridRows32_upto (lib : CLib) (rad : ℚ) (col : List ℚ) (ox oy : ℚ) (n : Nat)
    (st0 : GridState) (h0 : 0 ≤ st0.index)
    (hp : 3 * (st0.index + n * n) ≤ (st0.position.length : Int))
    (hc : 3 * (st0.index + n * n) ≤ (st0.color.length : Int))
    (hr : st0.index + n * n ≤ (st0.radius.length : Int)) (J : Nat) (hJ : J ≤ n) :
    let st := ((List.range J).map (fun (j : Nat) => (j : Int))).foldl
      (fun st (j : Int) =>
        ((List.range n).map (fun (i : Nat) => (i : Int))).foldl
          (gridStep32 lib rad col ox oy j) st) st0
    st.index = st0.index + J * n ∧ st.rng = afterDraws st0.rng (J * n) ∧
    st.position.length = st0.position.length ∧ st.color.length = st0.color.length ∧
    st.radius.length = st0.radius.length ∧
    (∀ j i : Nat, j < J → i < n →
      circleOfArrays st.position st.color st.radius (st0.index + j * n + i) =
        gridCircle32 rad col ox oy i j (draw32 lib st0.rng (j * n + i))) ∧
    (∀ idx : Int, (idx < st0.index ∨ st0.index + J * n ≤ idx) →
      circleOfArrays st.position st.color st.radius idx =
        circleOfArrays st0.position st0.color st0.radius idx) := by
  induction J with
  | zero =>
    simp only [List.range_zero, List.map_nil, List.foldl_nil]
    refine ⟨by push_cast; ring, by rw [Nat.zero_mul]; rfl, ?_, ?_, ?_,
      fun j i hj => absurd hj (Nat.not_lt_zero j), ?_⟩
    · trivial
    · trivial
    · trivial
    · intro idx _
      trivial
  | succ J ih =>
    have IH := ih (by omega)
    simp only [List.range_succ, List.map_append, List.foldl_append, List.map_cons, List.map_nil,
      List.foldl_cons, List.foldl_nil, zero_add] at IH ⊢
    obtain ⟨hidx, hrng, hpl, hcl, hrl, hin, hout⟩ := IH
    have hJn : (J : Int) * n + n ≤ (n : Int) * n := by
      have : ((J : Int) + 1) * n ≤ (n : Int) * n :=
        mul_le_mul_of_nonneg_right (by exact_mod_cast hJ) (Int.natCast_nonneg n)
      linarith
    have hJ0 : (0 : Int) ≤ (J : Int) * n := by positivity
    obtain ⟨h1, h2, h3, h4, h5, h6⟩ := gridRow32_upto lib rad col ox oy (J : Int) _
      (by rw [hidx]; omega) n (by rw [hidx, hpl]; omega) (by rw [hidx, hcl]; omega)
      (by rw [hidx, hrl]; omega)
    refine ⟨by rw [h1, hidx]; push_cast; ring,
      by rw [h2, hrng, afterDraws_afterDraws, Nat.succ_mul],
      by rw [h3, hpl], by rw [h4, hcl], by rw [h5, hrl], ?_, ?_⟩
    · intro j i hj hi
      rw [h6, hidx]
      by_cases hjJ : j = J
      · subst hjJ
        have e1 : st0.index + (j : Int) * n ≤ st0.index + (j : Int) * n + i ∧
            st0.index + (j : Int) * n + i < st0.index + (j : Int) * n + n := by
          constructor
          · omega
          · have : (i : Int) < n := by exact_mod_cast hi
            omega
        have e2 : st0.index + (j : Int) * n + i - (st0.index + (j : Int) * n) = (i : Int) := by
          ring
        rw [if_pos e1, e2, hrng, draw32_afterDraws, Int.toNat_ofNat]
        congr 2
        ring
      · have hlt : j < J := by omega
        have hjn : (j : Int) * n + n ≤ (J : Int) * n := by
          have : ((j : Int) + 1) * n ≤ (J : Int) * n :=
            mul_le_mul_of_nonneg_right (by exact_mod_cast hlt) (Int.natCast_nonneg n)
          linarith
        have hi' : (i : Int) < n := by exact_mod_cast hi
        rw [if_neg (by omega)]
        exact hin j i hlt hi
    · intro idx hidx'
      have e : st0.index + ((J + 1 : Nat) : Int) * n = st0.index + (J : Int) * n + n := by
        push_cast; ring
      rw [e] at hidx'
      rw [h6, hidx, if_neg (by omega)]
      exact hout idx (by omega)

/-- Every circle that `makeCircleGrid32` stores, and the circles it leaves alone, for
arrays that hold the circles `startIndex ≤ index < startIndex + n * n`. -/
theorem makeCircleGrid32_spec (lib : CLib) (s : Int) (n : Nat) (rad : ℚ) (col : List ℚ)
    (ox oy : ℚ) (p c r : List ℚ) (g : RandState) (h0 : 0 ≤ s)
    (hp : 3 * (s + n * n) ≤ (p.length : Int)) (hc : 3 * (s + n * n) ≤ (c.length : Int))
    (hr : s + n * n ≤ (r.length : Int)) :
    (makeCircleGrid32 lib s n rad col ox oy p c r g).rng = afterDraws g (n * n) ∧
    (makeCircleGrid32 lib s n rad col ox oy p c r g).position.length = p.length ∧
    (makeCircleGrid32 lib s n rad col ox oy p c r g).color.length = c.length ∧
    (makeCircleGrid32 lib s n rad col ox oy p c r g).radius.length = r.length ∧
    (∀ j i : Nat, j < n → i < n →
      circleOfArrays (makeCircleGrid32 lib s n rad col ox oy p c r g).position
          (makeCircleGrid32 lib s n rad col ox oy p c r g).color
          (makeCircleGrid32 lib s n rad col ox oy p c r g).radius (s + j * n + i) =
        gridCircle32 rad col ox oy i j (draw32 lib g (j * n + i))) ∧
    (∀ idx : Int, (idx < s ∨ s + n * n ≤ idx) →
      circleOfArrays (makeCircleGrid32 lib s n rad col ox oy p c r g).position
          (makeCircleGrid32 lib s n rad col ox oy p c r g).color
          (makeCircleGrid32 lib s n rad col ox oy p c r g).radius idx =
        circleOfArrays p c r idx) := by
  have h := gridRows32_upto lib rad col ox oy n
    { position := p, color := c, radius := r, index := s, rng := g } h0 hp hc hr n (le_refl n)
  rw [makeCircleGrid32_eq]
  simp only [intRange_zero, Int.toNat_ofNat]
  simp only at h
  exact ⟨h.2.1, h.2.2.1, h.2.2.2.1, h.2.2.2.2.1, h.2.2.2.2.2.1, h.2.2.2.2.2.2⟩

theorem loadCircleScene32_10K (lib : CLib) (out : SceneArrays) (g : RandState) :
    loadCircleScene32 lib CIRCLE_TEST_10K out g =
      ({ numCircles := 10000,
         position := (generateRandomCircles32 lib ((10000 : Nat) : Int) (newFloats (30000 : Nat))
           (newFloats (30000 : Nat)) (newFloats (10000 : Nat)) g).position,
         color := (generateRandomCircles32 lib ((10000 : Nat) : Int) (newFloats (30000 : Nat))
           (newFloats (30000 : Nat)) (newFloats (10000 : Nat)) g).color,
         radius := (generateRandomCircles32 lib ((10000 : Nat) : Int) (newFloats (30000 : Nat))
           (newFloats (30000 : Nat)) (newFloats (10000 : Nat)) g).radius },
       (generateRandomCircles32 lib ((10000 : Nat) : Int) (newFloats (30000 : Nat))
           (newFloats (30000 : Nat)) (newFloats (10000 : Nat)) g).rng) := by
  unfold loadCircleScene32
  rw [if_neg (by decide), if_neg (by decide), if_pos rfl]
  have e1 : (10 * 1000 : Int) = ((10000 : Nat) : Int) := by decide
  have e3 : (3 * ((10000 : Nat) : Int)) = ((30000 : Nat) : Int) := by decide
  simp only [e1, e3]
  rfl

theorem loadCircleScene32_100K (lib : CLib) (out : SceneArrays) (g : RandState) :
    loadCircleScene32 lib CIRCLE_TEST_100K out g =
      ({ numCircles := 100000,
         position := (generateRandomCircles32 lib ((100000 : Nat) : Int) (newFloats (300000 : Nat))
           (newFloats (300000 : Nat)) (newFloats (100000 : Nat)) g).position,
         color := (generateRandomCircles32 lib ((100000 : Nat) : Int) (newFloats (300000 : Nat))
           (newFloats (300000 : Nat)) (newFloats (100000 : Nat)) g).color,
         radius := (generateRandomCircles32 lib ((100000 : Nat) : Int) (newFloats (300000 : Nat))
           (newFloats (300000 : Nat)) (newFloats (100000 : Nat)) g).radius },
       (generateRandomCircles32 lib ((100000 : Nat) : Int) (newFloats (300000 : Nat))
           (newFloats (300000 : Nat)) (newFloats (100000 : Nat)) g).rng) := by
  unfold loadCircleScene32
  rw [if_neg (by decide), if_neg (by decide), if_neg (by decide), if_pos rfl]
  have e1 : (100 * 1000 : Int) = ((100000 : Nat) : Int) := by decide
  have e3 : (3 * ((100000 : Nat) : Int)) = ((300000 : Nat) : Int) := by decide
  simp only [e1, e3]
  rfl

theorem loadCircleScene32_PATTERN (lib : CLib) (out : SceneArrays) (g : RandState) :
    loadCircleScene32 lib PATTERN out g =
      ({ numCircles := 1217, position := (patternGrid2_32 lib g).position,
         color := (patternGrid2_32 lib g).color, radius := (patternGrid2_32 lib g).radius },
       (patternGrid2_32 lib g).rng) := by
  unfold loadCircleScene32
  rw [if_neg (by decide), if_neg (by decide), if_neg (by decide), if_neg (by decide), if_pos rfl]
  have e1 : (16 * 16 + 31 * 31 : Int) = ((1217 : Nat) : Int) := by decide
  have e3 : (3 * ((1217 : Nat) : Int)) = ((3651 : Nat) : Int) := by decide
  have e4 : ((0 : Int) + 16 * 16) = 256 := by decide
  simp only [e1, e3, e4]
  rfl

theorem patternGrid1_32_spec (lib : CLib) (g : RandState) :
    (patternGrid1_32 lib g).rng = afterDraws g 256 ∧
    (patternGrid1_32 lib g).position.length = 3651 ∧
    (patternGrid1_32 lib g).color.length = 3651 ∧
    (patternGrid1_32 lib g).radius.length = 1217 ∧
    (∀ j i : Nat, j < 16 → i < 16 →
      circleOfArrays (patternGrid1_32 lib g).position (patternGrid1_32 lib g).color
          (patternGrid1_32 lib g).radius ((j : Int) * 16 + (i : Int)) =
        gridCircle32 patternRadius32 [1, 0, 0] patternRadius32 patternRadius32 i j (draw32 lib g (j * 16 + i))) := by
  have h := makeCircleGrid32_spec lib 0 16 patternRadius32 [1, 0, 0] patternRadius32 patternRadius32
    (newFloats (3651 : Nat)) (newFloats (3651 : Nat)) (newFloats (1217 : Nat)) g (le_refl _)
    (by rw [length_newFloats]; decide) (by rw [length_newFloats]; decide)
    (by rw [length_newFloats]; decide)
  obtain ⟨h1, h2, h3, h4, h5, _⟩ := h
  refine ⟨h1, by rw [patternGrid1_32, h2, length_newFloats], by rw [patternGrid1_32, h3, length_newFloats],
    by rw [patternGrid1_32, h4, length_newFloats], ?_⟩
  intro j i hj hi
  have := h5 j i hj hi
  simp only [zero_add, Nat.cast_ofNat] at this
  exact this

theorem patternGrid2_32_spec (lib : CLib) (g : RandState) :
    (patternGrid2_32 lib g).rng = afterDraws g 1217 ∧
    (∀ j i : Nat, j < 16 → i < 16 →
      circleOfArrays (patternGrid2_32 lib g).position (patternGrid2_32 lib g).color
          (patternGrid2_32 lib g).radius ((j : Int) * 16 + (i : Int)) =
        gridCircle32 patternRadius32 [1, 0, 0] patternRadius32 patternRadius32 i j (draw32 lib g (j * 16 + i))) ∧
    (∀ j i : Nat, j < 31 → i < 31 →
      circleOfArrays (patternGrid2_32 lib g).position (patternGrid2_32 lib g).color
          (patternGrid2_32 lib g).radius (256 + (j : Int) * 31 + (i : Int)) =
        gridCircle32 patternRadius32 [1, 1, 0] 0 0 i j (draw32 lib g (256 + (j * 31 + i)))) := by
  obtain ⟨g1, g2, g3, g4, g5⟩ := patternGrid1_32_spec lib g
  have h := makeCircleGrid32_spec lib 256 31 patternRadius32 [1, 1, 0] 0 0
    (patternGrid1_32 lib g).position (patternGrid1_32 lib g).color (patternGrid1_32 lib g).radius
    (patternGrid1_32 lib g).rng (by decide) (by rw [g2]; decide) (by rw [g3]; decide)
    (by rw [g4]; decide)
  obtain ⟨h1, _, _, _, h5, h6⟩ := h
  refine ⟨by rw [patternGrid2_32, h1, g1, afterDraws_afterDraws], ?_, ?_⟩
  · intro j i hj hi
    have hlt : (j : Int) * 16 + (i : Int) < 256 := by omega
    rw [patternGrid2_32, h6 _ (Or.inl hlt)]
    exact g5 j i hj hi
  · intro j i hj hi
    have := h5 j i hj hi
    unfold patternGrid2_32
    simp only [Nat.cast_ofNat] at this ⊢
    have e : j * 31 + i + 256 = 256 + (j * 31 + i) := by omega
    rw [this, g1, draw32_afterDraws, e]

/-- The circles of the scene `PATTERN`. -/
theorem pattern_circles32 (lib : CLib) (out : SceneArrays) (g : RandState) :
    (loadCircleScene32 lib PATTERN out g).1.numCircles = 1217 ∧
    (∀ j i : Nat, j < 16 → i < 16 →
      (loadCircleScene32 lib PATTERN out g).1.circleAt ((j : Int) * 16 + (i : Int)) =
        gridCircle32 patternRadius32 [1, 0, 0] patternRadius32 patternRadius32 i j (draw32 lib g (j * 16 + i))) ∧
    (∀ j i : Nat, j < 31 → i < 31 →
      (loadCircleScene32 lib PATTERN out g).1.circleAt (256 + (j : Int) * 31 + (i : Int)) =
        gridCircle32 patternRadius32 [1, 1, 0] 0 0 i j (draw32 lib g (256 + (j * 31 + i)))) := by
  rw [congrArg Prod.fst (loadCircleScene32_PATTERN lib out g)]
  refine ⟨rfl, ?_, ?_⟩
  · intro j i hj hi
    rw [circleAt_mk]
    exact (patternGrid2_32_spec lib g).2.1 j i hj hi
  · intro j i hj hi
    rw [circleAt_mk]
    exact (patternGrid2_32_spec lib g).2.2 j i hj hi

/-- The circles of the scene `CIRCLE_TEST_10K`. -/
theorem random10K_circles32 (lib : CLib) (out : SceneArrays) (g : RandState) (i : Nat)
    (hi : i < 10000) :
    (loadCircleScene32 lib CIRCLE_TEST_10K out g).1.circleAt (i : Int) =
      randomCircle32 lib 10000 (sortedDepths32 lib 10000) (afterDraws (lib.srand 0) 10000) i := by
  have h := generateRandomCircles32_circle_eq lib 10000 (newFloats (30000 : Nat))
    (newFloats (30000 : Nat)) (newFloats (10000 : Nat)) g (by rw [length_newFloats]; decide)
    (by rw [length_newFloats]; decide) (by rw [length_newFloats]) i hi
  rw [congrArg Prod.fst (loadCircleScene32_10K lib out g), circleAt_mk, h]
  rfl

/-- The circles of the scene `CIRCLE_TEST_100K`. -/
theorem random100K_circles32 (lib : CLib) (out : SceneArrays) (g : RandState) (i : Nat)
    (hi : i < 100000) :
    (loadCircleScene32 lib CIRCLE_TEST_100K out g).1.circleAt (i : Int) =
      randomCircle32 lib 100000 (sortedDepths32 lib 100000) (afterDraws (lib.srand 0) 100000) i := by
  have h := generateRandomCircles32_circle_eq lib 100000 (newFloats (300000 : Nat))
    (newFloats (300000 : Nat)) (newFloats (100000 : Nat)) g (by rw [length_newFloats]; decide)
    (by rw [length_newFloats]; decide) (by rw [length_newFloats]) i hi
  rw [congrArg Prod.fst (loadCircleScene32_100K lib out g), circleAt_mk, h]
  rfl

/-- The three circles that the branch `CIRCLE_RGB` of `loadCircleScene` writes, for any
values of the constants. -/
theorem rgb_layout (x0 y0 z0 x1 y1 z1 x2 y2 z2 r : ℚ) :
    circleOfArrays
        (storeRun (storeRun (storeRun (newFloats (3 * 3)) 0 [x0, y0, z0]) 3 [x1, y1, z1]) 6
          [x2, y2, z2])
        (storeRun (storeRun (storeRun (newFloats (3 * 3)) 0 [1, 0, 0]) 3 [0, 1, 0]) 6 [0, 0, 1])
        ((intRange 0 3).foldl (fun radius (i : Int) => storeAt radius i r) (newFloats 3)) 0 =
      ⟨x0, y0, z0, r, 1, 0, 0⟩ ∧
    circleOfArrays
        (storeRun (storeRun (storeRun (newFloats (3 * 3)) 0 [x0, y0, z0]) 3 [x1, y1, z1]) 6
          [x2, y2, z2])
        (storeRun (storeRun (storeRun (newFloats (3 * 3)) 0 [1, 0, 0]) 3 [0, 1, 0]) 6 [0, 0, 1])
        ((intRange 0 3).foldl (fun radius (i : Int) => storeAt radius i r) (newFloats 3)) 1 =
      ⟨x1, y1, z1, r, 0, 1, 0⟩ ∧
    circleOfArrays
        (storeRun (storeRun (storeRun (newFloats (3 * 3)) 0 [x0, y0, z0]) 3 [x1, y1, z1]) 6
          [x2, y2, z2])
        (storeRun (storeRun (storeRun (newFloats (3 * 3)) 0 [1, 0, 0]) 3 [0, 1, 0]) 6 [0, 0, 1])
        ((intRange 0 3).foldl (fun radius (i : Int) => storeAt radius i r) (newFloats 3)) 2 =
      ⟨x2, y2, z2, r, 0, 0, 1⟩ :=
  ⟨rfl, rfl, rfl⟩

theorem newFloats_12 : newFloats (3 * 4) = [0, 0, 0, 0, 0, 0, 0, 0, 0, 0, 0, 0] := by decide

theorem newFloats_4 : newFloats 4 = [0, 0, 0, 0] := by decide

/-- The four circles that the branch `CIRCLE_RGBY` of `loadCircleScene` writes, for any
values of the constants. -/
theorem rgby_layout (x0 y0 z0 x1 y1 z1 x2 y2 z2 x3 y3 z3 r0 r1 r2 r3 : ℚ) :
    circleOfArrays
        (storeRun (storeRun (storeRun (storeRun (newFloats (3 * 4)) 0 [x0, y0, z0]) 3
          [x1, y1, z1]) 6 [x2, y2, z2]) 9 [x3, y3, z3])
        (storeRun (storeRun (storeRun (storeRun (newFloats (3 * 4)) 0 [1, 0, 0]) 3 [0, 1, 0]) 6
          [0, 0, 1]) 9 [1, 1, 0])
        (storeRun (newFloats 4) 0 [r0, r1, r2, r3]) 0 = ⟨x0, y0, z0, r0, 1, 0, 0⟩ ∧
    circleOfArrays
        (storeRun (storeRun (storeRun (storeRun (newFloats (3 * 4)) 0 [x0, y0, z0]) 3
          [x1, y1, z1]) 6 [x2, y2, z2]) 9 [x3, y3, z3])
        (storeRun (storeRun (storeRun (storeRun (newFloats (3 * 4)) 0 [1, 0, 0]) 3 [0, 1, 0]) 6
          [0, 0, 1]) 9 [1, 1, 0])
        (storeRun (newFloats 4) 0 [r0, r1, r2, r3]) 1 = ⟨x1, y1, z1, r1, 0, 1, 0⟩ ∧
    circleOfArrays
        (storeRun (storeRun (storeRun (storeRun (newFloats (3 * 4)) 0 [x0, y0, z0]) 3
          [x1, y1, z1]) 6 [x2, y2, z2]) 9 [x3, y3, z3])
        (storeRun (storeRun (storeRun (storeRun (newFloats (3 * 4)) 0 [1, 0, 0]) 3 [0, 1, 0]) 6
          [0, 0, 1]) 9 [1, 1, 0])
        (storeRun (newFloats 4) 0 [r0, r1, r2, r3]) 2 = ⟨x2, y2, z2, r2, 0, 0, 1⟩ ∧
    circleOfArrays
        (storeRun (storeRun (storeRun (storeRun (newFloats (3 * 4)) 0 [x0, y0, z0]) 3
          [x1, y1, z1]) 6 [x2, y2, z2]) 9 [x3, y3, z3])
        (storeRun (storeRun (storeRun (storeRun (newFloats (3 * 4)) 0 [1, 0, 0]) 3 [0, 1, 0]) 6
          [0, 0, 1]) 9 [1, 1, 0])
        (storeRun (newFloats 4) 0 [r0, r1, r2, r3]) 3 = ⟨x3, y3, z3, r3, 1, 1, 0⟩ := by
  rw [newFloats_12, newFloats_4]
  refine ⟨?_, ?_, ?_, ?_⟩ <;> simp [circleOfArrays, storeRun, storeAt, loadAt]

/-- The circles of the scene `CIRCLE_RGB`. -/
theorem rgb_circles32 (lib : CLib) (out : SceneArrays) (g : RandState) :
    (loadCircleScene32 lib CIRCLE_RGB out g).1.numCircles = 3 ∧
    (loadCircleScene32 lib CIRCLE_RGB out g).1.circleAt 0 =
      ⟨fl (4 / 10), fl (5 / 10), fl (75 / 100), fl (3 / 10), 1, 0, 0⟩ ∧
    (loadCircleScene32 lib CIRCLE_RGB out g).1.circleAt 1 =
      ⟨fl (5 / 10), fl (5 / 10), fl (5 / 10), fl (3 / 10), 0, 1, 0⟩ ∧
    (loadCircleScene32 lib CIRCLE_RGB out g).1.circleAt 2 =
      ⟨fl (6 / 10), fl (5 / 10), fl (25 / 100), fl (3 / 10), 0, 0, 1⟩ := by
  have h := rgb_layout (fl (4 / 10)) (fl (5 / 10)) (fl (75 / 100)) (fl (5 / 10)) (fl (5 / 10))
    (fl (5 / 10)) (fl (6 / 10)) (fl (5 / 10)) (fl (25 / 100)) (fl (3 / 10))
  unfold loadCircleScene32
  rw [if_pos rfl]
  exact ⟨rfl, h.1, h.2.1, h.2.2⟩

/-- The circles of the scene `CIRCLE_RGBY`. -/
theorem rgby_circles32 (lib : CLib) (out : SceneArrays) (g : RandState) :
    (loadCircleScene32 lib CIRCLE_RGBY out g).1.numCircles = 4 ∧
    (loadCircleScene32 lib CIRCLE_RGBY out g).1.circleAt 0 =
      ⟨fl (25 / 100), fl (25 / 100), fl (75 / 100), fl (19 / 100), 1, 0, 0⟩ ∧
    (loadCircleScene32 lib CIRCLE_RGBY out g).1.circleAt 1 =
      ⟨fl (3 / 10), fl (3 / 10), fl (5 / 10), fl (19 / 100), 0, 1, 0⟩ ∧
    (loadCircleScene32 lib CIRCLE_RGBY out g).1.circleAt 2 =
      ⟨fl (5 / 10), fl (5 / 10), fl (25 / 100), fl (25 / 100), 0, 0, 1⟩ ∧
    (loadCircleScene32 lib CIRCLE_RGBY out g).1.circleAt 3 =
      ⟨fl (2 / 10), fl (2 / 10), fl (9 / 10), fl (1 / 10), 1, 1, 0⟩ := by
  have h := rgby_layout (fl (25 / 100)) (fl (25 / 100)) (fl (75 / 100)) (fl (3 / 10))
    (fl (3 / 10)) (fl (5 / 10)) (fl (5 / 10)) (fl (5 / 10)) (fl (25 / 100)) (fl (2 / 10))
    (fl (2 / 10)) (fl (9 / 10)) (fl (19 / 100)) (fl (19 / 100)) (fl (25 / 100)) (fl (1 / 10))
  unfold loadCircleScene32
  rw [if_neg (by decide), if_pos rfl]
  exact ⟨rfl, h.1, h.2.1, h.2.2.1, h.2.2.2⟩

/-- Every index of a loaded scene holds one of the circles listed here: the scene loader
as a case table. -/
theorem loaded_circle_cases32 (lib : CLib) (sceneName : SceneName) (out : SceneArrays)
    (g : RandState)
    (hs : sceneName = CIRCLE_RGB ∨ sceneName = CIRCLE_RGBY ∨ sceneName = CIRCLE_TEST_10K ∨
      sceneName = CIRCLE_TEST_100K ∨ sceneName = PATTERN)
    (idx : Int) (h0 : 0 ≤ idx) (h1 : idx < (loadCircleScene32 lib sceneName out g).1.numCircles) :
    (sceneName = CIRCLE_RGB ∧
      ((loadCircleScene32 lib sceneName out g).1.circleAt idx =
          ⟨fl (4 / 10), fl (5 / 10), fl (75 / 100), fl (3 / 10), 1, 0, 0⟩ ∨
       (loadCircleScene32 lib sceneName out g).1.circleAt idx =
          ⟨fl (5 / 10), fl (5 / 10), fl (5 / 10), fl (3 / 10), 0, 1, 0⟩ ∨
       (loadCircleScene32 lib sceneName out g).1.circleAt idx =
          ⟨fl (6 / 10), fl (5 / 10), fl (25 / 100), fl (3 / 10), 0, 0, 1⟩)) ∨
    (sceneName = CIRCLE_RGBY ∧
      ((loadCircleScene32 lib sceneName out g).1.circleAt idx =
          ⟨fl (25 / 100), fl (25 / 100), fl (75 / 100), fl (19 / 100), 1, 0, 0⟩ ∨
       (loadCircleScene32 lib sceneName out g).1.circleAt idx =
          ⟨fl (3 / 10), fl (3 / 10), fl (5 / 10), fl (19 / 100), 0, 1, 0⟩ ∨
       (loadCircleScene32 lib sceneName out g).1.circleAt idx =
          ⟨fl (5 / 10), fl (5 / 10), fl (25 / 100), fl (25 / 100), 0, 0, 1⟩ ∨
       (loadCircleScene32 lib sceneName out g).1.circleAt idx =
          ⟨fl (2 / 10), fl (2 / 10), fl (9 / 10), fl (1 / 10), 1, 1, 0⟩)) ∨
    (sceneName = CIRCLE_TEST_10K ∧ ∃ i : Nat, i < 10000 ∧ idx = (i : Int) ∧
      (loadCircleScene32 lib sceneName out g).1.circleAt idx =
        randomCircle32 lib 10000 (sortedDepths32 lib 10000) (afterDraws (lib.srand 0) 10000) i) ∨
    (sceneName = CIRCLE_TEST_100K ∧ ∃ i : Nat, i < 100000 ∧ idx = (i : Int) ∧
      (loadCircleScene32 lib sceneName out g).1.circleAt idx =
        randomCircle32 lib 100000 (sortedDepths32 lib 100000)
          (afterDraws (lib.srand 0) 100000) i) ∨
    (sceneName = PATTERN ∧ idx < 256 ∧ ∃ j i : Nat, j < 16 ∧ i < 16 ∧
      idx = (j : Int) * 16 + (i : Int) ∧
      (loadCircleScene32 lib sceneName out g).1.circleAt idx =
        gridCircle32 patternRadius32 [1, 0, 0] patternRadius32 patternRadius32 i j (draw32 lib g (j * 16 + i))) ∨
    (sceneName = PATTERN ∧ 256 ≤ idx ∧ ∃ j i : Nat, j < 31 ∧ i < 31 ∧
      idx = 256 + (j : Int) * 31 + (i : Int) ∧
      (loadCircleScene32 lib sceneName out g).1.circleAt idx =
        gridCircle32 patternRadius32 [1, 1, 0] 0 0 i j (draw32 lib g (256 + (j * 31 + i)))) := by
  rcases hs with rfl | rfl | rfl | rfl | rfl
  · left
    refine ⟨rfl, ?_⟩
    obtain ⟨hn, c0, c1, c2⟩ := rgb_circles32 lib out g
    rw [hn] at h1
    have : idx = 0 ∨ idx = 1 ∨ idx = 2 := by omega
    rcases this with rfl | rfl | rfl
    · exact Or.inl c0
    · exact Or.inr (Or.inl c1)
    · exact Or.inr (Or.inr c2)
  · right; left
    refine ⟨rfl, ?_⟩
    obtain ⟨hn, c0, c1, c2, c3⟩ := rgby_circles32 lib out g
    rw [hn] at h1
    have : idx = 0 ∨ idx = 1 ∨ idx = 2 ∨ idx = 3 := by omega
    rcases this with rfl | rfl | rfl | rfl
    · exact Or.inl c0
    · exact Or.inr (Or.inl c1)
    · exact Or.inr (Or.inr (Or.inl c2))
    · exact Or.inr (Or.inr (Or.inr c3))
  · right; right; left
    refine ⟨rfl, ?_⟩
    rw [congrArg Prod.fst (loadCircleScene32_10K lib out g)] at h1
    have h1 : idx < 10000 := h1
    obtain ⟨i, rfl⟩ := Int.eq_ofNat_of_zero_le h0
    have hi : i < 10000 := by omega
    exact ⟨i, hi, rfl, random10K_circles32 lib out g i hi⟩
  · right; right; right; left
    refine ⟨rfl, ?_⟩
    rw [congrArg Prod.fst (loadCircleScene32_100K lib out g)] at h1
    have h1 : idx < 100000 := h1
    obtain ⟨i, rfl⟩ := Int.eq_ofNat_of_zero_le h0
    have hi : i < 100000 := by omega
    exact ⟨i, hi, rfl, random100K_circles32 lib out g i hi⟩
  · obtain ⟨hn, c1, c2⟩ := pattern_circles32 lib out g
    rw [hn] at h1
    obtain ⟨k, rfl⟩ := Int.eq_ofNat_of_zero_le h0
    by_cases hk : k < 256
    · right; right; right; right; left
      have e : ((k : Nat) : Int) = ((k / 16 : Nat) : Int) * 16 + ((k % 16 : Nat) : Int) := by
        omega
      refine ⟨rfl, by omega, k / 16, k % 16, by omega, by omega, e, ?_⟩
      rw [e]
      exact c1 (k / 16) (k % 16) (by omega) (by omega)
    · right; right; right; right; right
      have e : ((k : Nat) : Int) =
          256 + (((k - 256) / 31 : Nat) : Int) * 31 + (((k - 256) % 31 : Nat) : Int) := by
        omega
      refine ⟨rfl, by omega, (k - 256) / 31, (k - 256) % 31, by omega, by omega, e, ?_⟩
      rw [e]
      exact c2 ((k - 256) / 31) ((k - 256) % 31) (by omega) (by omega)

theorem gridCircle32_colours (r a b c ox oy : ℚ) (i j : Int) (z : ℚ) :
    (gridCircle32 r [a, b, c] ox oy i j z).colR = a ∧
    (gridCircle32 r [a, b, c] ox oy i j z).colG = b ∧
    (gridCircle32 r [a, b, c] ox oy i j z).colB = c :=
  ⟨rfl, rfl, rfl⟩

theorem loadScene32_circleAt (lib : CLib) (scene : SceneName) (r : RefRenderer) (g : RandState)
    (i : Int) :
    (r.loadScene32 lib scene g).1.circleAt i =
      (loadCircleScene32 lib scene
        { numCircles := r.numCircles, position := r.position, color := r.color,
          radius := r.radius } g).1.circleAt i := rfl

theorem loadScene32_numCircles (lib : CLib) (scene : SceneName) (r : RefRenderer)
    (g : RandState) :
    (r.loadScene32 lib scene g).1.numCircles =
      (loadCircleScene32 lib scene
        { numCircles := r.numCircles, position := r.position, color := r.color,
          radius := r.radius } g).1.numCircles := rfl

/-! ## Ranges of the colours in binary32 -/

theorem static_cast_float_nonneg (n : Nat) : 0 ≤ static_cast_float (n : Int) := by
  unfold static_cast_float
  apply fl_nonneg
  exact_mod_cast Nat.zero_le n

theorem draw32_nonneg (lib : CLib) (g : RandState) (k : Nat) : 0 ≤ draw32 lib g k := by
  unfold draw32
  apply fl_nonneg
  exact div_nonneg (static_cast_float_nonneg _) (static_cast_float_nonneg _)

/-- The value `fl (fl a + fl (fl b * d))` of a colour formula `a + b * draw` for a draw in
`[0,1]` lies between `fl a` and `fl (fl a + fl b)`. -/
theorem colour32_bounds (a b d : ℚ) (ha : 0 ≤ a) (hb : 0 ≤ b) (hd0 : 0 ≤ d) (hd1 : d ≤ 1) :
    0 ≤ fl (fl a + fl (fl b * d)) ∧ fl a ≤ fl (fl a + fl (fl b * d)) ∧
    fl (fl a + fl (fl b * d)) ≤ fl (fl a + fl b) := by
  have hfa := fl_nonneg a ha
  have hfb := fl_nonneg b hb
  have hp0 : 0 ≤ fl (fl b * d) := fl_nonneg _ (mul_nonneg hfb hd0)
  have hp1 : fl (fl b * d) ≤ fl b := by
    have h := fl_mono (fl b * d) (fl b) (by nlinarith)
    rw [fl_fl] at h
    exact h
  refine ⟨fl_nonneg _ (by linarith), ?_, fl_mono _ _ (by linarith)⟩
  have h := fl_mono (fl a) (fl a + fl (fl b * d)) (by linarith)
  rw [fl_fl] at h
  exact h

theorem draw32_afterDraws_le (lib : CLib) (g : RandState) (a : Nat)
    (hs : ∀ k : Nat, draw32 lib g k ≤ 1) (k : Nat) : draw32 lib (afterDraws g a) k ≤ 1 := by
  rw [draw32_afterDraws]
  exact hs _

theorem randomCircle32_colour_bounds (lib : CLib) (numCircles : Int) (depths : List ℚ)
    (g : RandState) (i : Nat) (hg : ∀ k : Nat, draw32 lib g k ≤ 1) :
    0 ≤ (randomCircle32 lib numCircles depths g i).colR ∧
    0 ≤ (randomCircle32 lib numCircles depths g i).colG ∧
    (randomCircle32 lib numCircles depths g i).colG ≤ 1 ∧
    0 ≤ (randomCircle32 lib numCircles depths g i).colB ∧
    (randomCircle32 lib numCircles depths g i).colB ≤ 1 ∧
    (numCircles ≤ 10000 → (randomCircle32 lib numCircles depths g i).colR ≤ 1) ∧
    (10000 < numCircles → 3 / 10 ≤ (randomCircle32 lib numCircles depths g i).colR ∧
      (randomCircle32 lib numCircles depths g i).colR ≤ 5033165 / 4194304) := by
  have a3 := draw32_nonneg lib g (6 * i + 3)
  have a4 := draw32_nonneg lib g (6 * i + 4)
  have a5 := draw32_nonneg lib g (6 * i + 5)
  have b3 := hg (6 * i + 3)
  have b4 := hg (6 * i + 4)
  have b5 := hg (6 * i + 5)
  simp only [randomCircle32]
  by_cases h : numCircles ≤ 10000
  · simp only [if_pos h]
    obtain ⟨r1, _, r3⟩ := colour32_bounds (1 / 10) (9 / 10) _ (by norm_num) (by norm_num) a3 b3
    obtain ⟨g1, _, g3⟩ := colour32_bounds (2 / 10) (5 / 10) _ (by norm_num) (by norm_num) a4 b4
    obtain ⟨b1, _, b3'⟩ := colour32_bounds (5 / 10) (5 / 10) _ (by norm_num) (by norm_num) a5 b5
    rw [colour_sum_1_9] at r3
    rw [colour_sum_2_5] at g3
    rw [colour_sum_5_5] at b3'
    have g4 := le_trans g3 (show (11744051 / 16777216 : ℚ) ≤ 1 by norm_num)
    exact ⟨r1, g1, g4, b1, b3', fun _ => r3, fun h2 => absurd h (not_le.mpr h2)⟩
  · simp only [if_neg h]
    obtain ⟨r1, r2, r3⟩ := colour32_bounds (3 / 10) (9 / 10) _ (by norm_num) (by norm_num) a3 b3
    obtain ⟨g1, _, g3⟩ := colour32_bounds (1 / 10) (9 / 10) _ (by norm_num) (by norm_num) a4 b4
    obtain ⟨b1, _, b3'⟩ := colour32_bounds (1 / 10) (4 / 10) _ (by norm_num) (by norm_num) a5 b5
    rw [colour_sum_3_9] at r3
    rw [colour_sum_1_9] at g3
    rw [colour_sum_1_4] at b3'
    have b4' := le_trans b3' (show (1 / 2 : ℚ) ≤ 1 by norm_num)
    have r0 : (3 / 10 : ℚ) ≤ fl (3 / 10) := by
      rw [rounding_of_3_10]
      norm_num
    have r4 := le_trans r0 r2
    exact ⟨r1, g1, g3, b1, b4', fun h2 => absurd h2 h, fun _ => ⟨r4, r3⟩⟩

theorem draw32_libOne (k : Nat) : draw32 libOne (libOne.srand 0) k = 1 := by
  simp only [draw32, libOne, static_cast_float, Nat.cast_one, Int.cast_one, rounding_of_1,
    rounding_of_1_1]

theorem draw32_constState_zero (k : Nat) : draw32 libOne (constState 0) k = 0 := by
  have h : ((0 : ℚ) / 1) = 0 := by norm_num
  simp only [draw32, libOne, constState, static_cast_float, Nat.cast_zero, Nat.cast_one,
    Int.cast_zero, Int.cast_one, rounding_of_1, rounding_of_0, h]

/-- C17, as stated, fails: with every draw equal to `1`, circle 0 of `CIRCLE_TEST_100K` has
the red value `fl (.3f + fl (.9f * 1)) = 5033165/4194304`, about `1.2000000477`, which is
not in `[0,1]`. -/
theorem colour_range32_counterexample :
    (∀ k : Nat, 0 ≤ draw32 libOne (libOne.srand 0) k ∧ draw32 libOne (libOne.srand 0) k ≤ 1) ∧
    (∀ k : Nat, 0 ≤ draw32 libOne (constState 0) k ∧ draw32 libOne (constState 0) k ≤ 1) ∧
    (0 : Int) < (loadCircleScene32 libOne CIRCLE_TEST_100K noScene (constState 0)).1.numCircles ∧
    ((loadCircleScene32 libOne CIRCLE_TEST_100K noScene (constState 0)).1.circleAt 0).colR =
      5033165 / 4194304 ∧
    ¬ ((loadCircleScene32 libOne CIRCLE_TEST_100K noScene (constState 0)).1.circleAt 0).colR ≤
      1 := by
  have hx : ((loadCircleScene32 libOne CIRCLE_TEST_100K noScene (constState 0)).1.circleAt
      0).colR = 5033165 / 4194304 := by
    have h := random100K_circles32 libOne noScene (constState 0) 0 (by decide)
    rw [Nat.cast_zero] at h
    rw [h]
    have hd : draw32 libOne (afterDraws (libOne.srand 0) 100000) (6 * 0 + 3) = 1 := by
      rw [draw32_afterDraws]
      exact draw32_libOne _
    simp only [randomCircle32]
    rw [if_neg (by decide), hd]
    exact red_of_unit_draw
  refine ⟨fun k => ⟨draw32_nonneg _ _ _, ?_⟩, fun k => ⟨draw32_nonneg _ _ _, ?_⟩, ?_, hx, ?_⟩
  · rw [draw32_libOne]
  · rw [draw32_constState_zero]
    norm_num
  · rw [congrArg Prod.fst (loadCircleScene32_100K libOne noScene (constState 0))]
    decide
  · rw [hx]
    norm_num

/-- C17, amended: for each of the five scenes, with every draw in `[0,1]`, the green and
blue values of every circle lie in `[0,1]` and so does the red value, except in
`CIRCLE_TEST_100K` (the distribution for more than 10000 circles), whose red values
`fl (.3f + fl (.9f * draw))` lie in `[3/10, 5033165/4194304]`; the upper bound is the
binary32 sum `.3f + .9f`, about `1.2000000477`.  For `generateRandomCircles` with any
circle count: up to 10000 circles all three channels lie in `[0,1]`; above, green and
blue lie in `[0,1]` and red in `[3/10, 5033165/4194304]`. -/
theorem loaded_colours_range32 (lib : CLib) (sceneName : SceneName) (out : SceneArrays)
    (g : RandState)
    (hscene : sceneName = CIRCLE_RGB ∨ sceneName = CIRCLE_RGBY ∨
      sceneName = CIRCLE_TEST_10K ∨ sceneName = CIRCLE_TEST_100K ∨ sceneName = PATTERN)
    (hs : ∀ k : Nat, draw32 lib (lib.srand 0) k ≤ 1)
    (idx : Int) (h0 : 0 ≤ idx)
    (h1 : idx < (loadCircleScene32 lib sceneName out g).1.numCircles) :
    (0 ≤ ((loadCircleScene32 lib sceneName out g).1.circleAt idx).colR ∧
     0 ≤ ((loadCircleScene32 lib sceneName out g).1.circleAt idx).colG ∧
     ((loadCircleScene32 lib sceneName out g).1.circleAt idx).colG ≤ 1 ∧
     0 ≤ ((loadCircleScene32 lib sceneName out g).1.circleAt idx).colB ∧
     ((loadCircleScene32 lib sceneName out g).1.circleAt idx).colB ≤ 1 ∧
     (sceneName ≠ CIRCLE_TEST_100K →
       ((loadCircleScene32 lib sceneName out g).1.circleAt idx).colR ≤ 1) ∧
     (sceneName = CIRCLE_TEST_100K →
       3 / 10 ≤ ((loadCircleScene32 lib sceneName out g).1.circleAt idx).colR ∧
       ((loadCircleScene32 lib sceneName out g).1.circleAt idx).colR ≤ 5033165 / 4194304)) ∧
    (∀ (n : Nat) (p c r : List ℚ) (i : Nat), 3 * (n : Int) ≤ (p.length : Int) →
      3 * (n : Int) ≤ (c.length : Int) → (n : Int) ≤ (r.length : Int) → i < n →
      0 ≤ (circleOfArrays (generateRandomCircles32 lib n p c r g).position
        (generateRandomCircles32 lib n p c r g).color
        (generateRandomCircles32 lib n p c r g).radius (i : Int)).colR ∧
      0 ≤ (circleOfArrays (generateRandomCircles32 lib n p c r g).position
        (generateRandomCircles32 lib n p c r g).color
        (generateRandomCircles32 lib n p c r g).radius (i : Int)).colG ∧
      (circleOfArrays (generateRandomCircles32 lib n p c r g).position
        (generateRandomCircles32 lib n p c r g).color
        (generateRandomCircles32 lib n p c r g).radius (i : Int)).colG ≤ 1 ∧
      0 ≤ (circleOfArrays (generateRandomCircles32 lib n p c r g).position
        (generateRandomCircles32 lib n p c r g).color
        (generateRandomCircles32 lib n p c r g).radius (i : Int)).colB ∧
      (circleOfArrays (generateRandomCircles32 lib n p c r g).position
        (generateRandomCircles32 lib n p c r g).color
        (generateRandomCircles32 lib n p c r g).radius (i : Int)).colB ≤ 1 ∧
      (n ≤ 10000 → (circleOfArrays (generateRandomCircles32 lib n p c r g).position
        (generateRandomCircles32 lib n p c r g).color
        (generateRandomCircles32 lib n p c r g).radius (i : Int)).colR ≤ 1) ∧
      (10000 < n → 3 / 10 ≤ (circleOfArrays (generateRandomCircles32 lib n p c r g).position
          (generateRandomCircles32 lib n p c r g).color
          (generateRandomCircles32 lib n p c r g).radius (i : Int)).colR ∧
        (circleOfArrays (generateRandomCircles32 lib n p c r g).position
          (generateRandomCircles32 lib n p c r g).color
          (generateRandomCircles32 lib n p c r g).radius (i : Int)).colR ≤
            5033165 / 4194304)) := by
  constructor
  · rcases loaded_circle_cases32 lib sceneName out g hscene idx h0 h1 with
      ⟨hsc, h | h | h⟩ | ⟨hsc, h | h | h | h⟩ | ⟨hsc, i, hi, _, h⟩ | ⟨hsc, i, hi, _, h⟩ |
      ⟨hsc, hlt, j, i, hj, hi, _, h⟩ | ⟨hsc, hge, j, i, hj, hi, _, h⟩
    · subst hsc; rw [h]; refine ⟨?_, ?_, ?_, ?_, ?_, ?_, ?_⟩ <;> norm_num [CIRCLE_RGB, CIRCLE_TEST_100K]
    · subst hsc; rw [h]; refine ⟨?_, ?_, ?_, ?_, ?_, ?_, ?_⟩ <;> norm_num [CIRCLE_RGB, CIRCLE_TEST_100K]
    · subst hsc; rw [h]; refine ⟨?_, ?_, ?_, ?_, ?_, ?_, ?_⟩ <;> norm_num [CIRCLE_RGB, CIRCLE_TEST_100K]
    · subst hsc; rw [h]; refine ⟨?_, ?_, ?_, ?_, ?_, ?_, ?_⟩ <;> norm_num [CIRCLE_RGBY, CIRCLE_TEST_100K]
    · subst hsc; rw [h]; refine ⟨?_, ?_, ?_, ?_, ?_, ?_, ?_⟩ <;> norm_num [CIRCLE_RGBY, CIRCLE_TEST_100K]
    · subst hsc; rw [h]; refine ⟨?_, ?_, ?_, ?_, ?_, ?_, ?_⟩ <;> norm_num [CIRCLE_RGBY, CIRCLE_TEST_100K]
    · subst hsc; rw [h]; refine ⟨?_, ?_, ?_, ?_, ?_, ?_, ?_⟩ <;> norm_num [CIRCLE_RGBY, CIRCLE_TEST_100K]
    · rw [h]
      obtain ⟨c1, c2, c3, c4, c5, c6, c7⟩ := randomCircle32_colour_bounds lib 10000
        (sortedDepths32 lib 10000) (afterDraws (lib.srand 0) 10000) i
        (draw32_afterDraws_le lib _ 10000 hs)
      exact ⟨c1, c2, c3, c4, c5, fun _ => c6 (by decide),
        fun hh => absurd (hsc.symm.trans hh) (by decide)⟩
    · rw [h]
      obtain ⟨c1, c2, c3, c4, c5, c6, c7⟩ := randomCircle32_colour_bounds lib 100000
        (sortedDepths32 lib 100000) (afterDraws (lib.srand 0) 100000) i
        (draw32_afterDraws_le lib _ 100000 hs)
      exact ⟨c1, c2, c3, c4, c5, fun hh => absurd hsc hh, fun _ => c7 (by decide)⟩
    · obtain ⟨e1, e2, e3⟩ := gridCircle32_colours patternRadius32 1 0 0 patternRadius32
        patternRadius32 i j (draw32 lib g (j * 16 + i))
      subst hsc; rw [h, e1, e2, e3]
      refine ⟨?_, ?_, ?_, ?_, ?_, ?_, ?_⟩ <;> norm_num [PATTERN, CIRCLE_TEST_100K]
    · obtain ⟨e1, e2, e3⟩ := gridCircle32_colours patternRadius32 1 1 0 0 0 i j
        (draw32 lib g (256 + (j * 31 + i)))
      subst hsc; rw [h, e1, e2, e3]
      refine ⟨?_, ?_, ?_, ?_, ?_, ?_, ?_⟩ <;> norm_num [PATTERN, CIRCLE_TEST_100K]
  · intro n p c r i hp hc hr hi
    rw [generateRandomCircles32_circle_eq lib n p c r g hp hc hr i hi]
    obtain ⟨c1, c2, c3, c4, c5, c6, c7⟩ := randomCircle32_colour_bounds lib n
      (sortedDepths32 lib n) (afterDraws (lib.srand 0) n) i (draw32_afterDraws_le lib _ n hs)
    exact ⟨c1, c2, c3, c4, c5, fun hh => c6 (by exact_mod_cast hh),
      fun hh => c7 (by exact_mod_cast hh)⟩

/-- Witness for the amended C17: circle 0 of `CIRCLE_TEST_100K` with every draw equal
to 1. -/
theorem loaded_colours_range32_witness :
    ((loadCircleScene32 libOne CIRCLE_TEST_100K noScene (constState 0)).1.circleAt 0).colG ≤
      1 ∧
    ((loadCircleScene32 libOne CIRCLE_TEST_100K noScene (constState 0)).1.circleAt 0).colR ≤
      5033165 / 4194304 :=
  ⟨(loaded_colours_range32 libOne CIRCLE_TEST_100K noScene (constState 0) (by simp)
      (fun k => by rw [draw32_libOne]) 0 (by decide)
      (by rw [congrArg Prod.fst (loadCircleScene32_100K libOne noScene (constState 0))];
          decide)).1.2.2.1,
   ((loaded_colours_range32 libOne CIRCLE_TEST_100K noScene (constState 0) (by simp)
      (fun k => by rw [draw32_libOne]) 0 (by decide)
      (by rw [congrArg Prod.fst (loadCircleScene32_100K libOne noScene (constState 0))];
          decide)).1.2.2.2.2.2.2 rfl).2⟩

/-! ## Accumulated alpha after `clearImage` and `render` in binary32 -/

theorem circles_length (r : RefRenderer) : r.circles.length = r.numCircles.toNat := by
  unfold RefRenderer.circles intRange
  simp

/-- After `clearImage` and `render` the alpha of a pixel is `1 + 0.5 * n` for the number
`n` of circles that `render` blends into the pixel, as long as the sums stay exact. -/
theorem alpha32_after_clear (undef : ℚ → Int) (r : RefRenderer) (hW : 0 < r.image.width)
    (hH : 0 < r.image.height) (hn : r.numCircles ≤ 16777212) (x y : Int) (hx0 : 0 ≤ x)
    (hxW : x < r.image.width) (hy0 : 0 ≤ y) (hyH : y < r.image.height) :
    (r.clearImage.render32 undef).image.channel x y 3 =
      1 + 1 / 2 * ((blendingCircles undef r.circles r.image.width r.image.height x y).length :
        ℚ) := by
  have himg : r.clearImage.image = r.image.clear 1 1 1 1 := rfl
  have hWF : (r.image.clear 1 1 1 1).WF := clear_WF _ 1 1 1 1 hW hH
  have hw : (r.image.clear 1 1 1 1).width = r.image.width := rfl
  have hh : (r.image.clear 1 1 1 1).height = r.image.height := rfl
  have hlen := blendingCircles_length_le undef r.circles r.image.width r.image.height x y
  rw [circles_length] at hlen
  rw [render32_image_eq_renderCircles32, clearImage_circles, himg,
    channel_renderCircles32_blending undef _ _ hWF x y 3 hx0 (by rw [hw]; exact hxW)
      (by norm_num) (by norm_num), hw, hh,
    channel_clear _ 1 1 1 1 x y 3 hx0 hxW hy0 hyH (by norm_num) (by norm_num)]
  have e : (if (3 : Int) = 0 then (1 : ℚ) else if (3 : Int) = 1 then 1
      else if (3 : Int) = 2 then 1 else 1) = ((2 : Nat) : ℚ) / 2 := by norm_num
  rw [e, alpha32_fold _ 2 (by omega)]
  norm_num

theorem loadScene32_numCircles_le (lib : CLib) (sceneName : SceneName) (g : RandState)
    (r : RefRenderer)
    (hscene : sceneName = CIRCLE_RGB ∨ sceneName = CIRCLE_RGBY ∨
      sceneName = CIRCLE_TEST_10K ∨ sceneName = CIRCLE_TEST_100K ∨ sceneName = PATTERN) :
    (r.loadScene32 lib sceneName g).1.numCircles ≤ 100000 := by
  rw [loadScene32_numCircles]
  rcases hscene with rfl | rfl | rfl | rfl | rfl
  · exact le_of_eq_of_le (rgb_circles32 lib _ g).1 (by norm_num)
  · exact le_of_eq_of_le (rgby_circles32 lib _ g).1 (by norm_num)
  · exact le_of_eq_of_le (congrArg SceneArrays.numCircles
      (congrArg Prod.fst (loadCircleScene32_10K lib _ g))) (by norm_num)
  · exact le_of_eq_of_le (congrArg SceneArrays.numCircles
      (congrArg Prod.fst (loadCircleScene32_100K lib _ g))) (by norm_num)
  · exact le_of_eq_of_le (pattern_circles32 lib _ g).1 (by norm_num)

theorem rgbScene15_image : rgbScene15.image = white15 := rfl

theorem rgbScene15_circles :
    ((freshRenderer.allocOutputImage 15 15).loadScene32 libZero CIRCLE_RGB altState).1.circles =
      [redCircle32, greenCircle32, blueCircle32] := by
  obtain ⟨hn, c0, c1, c2⟩ := rgb_circles32 libZero
    { numCircles := (freshRenderer.allocOutputImage 15 15).numCircles,
      position := (freshRenderer.allocOutputImage 15 15).position,
      color := (freshRenderer.allocOutputImage 15 15).color,
      radius := (freshRenderer.allocOutputImage 15 15).radius } altState
  unfold RefRenderer.circles
  rw [loadScene32_numCircles, hn]
  have e : intRange 0 3 = [0, 1, 2] := by decide
  rw [e]
  simp only [List.map_cons, List.map_nil, loadScene32_circleAt]
  rw [c0, c1, c2]
  rfl

theorem greenCircle32_covers : greenCircle32.covers 15 15 10 7 := by
  simp only [SceneCircle.covers, greenCircle32, rounding_of_5_10, rounding_of_3_10]
  norm_num

theorem blueCircle32_covers : blueCircle32.covers 15 15 10 7 := by
  simp only [SceneCircle.covers, blueCircle32, rounding_of_5_10, rounding_of_3_10,
    rounding_of_6_10]
  norm_num

theorem rgb_coveringCount :
    coveringCount [redCircle32, greenCircle32, blueCircle32] 15 15 10 7 = 3 := by
  unfold coveringCount
  simp only [List.countP_cons, List.countP_nil, decide_eq_true redCircle32_covers,
    decide_eq_true greenCircle32_covers, decide_eq_true blueCircle32_covers, if_true]

theorem rgb_blendingCircles (undef : ℚ → Int) :
    blendingCircles undef [redCircle32, greenCircle32, blueCircle32] 15 15 10 7 =
      [greenCircle32, blueCircle32] := by
  rw [blendingCircles_cons, if_neg (fun h => redCircle32_fails_15_10_7 h.2),
    blendingCircles_cons, if_pos (greenCircle32_blends_15_10_7 undef),
    blendingCircles_cons, if_pos (blueCircle32_blends_15_10_7 undef)]
  rfl

theorem rgbScene15_alpha (undef : ℚ → Int) :
    (rgbScene15.render32 undef).image.channel 10 7 3 = 2 := by
  have h := alpha32_after_clear undef
    ((freshRenderer.allocOutputImage 15 15).loadScene32 libZero CIRCLE_RGB altState).1
    (by show (0 : Int) < 15; norm_num) (by show (0 : Int) < 15; norm_num)
    (le_trans (loadScene32_numCircles_le libZero CIRCLE_RGB altState _ (Or.inl rfl))
      (by norm_num))
    10 7 (by norm_num) (by show (10 : Int) < 15; norm_num) (by norm_num)
    (by show (7 : Int) < 15; norm_num)
  have hw : ((freshRenderer.allocOutputImage 15 15).loadScene32 libZero CIRCLE_RGB
    altState).1.image.width = 15 := rfl
  have hh : ((freshRenderer.allocOutputImage 15 15).loadScene32 libZero CIRCLE_RGB
    altState).1.image.height = 15 := rfl
  rw [rgbScene15_circles, hw, hh, rgb_blendingCircles] at h
  unfold rgbScene15
  rw [h]
  norm_num

/-- C11, as stated, fails.  The scene `CIRCLE_RGB` is loaded into a renderer with a
`15 x 15` image, the image is cleared and rendered.  The discs of all three circles
contain the centre of pixel `(10, 7)`, and the alpha of that pixel is `2`: neither
`3 * 0.5` nor `1 + 3 * 0.5`.  `clearImage` sets alpha to 1, and circle 0 fails the distance
test as `shadePixel` evaluates it in binary32. -/
theorem alpha_count32_counterexample :
    coveringCount rgbScene15.circles rgbScene15.image.width rgbScene15.image.height 10 7 = 3 ∧
    (rgbScene15.render32 x86Conversion).image.channel 10 7 3 = 2 ∧
    (rgbScene15.render32 x86Conversion).image.channel 10 7 3 ≠
      (coveringCount rgbScene15.circles rgbScene15.image.width rgbScene15.image.height 10 7 :
        ℚ) * (1 / 2) ∧
    (rgbScene15.render32 x86Conversion).image.channel 10 7 3 ≠
      1 + (coveringCount rgbScene15.circles rgbScene15.image.width rgbScene15.image.height
        10 7 : ℚ) * (1 / 2) := by
  have hw : rgbScene15.image.width = 15 := rfl
  have hh : rgbScene15.image.height = 15 := rfl
  have hc : rgbScene15.circles = [redCircle32, greenCircle32, blueCircle32] :=
    rgbScene15_circles
  rw [hw, hh, hc, rgb_coveringCount, rgbScene15_alpha]
  refine ⟨rfl, rfl, by norm_num, by norm_num⟩

/-- C11, amended: for each of the five scenes loaded into a renderer with a non-empty
image, and every pixel, after `clearImage` followed by `render` the alpha of the pixel is
`1 + 0.5 * (number of circles of the scene that render blends into the pixel)`: the 1 is
the alpha that `clearImage` stores, and a circle is blended when the pixel lies in its
bounding box and the binary32 value `pixelDist` of `shadePixel` does not exceed
`maxDist`.  No clamp is applied, and with at most 100000 circles every sum is exact in
binary32. -/
theorem alpha_after_clear_render32 (undef : ℚ → Int) (lib : CLib) (sceneName : SceneName)
    (g : RandState) (r : RefRenderer)
    (hscene : sceneName = CIRCLE_RGB ∨ sceneName = CIRCLE_RGBY ∨
      sceneName = CIRCLE_TEST_10K ∨ sceneName = CIRCLE_TEST_100K ∨ sceneName = PATTERN)
    (hW : 0 < r.image.width) (hH : 0 < r.image.height) (x y : Int) (hx0 : 0 ≤ x)
    (hxW : x < r.image.width) (hy0 : 0 ≤ y) (hyH : y < r.image.height) :
    ((r.loadScene32 lib sceneName g).1.clearImage.render32 undef).image.channel x y 3 =
      1 + 1 / 2 * ((blendingCircles undef (r.loadScene32 lib sceneName g).1.circles
        r.image.width r.image.height x y).length : ℚ) :=
  alpha32_after_clear undef (r.loadScene32 lib sceneName g).1 hW hH
    (le_trans (loadScene32_numCircles_le lib sceneName g r hscene) (by norm_num)) x y hx0 hxW
    hy0 hyH

/-- Witness for the amended C11: `CIRCLE_RGB` on a `15 x 15` image, pixel `(10, 7)`. -/
theorem alpha_after_clear_render32_witness :
    (((freshRenderer.allocOutputImage 15 15).loadScene32 libZero CIRCLE_RGB
        altState).1.clearImage.render32 x86Conversion).image.channel 10 7 3 =
      1 + 1 / 2 * ((blendingCircles x86Conversion
        ((freshRenderer.allocOutputImage 15 15).loadScene32 libZero CIRCLE_RGB altState).1.circles
        (freshRenderer.allocOutputImage 15 15).image.width
        (freshRenderer.allocOutputImage 15 15).image.height 10 7).length : ℚ) :=
  alpha_after_clear_render32 x86Conversion libZero CIRCLE_RGB altState
    (freshRenderer.allocOutputImage 15 15) (by simp) (by decide) (by decide) 10 7 (by decide)
    (by decide) (by decide) (by decide)
